import Mathlib

/-!
# The canvas image-effects engine of `js/image-effects.js`

A shallow embedding of the class `ImageEffectsEngine`: JavaScript numbers are
IEEE 754 binary64 values computed on integers, pixel buffers are the sample
lists of a `Uint8ClampedArray`, and every method of the class is a function on
an explicit engine state.
-/

set_option maxRecDepth 100000

namespace ImageEffects

/-! ## JavaScript numbers -/

/-- Auxiliary recursion of `bitLen`; the first argument bounds the number of halvings. -/
def bitLenAux : Nat → Nat → Nat
  | 0, _ => 0
  | fuel + 1, n => if n = 0 then 0 else bitLenAux fuel (n / 2) + 1

/-- Number of binary digits of `n` (`0` for `0`). -/
def bitLen (n : Nat) : Nat := bitLenAux n n

/-- Division of `n` by `2 ^ s` rounded to the nearest integer, ties to the even one. -/
def roundShift (n s : Nat) : Nat :=
  let q := n / 2 ^ s
  let r := n % 2 ^ s
  let h := 2 ^ (s - 1)
  if s = 0 then n
  else if r < h then q
  else if h < r then q + 1
  else if q % 2 = 0 then q else q + 1

/-- A JavaScript number: a binary64 value. `fin m e` is the finite value `m * 2 ^ e`,
kept in the canonical form the format gives it (`2 ^ 52 ≤ |m| < 2 ^ 53` for a normal
number, `e = -1074` for a subnormal one, `fin 0 0` for zero). The sign of zero is not
tracked: the engine never divides by a zero that could be negative, and
`Math.max`, `Math.min` and the store into a `Uint8ClampedArray` give the same result for
both zeros. -/
inductive JSNum where
  | nan
  | inf (neg : Bool)
  | fin (m : Int) (e : Int)
deriving DecidableEq

namespace JSNum

/-- The binary64 value nearest to `m * 2 ^ e` (ties to even mantissa), `±Infinity` on
overflow. -/
def roundDyadic (m e : Int) : JSNum :=
  if m = 0 then fin 0 0 else
  let n := m.natAbs
  let E : Int := (bitLen n : Int) - 1 + e
  let u : Int := max E (-1022) - 52
  let q : Nat := if u ≤ e then n * 2 ^ (e - u).toNat else roundShift n (u - e).toNat
  let q2 : Nat := if q = 2 ^ 53 then 2 ^ 52 else q
  let u2 : Int := if q = 2 ^ 53 then u + 1 else u
  if q2 = 0 then fin 0 0
  else if 971 < u2 then inf (decide (m < 0))
  else fin (if m < 0 then -(q2 : Int) else (q2 : Int)) u2

/-- The binary64 value nearest to `(a / b) * 2 ^ e`: the quotient is taken to 55 or more
significant bits and a sticky bit records a non-zero remainder. -/
def roundQuot (a : Int) (b : Nat) (e : Int) : JSNum :=
  if b = 0 then nan else
  let n := a.natAbs
  let k := 55 + bitLen b
  let q := n * 2 ^ k / b
  let r := n * 2 ^ k % b
  let mant : Nat := 2 * q + (if r = 0 then 0 else 1)
  roundDyadic (if a < 0 then -(mant : Int) else (mant : Int)) (e - (k : Int) - 1)

/-- The number denoted by an integer literal or an integer sample. -/
def ofInt (z : Int) : JSNum := roundDyadic z 0

/-- The number denoted by a decimal literal `m * 10 ^ (-d)` (or `m * 10 ^ d`). -/
def ofDecimal (m : Nat) (negExp : Bool) (d : Nat) : JSNum :=
  if negExp then roundQuot (m : Int) (10 ^ d) 0 else ofInt ((m * 10 ^ d : Nat) : Int)

instance instOfNat (n : Nat) : OfNat JSNum n := ⟨ofInt (n : Int)⟩

instance instOfScientific : OfScientific JSNum := ⟨ofDecimal⟩

/-- Unary minus. -/
def neg : JSNum → JSNum
  | nan => nan
  | inf s => inf (!s)
  | fin m e => fin (-m) e

/-- The operator `+`. -/
def add : JSNum → JSNum → JSNum
  | nan, _ => nan
  | _, nan => nan
  | inf a, inf b => if a = b then inf a else nan
  | inf a, fin _ _ => inf a
  | fin _ _, inf b => inf b
  | fin m1 e1, fin m2 e2 =>
    let e := min e1 e2
    roundDyadic (m1 * 2 ^ (e1 - e).toNat + m2 * 2 ^ (e2 - e).toNat) e

/-- The operator `-`. -/
def sub (a b : JSNum) : JSNum := add a (neg b)

/-- The operator `*`. -/
def mul : JSNum → JSNum → JSNum
  | nan, _ => nan
  | _, nan => nan
  | inf a, inf b => inf (a != b)
  | inf a, fin m _ => if m = 0 then nan else inf (a != decide (m < 0))
  | fin m _, inf b => if m = 0 then nan else inf (decide (m < 0) != b)
  | fin m1 e1, fin m2 e2 => roundDyadic (m1 * m2) (e1 + e2)

/-- The operator `/`. A zero divisor counts as `+0`. -/
def div : JSNum → JSNum → JSNum
  | nan, _ => nan
  | _, nan => nan
  | inf _, inf _ => nan
  | inf a, fin m _ => inf (a != decide (m < 0))
  | fin _ _, inf _ => fin 0 0
  | fin m1 e1, fin m2 e2 =>
    if m2 = 0 then (if m1 = 0 then nan else inf (decide (m1 < 0)))
    else roundQuot (if m2 < 0 then -m1 else m1) m2.natAbs (e1 - e2)

instance instNeg : Neg JSNum := ⟨neg⟩

instance instAdd : Add JSNum := ⟨add⟩

instance instSub : Sub JSNum := ⟨sub⟩

instance instMul : Mul JSNum := ⟨mul⟩

instance instDiv : Div JSNum := ⟨div⟩

/-- The operator `<`; any comparison with `NaN` is false. -/
def lt : JSNum → JSNum → Bool
  | nan, _ => false
  | _, nan => false
  | inf a, inf b => a && !b
  | inf a, fin _ _ => a
  | fin _ _, inf b => !b
  | fin m1 e1, fin m2 e2 =>
    let e := min e1 e2
    decide (m1 * 2 ^ (e1 - e).toNat < m2 * 2 ^ (e2 - e).toNat)

/-- The operator `>`. -/
def gt (a b : JSNum) : Bool := lt b a

/-- The operator `<=`. -/
def le : JSNum → JSNum → Bool
  | nan, _ => false
  | _, nan => false
  | a, b => !lt b a

/-- The operator `===` on numbers. -/
def strictEq : JSNum → JSNum → Bool
  | nan, _ => false
  | _, nan => false
  | a, b => decide (a = b)

/-- The two-argument `Math.max`. -/
def max (a b : JSNum) : JSNum :=
  match a, b with
  | nan, _ => nan
  | _, nan => nan
  | a, b => if lt a b then b else a

/-- The two-argument `Math.min`. -/
def min (a b : JSNum) : JSNum :=
  match a, b with
  | nan, _ => nan
  | _, nan => nan
  | a, b => if lt b a then b else a

/-- The three-argument `Math.max`. -/
def max3 (a b c : JSNum) : JSNum := max (max a b) c

/-- The three-argument `Math.min`. -/
def min3 (a b c : JSNum) : JSNum := min (min a b) c

/-- The function `Math.abs`. -/
def abs : JSNum → JSNum
  | nan => nan
  | inf _ => inf false
  | fin m e => fin (Int.ofNat m.natAbs) e

/-- The function `Math.floor`. -/
def floor : JSNum → JSNum
  | nan => nan
  | inf s => inf s
  | fin m e => if 0 ≤ e then fin m e else ofInt (m / 2 ^ (-e).toNat)

/-- The function `Math.round`: the nearest integer, a tie going up. -/
def round : JSNum → JSNum
  | nan => nan
  | inf s => inf s
  | fin m e => if 0 ≤ e then fin m e else ofInt ((2 * m + 2 ^ (-e).toNat) / 2 ^ ((-e).toNat + 1))

/-- The operator `%`: the remainder has the sign of the dividend and is exact. -/
def rem : JSNum → JSNum → JSNum
  | nan, _ => nan
  | _, nan => nan
  | inf _, _ => nan
  | fin m e, inf _ => fin m e
  | fin m1 e1, fin m2 e2 =>
    if m2 = 0 then nan else
    let e := Min.min e1 e2
    let a := m1 * 2 ^ (e1 - e).toNat
    let b := m2 * 2 ^ (e2 - e).toNat
    let r : Nat := a.natAbs % b.natAbs
    roundDyadic (if a < 0 then -(r : Int) else (r : Int)) e

/-- The constant `Math.PI`, the binary64 value `7074237752028440 * 2 ^ (-51)`. -/
def pi : JSNum := fin 7074237752028440 (-51)

/-- The conversion `ToUint8Clamp` applied when a number is stored into a
`Uint8ClampedArray`: `NaN` becomes `0`, the value is clamped to `[0, 255]` and rounded to
the nearest integer, ties to even. -/
def toUint8Clamp : JSNum → Nat
  | nan => 0
  | inf neg => if neg then 0 else 255
  | fin m e =>
    if m ≤ 0 then 0
    else if 0 ≤ e then Min.min 255 (m.natAbs * 2 ^ e.toNat)
    else Min.min 255 (roundShift m.natAbs (-e).toNat)

end JSNum

/-! ## The host functions and the pixel buffer -/

/-- The functions of the host the engine relies on and whose values the language leaves
to the implementation: `Math.pow`, `Math.sqrt`, `Math.exp`, and `random n`, the value the
`n`-th call of `Math.random()` returns. -/
structure Host where
  pow : JSNum → JSNum → JSNum
  sqrt : JSNum → JSNum
  exp : JSNum → JSNum
  random : Nat → JSNum

namespace Math

/-- The function `Math.max` of two arguments. -/
abbrev max (a b : JSNum) : JSNum := JSNum.max a b

/-- The function `Math.min` of two arguments. -/
abbrev min (a b : JSNum) : JSNum := JSNum.min a b

/-- The function `Math.abs`. -/
abbrev abs (a : JSNum) : JSNum := JSNum.abs a

/-- The function `Math.floor`. -/
abbrev floor (a : JSNum) : JSNum := JSNum.floor a

/-- The function `Math.round`. -/
abbrev round (a : JSNum) : JSNum := JSNum.round a

/-- The constant `Math.PI`. -/
abbrev PI : JSNum := JSNum.pi

end Math

/-- An `ImageData` object: its dimensions and the samples of its `Uint8ClampedArray`
(`R, G, B, A` of each pixel, row by row). -/
structure ImageData where
  width : Nat
  height : Nat
  data : List Nat
deriving DecidableEq

/-- The canvas gives an `ImageData` four 8-bit samples for each of its pixels. -/
def ImageData.WellFormed (img : ImageData) : Prop :=
  img.data.length = 4 * (img.width * img.height) ∧ ∀ c ∈ img.data, c ≤ 255

/-- The read `data[i]`: the sample as a number, `undefined` (which every use below turns
into `NaN`) outside the array. -/
def load (data : List Nat) (i : Nat) : JSNum :=
  match data[i]? with
  | some c => JSNum.ofInt (c : Int)
  | none => JSNum.nan

/-- The assignment `data[i] = x` on a `Uint8ClampedArray`: the number is converted with
`ToUint8Clamp`; a write outside the array is ignored. -/
def store (data : List Nat) (i : Nat) (x : JSNum) : List Nat :=
  data.set i (JSNum.toUint8Clamp x)

/-- The loop `for (let i = start; i < stop; i += step) s = body(i, s)` for `step > 0`. -/
def forLoop {σ : Type} (start stop step : Nat) (body : Nat → σ → σ) (s : σ) : σ :=
  (List.range ((stop - start + (step - 1)) / step)).foldl
    (fun acc k => body (start + step * k) acc) s

/-- Host functions fixed for evaluating the engine on concrete inputs: each is given at
the arguments where its value is exact and is `NaN` elsewhere; `Math.random()` returns
`0.5`. -/
def Host.sample : Host where
  pow := fun a b => if JSNum.strictEq b 0 then 1 else if JSNum.strictEq b 1 then a else JSNum.nan
  sqrt := fun a => if JSNum.strictEq a 0 then 0 else if JSNum.strictEq a 1 then 1 else JSNum.nan
  exp := fun a => if JSNum.strictEq a 0 then 1 else JSNum.nan
  random := fun _ => 0.5

/-! ## The pixel transforms -/

/-- Source: `adjustBrightness(imageData, value)`. -/
def adjustBrightness (imageData : ImageData) (value : JSNum) : ImageData :=
  let adjustment := value * 2.55
  { imageData with
    data := forLoop 0 imageData.data.length 4 (fun i data =>
      let data := store data i (Math.max 0 (Math.min 255 (load data i + adjustment)))
      let data := store data (i + 1) (Math.max 0 (Math.min 255 (load data (i + 1) + adjustment)))
      store data (i + 2) (Math.max 0 (Math.min 255 (load data (i + 2) + adjustment))))
      imageData.data }

/-- Source: `adjustContrast(imageData, value)`. -/
def adjustContrast (imageData : ImageData) (value : JSNum) : ImageData :=
  let factor := (259 * (value + 255)) / (255 * (259 - value))
  { imageData with
    data := forLoop 0 imageData.data.length 4 (fun i data =>
      let data := store data i (Math.max 0 (Math.min 255 (factor * (load data i - 128) + 128)))
      let data := store data (i + 1)
        (Math.max 0 (Math.min 255 (factor * (load data (i + 1) - 128) + 128)))
      store data (i + 2) (Math.max 0 (Math.min 255 (factor * (load data (i + 2) - 128) + 128))))
      imageData.data }

/-- Source: `adjustSaturation(imageData, value)`. -/
def adjustSaturation (imageData : ImageData) (value : JSNum) : ImageData :=
  let saturation := value / 100
  { imageData with
    data := forLoop 0 imageData.data.length 4 (fun i data =>
      let r := load data i
      let g := load data (i + 1)
      let b := load data (i + 2)
      let gray := 0.2989 * r + 0.5870 * g + 0.1140 * b
      let data := store data i (Math.max 0 (Math.min 255 (gray + saturation * (r - gray))))
      let data := store data (i + 1) (Math.max 0 (Math.min 255 (gray + saturation * (g - gray))))
      store data (i + 2) (Math.max 0 (Math.min 255 (gray + saturation * (b - gray)))))
      imageData.data }

/-- Source: `rgbToHsv([r, g, b])`; the result is the triple `[h, s, v]`. -/
def rgbToHsv (rgb : JSNum × JSNum × JSNum) : JSNum × JSNum × JSNum :=
  let r := rgb.1 / 255
  let g := rgb.2.1 / 255
  let b := rgb.2.2 / 255
  let max := JSNum.max3 r g b
  let min := JSNum.min3 r g b
  let diff := max - min
  let s := if JSNum.strictEq max 0 then 0 else diff / max
  let v := max
  let h : JSNum :=
    if !JSNum.strictEq diff 0 then
      if JSNum.strictEq max r then ((g - b) / diff + (if JSNum.lt g b then 6 else 0)) / 6
      else if JSNum.strictEq max g then ((b - r) / diff + 2) / 6
      else if JSNum.strictEq max b then ((r - g) / diff + 4) / 6
      else 0
    else 0
  (h * 2 * Math.PI, s, v)

/-- Source: `hsvToRgb([h, s, v])`; the result is the triple `[r, g, b]`. -/
def hsvToRgb (hsv : JSNum × JSNum × JSNum) : JSNum × JSNum × JSNum :=
  let h := hsv.1 / (2 * Math.PI)
  let s := hsv.2.1
  let v := hsv.2.2
  let c := v * s
  let x := c * (1 - Math.abs (JSNum.rem (h * 6) 2 - 1))
  let m := v - c
  let rgb : JSNum × JSNum × JSNum :=
    if JSNum.lt h (1 / 6) then (c, x, 0)
    else if JSNum.lt h (2 / 6) then (x, c, 0)
    else if JSNum.lt h (3 / 6) then (0, c, x)
    else if JSNum.lt h (4 / 6) then (0, x, c)
    else if JSNum.lt h (5 / 6) then (x, 0, c)
    else (c, 0, x)
  (Math.round ((rgb.1 + m) * 255), Math.round ((rgb.2.1 + m) * 255),
    Math.round ((rgb.2.2 + m) * 255))

/-- Source: `adjustHue(imageData, value)`. -/
def adjustHue (imageData : ImageData) (value : JSNum) : ImageData :=
  let hueShift := value * Math.PI / 180
  { imageData with
    data := forLoop 0 imageData.data.length 4 (fun i data =>
      let hsv := rgbToHsv (load data i, load data (i + 1), load data (i + 2))
      let h0 := JSNum.rem (hsv.1 + hueShift) (2 * Math.PI)
      let h1 := if JSNum.lt h0 0 then h0 + 2 * Math.PI else h0
      let newRgb := hsvToRgb (h1, hsv.2.1, hsv.2.2)
      let data := store data i newRgb.1
      let data := store data (i + 1) newRgb.2.1
      store data (i + 2) newRgb.2.2)
      imageData.data }

/-- Source: `adjustTemperature(imageData, value)`. -/
def adjustTemperature (imageData : ImageData) (value : JSNum) : ImageData :=
  let temp := value / 100
  { imageData with
    data := forLoop 0 imageData.data.length 4 (fun i data =>
      if JSNum.gt temp 0 then
        let data := store data i (Math.min 255 (load data i + temp * 30))
        store data (i + 2) (Math.max 0 (load data (i + 2) - temp * 30))
      else
        let data := store data i (Math.max 0 (load data i + temp * 30))
        store data (i + 2) (Math.min 255 (load data (i + 2) - temp * 30)))
      imageData.data }

/-- Source: `adjustTint(imageData, value)`. -/
def adjustTint (imageData : ImageData) (value : JSNum) : ImageData :=
  let tint := value / 100
  { imageData with
    data := forLoop 0 imageData.data.length 4 (fun i data =>
      if JSNum.gt tint 0 then
        let data := store data i (Math.min 255 (load data i + tint * 20))
        let data := store data (i + 2) (Math.min 255 (load data (i + 2) + tint * 20))
        store data (i + 1) (Math.max 0 (load data (i + 1) - tint * 10))
      else
        let data := store data (i + 1) (Math.min 255 (load data (i + 1) - tint * 20))
        let data := store data i (Math.max 0 (load data i + tint * 10))
        store data (i + 2) (Math.max 0 (load data (i + 2) + tint * 10)))
      imageData.data }

/-- Source: `adjustExposure(imageData, value)`. -/
def adjustExposure (H : Host) (imageData : ImageData) (value : JSNum) : ImageData :=
  let exposure := H.pow 2 (value / 100)
  { imageData with
    data := forLoop 0 imageData.data.length 4 (fun i data =>
      let data := store data i (Math.max 0 (Math.min 255 (load data i * exposure)))
      let data := store data (i + 1) (Math.max 0 (Math.min 255 (load data (i + 1) * exposure)))
      store data (i + 2) (Math.max 0 (Math.min 255 (load data (i + 2) * exposure))))
      imageData.data }

/-- Source: `adjustHighlights(imageData, value)`. -/
def adjustHighlights (imageData : ImageData) (value : JSNum) : ImageData :=
  let adjustment := value / 100
  { imageData with
    data := forLoop 0 imageData.data.length 4 (fun i data =>
      let r := load data i
      let g := load data (i + 1)
      let b := load data (i + 2)
      let luminance := 0.299 * r + 0.587 * g + 0.114 * b
      if JSNum.gt luminance 128 then
        let factor := 1 + adjustment * (luminance - 128) / 127
        let data := store data i (Math.max 0 (Math.min 255 (r * factor)))
        let data := store data (i + 1) (Math.max 0 (Math.min 255 (g * factor)))
        store data (i + 2) (Math.max 0 (Math.min 255 (b * factor)))
      else data)
      imageData.data }

/-- Source: `adjustShadows(imageData, value)`. -/
def adjustShadows (imageData : ImageData) (value : JSNum) : ImageData :=
  let adjustment := value / 100
  { imageData with
    data := forLoop 0 imageData.data.length 4 (fun i data =>
      let r := load data i
      let g := load data (i + 1)
      let b := load data (i + 2)
      let luminance := 0.299 * r + 0.587 * g + 0.114 * b
      if JSNum.lt luminance 128 then
        let factor := 1 + adjustment * (128 - luminance) / 128
        let data := store data i (Math.max 0 (Math.min 255 (r * factor)))
        let data := store data (i + 1) (Math.max 0 (Math.min 255 (g * factor)))
        store data (i + 2) (Math.max 0 (Math.min 255 (b * factor)))
      else data)
      imageData.data }

/-- Source: `adjustWhites(imageData, value)`. -/
def adjustWhites (imageData : ImageData) (value : JSNum) : ImageData :=
  let adjustment := value / 100
  { imageData with
    data := forLoop 0 imageData.data.length 4 (fun i data =>
      let r := load data i
      let g := load data (i + 1)
      let b := load data (i + 2)
      let luminance := 0.299 * r + 0.587 * g + 0.114 * b
      if JSNum.gt luminance 200 then
        let factor := 1 + adjustment * (luminance - 200) / 55
        let data := store data i (Math.max 0 (Math.min 255 (r * factor)))
        let data := store data (i + 1) (Math.max 0 (Math.min 255 (g * factor)))
        store data (i + 2) (Math.max 0 (Math.min 255 (b * factor)))
      else data)
      imageData.data }

/-- Source: `adjustBlacks(imageData, value)`. -/
def adjustBlacks (imageData : ImageData) (value : JSNum) : ImageData :=
  let adjustment := value / 100
  { imageData with
    data := forLoop 0 imageData.data.length 4 (fun i data =>
      let r := load data i
      let g := load data (i + 1)
      let b := load data (i + 2)
      let luminance := 0.299 * r + 0.587 * g + 0.114 * b
      if JSNum.lt luminance 55 then
        let factor := 1 + adjustment * (55 - luminance) / 55
        let data := store data i (Math.max 0 (Math.min 255 (r * factor)))
        let data := store data (i + 1) (Math.max 0 (Math.min 255 (g * factor)))
        store data (i + 2) (Math.max 0 (Math.min 255 (b * factor)))
      else data)
      imageData.data }

/-- Source: `adjustClarity(imageData, value)`. The loops run over `1 ≤ y < height - 1` and
`1 ≤ x < width - 1` and read the samples as they are at that moment. -/
def adjustClarity (imageData : ImageData) (value : JSNum) : ImageData :=
  let strength := value / 100
  let width := imageData.width
  let height := imageData.height
  { imageData with
    data := forLoop 1 (height - 1) 1 (fun y data =>
      forLoop 1 (width - 1) 1 (fun x data =>
        let idx := (y * width + x) * 4
        let center := load data idx
        let top := load data (((y - 1) * width + x) * 4)
        let bottom := load data (((y + 1) * width + x) * 4)
        let left := load data ((y * width + (x - 1)) * 4)
        let right := load data ((y * width + (x + 1)) * 4)
        let laplacian := 4 * center - top - bottom - left - right
        let data := store data idx (Math.max 0 (Math.min 255 (center + strength * laplacian * 0.2)))
        let data := store data (idx + 1)
          (Math.max 0 (Math.min 255 (load data (idx + 1) + strength * laplacian * 0.2)))
        store data (idx + 2)
          (Math.max 0 (Math.min 255 (load data (idx + 2) + strength * laplacian * 0.2))))
        data)
      imageData.data }

/-- Source: `adjustVibrance(imageData, value)`. -/
def adjustVibrance (imageData : ImageData) (value : JSNum) : ImageData :=
  let vibrance := value / 100
  { imageData with
    data := forLoop 0 imageData.data.length 4 (fun i data =>
      let r := load data i
      let g := load data (i + 1)
      let b := load data (i + 2)
      let max := JSNum.max3 r g b
      let avg := (r + g + b) / 3
      let amt := (Math.abs (max - avg) * 2 / 255) * vibrance
      let data := if !JSNum.strictEq r max then store data i (load data i + (max - r) * amt) else data
      let data :=
        if !JSNum.strictEq g max then store data (i + 1) (load data (i + 1) + (max - g) * amt)
        else data
      if !JSNum.strictEq b max then store data (i + 2) (load data (i + 2) + (max - b) * amt)
      else data)
      imageData.data }

/-- Source: `adjustDehaze(imageData, value)`. -/
def adjustDehaze (imageData : ImageData) (value : JSNum) : ImageData :=
  let dehaze := value / 100
  { imageData with
    data := forLoop 0 imageData.data.length 4 (fun i data =>
      let r := load data i
      let g := load data (i + 1)
      let b := load data (i + 2)
      let airlight : JSNum := 255
      let transmission := 1 - dehaze * 0.5
      let data := store data i
        (Math.max 0 (Math.min 255 ((r - airlight) / Math.max transmission 0.1 + airlight)))
      let data := store data (i + 1)
        (Math.max 0 (Math.min 255 ((g - airlight) / Math.max transmission 0.1 + airlight)))
      store data (i + 2)
        (Math.max 0 (Math.min 255 ((b - airlight) / Math.max transmission 0.1 + airlight))))
      imageData.data }

/-- Source: `addGrain(imageData, value)`. The pixel at offset `i` draws the next value of
`Math.random()`: `draws` calls were made before this one, so it is `H.random (draws + i / 4)`.
The result carries the number of calls made when the method returns. -/
def addGrain (H : Host) (draws : Nat) (imageData : ImageData) (value : JSNum) :
    ImageData × Nat :=
  let grainAmount := value / 100 * 50
  ({ imageData with
    data := forLoop 0 imageData.data.length 4 (fun i data =>
      let grain := (H.random (draws + i / 4) - 0.5) * grainAmount
      let data := store data i (Math.max 0 (Math.min 255 (load data i + grain)))
      let data := store data (i + 1) (Math.max 0 (Math.min 255 (load data (i + 1) + grain)))
      store data (i + 2) (Math.max 0 (Math.min 255 (load data (i + 2) + grain))))
      imageData.data },
    draws + (imageData.data.length + 3) / 4)

/-- Source: `addVignette(imageData, value)`. -/
def addVignette (H : Host) (imageData : ImageData) (value : JSNum) : ImageData :=
  let width := imageData.width
  let height := imageData.height
  let vignetteStrength := value / 100
  let centerX := JSNum.ofInt width / 2
  let centerY := JSNum.ofInt height / 2
  let maxDistance := H.sqrt (centerX * centerX + centerY * centerY)
  { imageData with
    data := forLoop 0 height 1 (fun y data =>
      forLoop 0 width 1 (fun x data =>
        let idx := (y * width + x) * 4
        let distance := H.sqrt ((JSNum.ofInt x - centerX) * (JSNum.ofInt x - centerX)
          + (JSNum.ofInt y - centerY) * (JSNum.ofInt y - centerY))
        let vignette := 1 - (distance / maxDistance) * vignetteStrength
        let data := store data idx (load data idx * vignette)
        let data := store data (idx + 1) (load data (idx + 1) * vignette)
        store data (idx + 2) (load data (idx + 2) * vignette))
        data)
      imageData.data }

/-- An exception thrown by the engine: a `TypeError` (a property read on `null` or
`undefined`, a call of a method that does not exist), a `RangeError` (an array that
outgrows the largest array length, a typed-array copy that does not fit) or a
`DOMException` of the canvas (`getImageData` on an empty canvas). -/
inductive Abrupt where
  | typeError
  | rangeError
  | domException
deriving DecidableEq

/-- The array index a number denotes, if it is a non-negative integer. -/
def toIndex : JSNum → Option Nat
  | JSNum.fin m e =>
    if m < 0 then none
    else if 0 ≤ e then some (m.toNat * 2 ^ e.toNat)
    else if m % 2 ^ (-e).toNat = 0 then some (m / 2 ^ (-e).toNat).toNat
    else none
  | _ => none

/-- The read `data[idx]` of a typed array at a computed number. -/
def loadAt (data : List Nat) (idx : JSNum) : JSNum :=
  match toIndex idx with
  | some i => load data i
  | none => JSNum.nan

/-- The read `weights[idx]` of an array of numbers at a computed number. -/
def weightAt (weights : List JSNum) (idx : JSNum) : JSNum :=
  match toIndex idx with
  | some i => weights.getD i JSNum.nan
  | none => JSNum.nan

/-- The values `i` takes in `for (let i = start; i <= radius; i++)`, at most `room` of
them. -/
def countUp (radius : JSNum) : Nat → JSNum → List JSNum
  | 0, _ => []
  | room + 1, i => if JSNum.le i radius then i :: countUp radius room (i + 1) else []

/-- Source: `getGaussianWeights(radius)`. An array holds at most `2 ^ 32 - 1` elements:
the `push` that would exceed it throws a `RangeError`. -/
def getGaussianWeights (H : Host) (radius : JSNum) : Except Abrupt (List JSNum) :=
  let sigma := radius / 3
  let steps := countUp radius (2 ^ 32) (-radius)
  if steps.length = 2 ^ 32 then Except.error Abrupt.rangeError
  else
    let weights := steps.map (fun i => H.exp (-(i * i) / (2 * sigma * sigma)))
    let sum := weights.foldl (fun acc weight => acc + weight) 0
    Except.ok (weights.map (fun w => w / sum))

/-- Source: `applyBlur(imageData, value)`. The horizontal pass reads `data` and writes
`newData`, the vertical pass reads `newData` and writes `data`. -/
def applyBlur (H : Host) (imageData : ImageData) (value : JSNum) : Except Abrupt ImageData :=
  if JSNum.strictEq value 0 then Except.ok imageData
  else
    let data := imageData.data
    let width := imageData.width
    let height := imageData.height
    let radius := Math.floor value
    match getGaussianWeights H radius with
    | Except.error err => Except.error err
    | Except.ok weights =>
      let steps := countUp radius (2 ^ 32) (-radius)
      let newData := forLoop 0 height 1 (fun y newData =>
        forLoop 0 width 1 (fun x newData =>
          let idx := (y * width + x) * 4
          let acc := steps.foldl (fun (acc : JSNum × JSNum × JSNum × JSNum) i =>
            let xi := Math.max 0 (Math.min (JSNum.ofInt width - 1) (JSNum.ofInt x + i))
            let weight := weightAt weights (i + radius)
            let sampleIdx := (JSNum.ofInt y * JSNum.ofInt width + xi) * 4
            (acc.1 + loadAt data sampleIdx * weight,
              acc.2.1 + loadAt data (sampleIdx + 1) * weight,
              acc.2.2.1 + loadAt data (sampleIdx + 2) * weight,
              acc.2.2.2 + weight)) (0, 0, 0, 0)
          let newData := store newData idx (acc.1 / acc.2.2.2)
          let newData := store newData (idx + 1) (acc.2.1 / acc.2.2.2)
          store newData (idx + 2) (acc.2.2.1 / acc.2.2.2))
          newData)
        data
      let data := forLoop 0 width 1 (fun x data =>
        forLoop 0 height 1 (fun y data =>
          let idx := (y * width + x) * 4
          let acc := steps.foldl (fun (acc : JSNum × JSNum × JSNum × JSNum) i =>
            let yi := Math.max 0 (Math.min (JSNum.ofInt height - 1) (JSNum.ofInt y + i))
            let weight := weightAt weights (i + radius)
            let sampleIdx := (yi * JSNum.ofInt width + JSNum.ofInt x) * 4
            (acc.1 + loadAt newData sampleIdx * weight,
              acc.2.1 + loadAt newData (sampleIdx + 1) * weight,
              acc.2.2.1 + loadAt newData (sampleIdx + 2) * weight,
              acc.2.2.2 + weight)) (0, 0, 0, 0)
          let data := store data idx (acc.1 / acc.2.2.2)
          let data := store data (idx + 1) (acc.2.1 / acc.2.2.2)
          store data (idx + 2) (acc.2.2.1 / acc.2.2.2))
          data)
        data
      Except.ok { imageData with data := data }

/-- Source: `applySharpen(imageData, value)`. Every sample is read from `data`, every
result is written to the copy `newData`, which `data.set(newData)` copies back; `ky1` and
`kx1` stand for `ky + 1` and `kx + 1`. -/
def applySharpen (imageData : ImageData) (value : JSNum) : ImageData :=
  let data := imageData.data
  let width := imageData.width
  let height := imageData.height
  let strength := value / 100
  let kernel : List JSNum :=
    [0, -1 * strength, 0,
     -1 * strength, 1 + 4 * strength, -1 * strength,
     0, -1 * strength, 0]
  let newData := forLoop 1 (height - 1) 1 (fun y newData =>
    forLoop 1 (width - 1) 1 (fun x newData =>
      let idx := (y * width + x) * 4
      forLoop 0 3 1 (fun c newData =>
        let sum := forLoop 0 3 1 (fun ky1 sum =>
          forLoop 0 3 1 (fun kx1 sum =>
            let sampleIdx := ((y + ky1 - 1) * width + (x + kx1 - 1)) * 4
            sum + load data (sampleIdx + c) * kernel.getD (ky1 * 3 + kx1) JSNum.nan)
            sum) (0 : JSNum)
        store newData (idx + c) (Math.max 0 (Math.min 255 sum)))
        newData)
      newData)
    data
  { imageData with data := newData }

/-- Source: `applyVintage(imageData, value)`. -/
def applyVintage (imageData : ImageData) (value : JSNum) : ImageData :=
  let strength := value / 100
  { imageData with
    data := forLoop 0 imageData.data.length 4 (fun i data =>
      let r := load data i
      let g := load data (i + 1)
      let b := load data (i + 2)
      let newR := r * (1 - strength * 0.3) + (r * 0.393 + g * 0.769 + b * 0.189) * strength
      let newG := g * (1 - strength * 0.3) + (r * 0.349 + g * 0.686 + b * 0.168) * strength
      let newB := b * (1 - strength * 0.3) + (r * 0.272 + g * 0.534 + b * 0.131) * strength
      let data := store data i (Math.max 0 (Math.min 255 newR))
      let data := store data (i + 1) (Math.max 0 (Math.min 255 newG))
      store data (i + 2) (Math.max 0 (Math.min 255 newB)))
      imageData.data }

/-- Source: `applySepia(imageData, value)`. -/
def applySepia (imageData : ImageData) (value : JSNum) : ImageData :=
  let strength := value / 100
  { imageData with
    data := forLoop 0 imageData.data.length 4 (fun i data =>
      let r := load data i
      let g := load data (i + 1)
      let b := load data (i + 2)
      let sepiaR := r * 0.393 + g * 0.769 + b * 0.189
      let sepiaG := r * 0.349 + g * 0.686 + b * 0.168
      let sepiaB := r * 0.272 + g * 0.534 + b * 0.131
      let data := store data i (Math.max 0 (Math.min 255 (r * (1 - strength) + sepiaR * strength)))
      let data := store data (i + 1)
        (Math.max 0 (Math.min 255 (g * (1 - strength) + sepiaG * strength)))
      store data (i + 2) (Math.max 0 (Math.min 255 (b * (1 - strength) + sepiaB * strength))))
      imageData.data }

/-- Source: `applyBlackAndWhite(imageData, value)`. -/
def applyBlackAndWhite (imageData : ImageData) (value : JSNum) : ImageData :=
  let strength := value / 100
  { imageData with
    data := forLoop 0 imageData.data.length 4 (fun i data =>
      let r := load data i
      let g := load data (i + 1)
      let b := load data (i + 2)
      let gray := r * 0.299 + g * 0.587 + b * 0.114
      let data := store data i (r * (1 - strength) + gray * strength)
      let data := store data (i + 1) (g * (1 - strength) + gray * strength)
      store data (i + 2) (b * (1 - strength) + gray * strength))
      imageData.data }

/-- Source: `applyDreamy(imageData, value)`: the blur works on the same buffer, then the
loop lightens it. -/
def applyDreamy (H : Host) (imageData : ImageData) (value : JSNum) : Except Abrupt ImageData :=
  let strength := value / 100
  match applyBlur H imageData (strength * 2) with
  | Except.error err => Except.error err
  | Except.ok blurred =>
    Except.ok { blurred with
      data := forLoop 0 blurred.data.length 4 (fun i data =>
        let r := load data i
        let g := load data (i + 1)
        let b := load data (i + 2)
        let dreamyR := r + (255 - r) * strength * 0.3
        let dreamyG := g + (255 - g) * strength * 0.3
        let dreamyB := b + (255 - b) * strength * 0.3
        let data := store data i (Math.max 0 (Math.min 255 dreamyR))
        let data := store data (i + 1) (Math.max 0 (Math.min 255 dreamyG))
        store data (i + 2) (Math.max 0 (Math.min 255 dreamyB)))
        blurred.data }

/-- Source: `applyGlow(imageData, value)`. -/
def applyGlow (imageData : ImageData) (value : JSNum) : ImageData :=
  let strength := value / 100
  let width := imageData.width
  let height := imageData.height
  { imageData with
    data := forLoop 0 height 1 (fun y data =>
      forLoop 0 width 1 (fun x data =>
        let idx := (y * width + x) * 4
        let r := load data idx
        let g := load data (idx + 1)
        let b := load data (idx + 2)
        let luminance := 0.299 * r + 0.587 * g + 0.114 * b
        if JSNum.gt luminance 180 then
          let glowFactor := (luminance - 180) / 75 * strength
          let data := store data idx (Math.min 255 (r + glowFactor * 50))
          let data := store data (idx + 1) (Math.min 255 (g + glowFactor * 50))
          store data (idx + 2) (Math.min 255 (b + glowFactor * 50))
        else data)
        data)
      imageData.data }

/-! ## The registries -/

/-- The function stored under `apply` in an effect descriptor, called as
`effect.apply(imageData, value)`: `draws` calls of `Math.random()` were made before it, and
it returns the buffer as it left it with the number of calls made by then, or throws. -/
abbrev EffectFn := Host → Nat → ImageData → JSNum → Except Abrupt (ImageData × Nat)

/-- The `apply` of a method that writes the buffer and calls nothing else. -/
def EffectFn.ofTransform (f : ImageData → JSNum → ImageData) : EffectFn :=
  fun _ draws imageData value => Except.ok (f imageData value, draws)

/-- The `apply` of a method that uses the host functions. -/
def EffectFn.ofHostTransform (f : Host → ImageData → JSNum → ImageData) : EffectFn :=
  fun H draws imageData value => Except.ok (f H imageData value, draws)

/-- The `apply` of a method that may throw. -/
def EffectFn.ofThrowing (f : Host → ImageData → JSNum → Except Abrupt ImageData) : EffectFn :=
  fun H draws imageData value =>
    match f H imageData value with
    | Except.error err => Except.error err
    | Except.ok result => Except.ok (result, draws)

/-- The `apply` of a descriptor whose method the class does not define: the call
`this.applyX(imageData, value)` of an `undefined` property throws a `TypeError`. -/
def EffectFn.undefinedMethod : EffectFn :=
  fun _ _ _ _ => Except.error Abrupt.typeError

/-- The `range` of an effect descriptor. -/
structure Range where
  min : JSNum
  max : JSNum
  default : JSNum

/-- An effect descriptor, a value of the map `effects`. -/
structure Effect where
  name : String
  apply : EffectFn
  range : Range
  category : String

/-- A preset, a value of the map `presets`; `settings` lists the own properties of the
object literal in insertion order, as `Object.entries` returns them. -/
structure Preset where
  name : String
  description : String
  settings : List (String × JSNum)

/-- The method `set` of a `Map`: the value of an existing key is replaced in place, a new
key is added at the end. -/
def mapSet {α : Type} : List (String × α) → String → α → List (String × α)
  | [], key, value => [(key, value)]
  | (k, v) :: rest, key, value =>
    if k = key then (key, value) :: rest else (k, v) :: mapSet rest key value

/-- The method `get` of a `Map`. -/
def mapGet {α : Type} (m : List (String × α)) (key : String) : Option α :=
  m.lookup key

/-- Source: `loadEffects()`, the `set` calls in order on the empty map. -/
def loadEffects : List (String × Effect) :=
  let effects : List (String × Effect) := []
  let effects := mapSet effects "brightness"
    ⟨"亮度", EffectFn.ofTransform adjustBrightness, ⟨-100, 100, 0⟩, "basic"⟩
  let effects := mapSet effects "contrast"
    ⟨"对比度", EffectFn.ofTransform adjustContrast, ⟨-100, 100, 0⟩, "basic"⟩
  let effects := mapSet effects "saturation"
    ⟨"饱和度", EffectFn.ofTransform adjustSaturation, ⟨-100, 100, 0⟩, "basic"⟩
  let effects := mapSet effects "hue"
    ⟨"色相", EffectFn.ofTransform adjustHue, ⟨-180, 180, 0⟩, "color"⟩
  let effects := mapSet effects "temperature"
    ⟨"色温", EffectFn.ofTransform adjustTemperature, ⟨-100, 100, 0⟩, "color"⟩
  let effects := mapSet effects "tint"
    ⟨"色调", EffectFn.ofTransform adjustTint, ⟨-100, 100, 0⟩, "color"⟩
  let effects := mapSet effects "exposure"
    ⟨"曝光", EffectFn.ofHostTransform adjustExposure, ⟨-200, 200, 0⟩, "basic"⟩
  let effects := mapSet effects "highlights"
    ⟨"高光", EffectFn.ofTransform adjustHighlights, ⟨-100, 100, 0⟩, "tone"⟩
  let effects := mapSet effects "shadows"
    ⟨"阴影", EffectFn.ofTransform adjustShadows, ⟨-100, 100, 0⟩, "tone"⟩
  let effects := mapSet effects "whites"
    ⟨"白色", EffectFn.ofTransform adjustWhites, ⟨-100, 100, 0⟩, "tone"⟩
  let effects := mapSet effects "blacks"
    ⟨"黑色", EffectFn.ofTransform adjustBlacks, ⟨-100, 100, 0⟩, "tone"⟩
  let effects := mapSet effects "clarity"
    ⟨"清晰度", EffectFn.ofTransform adjustClarity, ⟨-100, 100, 0⟩, "detail"⟩
  let effects := mapSet effects "vibrance"
    ⟨"自然饱和度", EffectFn.ofTransform adjustVibrance, ⟨-100, 100, 0⟩, "color"⟩
  let effects := mapSet effects "dehaze"
    ⟨"去雾", EffectFn.ofTransform adjustDehaze, ⟨-100, 100, 0⟩, "effect"⟩
  let effects := mapSet effects "grain"
    ⟨"颗粒感", fun H draws imageData value => Except.ok (addGrain H draws imageData value),
      ⟨0, 100, 0⟩, "effect"⟩
  let effects := mapSet effects "vignette"
    ⟨"暗角", EffectFn.ofHostTransform addVignette, ⟨0, 100, 0⟩, "effect"⟩
  let effects := mapSet effects "blur"
    ⟨"模糊", EffectFn.ofThrowing applyBlur, ⟨0, 10, 0⟩, "effect"⟩
  let effects := mapSet effects "sharpen"
    ⟨"锐化", EffectFn.ofTransform applySharpen, ⟨0, 100, 0⟩, "detail"⟩
  let effects := mapSet effects "vintage"
    ⟨"复古", EffectFn.ofTransform applyVintage, ⟨0, 100, 0⟩, "style"⟩
  let effects := mapSet effects "sepia"
    ⟨"褐色", EffectFn.ofTransform applySepia, ⟨0, 100, 0⟩, "style"⟩
  let effects := mapSet effects "blackAndWhite"
    ⟨"黑白", EffectFn.ofTransform applyBlackAndWhite, ⟨0, 100, 0⟩, "style"⟩
  let effects := mapSet effects "crossProcess"
    ⟨"交叉冲印", EffectFn.undefinedMethod, ⟨0, 100, 0⟩, "style"⟩
  let effects := mapSet effects "filmGrain"
    ⟨"胶片颗粒", EffectFn.undefinedMethod, ⟨0, 100, 0⟩, "style"⟩
  let effects := mapSet effects "colorPop"
    ⟨"色彩突出", EffectFn.undefinedMethod, ⟨0, 100, 0⟩, "style"⟩
  let effects := mapSet effects "drama"
    ⟨"戏剧效果", EffectFn.undefinedMethod, ⟨0, 100, 0⟩, "style"⟩
  let effects := mapSet effects "dreamy"
    ⟨"梦幻效果", EffectFn.ofThrowing applyDreamy, ⟨0, 100, 0⟩, "style"⟩
  let effects := mapSet effects "glow"
    ⟨"发光效果", EffectFn.ofTransform applyGlow, ⟨0, 100, 0⟩, "effect"⟩
  mapSet effects "orton"
    ⟨"Orton效果", EffectFn.undefinedMethod, ⟨0, 100, 0⟩, "style"⟩

/-- Source: `loadPresets()`, the `set` calls in order on the empty map. -/
def loadPresets : List (String × Preset) :=
  let presets : List (String × Preset) := []
  let presets := mapSet presets "portrait"
    ⟨"人像", "适合人像摄影的柔和效果",
      [("brightness", 5), ("contrast", 10), ("saturation", -10), ("highlights", -20),
       ("shadows", 15), ("clarity", -15), ("vibrance", 20), ("temperature", 5)]⟩
  let presets := mapSet presets "landscape"
    ⟨"风景", "增强风景照片的色彩和细节",
      [("contrast", 20), ("saturation", 15), ("clarity", 25), ("vibrance", 30),
       ("dehaze", 20), ("highlights", -15), ("shadows", 10)]⟩
  let presets := mapSet presets "vintage"
    ⟨"复古胶片", "经典胶片相机的复古效果",
      [("exposure", -10), ("contrast", 15), ("highlights", -30), ("shadows", 20),
       ("temperature", 15), ("tint", -5), ("vintage", 40), ("grain", 30), ("vignette", 25)]⟩
  let presets := mapSet presets "blackWhite"
    ⟨"黑白经典", "专业黑白摄影效果",
      [("blackAndWhite", 100), ("contrast", 25), ("clarity", 20), ("highlights", -20),
       ("shadows", 15), ("whites", 10), ("blacks", -10)]⟩
  let presets := mapSet presets "fashion"
    ⟨"时尚", "适合时尚摄影的高对比度效果",
      [("contrast", 30), ("saturation", 20), ("clarity", 35), ("highlights", -25),
       ("shadows", 5), ("vibrance", 25), ("sharpen", 20)]⟩
  let presets := mapSet presets "dreamy"
    ⟨"梦幻", "柔和梦幻的浪漫效果",
      [("brightness", 10), ("contrast", -10), ("saturation", -20), ("highlights", 15),
       ("clarity", -30), ("dreamy", 50), ("glow", 25), ("temperature", 10)]⟩
  let presets := mapSet presets "dramatic"
    ⟨"戏剧", "强烈戏剧化的视觉效果",
      [("contrast", 40), ("clarity", 50), ("highlights", -40), ("shadows", 30),
       ("blacks", -20), ("drama", 60), ("vignette", 35), ("saturation", 10)]⟩
  let presets := mapSet presets "cinematic"
    ⟨"电影", "电影级别的色彩分级",
      [("exposure", -5), ("contrast", 20), ("highlights", -30), ("shadows", 25),
       ("temperature", -5), ("tint", 5), ("saturation", -10), ("vibrance", 15),
       ("vignette", 20)]⟩
  let presets := mapSet presets "natural"
    ⟨"自然", "保持自然真实的色彩",
      [("contrast", 5), ("clarity", 10), ("vibrance", 15), ("highlights", -5),
       ("shadows", 5), ("dehaze", 10)]⟩
  let presets := mapSet presets "warm"
    ⟨"暖色调", "温暖舒适的色调",
      [("temperature", 25), ("tint", 5), ("exposure", 5), ("highlights", -10),
       ("shadows", 10), ("vibrance", 20), ("saturation", 5)]⟩
  let presets := mapSet presets "cool"
    ⟨"冷色调", "清冷现代的色调",
      [("temperature", -25), ("tint", -5), ("contrast", 15), ("highlights", -15),
       ("shadows", 5), ("clarity", 20), ("saturation", -5)]⟩
  mapSet presets "matte"
    ⟨"哑光", "现代哑光胶片效果",
      [("contrast", -15), ("highlights", -20), ("shadows", 20), ("whites", -20),
       ("blacks", 15), ("clarity", -10), ("grain", 15)]⟩

/-! ## The engine -/

/-- The fields of an `ImageEffectsEngine` that its methods read back; the canvas, which
they only write (`putImageData`), is left out. `imageData` and `originalImageData` are `null`
until an image is loaded. `draws` counts the calls of `Math.random()` made so far. -/
structure Engine where
  imageData : Option ImageData
  originalImageData : Option ImageData
  effects : List (String × Effect)
  presets : List (String × Preset)
  history : List ImageData
  historyIndex : Int
  maxHistorySize : Nat
  draws : Nat

/-- How a method call ends: normally, or by throwing; either way the engine is left in a
state, the one the next call starts from. -/
inductive Completion where
  | normal (e : Engine)
  | throws (err : Abrupt) (e : Engine)

/-- The engine state a call leaves. -/
def Completion.state : Completion → Engine
  | Completion.normal e => e
  | Completion.throws _ e => e

/-- Whether the call returned without throwing. -/
def Completion.isNormal : Completion → Bool
  | Completion.normal _ => true
  | Completion.throws _ _ => false

/-- Source: `constructor()` with `init()`: empty history, index `-1`, cap `50`, and the
two registries filled. -/
def Engine.new : Engine :=
  { imageData := none
    originalImageData := none
    effects := loadEffects
    presets := loadPresets
    history := []
    historyIndex := -1
    maxHistorySize := 50
    draws := 0 }

/-- The method `set` of a typed array, `target.set(source)`: the samples of `source`
replace the first ones of `target`; a longer `source` throws a `RangeError`. -/
def typedArraySet (target source : List Nat) : Except Abrupt (List Nat) :=
  if target.length < source.length then Except.error Abrupt.rangeError
  else Except.ok (source ++ target.drop source.length)

/-- The call `array.slice(0, stop)`; a negative `stop` counts from the end. -/
def slice0 {α : Type} (l : List α) (stop : Int) : List α :=
  if stop < 0 then l.take ((l.length : Int) + stop).toNat else l.take stop.toNat

/-- Source: `saveState()`. `createImageData(this.imageData)` throws a `TypeError` when
no image is loaded. -/
def saveState (e : Engine) : Completion :=
  let e :=
    if e.historyIndex < (e.history.length : Int) - 1 then
      { e with history := slice0 e.history (e.historyIndex + 1) }
    else e
  match e.imageData with
  | none => Completion.throws Abrupt.typeError e
  | some imageData =>
    let state : ImageData := imageData
    let e := { e with history := e.history ++ [state] }
    if e.maxHistorySize < e.history.length then
      Completion.normal { e with history := e.history.tail }
    else
      Completion.normal { e with historyIndex := e.historyIndex + 1 }

/-- Source: `loadImage(imageElement)`. `source` is what `getImageData` returns once the
element is drawn on the resized canvas; `getImageData` throws on an empty canvas. -/
def loadImage (source : ImageData) (e : Engine) : Completion :=
  if source.width = 0 ∨ source.height = 0 then Completion.throws Abrupt.domException e
  else
    let e := { e with imageData := some source }
    let e := { e with originalImageData := some source }
    saveState e

/-- Source: `applyEffect(effectName, value)`. -/
def applyEffect (H : Host) (effectName : String) (value : JSNum) (e : Engine) : Completion :=
  match mapGet e.effects effectName with
  | none => Completion.normal e
  | some effect =>
    match e.imageData, e.originalImageData with
    | some imageData, some original =>
      match typedArraySet imageData.data original.data with
      | Except.error err => Completion.throws err e
      | Except.ok data =>
        let e := { e with imageData := some { imageData with data := data } }
        match effect.apply H e.draws { imageData with data := data } value with
        | Except.error err => Completion.throws err e
        | Except.ok (result, draws) =>
          saveState { e with imageData := some result, draws := draws }
    | _, _ => Completion.throws Abrupt.typeError e

/-- Source: `reset()`. -/
def reset (e : Engine) : Completion :=
  match e.originalImageData with
  | none => Completion.normal e
  | some original =>
    match e.imageData with
    | none => Completion.throws Abrupt.typeError e
    | some imageData =>
      match typedArraySet imageData.data original.data with
      | Except.error err => Completion.throws err e
      | Except.ok data => saveState { e with imageData := some { imageData with data := data } }

/-- The `forEach` of `applyPreset`: each entry of the settings whose effect is registered
is applied to the working buffer as the previous entry left it. With no image loaded the
first call, or else `putImageData` after the loop, throws a `TypeError`. -/
def applySettings (H : Host) : List (String × JSNum) → Engine → Completion
  | [], e => Completion.normal e
  | (effectName, value) :: rest, e =>
    match mapGet e.effects effectName with
    | none => applySettings H rest e
    | some effect =>
      match e.imageData with
      | none => Completion.throws Abrupt.typeError e
      | some imageData =>
        match effect.apply H e.draws imageData value with
        | Except.error err => Completion.throws err e
        | Except.ok (result, draws) =>
          applySettings H rest { e with imageData := some result, draws := draws }

/-- Source: `applyPreset(presetName)`. -/
def applyPreset (H : Host) (presetName : String) (e : Engine) : Completion :=
  match mapGet e.presets presetName with
  | none => Completion.normal e
  | some preset =>
    match reset e with
    | Completion.throws err e => Completion.throws err e
    | Completion.normal e =>
      match applySettings H preset.settings e with
      | Completion.throws err e => Completion.throws err e
      | Completion.normal e =>
        match e.imageData with
        | none => Completion.throws Abrupt.typeError e
        | some _ => saveState e

/-- The statements `const state = this.history[this.historyIndex];
this.imageData.data.set(state.data)` shared by `undo` and `redo`. -/
def restoreState (e : Engine) : Completion :=
  match e.imageData with
  | none => Completion.throws Abrupt.typeError e
  | some imageData =>
    match (if 0 ≤ e.historyIndex then e.history[e.historyIndex.toNat]? else none) with
    | none => Completion.throws Abrupt.typeError e
    | some state =>
      match typedArraySet imageData.data state.data with
      | Except.error err => Completion.throws err e
      | Except.ok data => Completion.normal { e with imageData := some { imageData with data := data } }

/-- Source: `undo()`. -/
def undo (e : Engine) : Completion :=
  if 0 < e.historyIndex then restoreState { e with historyIndex := e.historyIndex - 1 }
  else Completion.normal e

/-- Source: `redo()`. -/
def redo (e : Engine) : Completion :=
  if e.historyIndex < (e.history.length : Int) - 1 then
    restoreState { e with historyIndex := e.historyIndex + 1 }
  else Completion.normal e

/-- A call of one of the methods that edit a loaded image. -/
inductive Call where
  | applyEffect (effectName : String) (value : JSNum)
  | applyPreset (presetName : String)
  | reset
  | undo
  | redo

/-- The completion of one call. -/
def Call.exec (H : Host) (e : Engine) : Call → Completion
  | Call.applyEffect effectName value => ImageEffects.applyEffect H effectName value e
  | Call.applyPreset presetName => ImageEffects.applyPreset H presetName e
  | Call.reset => ImageEffects.reset e
  | Call.undo => ImageEffects.undo e
  | Call.redo => ImageEffects.redo e

/-- The state after a sequence of calls; a call that throws leaves its state to the next. -/
def run (H : Host) (e : Engine) (calls : List Call) : Engine :=
  calls.foldl (fun e call => (call.exec H e).state) e

/-- The call `f` repeated `n` times. -/
def repeatCall (f : Engine → Completion) : Nat → Engine → Engine
  | 0, e => e
  | n + 1, e => repeatCall f n (f e).state

/-- The history `saveState` leaves before the new snapshot is appended. -/
def keptHistory (e : Engine) : List ImageData :=
  if e.historyIndex < (e.history.length : Int) - 1 then slice0 e.history (e.historyIndex + 1)
  else e.history

/-- Same dimensions and same number of samples. -/
def SameShape (a b : ImageData) : Prop :=
  a.width = b.width ∧ a.height = b.height ∧ a.data.length = b.data.length

/-- The effect function leaves the dimensions and the number of samples as they are. -/
def PreservesShape (f : EffectFn) : Prop :=
  ∀ (H : Host) (draws : Nat) (img : ImageData) (v : JSNum) (res : ImageData) (n : Nat),
    f H draws img v = Except.ok (res, n) → SameShape res img

/-- The invariant of an engine built by the constructor and holding a loaded image whose
original buffer is `original`; `low` is the least value the history index may have
(`0` between calls, `-1` while the first snapshot is being taken). -/
structure Engine.Ready (e : Engine) (original : ImageData) (low : Int) : Prop where
  hEffects : e.effects = loadEffects
  hPresets : e.presets = loadPresets
  hCap : e.maxHistorySize = 50
  hOriginal : e.originalImageData = some original
  hCurrent : ∃ img, e.imageData = some img ∧ SameShape img original
  hHistory : ∀ s ∈ e.history, s.data.length = original.data.length
  hLow : low ≤ e.historyIndex
  hIndex : e.historyIndex < e.history.length
  hLength : e.history.length ≤ 50

/-- The entries of a preset's settings whose effect is registered, each with its
descriptor, in the order of the settings. -/
def registeredSettings (effects : List (String × Effect)) (settings : List (String × JSNum)) :
    List (Effect × JSNum) :=
  settings.filterMap (fun entry => (mapGet effects entry.1).map (fun effect => (effect, entry.2)))

/-- The left-to-right composition of effect transforms: each one is applied to the buffer
the one before it returned. -/
def composeEffects (H : Host) :
    List (Effect × JSNum) → ImageData × Nat → Except Abrupt (ImageData × Nat)
  | [], s => Except.ok s
  | (effect, value) :: rest, (img, draws) =>
    match effect.apply H draws img value with
    | Except.error err => Except.error err
    | Except.ok s => composeEffects H rest s

/-- A one-pixel image, mid gray and opaque. -/
def grayPixel : ImageData := ⟨1, 1, [100, 100, 100, 255]⟩

/-- The loop body shared by the transforms that replace each of `R`, `G`, `B` by a function
of that sample alone: `data[i] = F(data[i]); data[i+1] = F(data[i+1]); data[i+2] = F(data[i+2])`. -/
def rgbBody (F : JSNum → JSNum) (i : Nat) (data : List Nat) : List Nat :=
  let data := store data i (F (load data i))
  let data := store data (i + 1) (F (load data (i + 1)))
  store data (i + 2) (F (load data (i + 2)))

/-- The 4×4 image whose sixteen pixels are opaque white. -/
def whiteSquare : ImageData := ⟨4, 4, List.replicate 64 255⟩

/-- A one-pixel image, pure red and opaque. -/
def redPixel : ImageData := ⟨1, 1, [255, 0, 0, 255]⟩

/-- A one-pixel image, light gray and opaque. -/
def lightPixel : ImageData := ⟨1, 1, [150, 150, 150, 255]⟩

/-- The value clamped to a declared range: `min` below it, `max` above it, the value
itself inside (and for `NaN`). -/
def clampToRange (value min max : JSNum) : JSNum :=
  if JSNum.lt value min then min else if JSNum.lt max value then max else value

/-- The statement `engine.presets.set(presetName, preset)`, by which a caller registers a
preset of its own in the map `presets`. -/
def Engine.setPreset (e : Engine) (presetName : String) (preset : Preset) : Engine :=
  { e with presets := mapSet e.presets presetName preset }

/-- The exception a call threw, if it threw. -/
def Completion.thrown : Completion → Option Abrupt
  | Completion.normal _ => none
  | Completion.throws err _ => some err

/-- A preset with the settings `{brightness: 10, contrast: 10}`, in that order. -/
def brightnessThenContrast : Preset :=
  ⟨"brightness then contrast", "", [("brightness", 10), ("contrast", 10)]⟩

/-- The fourth sample of every pixel, its alpha, is the same in both sample lists. -/
def KeepsAlpha (before after : List Nat) : Prop :=
  ∀ j, j % 4 = 3 → after[j]? = before[j]?

/-- The property holds of the buffer a method returned, if it returned one. -/
def OnResult (r : Except Abrupt ImageData) (P : ImageData → Prop) : Prop :=
  match r with
  | Except.ok res => P res
  | Except.error _ => True

/-- A loop body that, run at offset `i`, writes only the samples `i`, `i + 1`, `i + 2`, and
writes there values that depend only on what these three samples held. -/
def PixelLocal (body : Nat → List Nat → List Nat) : Prop :=
  (∀ i d j, j ≠ i → j ≠ i + 1 → j ≠ i + 2 → (body i d)[j]? = d[j]?)
    ∧ (∀ i d d' j, d[i]? = d'[i]? → d[i + 1]? = d'[i + 1]? → d[i + 2]? = d'[i + 2]? →
        (j = i ∨ j = i + 1 ∨ j = i + 2) → (body i d)[j]? = (body i d')[j]?)

/-- The luminance the tone effects compute for the pixel at offset `i`. -/
def luminance (data : List Nat) (i : Nat) : JSNum :=
  0.299 * load data i + 0.587 * load data (i + 1) + 0.114 * load data (i + 2)

/-- A two-pixel image: a dark gray pixel `(50, 50, 50)` and a light one `(220, 220, 220)`. -/
def darkLightPair : ImageData := ⟨2, 1, [50, 50, 50, 255, 220, 220, 220, 255]⟩

/-- The loop body shared by the four tone effects: when `gate` holds of the luminance, the
three colour samples are multiplied by `factor luminance` and clamped. -/
def toneBody (gate : JSNum → Bool) (factor : JSNum → JSNum) (i : Nat) (data : List Nat) :
    List Nat :=
  let r := load data i
  let g := load data (i + 1)
  let b := load data (i + 2)
  let luminance := 0.299 * r + 0.587 * g + 0.114 * b
  if gate luminance then
    let factor := factor luminance
    let data := store data i (Math.max 0 (Math.min 255 (r * factor)))
    let data := store data (i + 1) (Math.max 0 (Math.min 255 (g * factor)))
    store data (i + 2) (Math.max 0 (Math.min 255 (b * factor)))
  else data

/-- Every snapshot of the history has the shape of `original`. -/
def Engine.Shaped (e : Engine) (original : ImageData) : Prop :=
  ∀ s ∈ e.history, SameShape s original

/-- The working buffer equals the history entry under the index, `history[historyIndex]`. -/
def Engine.Synced (e : Engine) : Prop :=
  0 ≤ e.historyIndex ∧ ∃ img, e.imageData = some img
    ∧ e.history[e.historyIndex.toNat]? = some img

/-- Whether the call gets past the guard of its method: the effect or preset is registered,
an original buffer exists, there is an entry to go back or forward to. -/
def Call.acts (e : Engine) : Call → Bool
  | Call.applyEffect effectName _ => (mapGet e.effects effectName).isSome
  | Call.applyPreset presetName => (mapGet e.presets presetName).isSome
  | Call.reset => e.originalImageData.isSome
  | Call.undo => decide (0 < e.historyIndex)
  | Call.redo => decide (e.historyIndex < (e.history.length : Int) - 1)

/-- The engine after `loadImage` of the gray pixel on a new engine. -/
def grayEngine : Engine := (loadImage grayPixel Engine.new).state

/-- The pixel `(x, y)` is not on the border of a `width × height` image. -/
def Interior (width height y x : Nat) : Prop :=
  1 ≤ y ∧ y + 1 < height ∧ 1 ≤ x ∧ x + 1 < width

/-- The pixel `(x, y)` comes before the pixel `(x0, y0)` in the order in which the loops
`for y … for x …` visit them. -/
def Before (y x y0 x0 : Nat) : Prop :=
  y < y0 ∨ (y = y0 ∧ x < x0)

/-- The sum `applySharpen` forms for channel `c` of the pixel `(x, y)`: the nine products of
the samples around the pixel, read from `data`, with the entries of the kernel
`[0, -s, 0, -s, 1 + 4s, -s, 0, -s, 0]`, added in row order starting from `0`. -/
def sharpenSum (data : List Nat) (width : Nat) (strength : JSNum) (y x c : Nat) : JSNum :=
  0 + load data (((y - 1) * width + (x - 1)) * 4 + c) * 0
    + load data (((y - 1) * width + x) * 4 + c) * (-1 * strength)
    + load data (((y - 1) * width + (x + 1)) * 4 + c) * 0
    + load data ((y * width + (x - 1)) * 4 + c) * (-1 * strength)
    + load data ((y * width + x) * 4 + c) * (1 + 4 * strength)
    + load data ((y * width + (x + 1)) * 4 + c) * (-1 * strength)
    + load data (((y + 1) * width + (x - 1)) * 4 + c) * 0
    + load data (((y + 1) * width + x) * 4 + c) * (-1 * strength)
    + load data (((y + 1) * width + (x + 1)) * 4 + c) * 0

/-- The Laplacian `adjustClarity` computes at the interior pixel `(x, y)`: it reads sample 0
of the pixel (its red channel) and of its four neighbours in the one buffer the method works
on. When the pixel is reached, the pixel itself and its bottom and right neighbours still
hold the samples of `input`, and the top and left neighbours already hold those of `output`,
the buffer the method returns. -/
def clarityLaplacian (input output : List Nat) (width y x : Nat) : JSNum :=
  4 * load input ((y * width + x) * 4) - load output (((y - 1) * width + x) * 4)
    - load input (((y + 1) * width + x) * 4) - load output ((y * width + (x - 1)) * 4)
    - load input ((y * width + (x + 1)) * 4)

/-- The body of the loops of `adjustClarity` at the pixel `(x, y)`. -/
def clarityPixel (width : Nat) (strength : JSNum) (y x : Nat) (data : List Nat) : List Nat :=
  let idx := (y * width + x) * 4
  let center := load data idx
  let top := load data (((y - 1) * width + x) * 4)
  let bottom := load data (((y + 1) * width + x) * 4)
  let left := load data ((y * width + (x - 1)) * 4)
  let right := load data ((y * width + (x + 1)) * 4)
  let laplacian := 4 * center - top - bottom - left - right
  let data := store data idx (Math.max 0 (Math.min 255 (center + strength * laplacian * 0.2)))
  let data := store data (idx + 1)
    (Math.max 0 (Math.min 255 (load data (idx + 1) + strength * laplacian * 0.2)))
  store data (idx + 2)
    (Math.max 0 (Math.min 255 (load data (idx + 2) + strength * laplacian * 0.2)))

/-- A 4×3 image, black and opaque but for its two interior pixels `(1, 1)` and `(2, 1)`,
which are `(100, 0, 0, 255)`; the green channel is `0` everywhere. -/
def twoDots : ImageData :=
  ⟨4, 3,
    [0, 0, 0, 255, 0, 0, 0, 255, 0, 0, 0, 255, 0, 0, 0, 255,
     0, 0, 0, 255, 100, 0, 0, 255, 100, 0, 0, 255, 0, 0, 0, 255,
     0, 0, 0, 255, 0, 0, 0, 255, 0, 0, 0, 255, 0, 0, 0, 255]⟩

/-- The Laplacian in the words of the specification: `4 * center - top - bottom - left -
right` on the green channel (sample 1) of the pixel `(x, y)` and of its four neighbours, all
read from the input buffer. -/
def greenLaplacian (input : List Nat) (width y x : Nat) : JSNum :=
  4 * load input ((y * width + x) * 4 + 1) - load input (((y - 1) * width + x) * 4 + 1)
    - load input (((y + 1) * width + x) * 4 + 1) - load input ((y * width + (x - 1)) * 4 + 1)
    - load input ((y * width + (x + 1)) * 4 + 1)

/-- The constant `Math.PI` as a rational: the binary64 value `7074237752028440 * 2 ^ (-51)`. -/
def piExact : ℚ := 7074237752028440 / 2 ^ 51

/-- The operator `%` in exact arithmetic: `a - b * trunc(a / b)`, the remainder with the sign
of the dividend. -/
def remExact (a b : ℚ) : ℚ :=
  a - b * (if 0 ≤ a / b then ((⌊a / b⌋ : ℤ) : ℚ) else ((⌈a / b⌉ : ℤ) : ℚ))

/-- The function `Math.round` in exact arithmetic: the nearest integer, a tie going up. -/
def roundExact (x : ℚ) : ℚ := ((⌊x + 1 / 2⌋ : ℤ) : ℚ)

/-- Source: `rgbToHsv([r, g, b])`, every operation taken in exact arithmetic. -/
def rgbToHsvExact (rgb : ℚ × ℚ × ℚ) : ℚ × ℚ × ℚ :=
  let r := rgb.1 / 255
  let g := rgb.2.1 / 255
  let b := rgb.2.2 / 255
  let max := Max.max (Max.max r g) b
  let min := Min.min (Min.min r g) b
  let diff := max - min
  let s := if max = 0 then 0 else diff / max
  let v := max
  let h : ℚ :=
    if diff ≠ 0 then
      if max = r then ((g - b) / diff + (if g < b then 6 else 0)) / 6
      else if max = g then ((b - r) / diff + 2) / 6
      else if max = b then ((r - g) / diff + 4) / 6
      else 0
    else 0
  (h * 2 * piExact, s, v)

/-- Source: `hsvToRgb([h, s, v])`, every operation taken in exact arithmetic. -/
def hsvToRgbExact (hsv : ℚ × ℚ × ℚ) : ℚ × ℚ × ℚ :=
  let h := hsv.1 / (2 * piExact)
  let s := hsv.2.1
  let v := hsv.2.2
  let c := v * s
  let x := c * (1 - |remExact (h * 6) 2 - 1|)
  let m := v - c
  let rgb : ℚ × ℚ × ℚ :=
    if h < 1 / 6 then (c, x, 0)
    else if h < 2 / 6 then (x, c, 0)
    else if h < 3 / 6 then (0, c, x)
    else if h < 4 / 6 then (0, x, c)
    else if h < 5 / 6 then (x, 0, c)
    else (c, 0, x)
  (roundExact ((rgb.1 + m) * 255), roundExact ((rgb.2.1 + m) * 255),
    roundExact ((rgb.2.2 + m) * 255))

/-- The colour `hsvToRgb` forms before it adds `m`, in the sector `k` of the hue circle, at
the fraction `u` of the sector, for the chroma `c`. -/
def sectorRgb (k : Nat) (u c : ℚ) : ℚ × ℚ × ℚ :=
  match k with
  | 0 => (c, c * u, 0)
  | 1 => (c * (1 - u), c, 0)
  | 2 => (0, c, c * u)
  | 3 => (0, c * (1 - u), c)
  | 4 => (c * u, 0, c)
  | _ => (c, 0, c * (1 - u))

/-- The integer nearest to `z`, a tie going to the even one. -/
def rne (z : ℚ) : ℤ :=
  let f := ⌊z⌋
  if z - f < 1 / 2 then f
  else if 1 / 2 < z - f then f + 1
  else if f % 2 = 0 then f else f + 1

/-- The finite binary64 value with mantissa `q` and exponent `u`, or `+Infinity` when the
exponent is beyond the largest one. -/
def packPos (q : Nat) (u : Int) : JSNum :=
  if q = 0 then JSNum.fin 0 0
  else if 971 < u then JSNum.inf false
  else JSNum.fin (q : Int) u

/-- The number `r` is the binary64 rounding of the positive rational `x`: with `E` the
exponent of the leading bit of `x`, the mantissa is `x / 2 ^ u` rounded to the nearest
integer, ties to even, for `u = max E (-1022) - 52`. -/
def IsRounding (x : ℚ) (r : JSNum) : Prop :=
  ∃ (E : Int) (q : Nat), (2 : ℚ) ^ E ≤ x ∧ x < (2 : ℚ) ^ (E + 1)
    ∧ (q : Int) = rne (x / (2 : ℚ) ^ (Max.max E (-1022) - 52))
    ∧ r = packPos (if q = 2 ^ 53 then 2 ^ 52 else q)
        (if q = 2 ^ 53 then Max.max E (-1022) - 52 + 1 else Max.max E (-1022) - 52)

/-- The rational a finite number stands for (`0` for `NaN` and the infinities). -/
def JSNum.toRat : JSNum → ℚ
  | JSNum.fin m e => (m : ℚ) * (2 : ℚ) ^ e
  | _ => 0

/-- The number `r` is the binary64 rounding of the rational `x ≥ 0`. -/
def Rounds (x : ℚ) (r : JSNum) : Prop :=
  (x = 0 ∧ r = JSNum.fin 0 0) ∨ (0 < x ∧ IsRounding x r)

/-- A finite number that is not negative. -/
def JSNum.FinNonneg (a : JSNum) : Prop :=
  ∃ (m e : Int), a = JSNum.fin m e ∧ 0 ≤ m

/-- The rational `x ≥ 0` has a binary64 representation: `n * 2 ^ e` with `n < 2 ^ 53`,
`e ≥ -1074`, below `2 ^ 1023`. -/
def Representable (x : ℚ) : Prop :=
  ∃ (n : Nat) (e : Int), x = (n : ℚ) * (2 : ℚ) ^ e ∧ n < 2 ^ 53 ∧ -1074 ≤ e
    ∧ x < (2 : ℚ) ^ (1023 : Int)

/-- What the theorem on the vignette asks of the host's `Math.sqrt`: on the finite numbers
that are not negative it returns such a number, it is monotone, and it is positive on the
positive ones. -/
structure Host.SqrtMonotone (H : Host) : Prop where
  finNonneg : ∀ a : JSNum, a.FinNonneg → (H.sqrt a).FinNonneg
  mono : ∀ a b : JSNum, a.FinNonneg → b.FinNonneg → a.toRat ≤ b.toRat →
    (H.sqrt a).toRat ≤ (H.sqrt b).toRat
  pos : ∀ a : JSNum, a.FinNonneg → 0 < a.toRat → 0 < (H.sqrt a).toRat

/-- The factor `addVignette` multiplies the colour samples of the pixel `(x, y)` with. -/
def vignetteAt (H : Host) (width height : Nat) (value : JSNum) (y x : Nat) : JSNum :=
  let vignetteStrength := value / 100
  let centerX := JSNum.ofInt width / 2
  let centerY := JSNum.ofInt height / 2
  let maxDistance := H.sqrt (centerX * centerX + centerY * centerY)
  let distance := H.sqrt ((JSNum.ofInt x - centerX) * (JSNum.ofInt x - centerX)
    + (JSNum.ofInt y - centerY) * (JSNum.ofInt y - centerY))
  1 - (distance / maxDistance) * vignetteStrength

/-- A host whose `Math.sqrt` is the identity, the simplest function that is monotone, finite
and positive where the theorem on the vignette asks it; the other functions are those of
`Host.sample`. -/
def Host.identitySqrt : Host where
  pow := Host.sample.pow
  sqrt := fun a => a
  exp := Host.sample.exp
  random := Host.sample.random

/-- What `undo()` and `redo()` do on an engine whose snapshots have the dimensions of the
working buffer: nothing at the first, respectively last, entry, and otherwise the index moves
by one and the working buffer becomes the entry at the new index. -/
def Engine.StepsAlongHistory (e : Engine) : Prop :=
  undo e = Completion.normal
      (if e.historyIndex = 0 then e
       else { e with historyIndex := e.historyIndex - 1,
                     imageData := e.history[(e.historyIndex - 1).toNat]? })
    ∧ redo e = Completion.normal
      (if e.historyIndex = (e.history.length : Int) - 1 then e
       else { e with historyIndex := e.historyIndex + 1,
                     imageData := e.history[(e.historyIndex + 1).toNat]? })
    ∧ (e.history[(e.historyIndex - 1).toNat]?).isSome = true
    ∧ (e.historyIndex = (e.history.length : Int) - 1
        ∨ (e.history[(e.historyIndex + 1).toNat]?).isSome = true)

/-- The engine after `loadImage` of the gray pixel and then of the white 4×4 square. -/
def twoLoads : Engine := (loadImage whiteSquare grayEngine).state

/-- The statements `this.history.push(state); if (this.history.length >
this.maxHistorySize) this.history.shift()` of `saveState` on the list of snapshots. -/
def pushSnapshot (cap : Nat) (kept : List ImageData) (state : ImageData) : List ImageData :=
  if cap < (kept ++ [state]).length then (kept ++ [state]).tail else kept ++ [state]

/-- A finite number. -/
def JSNum.IsFin (a : JSNum) : Prop := ∃ (m e : Int), a = JSNum.fin m e

/-- A finite number in the form the rounding gives to a value below `2 ^ 52`: zero, or a
mantissa with a negative exponent. -/
def JSNum.Tame (a : JSNum) : Prop :=
  ∃ (m e : Int), a = JSNum.fin m e ∧ ((m = 0 ∧ e = 0) ∨ e < 0)

/-- What the rounding lemmas give for the result `r` of an operation whose exact value is
`x`: `r` is finite, within `2 ^ (-43)` of `x`, and has the sign of `x`. -/
def Rounded (x : ℚ) (r : JSNum) : Prop :=
  r.Tame ∧ |r.toRat - x| ≤ 1 / 2 ^ 43 ∧ (0 ≤ x → 0 ≤ r.toRat) ∧ (x ≤ 0 → r.toRat ≤ 0)

/-- The value clamped to the interval `[0, 1]`. -/
def clamp01 (x : ℚ) : ℚ := max 0 (min 1 x)

/-- The share of the chroma in the red channel at the hue `t`, the hue circle being `[0, 6)`:
the closed form of the six cases of `hsvToRgb`. -/
def rhoR (t : ℚ) : ℚ := clamp01 (|t - 3| - 1)

/-- The share of the chroma in the green channel at the hue `t`. -/
def rhoG (t : ℚ) : ℚ := clamp01 (2 - |t - 2|)

/-- The share of the chroma in the blue channel at the hue `t`. -/
def rhoB (t : ℚ) : ℚ := clamp01 (2 - |t - 4|)

/-- The number `data[i] / 255` that `rgbToHsv` forms of the sample `n`. -/
def chan (n : Nat) : JSNum := JSNum.ofInt (n : Int) / 255

/-- The hue `t` on the circle `[0, 6)`, the chroma `c` and the offset `m` stand for the
colour `(r, g, b)`: the closed forms give back the three channels over `255`. -/
def ExactChannels (r g b t c m : ℚ) : Prop :=
  0 ≤ t ∧ t ≤ 6 - 1 / 255 ∧ 0 ≤ c ∧ 0 ≤ m ∧ m + c ≤ 1
    ∧ m + c * rhoR t = r / 255 ∧ m + c * rhoG t = g / 255 ∧ m + c * rhoB t = b / 255

/-- What the error analysis of `rgbToHsv` gives about its result `[h, s, v]` for a colour of
hue `t` (on the circle `[0, 6)`), chroma `c` and offset `m`: the three numbers are finite, `h`
is not negative and within `2000 * 2 ^ (-43)` of `t / 6 * 2 * π`, the product `v * s` is
within `1100 * 2 ^ (-43)` of `c`, and `v` within `2 ^ (-43)` of `m + c`. -/
structure HsvNear (hsv : JSNum × JSNum × JSNum) (t c m : ℚ) : Prop where
  hueFin : hsv.1.IsFin
  hueNonneg : 0 ≤ hsv.1.toRat
  hueNear : |hsv.1.toRat - t / 6 * 2 * piExact| ≤ 2000 / 2 ^ 43
  satFin : hsv.2.1.IsFin
  satBound : |hsv.2.1.toRat| ≤ 2
  valFin : hsv.2.2.IsFin
  chromaNear : |hsv.2.2.toRat * hsv.2.1.toRat - c| ≤ 1100 / 2 ^ 43
  valNear : |hsv.2.2.toRat - (m + c)| ≤ 1 / 2 ^ 43

/-! ## Lemmas on loops and stores -/

theorem store_length (data : List Nat) (i : Nat) (x : JSNum) :
    (store data i x).length = data.length := by
  simp [store]

theorem forLoop_induction {σ : Type} (P : σ → Prop) (start stop step : Nat)
    (body : Nat → σ → σ) (hbody : ∀ i s, P s → P (body i s)) (s : σ) (hs : P s) :
    P (forLoop start stop step body s) := by
  unfold forLoop
  generalize List.range ((stop - start + (step - 1)) / step) = l
  induction l generalizing s with
  | nil => simpa using hs
  | cons k l ih => exact ih _ (hbody _ _ hs)

theorem toUint8Clamp_le (x : JSNum) : JSNum.toUint8Clamp x ≤ 255 := by
  cases x with
  | nan => simp [JSNum.toUint8Clamp]
  | inf neg => cases neg <;> simp [JSNum.toUint8Clamp]
  | fin m e =>
    simp only [JSNum.toUint8Clamp]
    split_ifs <;> omega

theorem typedArraySet_same_length (target source : List Nat)
    (h : target.length = source.length) : typedArraySet target source = Except.ok source := by
  simp [typedArraySet, h]

/-! ## Lemmas on the engine methods -/

theorem saveState_loaded (e : Engine) (imageData : ImageData) (h : e.imageData = some imageData) :
    saveState e =
      if e.maxHistorySize < (keptHistory e ++ [imageData]).length then
        Completion.normal { e with history := (keptHistory e ++ [imageData]).tail }
      else
        Completion.normal { e with history := keptHistory e ++ [imageData],
                                   historyIndex := e.historyIndex + 1 } := by
  unfold saveState keptHistory
  by_cases hlt : e.historyIndex < (e.history.length : Int) - 1
  · simp only [hlt, if_true, h]
  · simp only [hlt, if_false, h]

theorem saveState_frame (e : Engine) :
    (saveState e).state.imageData = e.imageData
      ∧ (saveState e).state.originalImageData = e.originalImageData
      ∧ (saveState e).state.effects = e.effects
      ∧ (saveState e).state.presets = e.presets
      ∧ (saveState e).state.maxHistorySize = e.maxHistorySize
      ∧ (saveState e).state.draws = e.draws := by
  cases hi : e.imageData with
  | none =>
    unfold saveState
    by_cases hlt : e.historyIndex < (e.history.length : Int) - 1 <;>
      simp [hlt, hi, Completion.state]
  | some img =>
    rw [saveState_loaded e img hi]
    split_ifs <;> simp [Completion.state, hi]

theorem applyEffect_loaded (H : Host) (e : Engine) (imageData original : ImageData)
    (effectName : String) (value : JSNum) (effect : Effect)
    (hcur : e.imageData = some imageData) (horig : e.originalImageData = some original)
    (hlen : imageData.data.length = original.data.length)
    (heff : mapGet e.effects effectName = some effect) :
    applyEffect H effectName value e =
      match effect.apply H e.draws { imageData with data := original.data } value with
      | Except.error err =>
        Completion.throws err { e with imageData := some { imageData with data := original.data } }
      | Except.ok (result, draws) =>
        saveState { e with imageData := some result, draws := draws } := by
  unfold applyEffect
  simp only [heff, hcur, horig, typedArraySet_same_length _ _ hlen]

theorem reset_loaded (e : Engine) (imageData original : ImageData)
    (hcur : e.imageData = some imageData) (horig : e.originalImageData = some original)
    (hlen : imageData.data.length = original.data.length) :
    reset e = saveState { e with imageData := some { imageData with data := original.data } } := by
  unfold reset
  simp only [hcur, horig, typedArraySet_same_length _ _ hlen]

theorem forLoop_length (start stop step : Nat) (body : Nat → List Nat → List Nat)
    (hbody : ∀ i d, (body i d).length = d.length) (d : List Nat) :
    (forLoop start stop step body d).length = d.length :=
  forLoop_induction (fun s => s.length = d.length) start stop step body
    (fun i s hs => by show (body i s).length = d.length; rw [hbody i s]; exact hs) d rfl

theorem adjustBrightness_shape (img : ImageData) (v : JSNum) :
    SameShape (adjustBrightness img v) img := by
  refine ⟨rfl, rfl, ?_⟩
  dsimp only [adjustBrightness]
  refine forLoop_length _ _ _ _ (fun i d => ?_) _
  simp only [store_length]

theorem adjustContrast_shape (img : ImageData) (v : JSNum) :
    SameShape (adjustContrast img v) img := by
  refine ⟨rfl, rfl, ?_⟩
  dsimp only [adjustContrast]
  refine forLoop_length _ _ _ _ (fun i d => ?_) _
  simp only [store_length]

theorem adjustSaturation_shape (img : ImageData) (v : JSNum) :
    SameShape (adjustSaturation img v) img := by
  refine ⟨rfl, rfl, ?_⟩
  dsimp only [adjustSaturation]
  refine forLoop_length _ _ _ _ (fun i d => ?_) _
  simp only [store_length]

theorem adjustHue_shape (img : ImageData) (v : JSNum) :
    SameShape (adjustHue img v) img := by
  refine ⟨rfl, rfl, ?_⟩
  dsimp only [adjustHue]
  refine forLoop_length _ _ _ _ (fun i d => ?_) _
  simp only [store_length]

theorem adjustTemperature_shape (img : ImageData) (v : JSNum) :
    SameShape (adjustTemperature img v) img := by
  refine ⟨rfl, rfl, ?_⟩
  dsimp only [adjustTemperature]
  refine forLoop_length _ _ _ _ (fun i d => ?_) _
  split_ifs <;> simp only [store_length]

theorem adjustTint_shape (img : ImageData) (v : JSNum) :
    SameShape (adjustTint img v) img := by
  refine ⟨rfl, rfl, ?_⟩
  dsimp only [adjustTint]
  refine forLoop_length _ _ _ _ (fun i d => ?_) _
  split_ifs <;> simp only [store_length]

theorem adjustHighlights_shape (img : ImageData) (v : JSNum) :
    SameShape (adjustHighlights img v) img := by
  refine ⟨rfl, rfl, ?_⟩
  dsimp only [adjustHighlights]
  refine forLoop_length _ _ _ _ (fun i d => ?_) _
  split_ifs <;> simp only [store_length]

theorem adjustShadows_shape (img : ImageData) (v : JSNum) :
    SameShape (adjustShadows img v) img := by
  refine ⟨rfl, rfl, ?_⟩
  dsimp only [adjustShadows]
  refine forLoop_length _ _ _ _ (fun i d => ?_) _
  split_ifs <;> simp only [store_length]

theorem adjustWhites_shape (img : ImageData) (v : JSNum) :
    SameShape (adjustWhites img v) img := by
  refine ⟨rfl, rfl, ?_⟩
  dsimp only [adjustWhites]
  refine forLoop_length _ _ _ _ (fun i d => ?_) _
  split_ifs <;> simp only [store_length]

theorem adjustBlacks_shape (img : ImageData) (v : JSNum) :
    SameShape (adjustBlacks img v) img := by
  refine ⟨rfl, rfl, ?_⟩
  dsimp only [adjustBlacks]
  refine forLoop_length _ _ _ _ (fun i d => ?_) _
  split_ifs <;> simp only [store_length]

theorem adjustVibrance_shape (img : ImageData) (v : JSNum) :
    SameShape (adjustVibrance img v) img := by
  refine ⟨rfl, rfl, ?_⟩
  dsimp only [adjustVibrance]
  refine forLoop_length _ _ _ _ (fun i d => ?_) _
  split_ifs <;> simp only [store_length]

theorem adjustDehaze_shape (img : ImageData) (v : JSNum) :
    SameShape (adjustDehaze img v) img := by
  refine ⟨rfl, rfl, ?_⟩
  dsimp only [adjustDehaze]
  refine forLoop_length _ _ _ _ (fun i d => ?_) _
  simp only [store_length]

theorem applyVintage_shape (img : ImageData) (v : JSNum) :
    SameShape (applyVintage img v) img := by
  refine ⟨rfl, rfl, ?_⟩
  dsimp only [applyVintage]
  refine forLoop_length _ _ _ _ (fun i d => ?_) _
  simp only [store_length]

theorem applySepia_shape (img : ImageData) (v : JSNum) :
    SameShape (applySepia img v) img := by
  refine ⟨rfl, rfl, ?_⟩
  dsimp only [applySepia]
  refine forLoop_length _ _ _ _ (fun i d => ?_) _
  simp only [store_length]

theorem applyBlackAndWhite_shape (img : ImageData) (v : JSNum) :
    SameShape (applyBlackAndWhite img v) img := by
  refine ⟨rfl, rfl, ?_⟩
  dsimp only [applyBlackAndWhite]
  refine forLoop_length _ _ _ _ (fun i d => ?_) _
  simp only [store_length]

theorem adjustExposure_shape (H : Host) (img : ImageData) (v : JSNum) :
    SameShape (adjustExposure H img v) img := by
  refine ⟨rfl, rfl, ?_⟩
  dsimp only [adjustExposure]
  refine forLoop_length _ _ _ _ (fun i d => ?_) _
  simp only [store_length]

theorem addGrain_shape (H : Host) (draws : Nat) (img : ImageData) (v : JSNum) :
    SameShape (addGrain H draws img v).1 img := by
  refine ⟨rfl, rfl, ?_⟩
  dsimp only [addGrain]
  refine forLoop_length _ _ _ _ (fun i d => ?_) _
  simp only [store_length]

theorem adjustClarity_shape (img : ImageData) (v : JSNum) :
    SameShape (adjustClarity img v) img := by
  refine ⟨rfl, rfl, ?_⟩
  dsimp only [adjustClarity]
  refine forLoop_length _ _ _ _ (fun y d => forLoop_length _ _ _ _ (fun x d => ?_) _) _
  simp only [store_length]

theorem addVignette_shape (H : Host) (img : ImageData) (v : JSNum) :
    SameShape (addVignette H img v) img := by
  refine ⟨rfl, rfl, ?_⟩
  dsimp only [addVignette]
  refine forLoop_length _ _ _ _ (fun y d => forLoop_length _ _ _ _ (fun x d => ?_) _) _
  simp only [store_length]

theorem applyGlow_shape (img : ImageData) (v : JSNum) :
    SameShape (applyGlow img v) img := by
  refine ⟨rfl, rfl, ?_⟩
  dsimp only [applyGlow]
  refine forLoop_length _ _ _ _ (fun y d => forLoop_length _ _ _ _ (fun x d => ?_) _) _
  split_ifs <;> simp only [store_length]

theorem applySharpen_shape (img : ImageData) (v : JSNum) :
    SameShape (applySharpen img v) img := by
  refine ⟨rfl, rfl, ?_⟩
  dsimp only [applySharpen]
  refine forLoop_length _ _ _ _ (fun y d => forLoop_length _ _ _ _ (fun x d =>
    forLoop_length _ _ _ _ (fun c d => ?_) _) _) _
  simp only [store_length]

theorem applyBlur_shape (H : Host) (img res : ImageData) (v : JSNum)
    (h : applyBlur H img v = Except.ok res) : SameShape res img := by
  unfold applyBlur at h
  split_ifs at h with h0
  · cases h; exact ⟨rfl, rfl, rfl⟩
  · cases hw : getGaussianWeights H (Math.floor v) with
    | error err => simp [hw] at h
    | ok weights =>
      simp only [hw] at h
      cases h
      refine ⟨rfl, rfl, ?_⟩
      dsimp only
      refine forLoop_length _ _ _ _ (fun x d => forLoop_length _ _ _ _ (fun y d => ?_) _) _
      simp only [store_length]

theorem applyDreamy_shape (H : Host) (img res : ImageData) (v : JSNum)
    (h : applyDreamy H img v = Except.ok res) : SameShape res img := by
  unfold applyDreamy at h
  cases hb : applyBlur H img (v / 100 * 2) with
  | error err => simp [hb] at h
  | ok blurred =>
    simp only [hb] at h
    cases h
    obtain ⟨hw, hh, hl⟩ := applyBlur_shape H img blurred _ hb
    refine ⟨hw, hh, ?_⟩
    dsimp only
    rw [← hl]
    refine forLoop_length _ _ _ _ (fun i d => ?_) _
    simp only [store_length]

theorem ofTransform_preservesShape (f : ImageData → JSNum → ImageData)
    (hf : ∀ img v, SameShape (f img v) img) : PreservesShape (EffectFn.ofTransform f) := by
  intro H draws img v res n h
  simp only [EffectFn.ofTransform, Except.ok.injEq, Prod.mk.injEq] at h
  rw [← h.1]; exact hf img v

theorem ofHostTransform_preservesShape (f : Host → ImageData → JSNum → ImageData)
    (hf : ∀ H img v, SameShape (f H img v) img) :
    PreservesShape (EffectFn.ofHostTransform f) := by
  intro H draws img v res n h
  simp only [EffectFn.ofHostTransform, Except.ok.injEq, Prod.mk.injEq] at h
  rw [← h.1]; exact hf H img v

theorem ofThrowing_preservesShape (f : Host → ImageData → JSNum → Except Abrupt ImageData)
    (hf : ∀ H img res v, f H img v = Except.ok res → SameShape res img) :
    PreservesShape (EffectFn.ofThrowing f) := by
  intro H draws img v res n h
  unfold EffectFn.ofThrowing at h
  cases hr : f H img v with
  | error err => simp [hr] at h
  | ok r =>
    simp only [hr, Except.ok.injEq, Prod.mk.injEq] at h
    rw [← h.1]; exact hf H img r v hr

theorem undefinedMethod_preservesShape : PreservesShape EffectFn.undefinedMethod := by
  intro H draws img v res n h
  simp [EffectFn.undefinedMethod] at h

theorem mapSet_forall {α : Type} (P : α → Prop) (m : List (String × α)) (key : String) (value : α)
    (hm : ∀ p ∈ m, P p.2) (hv : P value) : ∀ p ∈ mapSet m key value, P p.2 := by
  induction m with
  | nil =>
    intro p hp
    simp only [mapSet, List.mem_singleton] at hp
    rw [hp]; exact hv
  | cons a m ih =>
    intro p hp
    obtain ⟨k, v⟩ := a
    simp only [mapSet] at hp
    split_ifs at hp with hk
    · rcases List.mem_cons.mp hp with h | h
      · rw [h]; exact hv
      · exact hm p (List.mem_cons_of_mem _ h)
    · rcases List.mem_cons.mp hp with h | h
      · rw [h]; exact hm (k, v) (List.mem_cons_self _ _)
      · exact ih (fun q hq => hm q (List.mem_cons_of_mem _ hq)) p h

theorem mapGet_forall {α : Type} (P : α → Prop) (m : List (String × α))
    (hm : ∀ p ∈ m, P p.2) (key : String) (value : α) (h : mapGet m key = some value) :
    P value := by
  induction m with
  | nil => simp [mapGet] at h
  | cons a m ih =>
    obtain ⟨k, v⟩ := a
    simp only [mapGet, List.lookup_cons] at h
    cases hk : (key == k) with
    | true =>
      simp only [hk, Option.some.injEq] at h
      rw [← h]; exact hm (k, v) (List.mem_cons_self _ _)
    | false =>
      simp only [hk] at h
      exact ih (fun q hq => hm q (List.mem_cons_of_mem _ hq)) h

theorem addGrain_preservesShape :
    PreservesShape (fun H draws imageData value => Except.ok (addGrain H draws imageData value)) := by
  intro H draws img v res n h
  simp only [Except.ok.injEq] at h
  have h1 : res = (addGrain H draws img v).1 := by rw [h]
  rw [h1]; exact addGrain_shape H draws img v

theorem loadEffects_preserveShape :
    ∀ p ∈ loadEffects, PreservesShape p.2.apply := by
  unfold loadEffects
  dsimp only
  refine mapSet_forall (fun eff : Effect => PreservesShape eff.apply) _ _ _ ?_
    undefinedMethod_preservesShape
  refine mapSet_forall (fun eff : Effect => PreservesShape eff.apply) _ _ _ ?_
    (ofTransform_preservesShape _ applyGlow_shape)
  refine mapSet_forall (fun eff : Effect => PreservesShape eff.apply) _ _ _ ?_
    (ofThrowing_preservesShape _ applyDreamy_shape)
  refine mapSet_forall (fun eff : Effect => PreservesShape eff.apply) _ _ _ ?_
    undefinedMethod_preservesShape
  refine mapSet_forall (fun eff : Effect => PreservesShape eff.apply) _ _ _ ?_
    undefinedMethod_preservesShape
  refine mapSet_forall (fun eff : Effect => PreservesShape eff.apply) _ _ _ ?_
    undefinedMethod_preservesShape
  refine mapSet_forall (fun eff : Effect => PreservesShape eff.apply) _ _ _ ?_
    undefinedMethod_preservesShape
  refine mapSet_forall (fun eff : Effect => PreservesShape eff.apply) _ _ _ ?_
    (ofTransform_preservesShape _ applyBlackAndWhite_shape)
  refine mapSet_forall (fun eff : Effect => PreservesShape eff.apply) _ _ _ ?_
    (ofTransform_preservesShape _ applySepia_shape)
  refine mapSet_forall (fun eff : Effect => PreservesShape eff.apply) _ _ _ ?_
    (ofTransform_preservesShape _ applyVintage_shape)
  refine mapSet_forall (fun eff : Effect => PreservesShape eff.apply) _ _ _ ?_
    (ofTransform_preservesShape _ applySharpen_shape)
  refine mapSet_forall (fun eff : Effect => PreservesShape eff.apply) _ _ _ ?_
    (ofThrowing_preservesShape _ applyBlur_shape)
  refine mapSet_forall (fun eff : Effect => PreservesShape eff.apply) _ _ _ ?_
    (ofHostTransform_preservesShape _ addVignette_shape)
  refine mapSet_forall (fun eff : Effect => PreservesShape eff.apply) _ _ _ ?_
    addGrain_preservesShape
  refine mapSet_forall (fun eff : Effect => PreservesShape eff.apply) _ _ _ ?_
    (ofTransform_preservesShape _ adjustDehaze_shape)
  refine mapSet_forall (fun eff : Effect => PreservesShape eff.apply) _ _ _ ?_
    (ofTransform_preservesShape _ adjustVibrance_shape)
  refine mapSet_forall (fun eff : Effect => PreservesShape eff.apply) _ _ _ ?_
    (ofTransform_preservesShape _ adjustClarity_shape)
  refine mapSet_forall (fun eff : Effect => PreservesShape eff.apply) _ _ _ ?_
    (ofTransform_preservesShape _ adjustBlacks_shape)
  refine mapSet_forall (fun eff : Effect => PreservesShape eff.apply) _ _ _ ?_
    (ofTransform_preservesShape _ adjustWhites_shape)
  refine mapSet_forall (fun eff : Effect => PreservesShape eff.apply) _ _ _ ?_
    (ofTransform_preservesShape _ adjustShadows_shape)
  refine mapSet_forall (fun eff : Effect => PreservesShape eff.apply) _ _ _ ?_
    (ofTransform_preservesShape _ adjustHighlights_shape)
  refine mapSet_forall (fun eff : Effect => PreservesShape eff.apply) _ _ _ ?_
    (ofHostTransform_preservesShape _ adjustExposure_shape)
  refine mapSet_forall (fun eff : Effect => PreservesShape eff.apply) _ _ _ ?_
    (ofTransform_preservesShape _ adjustTint_shape)
  refine mapSet_forall (fun eff : Effect => PreservesShape eff.apply) _ _ _ ?_
    (ofTransform_preservesShape _ adjustTemperature_shape)
  refine mapSet_forall (fun eff : Effect => PreservesShape eff.apply) _ _ _ ?_
    (ofTransform_preservesShape _ adjustHue_shape)
  refine mapSet_forall (fun eff : Effect => PreservesShape eff.apply) _ _ _ ?_
    (ofTransform_preservesShape _ adjustSaturation_shape)
  refine mapSet_forall (fun eff : Effect => PreservesShape eff.apply) _ _ _ ?_
    (ofTransform_preservesShape _ adjustContrast_shape)
  refine mapSet_forall (fun eff : Effect => PreservesShape eff.apply) _ _ _ ?_
    (ofTransform_preservesShape _ adjustBrightness_shape)
  exact fun p hp => absurd hp (List.not_mem_nil p)

theorem SameShape.refl (a : ImageData) : SameShape a a := ⟨rfl, rfl, rfl⟩

theorem SameShape.trans {a b c : ImageData} (h1 : SameShape a b) (h2 : SameShape b c) :
    SameShape a c :=
  ⟨h1.1.trans h2.1, h1.2.1.trans h2.2.1, h1.2.2.trans h2.2.2⟩

theorem keptHistory_length (e : Engine) (h1 : -1 ≤ e.historyIndex)
    (h2 : e.historyIndex < e.history.length) :
    ((keptHistory e).length : Int) = e.historyIndex + 1 := by
  unfold keptHistory slice0
  split_ifs with ha hb
  · omega
  · rw [List.length_take]
    omega
  · omega

theorem keptHistory_subset (e : Engine) : ∀ s ∈ keptHistory e, s ∈ e.history := by
  intro s hs
  unfold keptHistory slice0 at hs
  split_ifs at hs
  · exact List.mem_of_mem_take hs
  · exact List.mem_of_mem_take hs
  · exact hs

/-- After `saveState` the index is non-negative again and the history stays within the cap. -/
theorem saveState_ready (e : Engine) (original : ImageData) (h : e.Ready original (-1)) :
    (saveState e).isNormal = true ∧ (saveState e).state.Ready original 0 := by
  obtain ⟨img, himg, hshape⟩ := h.hCurrent
  have hk := keptHistory_length e h.hLow h.hIndex
  have hlow := h.hLow
  have hlen := h.hLength
  have hidx := h.hIndex
  have hmem : ∀ s ∈ keptHistory e ++ [img], s.data.length = original.data.length := by
    intro s hs
    rcases List.mem_append.mp hs with hs | hs
    · exact h.hHistory s (keptHistory_subset e s hs)
    · rw [List.mem_singleton.mp hs]; exact hshape.2.2
  rw [saveState_loaded e img himg]
  have hl : (keptHistory e ++ [img]).length = (keptHistory e).length + 1 := by simp
  split_ifs with hc
  · refine ⟨rfl, ?_⟩
    simp only [Completion.state]
    rw [h.hCap] at hc
    refine ⟨h.hEffects, h.hPresets, h.hCap, h.hOriginal, ⟨img, himg, hshape⟩, ?_, ?_, ?_, ?_⟩
    · intro s hs
      exact hmem s (List.mem_of_mem_tail hs)
    · show (0 : Int) ≤ e.historyIndex
      omega
    · show e.historyIndex < ((keptHistory e ++ [img]).tail.length : Int)
      rw [List.length_tail, hl]
      omega
    · show (keptHistory e ++ [img]).tail.length ≤ 50
      rw [List.length_tail, hl]
      omega
  · refine ⟨rfl, ?_⟩
    simp only [Completion.state]
    rw [h.hCap] at hc
    refine ⟨h.hEffects, h.hPresets, h.hCap, h.hOriginal, ⟨img, himg, hshape⟩, hmem, ?_, ?_, ?_⟩
    · show (0 : Int) ≤ e.historyIndex + 1
      omega
    · show e.historyIndex + 1 < ((keptHistory e ++ [img]).length : Int)
      rw [hl]
      omega
    · show (keptHistory e ++ [img]).length ≤ 50
      omega

theorem loadImage_ready (source : ImageData) (hw : 0 < source.width) (hh : 0 < source.height) :
    (loadImage source Engine.new).isNormal = true
      ∧ (loadImage source Engine.new).state.Ready source 0 := by
  unfold loadImage
  rw [if_neg (by omega)]
  exact saveState_ready _ source
    ⟨rfl, rfl, rfl, rfl, ⟨source, rfl, SameShape.refl source⟩,
      fun s hs => absurd hs (List.not_mem_nil s), le_refl _,
      (by show (-1 : Int) < ((0 : Nat) : Int); decide), Nat.zero_le _⟩

theorem Engine.Ready.weaken {e : Engine} {original : ImageData} (h : e.Ready original 0) :
    e.Ready original (-1) :=
  ⟨h.hEffects, h.hPresets, h.hCap, h.hOriginal, h.hCurrent, h.hHistory,
    le_trans (by decide) h.hLow, h.hIndex, h.hLength⟩

theorem Engine.Ready.withImage {e : Engine} {original : ImageData} {low : Int}
    (h : e.Ready original low) (img : ImageData) (draws : Nat) (hs : SameShape img original) :
    ({ e with imageData := some img, draws := draws } : Engine).Ready original low :=
  ⟨h.hEffects, h.hPresets, h.hCap, h.hOriginal, ⟨img, rfl, hs⟩, h.hHistory, h.hLow, h.hIndex,
    h.hLength⟩

theorem registered_preservesShape (e : Engine) (original : ImageData) (low : Int)
    (h : e.Ready original low) (effectName : String) (effect : Effect)
    (heff : mapGet e.effects effectName = some effect) : PreservesShape effect.apply := by
  rw [h.hEffects] at heff
  exact mapGet_forall (fun eff : Effect => PreservesShape eff.apply) loadEffects
    loadEffects_preserveShape effectName effect heff

theorem applyEffect_ready (H : Host) (e : Engine) (original : ImageData)
    (effectName : String) (value : JSNum) (h : e.Ready original 0) :
    (applyEffect H effectName value e).state.Ready original 0 := by
  cases heff : mapGet e.effects effectName with
  | none =>
    unfold applyEffect
    simp only [heff]
    exact h
  | some effect =>
    obtain ⟨img, himg, hshape⟩ := h.hCurrent
    have hpres := registered_preservesShape e original 0 h effectName effect heff
    have hreset : SameShape { img with data := original.data } original :=
      ⟨hshape.1, hshape.2.1, rfl⟩
    rw [applyEffect_loaded H e img original effectName value effect himg h.hOriginal hshape.2.2 heff]
    cases hr : effect.apply H e.draws { img with data := original.data } value with
    | error err =>
      simp only [Completion.state]
      exact h.withImage _ e.draws hreset
    | ok r =>
      obtain ⟨res, n⟩ := r
      simp only []
      exact (saveState_ready _ original
        (h.weaken.withImage res n ((hpres H _ _ _ _ _ hr).trans hreset))).2

theorem reset_ready (e : Engine) (original : ImageData) (h : e.Ready original 0) :
    (reset e).isNormal = true ∧ (reset e).state.Ready original 0 := by
  obtain ⟨img, himg, hshape⟩ := h.hCurrent
  rw [reset_loaded e img original himg h.hOriginal hshape.2.2]
  exact saveState_ready _ original
    (h.weaken.withImage _ e.draws ⟨hshape.1, hshape.2.1, rfl⟩)

theorem applySettings_ready (H : Host) (settings : List (String × JSNum)) (e : Engine)
    (original : ImageData) (low : Int) (h : e.Ready original low) :
    (applySettings H settings e).state.Ready original low := by
  induction settings generalizing e with
  | nil => exact h
  | cons entry rest ih =>
    obtain ⟨effectName, value⟩ := entry
    unfold applySettings
    cases heff : mapGet e.effects effectName with
    | none => simp only []; exact ih e h
    | some effect =>
      obtain ⟨img, himg, hshape⟩ := h.hCurrent
      have hpres := registered_preservesShape e original low h effectName effect heff
      simp only [himg]
      cases hr : effect.apply H e.draws img value with
      | error err => exact h
      | ok r =>
        obtain ⟨res, n⟩ := r
        simp only []
        exact ih _ (h.withImage res n ((hpres H _ _ _ _ _ hr).trans hshape))

theorem applyPreset_ready (H : Host) (e : Engine) (original : ImageData)
    (presetName : String) (h : e.Ready original 0) :
    (applyPreset H presetName e).state.Ready original 0 := by
  unfold applyPreset
  cases hp : mapGet e.presets presetName with
  | none => exact h
  | some preset =>
    simp only []
    have hr := reset_ready e original h
    cases hreset : reset e with
    | throws err e1 => rw [hreset] at hr; exact absurd hr.1 (by simp [Completion.isNormal])
    | normal e1 =>
      rw [hreset] at hr
      have h1 : e1.Ready original 0 := hr.2
      simp only []
      have h2 := applySettings_ready H preset.settings e1 original 0 h1
      cases hs : applySettings H preset.settings e1 with
      | throws err e2 => rw [hs] at h2; exact h2
      | normal e2 =>
        rw [hs] at h2
        have h2r : e2.Ready original 0 := h2
        simp only []
        obtain ⟨img, himg, hshape⟩ := h2r.hCurrent
        simp only [himg]
        exact (saveState_ready e2 original h2r.weaken).2

theorem restoreState_ready (e : Engine) (original : ImageData) (h : e.Ready original 0) :
    (restoreState e).isNormal = true ∧ (restoreState e).state.Ready original 0
      ∧ ∃ state, e.history[e.historyIndex.toNat]? = some state := by
  obtain ⟨img, himg, hshape⟩ := h.hCurrent
  have hlow := h.hLow
  have hidx := h.hIndex
  have hlt : e.historyIndex.toNat < e.history.length := by omega
  have hget : e.history[e.historyIndex.toNat]? = some (e.history[e.historyIndex.toNat]) :=
    List.getElem?_eq_getElem hlt
  have hslen : (e.history[e.historyIndex.toNat]).data.length = original.data.length :=
    h.hHistory _ (List.getElem_mem hlt)
  unfold restoreState
  simp only [himg, if_pos hlow, hget,
    typedArraySet_same_length img.data _ (hshape.2.2.trans hslen.symm)]
  refine ⟨rfl, ?_, _, rfl⟩
  simp only [Completion.state]
  have := h.withImage { img with data := (e.history[e.historyIndex.toNat]).data } e.draws
    ⟨hshape.1, hshape.2.1, hslen⟩
  exact this

theorem undo_ready (e : Engine) (original : ImageData) (h : e.Ready original 0) :
    (undo e).isNormal = true ∧ (undo e).state.Ready original 0 := by
  unfold undo
  split_ifs with hpos
  · have h1 : ({ e with historyIndex := e.historyIndex - 1 } : Engine).Ready original 0 :=
      ⟨h.hEffects, h.hPresets, h.hCap, h.hOriginal, h.hCurrent, h.hHistory,
        (by show (0 : Int) ≤ e.historyIndex - 1; omega),
        (by show e.historyIndex - 1 < (e.history.length : Int); have := h.hIndex; omega),
        h.hLength⟩
    exact ⟨(restoreState_ready _ original h1).1, (restoreState_ready _ original h1).2.1⟩
  · exact ⟨rfl, h⟩

theorem redo_ready (e : Engine) (original : ImageData) (h : e.Ready original 0) :
    (redo e).isNormal = true ∧ (redo e).state.Ready original 0 := by
  unfold redo
  split_ifs with hlt
  · have h1 : ({ e with historyIndex := e.historyIndex + 1 } : Engine).Ready original 0 :=
      ⟨h.hEffects, h.hPresets, h.hCap, h.hOriginal, h.hCurrent, h.hHistory,
        (by show (0 : Int) ≤ e.historyIndex + 1; have := h.hLow; omega),
        (by show e.historyIndex + 1 < (e.history.length : Int); omega),
        h.hLength⟩
    exact ⟨(restoreState_ready _ original h1).1, (restoreState_ready _ original h1).2.1⟩
  · exact ⟨rfl, h⟩

theorem exec_ready (H : Host) (e : Engine) (original : ImageData) (call : Call)
    (h : e.Ready original 0) : (call.exec H e).state.Ready original 0 := by
  cases call with
  | applyEffect effectName value => exact applyEffect_ready H e original effectName value h
  | applyPreset presetName => exact applyPreset_ready H e original presetName h
  | reset => exact (reset_ready e original h).2
  | undo => exact (undo_ready e original h).2
  | redo => exact (redo_ready e original h).2

theorem run_ready (H : Host) (calls : List Call) (e : Engine) (original : ImageData)
    (h : e.Ready original 0) : (run H e calls).Ready original 0 := by
  induction calls generalizing e with
  | nil => exact h
  | cons call rest ih => exact ih _ (exec_ready H e original call h)

theorem saveState_isNormal (e : Engine) (img : ImageData) (h : e.imageData = some img) :
    (saveState e).isNormal = true := by
  rw [saveState_loaded e img h]
  split_ifs <;> rfl

theorem applySettings_compose (H : Host) (settings : List (String × JSNum)) (e : Engine)
    (img res : ImageData) (n : Nat) (himg : e.imageData = some img)
    (hc : composeEffects H (registeredSettings e.effects settings) (img, e.draws)
      = Except.ok (res, n)) :
    applySettings H settings e = Completion.normal { e with imageData := some res, draws := n } := by
  induction settings generalizing e img with
  | nil =>
    simp only [registeredSettings, List.filterMap_nil, composeEffects, Except.ok.injEq,
      Prod.mk.injEq] at hc
    unfold applySettings
    rw [← hc.1, ← hc.2, ← himg]
  | cons entry rest ih =>
    obtain ⟨effectName, value⟩ := entry
    unfold applySettings
    cases heff : mapGet e.effects effectName with
    | none =>
      simp only []
      refine ih e img himg ?_
      simpa [registeredSettings, heff] using hc
    | some effect =>
      have hc2 : composeEffects H ((effect, value) :: registeredSettings e.effects rest)
          (img, e.draws) = Except.ok (res, n) := by
        simpa [registeredSettings, heff] using hc
      unfold composeEffects at hc2
      simp only [himg]
      cases hr : effect.apply H e.draws img value with
      | error err => rw [hr] at hc2; exact absurd hc2 (by simp)
      | ok r =>
        obtain ⟨mid, k⟩ := r
        rw [hr] at hc2
        simp only []
        exact ih { e with imageData := some mid, draws := k } mid rfl hc2

/-- C5: for an identifier that is not a registered effect, `applyEffect` returns normally
and leaves the whole engine state (working buffer, original buffer, history, history index)
as it was; likewise `applyPreset` for an identifier that is not a registered preset. -/
theorem unknown_identifier_is_noop (H : Host) (e : Engine) (effectName presetName : String)
    (value : JSNum) (heffect : mapGet e.effects effectName = none)
    (hpreset : mapGet e.presets presetName = none) :
    applyEffect H effectName value e = Completion.normal e
      ∧ applyPreset H presetName e = Completion.normal e := by
  constructor
  · unfold applyEffect
    simp only [heffect]
  · unfold applyPreset
    simp only [hpreset]

theorem unknown_identifier_is_noop_witness :
    mapGet (loadImage grayPixel Engine.new).state.effects "sparkle" = none
      ∧ mapGet (loadImage grayPixel Engine.new).state.presets "moody" = none
      ∧ applyEffect Host.sample "sparkle" 40 (loadImage grayPixel Engine.new).state
          = Completion.normal (loadImage grayPixel Engine.new).state
      ∧ applyPreset Host.sample "moody" (loadImage grayPixel Engine.new).state
          = Completion.normal (loadImage grayPixel Engine.new).state :=
  ⟨rfl, rfl,
    unknown_identifier_is_noop Host.sample (loadImage grayPixel Engine.new).state "sparkle" "moody"
      40 rfl rfl⟩

/-- C1: on a loaded engine with the registry of the constructor, the working buffer after
`applyEffect(id, value)` of an implemented effect is the effect's transform applied to the
original buffer, whatever the working buffer held; in particular
`applyEffect('brightness', 20)` followed by `applyEffect('contrast', 20)` leaves the same
working buffer as `reset()` followed by `applyEffect('contrast', 20)`, namely the contrast
transform of the original. -/
theorem applyEffect_restarts_from_original (H : Host) (e : Engine) (imageData original : ImageData)
    (effectName : String) (value : JSNum) (effect : Effect) (result : ImageData) (draws : Nat)
    (hcur : e.imageData = some imageData) (horig : e.originalImageData = some original)
    (hshape : SameShape imageData original) (hreg : e.effects = loadEffects)
    (heff : mapGet e.effects effectName = some effect)
    (happly : effect.apply H e.draws original value = Except.ok (result, draws)) :
    (applyEffect H effectName value e).isNormal = true
      ∧ (applyEffect H effectName value e).state.imageData = some result
      ∧ (applyEffect H "contrast" 20 (applyEffect H "brightness" 20 e).state).state.imageData
          = some (adjustContrast original 20)
      ∧ (applyEffect H "contrast" 20 (reset e).state).state.imageData
          = some (adjustContrast original 20) := by
  have hcopy : ({ imageData with data := original.data } : ImageData) = original := by
    obtain ⟨w, h, d⟩ := original
    obtain ⟨hw, hh, -⟩ := hshape
    simp only at hw hh
    rw [← hw, ← hh]
  have general : ∀ (e : Engine) (imageData : ImageData), e.imageData = some imageData →
      e.originalImageData = some original → SameShape imageData original →
      ∀ (effectName : String) (value : JSNum) (effect : Effect) (result : ImageData) (draws : Nat),
        mapGet e.effects effectName = some effect →
        effect.apply H e.draws original value = Except.ok (result, draws) →
        (applyEffect H effectName value e).isNormal = true
          ∧ (applyEffect H effectName value e).state.imageData = some result := by
    intro e imageData hcur horig hshape effectName value effect result draws heff happly
    have hcopy : ({ imageData with data := original.data } : ImageData) = original := by
      obtain ⟨w, h, d⟩ := original
      obtain ⟨hw, hh, -⟩ := hshape
      simp only at hw hh
      rw [← hw, ← hh]
    rw [applyEffect_loaded H e imageData original effectName value effect hcur horig hshape.2.2
      heff, hcopy, happly]
    exact ⟨saveState_isNormal _ result rfl, (saveState_frame _).1⟩
  obtain ⟨effc, hgc, hac⟩ : ∃ eff, mapGet loadEffects "contrast" = some eff
      ∧ eff.apply = EffectFn.ofTransform adjustContrast := ⟨_, rfl, rfl⟩
  have hfirst := general e imageData hcur horig hshape effectName value effect result draws
    heff happly
  refine ⟨hfirst.1, hfirst.2, ?_, ?_⟩
  · have hb := general e imageData hcur horig hshape "brightness" 20 _ (adjustBrightness original 20)
      e.draws (by rw [hreg]; rfl) rfl
    have hf := saveState_frame
      ({ e with imageData := some (adjustBrightness original 20), draws := e.draws } : Engine)
    have hstate : (applyEffect H "brightness" 20 e).state
        = (saveState { e with imageData := some (adjustBrightness original 20),
                              draws := e.draws }).state := by
      rw [applyEffect_loaded H e imageData original "brightness" 20 _ hcur horig hshape.2.2
        (by rw [hreg]; rfl), hcopy]
      rfl
    refine (general _ (adjustBrightness original 20) hb.2 ?_ (adjustBrightness_shape original 20)
      "contrast" 20 effc (adjustContrast original 20) _ ?_ (by rw [hac]; rfl)).2
    · rw [hstate, hf.2.1]; exact horig
    · rw [hstate, hf.2.2.1, hreg]; exact hgc
  · have hr := reset_loaded e imageData original hcur horig hshape.2.2
    rw [hcopy] at hr
    have hf := saveState_frame ({ e with imageData := some original } : Engine)
    refine (general _ original ?_ ?_ (SameShape.refl original)
      "contrast" 20 effc (adjustContrast original 20) _ ?_ (by rw [hac]; rfl)).2
    · rw [hr, hf.1]
    · rw [hr, hf.2.1]; exact horig
    · rw [hr, hf.2.2.1, hreg]; exact hgc

theorem applyEffect_restarts_from_original_witness :
    (loadImage grayPixel Engine.new).state.imageData = some grayPixel
      ∧ (loadImage grayPixel Engine.new).state.originalImageData = some grayPixel
      ∧ SameShape grayPixel grayPixel
      ∧ (loadImage grayPixel Engine.new).state.effects = loadEffects
      ∧ mapGet (loadImage grayPixel Engine.new).state.effects "brightness"
          = some ⟨"亮度", EffectFn.ofTransform adjustBrightness, ⟨-100, 100, 0⟩, "basic"⟩
      ∧ EffectFn.ofTransform adjustBrightness Host.sample
            (loadImage grayPixel Engine.new).state.draws grayPixel 20
          = Except.ok (adjustBrightness grayPixel 20, 0)
      ∧ (applyEffect Host.sample "brightness" 20 (loadImage grayPixel Engine.new).state).isNormal
          = true
      ∧ (applyEffect Host.sample "brightness" 20
            (loadImage grayPixel Engine.new).state).state.imageData
          = some (adjustBrightness grayPixel 20)
      ∧ (applyEffect Host.sample "contrast" 20 (applyEffect Host.sample "brightness" 20
            (loadImage grayPixel Engine.new).state).state).state.imageData
          = some (adjustContrast grayPixel 20)
      ∧ (applyEffect Host.sample "contrast" 20
            (reset (loadImage grayPixel Engine.new).state).state).state.imageData
          = some (adjustContrast grayPixel 20) :=
  ⟨rfl, rfl, SameShape.refl grayPixel, rfl, rfl, rfl,
    applyEffect_restarts_from_original Host.sample (loadImage grayPixel Engine.new).state
      grayPixel grayPixel "brightness" 20
      ⟨"亮度", EffectFn.ofTransform adjustBrightness, ⟨-100, 100, 0⟩, "basic"⟩
      (adjustBrightness grayPixel 20) 0 rfl rfl (SameShape.refl grayPixel) rfl rfl rfl⟩

/-- C2: on a loaded engine, when the composition of the registered effects of a preset's
settings, taken left to right in the order of the settings and started on the original
buffer, is defined, `applyPreset(id)` returns normally and leaves that composition in the
working buffer (settings that name no registered effect are skipped). -/
theorem applyPreset_composes_in_order (H : Host) (e : Engine) (imageData original : ImageData)
    (presetName : String) (preset : Preset) (result : ImageData) (draws : Nat)
    (hcur : e.imageData = some imageData) (horig : e.originalImageData = some original)
    (hshape : SameShape imageData original)
    (hpreset : mapGet e.presets presetName = some preset)
    (hcompose : composeEffects H (registeredSettings e.effects preset.settings)
      (original, e.draws) = Except.ok (result, draws)) :
    (applyPreset H presetName e).isNormal = true
      ∧ (applyPreset H presetName e).state.imageData = some result := by
  have hcopy : ({ imageData with data := original.data } : ImageData) = original := by
    obtain ⟨w, h, d⟩ := original
    obtain ⟨hw, hh, -⟩ := hshape
    simp only at hw hh
    rw [← hw, ← hh]
  have hr := reset_loaded e imageData original hcur horig hshape.2.2
  rw [hcopy] at hr
  have hf := saveState_frame ({ e with imageData := some original } : Engine)
  have hn := saveState_isNormal ({ e with imageData := some original } : Engine) original rfl
  unfold applyPreset
  simp only [hpreset, hr]
  cases hs : saveState ({ e with imageData := some original } : Engine) with
  | throws err e1 => rw [hs] at hn; exact absurd hn (by simp [Completion.isNormal])
  | normal e1 =>
    rw [hs] at hf
    simp only [Completion.state] at hf
    simp only []
    have hc : composeEffects H (registeredSettings e1.effects preset.settings)
        (original, e1.draws) = Except.ok (result, draws) := by
      rw [hf.2.2.1, hf.2.2.2.2.2]; exact hcompose
    rw [applySettings_compose H preset.settings e1 original result draws hf.1 hc]
    simp only []
    exact ⟨saveState_isNormal _ result rfl, (saveState_frame _).1⟩

theorem applyPreset_composes_in_order_witness :
    (loadImage grayPixel Engine.new).state.imageData = some grayPixel
      ∧ (loadImage grayPixel Engine.new).state.originalImageData = some grayPixel
      ∧ SameShape grayPixel grayPixel
      ∧ mapGet (loadImage grayPixel Engine.new).state.presets "warm"
          = some ⟨"暖色调", "温暖舒适的色调",
              [("temperature", 25), ("tint", 5), ("exposure", 5), ("highlights", -10),
               ("shadows", 10), ("vibrance", 20), ("saturation", 5)]⟩
      ∧ composeEffects Host.sample
          (registeredSettings (loadImage grayPixel Engine.new).state.effects
            [("temperature", 25), ("tint", 5), ("exposure", 5), ("highlights", -10),
             ("shadows", 10), ("vibrance", 20), ("saturation", 5)])
          (grayPixel, (loadImage grayPixel Engine.new).state.draws)
          = Except.ok (adjustSaturation (adjustVibrance (adjustShadows (adjustHighlights
              (adjustExposure Host.sample (adjustTint (adjustTemperature grayPixel 25) 5) 5)
                (-10)) 10) 20) 5, 0)
      ∧ (applyPreset Host.sample "warm" (loadImage grayPixel Engine.new).state).isNormal = true
      ∧ (applyPreset Host.sample "warm" (loadImage grayPixel Engine.new).state).state.imageData
          = some (adjustSaturation (adjustVibrance (adjustShadows (adjustHighlights
              (adjustExposure Host.sample (adjustTint (adjustTemperature grayPixel 25) 5) 5)
                (-10)) 10) 20) 5) :=
  ⟨rfl, rfl, SameShape.refl grayPixel, rfl, rfl,
    applyPreset_composes_in_order Host.sample (loadImage grayPixel Engine.new).state
      grayPixel grayPixel "warm" _ _ 0 rfl rfl (SameShape.refl grayPixel) rfl rfl⟩

/-- C4: in every state reached from a freshly constructed engine by a successful
`loadImage` followed by any sequence of `applyEffect`, `applyPreset`, `reset`, `undo` and
`redo` calls, `0 ≤ historyIndex < history.length ≤ maxHistorySize = 50`, the history has an
entry at `historyIndex`, and `undo()` and `redo()` return without throwing. -/
theorem history_index_within_bounds (H : Host) (source : ImageData) (calls : List Call)
    (hw : 0 < source.width) (hh : 0 < source.height) :
    0 ≤ (run H (loadImage source Engine.new).state calls).historyIndex
      ∧ (run H (loadImage source Engine.new).state calls).historyIndex
          < (run H (loadImage source Engine.new).state calls).history.length
      ∧ (run H (loadImage source Engine.new).state calls).history.length
          ≤ (run H (loadImage source Engine.new).state calls).maxHistorySize
      ∧ (run H (loadImage source Engine.new).state calls).maxHistorySize = 50
      ∧ (∃ state, (run H (loadImage source Engine.new).state calls).history[
            (run H (loadImage source Engine.new).state calls).historyIndex.toNat]? = some state)
      ∧ (undo (run H (loadImage source Engine.new).state calls)).isNormal = true
      ∧ (redo (run H (loadImage source Engine.new).state calls)).isNormal = true := by
  have hready := run_ready H calls _ source (loadImage_ready source hw hh).2
  refine ⟨hready.hLow, hready.hIndex, ?_, hready.hCap, (restoreState_ready _ source hready).2.2,
    (undo_ready _ source hready).1, (redo_ready _ source hready).1⟩
  rw [hready.hCap]; exact hready.hLength

theorem history_index_within_bounds_witness :
    0 < grayPixel.width ∧ 0 < grayPixel.height
      ∧ 0 ≤ (run Host.sample (loadImage grayPixel Engine.new).state
          [Call.applyEffect "brightness" 20, Call.applyPreset "warm", Call.undo]).historyIndex
      ∧ (run Host.sample (loadImage grayPixel Engine.new).state
          [Call.applyEffect "brightness" 20, Call.applyPreset "warm", Call.undo]).historyIndex
          < (run Host.sample (loadImage grayPixel Engine.new).state
          [Call.applyEffect "brightness" 20, Call.applyPreset "warm", Call.undo]).history.length
      ∧ (run Host.sample (loadImage grayPixel Engine.new).state
          [Call.applyEffect "brightness" 20, Call.applyPreset "warm", Call.undo]).history.length
          ≤ (run Host.sample (loadImage grayPixel Engine.new).state
          [Call.applyEffect "brightness" 20, Call.applyPreset "warm", Call.undo]).maxHistorySize
      ∧ (run Host.sample (loadImage grayPixel Engine.new).state
          [Call.applyEffect "brightness" 20, Call.applyPreset "warm", Call.undo]).maxHistorySize = 50
      ∧ (∃ state, (run Host.sample (loadImage grayPixel Engine.new).state
          [Call.applyEffect "brightness" 20, Call.applyPreset "warm", Call.undo]).history[
            (run Host.sample (loadImage grayPixel Engine.new).state
          [Call.applyEffect "brightness" 20, Call.applyPreset "warm", Call.undo]).historyIndex.toNat]? = some state)
      ∧ (undo (run Host.sample (loadImage grayPixel Engine.new).state
          [Call.applyEffect "brightness" 20, Call.applyPreset "warm", Call.undo])).isNormal = true
      ∧ (redo (run Host.sample (loadImage grayPixel Engine.new).state
          [Call.applyEffect "brightness" 20, Call.applyPreset "warm", Call.undo])).isNormal = true :=
  ⟨by decide, by decide,
    history_index_within_bounds Host.sample grayPixel
      [Call.applyEffect "brightness" 20, Call.applyPreset "warm", Call.undo]
      (by decide) (by decide)⟩

theorem getElem?_store (d : List Nat) (i j : Nat) (x : JSNum) :
    (store d i x)[j]? = if i = j then (d[j]?).map (fun _ => JSNum.toUint8Clamp x) else d[j]? := by
  unfold store
  rw [List.getElem?_set']
  rfl

theorem load_store_ne (d : List Nat) (i j : Nat) (x : JSNum) (h : i ≠ j) :
    load (store d i x) j = load d j := by
  unfold load
  rw [getElem?_store, if_neg h]

theorem map_load (d : List Nat) (j : Nat) (F : JSNum → JSNum) :
    (d[j]?).map (fun _ => JSNum.toUint8Clamp (F (load d j)))
      = (d[j]?).map (fun c => JSNum.toUint8Clamp (F (JSNum.ofInt (c : Int)))) := by
  unfold load
  cases d[j]? with
  | none => rfl
  | some c => rfl

theorem rgbBody_getElem? (F : JSNum → JSNum) (d : List Nat) (i j : Nat) :
    (rgbBody F i d)[j]? =
      if j = i ∨ j = i + 1 ∨ j = i + 2 then
        (d[j]?).map (fun c => JSNum.toUint8Clamp (F (JSNum.ofInt (c : Int))))
      else d[j]? := by
  unfold rgbBody
  simp only []
  rw [getElem?_store, getElem?_store, getElem?_store,
    load_store_ne _ _ _ _ (by omega : i + 1 ≠ i + 2), load_store_ne _ _ _ _ (by omega : i ≠ i + 2),
    load_store_ne _ _ _ _ (by omega : i ≠ i + 1)]
  by_cases h2 : i + 2 = j
  · subst h2
    rw [if_pos rfl, if_neg (by omega), if_neg (by omega), if_pos (by omega), map_load]
  · rw [if_neg h2]
    by_cases h1 : i + 1 = j
    · subst h1
      rw [if_pos rfl, if_neg (by omega), if_pos (by omega), map_load]
    · rw [if_neg h1]
      by_cases h0 : i = j
      · subst h0
        rw [if_pos rfl, if_pos (by omega), map_load]
      · rw [if_neg h0, if_neg (by omega)]

theorem foldl_rgbBody_getElem? (F : JSNum → JSNum) (d : List Nat) (k j : Nat) :
    ((List.range k).foldl (fun acc n => rgbBody F (0 + 4 * n) acc) d)[j]? =
      if j < 4 * k ∧ j % 4 ≠ 3 then
        (d[j]?).map (fun c => JSNum.toUint8Clamp (F (JSNum.ofInt (c : Int))))
      else d[j]? := by
  induction k with
  | zero => simp
  | succ k ih =>
    rw [List.range_succ, List.foldl_append, List.foldl_cons, List.foldl_nil, rgbBody_getElem?, ih]
    by_cases hj : j = 0 + 4 * k ∨ j = 0 + 4 * k + 1 ∨ j = 0 + 4 * k + 2
    · rw [if_pos hj, if_neg (by omega), if_pos (by omega)]
    · rw [if_neg hj]
      by_cases hlt : j < 4 * k ∧ j % 4 ≠ 3
      · rw [if_pos hlt, if_pos (by omega)]
      · rw [if_neg hlt, if_neg (by omega)]

theorem forLoop_rgbBody_getElem? (F : JSNum → JSNum) (d : List Nat) (j : Nat) :
    (forLoop 0 d.length 4 (rgbBody F) d)[j]? =
      if j % 4 = 3 then d[j]?
      else (d[j]?).map (fun c => JSNum.toUint8Clamp (F (JSNum.ofInt (c : Int)))) := by
  unfold forLoop
  rw [foldl_rgbBody_getElem?]
  by_cases hj : j < d.length
  · by_cases h3 : j % 4 = 3
    · rw [if_neg (by omega), if_pos h3]
    · rw [if_pos (by omega), if_neg h3]
  · have hnone : d[j]? = none := List.getElem?_eq_none (by omega)
    rw [hnone]
    simp

theorem adjustBrightness_eq_rgbBody (img : ImageData) (value : JSNum) :
    adjustBrightness img value = { img with
      data := forLoop 0 img.data.length 4
        (rgbBody (fun x => Math.max 0 (Math.min 255 (x + value * 2.55)))) img.data } := rfl

theorem adjustContrast_eq_rgbBody (img : ImageData) (value : JSNum) :
    adjustContrast img value = { img with
      data := forLoop 0 img.data.length 4
        (rgbBody (fun x => Math.max 0 (Math.min 255
          ((259 * (value + 255)) / (255 * (259 - value)) * (x - 128) + 128)))) img.data } := rfl

theorem store_le (d : List Nat) (i : Nat) (x : JSNum) (hd : ∀ c ∈ d, c ≤ 255) :
    ∀ c ∈ store d i x, c ≤ 255 := by
  intro c hc
  rcases List.mem_or_eq_of_mem_set hc with h | h
  · exact hd c h
  · rw [h]; exact toUint8Clamp_le x

theorem forLoop_rgbBody_id (F : JSNum → JSNum) (d : List Nat) (hd : ∀ c ∈ d, c ≤ 255)
    (hF : ∀ c : Nat, c ≤ 255 → JSNum.toUint8Clamp (F (JSNum.ofInt (c : Int))) = c) :
    forLoop 0 d.length 4 (rgbBody F) d = d := by
  apply List.ext_getElem?
  intro j
  rw [forLoop_rgbBody_getElem?]
  split_ifs with h3
  · rfl
  · cases hj : d[j]? with
    | none => rfl
    | some c =>
      have hc : c ∈ d := List.getElem?_mem hj
      show some (JSNum.toUint8Clamp (F (JSNum.ofInt (c : Int)))) = some c
      rw [hF c (hd c hc)]

/-- C10: `adjustBrightness` leaves the fourth sample of each pixel and turns every other
sample `c` into `c + value * 2.55` clamped to `[0, 255]` and stored as an 8-bit sample
(`ToUint8Clamp`: nearest integer, ties to even); on the 4×4 white buffer with value `-50`
every colour channel becomes `128`, the stored value of `255 + (-50) * 2.55`, and alpha
stays `255`. -/
theorem adjustBrightness_channel_formula (img : ImageData) (value : JSNum) (j : Nat) :
    (adjustBrightness img value).data[j]? =
        (if j % 4 = 3 then img.data[j]?
         else (img.data[j]?).map (fun c =>
          JSNum.toUint8Clamp (Math.max 0 (Math.min 255 (JSNum.ofInt (c : Int) + value * 2.55)))))
      ∧ (adjustBrightness img value).width = img.width
      ∧ (adjustBrightness img value).height = img.height
      ∧ (adjustBrightness whiteSquare (-50)).data
          = (List.replicate 16 [128, 128, 128, 255]).flatten
      ∧ JSNum.toUint8Clamp (255 + (-50) * 2.55) = 128 := by
  refine ⟨?_, rfl, rfl, by decide!, by decide!⟩
  rw [adjustBrightness_eq_rgbBody]
  exact forLoop_rgbBody_getElem? _ img.data j

/-- C9: for a buffer of 8-bit samples and any number `value` (finite, infinite or `NaN`),
every sample of the buffers `adjustBrightness`, `adjustContrast`, `adjustSaturation` and
`adjustExposure` return is an integer between `0` and `255`. -/
theorem basic_adjustments_stay_in_range (H : Host) (img : ImageData) (value : JSNum)
    (h8 : ∀ c ∈ img.data, c ≤ 255) :
    (∀ c ∈ (adjustBrightness img value).data, 0 ≤ c ∧ c ≤ 255)
      ∧ (∀ c ∈ (adjustContrast img value).data, 0 ≤ c ∧ c ≤ 255)
      ∧ (∀ c ∈ (adjustSaturation img value).data, 0 ≤ c ∧ c ≤ 255)
      ∧ (∀ c ∈ (adjustExposure H img value).data, 0 ≤ c ∧ c ≤ 255) := by
  refine ⟨?_, ?_, ?_, ?_⟩
  · intro c hc
    refine ⟨Nat.zero_le c, ?_⟩
    revert c
    dsimp only [adjustBrightness]
    refine forLoop_induction (fun s => ∀ c ∈ s, c ≤ 255) _ _ _ _ (fun i s hs => ?_) _ h8
    exact store_le _ _ _ (store_le _ _ _ (store_le _ _ _ hs))
  · intro c hc
    refine ⟨Nat.zero_le c, ?_⟩
    revert c
    dsimp only [adjustContrast]
    refine forLoop_induction (fun s => ∀ c ∈ s, c ≤ 255) _ _ _ _ (fun i s hs => ?_) _ h8
    exact store_le _ _ _ (store_le _ _ _ (store_le _ _ _ hs))
  · intro c hc
    refine ⟨Nat.zero_le c, ?_⟩
    revert c
    dsimp only [adjustSaturation]
    refine forLoop_induction (fun s => ∀ c ∈ s, c ≤ 255) _ _ _ _ (fun i s hs => ?_) _ h8
    exact store_le _ _ _ (store_le _ _ _ (store_le _ _ _ hs))
  · intro c hc
    refine ⟨Nat.zero_le c, ?_⟩
    revert c
    dsimp only [adjustExposure]
    refine forLoop_induction (fun s => ∀ c ∈ s, c ≤ 255) _ _ _ _ (fun i s hs => ?_) _ h8
    exact store_le _ _ _ (store_le _ _ _ (store_le _ _ _ hs))

theorem JSNum.lt_false_of_le (a b : JSNum) (h : JSNum.le a b = true) : JSNum.lt b a = false := by
  cases a <;> cases b <;> simp_all [JSNum.le]

/-- C7, the code at the failing input: `adjustSaturation(buffer, 0)` turns the opaque red
pixel `(255, 0, 0, 255)` into the gray `(76, 76, 76, 255)`; with `saturation = 0` every
colour channel becomes the luma `0.2989 * 255`. -/
theorem adjustSaturation_zero_is_grayscale :
    adjustSaturation redPixel 0 = ⟨1, 1, [76, 76, 76, 255]⟩
      ∧ adjustSaturation redPixel 0 ≠ redPixel := by
  decide!

/-- C6, counterexample: on the light-gray pixel, `applyEffect('contrast', 200)` leaves
`(255, 255, 255, 255)` while `applyEffect('contrast', 100)`, the call with the value clamped
to the declared range `[-100, 100]`, leaves `(178, 178, 178, 255)`. -/
theorem applyEffect_does_not_clamp :
    clampToRange 200 (-100) 100 = 100
      ∧ (applyEffect Host.sample "contrast" 200
          (loadImage lightPixel Engine.new).state).state.imageData
          = some ⟨1, 1, [255, 255, 255, 255]⟩
      ∧ (applyEffect Host.sample "contrast" (clampToRange 200 (-100) 100)
          (loadImage lightPixel Engine.new).state).state.imageData
          = some ⟨1, 1, [178, 178, 178, 255]⟩
      ∧ (applyEffect Host.sample "contrast" 200
          (loadImage lightPixel Engine.new).state).state.imageData
          ≠ (applyEffect Host.sample "contrast" (clampToRange 200 (-100) 100)
              (loadImage lightPixel Engine.new).state).state.imageData := by
  decide!

/-- C3, the code at the failing input: after `loadImage` of the gray pixel,
`applyEffect('brightness', 20)` and `applyPreset('portrait')` (two operations) the history
holds four snapshots, and two `undo()` calls leave the brightness result
`(151, 151, 151, 255)` in the working buffer, not the loaded `(100, 100, 100, 255)`. -/
theorem undo_twice_after_effect_and_preset :
    (run Host.sample (loadImage grayPixel Engine.new).state
        [Call.applyEffect "brightness" 20, Call.applyPreset "portrait"]).history.length = 4
      ∧ (run Host.sample (loadImage grayPixel Engine.new).state
        [Call.applyEffect "brightness" 20, Call.applyPreset "portrait"]).historyIndex = 3
      ∧ (repeatCall undo 2 (run Host.sample (loadImage grayPixel Engine.new).state
          [Call.applyEffect "brightness" 20, Call.applyPreset "portrait"])).imageData
          = some ⟨1, 1, [151, 151, 151, 255]⟩
      ∧ (loadImage grayPixel Engine.new).state.imageData = some ⟨1, 1, [100, 100, 100, 255]⟩ := by
  decide!

theorem basic_adjustments_stay_in_range_witness :
    (∀ c ∈ grayPixel.data, c ≤ 255)
      ∧ (∀ c ∈ (adjustBrightness grayPixel 500).data, 0 ≤ c ∧ c ≤ 255)
      ∧ (∀ c ∈ (adjustContrast grayPixel 500).data, 0 ≤ c ∧ c ≤ 255)
      ∧ (∀ c ∈ (adjustSaturation grayPixel 500).data, 0 ≤ c ∧ c ≤ 255)
      ∧ (∀ c ∈ (adjustExposure Host.sample grayPixel 500).data, 0 ≤ c ∧ c ≤ 255) :=
  ⟨by decide, basic_adjustments_stay_in_range Host.sample grayPixel 500 (by decide)⟩

/-- C11: when `saveState` runs with `historyIndex = k` not the last index (and the history
within the cap), the history becomes the old entries `0..k` followed by one copy of the
working buffer, `historyIndex` becomes `k + 1`, the last index, and a following `redo()`
changes nothing. -/
theorem saveState_discards_redo_branch (e : Engine) (imageData : ImageData)
    (hcur : e.imageData = some imageData) (hlow : 0 ≤ e.historyIndex)
    (hnot : e.historyIndex < (e.history.length : Int) - 1)
    (hcap : e.history.length ≤ e.maxHistorySize) :
    saveState e = Completion.normal { e with
        history := e.history.take (e.historyIndex.toNat + 1) ++ [imageData],
        historyIndex := e.historyIndex + 1 }
      ∧ (saveState e).state.historyIndex = ((saveState e).state.history.length : Int) - 1
      ∧ redo (saveState e).state = Completion.normal (saveState e).state := by
  have hk : keptHistory e = e.history.take (e.historyIndex.toNat + 1) := by
    unfold keptHistory slice0
    rw [if_pos hnot, if_neg (by omega)]
    congr 1
    omega
  have hlen : (e.history.take (e.historyIndex.toNat + 1) ++ [imageData]).length
      = e.historyIndex.toNat + 2 := by
    rw [List.length_append, List.length_take, List.length_singleton]
    omega
  have hsave : saveState e = Completion.normal { e with
        history := e.history.take (e.historyIndex.toNat + 1) ++ [imageData],
        historyIndex := e.historyIndex + 1 } := by
    rw [saveState_loaded e imageData hcur, hk, if_neg (by rw [hlen]; omega)]
  refine ⟨hsave, ?_, ?_⟩
  · rw [hsave]
    show e.historyIndex + 1
      = ((e.history.take (e.historyIndex.toNat + 1) ++ [imageData]).length : Int) - 1
    rw [hlen]
    omega
  · rw [hsave]
    unfold redo
    simp only [Completion.state]
    rw [if_neg]
    show ¬ (e.historyIndex + 1
      < ((e.history.take (e.historyIndex.toNat + 1) ++ [imageData]).length : Int) - 1)
    rw [hlen]
    omega

theorem saveState_discards_redo_branch_witness :
    (run Host.sample (loadImage grayPixel Engine.new).state
          [Call.applyEffect "brightness" 20, Call.undo]).imageData = some grayPixel
      ∧ 0 ≤ (run Host.sample (loadImage grayPixel Engine.new).state
          [Call.applyEffect "brightness" 20, Call.undo]).historyIndex
      ∧ (run Host.sample (loadImage grayPixel Engine.new).state
          [Call.applyEffect "brightness" 20, Call.undo]).historyIndex
          < ((run Host.sample (loadImage grayPixel Engine.new).state
          [Call.applyEffect "brightness" 20, Call.undo]).history.length : Int) - 1
      ∧ (run Host.sample (loadImage grayPixel Engine.new).state
          [Call.applyEffect "brightness" 20, Call.undo]).history.length
          ≤ (run Host.sample (loadImage grayPixel Engine.new).state
          [Call.applyEffect "brightness" 20, Call.undo]).maxHistorySize
      ∧ saveState (run Host.sample (loadImage grayPixel Engine.new).state
          [Call.applyEffect "brightness" 20, Call.undo])
          = Completion.normal { (run Host.sample (loadImage grayPixel Engine.new).state
          [Call.applyEffect "brightness" 20, Call.undo]) with
              history := (run Host.sample (loadImage grayPixel Engine.new).state
          [Call.applyEffect "brightness" 20, Call.undo]).history.take
                ((run Host.sample (loadImage grayPixel Engine.new).state
          [Call.applyEffect "brightness" 20, Call.undo]).historyIndex.toNat + 1) ++ [grayPixel],
              historyIndex := (run Host.sample (loadImage grayPixel Engine.new).state
          [Call.applyEffect "brightness" 20, Call.undo]).historyIndex + 1 }
      ∧ (saveState (run Host.sample (loadImage grayPixel Engine.new).state
          [Call.applyEffect "brightness" 20, Call.undo])).state.historyIndex
          = ((saveState (run Host.sample (loadImage grayPixel Engine.new).state
          [Call.applyEffect "brightness" 20, Call.undo])).state.history.length : Int) - 1
      ∧ redo (saveState (run Host.sample (loadImage grayPixel Engine.new).state
          [Call.applyEffect "brightness" 20, Call.undo])).state
          = Completion.normal (saveState (run Host.sample (loadImage grayPixel Engine.new).state
          [Call.applyEffect "brightness" 20, Call.undo])).state :=
  ⟨by decide, by decide, by decide, by decide,
    saveState_discards_redo_branch (run Host.sample (loadImage grayPixel Engine.new).state
          [Call.applyEffect "brightness" 20, Call.undo]) grayPixel
      (by decide) (by decide) (by decide) (by decide)⟩

/-- C12: when `saveState` runs with `history.length = maxHistorySize` and `historyIndex` the
last index, the length and `historyIndex` stay as they are, the former entry `0` is dropped,
every former entry `i + 1` becomes entry `i`, and the last entry is a copy of the working
buffer. -/
theorem saveState_evicts_oldest_at_cap (e : Engine) (imageData : ImageData)
    (hcur : e.imageData = some imageData)
    (hfull : e.history.length = e.maxHistorySize)
    (hlast : e.historyIndex = (e.history.length : Int) - 1)
    (hpos : 0 < e.history.length) :
    saveState e = Completion.normal { e with history := e.history.tail ++ [imageData] }
      ∧ (saveState e).state.history.length = e.maxHistorySize
      ∧ (saveState e).state.historyIndex = e.historyIndex
      ∧ (∀ i, i + 1 < e.history.length →
          (saveState e).state.history[i]? = e.history[i + 1]?)
      ∧ (saveState e).state.history[e.history.length - 1]? = some imageData := by
  have hk : keptHistory e = e.history := by
    unfold keptHistory
    rw [if_neg (by omega)]
  have htail : (e.history ++ [imageData]).tail = e.history.tail ++ [imageData] := by
    cases hh : e.history with
    | nil => rw [hh] at hpos; exact absurd hpos (by simp)
    | cons a l => rfl
  have hsave : saveState e
      = Completion.normal { e with history := e.history.tail ++ [imageData] } := by
    rw [saveState_loaded e imageData hcur, hk, if_pos (by rw [List.length_append]; simp; omega),
      htail]
  have hlen : (e.history.tail ++ [imageData]).length = e.history.length := by
    rw [List.length_append, List.length_tail, List.length_singleton]
    omega
  refine ⟨hsave, ?_, ?_, ?_, ?_⟩
  · rw [hsave]
    show (e.history.tail ++ [imageData]).length = e.maxHistorySize
    rw [hlen, hfull]
  · rw [hsave]
    rfl
  · intro i hi
    rw [hsave]
    show (e.history.tail ++ [imageData])[i]? = e.history[i + 1]?
    rw [List.getElem?_append_left (by rw [List.length_tail]; omega)]
    cases hh : e.history with
    | nil => rfl
    | cons a l => simp
  · rw [hsave]
    show (e.history.tail ++ [imageData])[e.history.length - 1]? = some imageData
    rw [List.getElem?_append_right (by rw [List.length_tail])]
    rw [List.length_tail, Nat.sub_self]
    rfl

theorem saveState_evicts_oldest_at_cap_witness :
    (run Host.sample (loadImage grayPixel Engine.new).state
          (List.replicate 49 Call.reset)).imageData = some grayPixel
      ∧ (run Host.sample (loadImage grayPixel Engine.new).state
          (List.replicate 49 Call.reset)).history.length
          = (run Host.sample (loadImage grayPixel Engine.new).state
          (List.replicate 49 Call.reset)).maxHistorySize
      ∧ (run Host.sample (loadImage grayPixel Engine.new).state
          (List.replicate 49 Call.reset)).historyIndex
          = ((run Host.sample (loadImage grayPixel Engine.new).state
          (List.replicate 49 Call.reset)).history.length : Int) - 1
      ∧ 0 < (run Host.sample (loadImage grayPixel Engine.new).state
          (List.replicate 49 Call.reset)).history.length
      ∧ saveState (run Host.sample (loadImage grayPixel Engine.new).state
          (List.replicate 49 Call.reset))
          = Completion.normal { (run Host.sample (loadImage grayPixel Engine.new).state
          (List.replicate 49 Call.reset)) with
              history := (run Host.sample (loadImage grayPixel Engine.new).state
          (List.replicate 49 Call.reset)).history.tail ++ [grayPixel] }
      ∧ (saveState (run Host.sample (loadImage grayPixel Engine.new).state
          (List.replicate 49 Call.reset))).state.history.length
          = (run Host.sample (loadImage grayPixel Engine.new).state
          (List.replicate 49 Call.reset)).maxHistorySize
      ∧ (saveState (run Host.sample (loadImage grayPixel Engine.new).state
          (List.replicate 49 Call.reset))).state.historyIndex
          = (run Host.sample (loadImage grayPixel Engine.new).state
          (List.replicate 49 Call.reset)).historyIndex
      ∧ (∀ i, i + 1 < (run Host.sample (loadImage grayPixel Engine.new).state
          (List.replicate 49 Call.reset)).history.length →
          (saveState (run Host.sample (loadImage grayPixel Engine.new).state
          (List.replicate 49 Call.reset))).state.history[i]?
            = (run Host.sample (loadImage grayPixel Engine.new).state
          (List.replicate 49 Call.reset)).history[i + 1]?)
      ∧ (saveState (run Host.sample (loadImage grayPixel Engine.new).state
          (List.replicate 49 Call.reset))).state.history[
            (run Host.sample (loadImage grayPixel Engine.new).state
          (List.replicate 49 Call.reset)).history.length - 1]? = some grayPixel :=
  ⟨by decide, by decide, by decide, by decide,
    saveState_evicts_oldest_at_cap (run Host.sample (loadImage grayPixel Engine.new).state
          (List.replicate 49 Call.reset)) grayPixel
      (by decide) (by decide) (by decide) (by decide)⟩

theorem restoreState_spec (e : Engine) (imageData state : ImageData)
    (hcur : e.imageData = some imageData) (hlow : 0 ≤ e.historyIndex)
    (hstate : e.history[e.historyIndex.toNat]? = some state)
    (hshape : SameShape imageData state) :
    restoreState e = Completion.normal { e with imageData := some state } := by
  have hcopy : ({ imageData with data := state.data } : ImageData) = state := by
    obtain ⟨w, h, d⟩ := state
    obtain ⟨hw, hh, -⟩ := hshape
    simp only at hw hh
    rw [← hw, ← hh]
  unfold restoreState
  simp only [hcur, if_pos hlow, hstate, typedArraySet_same_length _ _ hshape.2.2, hcopy]

theorem applyEffect_original (H : Host) (effectName : String) (value : JSNum) (e : Engine) :
    (applyEffect H effectName value e).state.originalImageData = e.originalImageData := by
  unfold applyEffect
  split
  · rfl
  · split
    · split
      · rfl
      · dsimp only
        split
        · rfl
        · rw [(saveState_frame _).2.1]
    · rfl

theorem reset_original (e : Engine) : (reset e).state.originalImageData = e.originalImageData := by
  unfold reset
  split
  · rfl
  · split
    · rfl
    · split
      · rfl
      · rw [(saveState_frame _).2.1]

theorem applySettings_original (H : Host) (settings : List (String × JSNum)) (e : Engine) :
    (applySettings H settings e).state.originalImageData = e.originalImageData := by
  induction settings generalizing e with
  | nil => rfl
  | cons entry rest ih =>
    obtain ⟨effectName, value⟩ := entry
    unfold applySettings
    split
    · exact ih e
    · split
      · rfl
      · split
        · rfl
        · rw [ih]

theorem applyPreset_original (H : Host) (presetName : String) (e : Engine) :
    (applyPreset H presetName e).state.originalImageData = e.originalImageData := by
  unfold applyPreset
  cases hp : mapGet e.presets presetName with
  | none => rfl
  | some preset =>
    simp only []
    have hr := reset_original e
    cases hreset : reset e with
    | throws err e1 => rw [hreset] at hr; exact hr
    | normal e1 =>
      rw [hreset] at hr
      simp only []
      have hs := applySettings_original H preset.settings e1
      cases hset : applySettings H preset.settings e1 with
      | throws err e2 => rw [hset] at hs; exact hs.trans hr
      | normal e2 =>
        rw [hset] at hs
        simp only []
        cases hi : e2.imageData with
        | none => exact hs.trans hr
        | some img =>
          simp only []
          rw [(saveState_frame _).2.1]
          exact hs.trans hr

theorem restoreState_frame (e : Engine) :
    (restoreState e).state.originalImageData = e.originalImageData
      ∧ (restoreState e).state.history = e.history := by
  unfold restoreState
  split
  · exact ⟨rfl, rfl⟩
  · split
    · exact ⟨rfl, rfl⟩
    · split
      · exact ⟨rfl, rfl⟩
      · exact ⟨rfl, rfl⟩

theorem undo_frame (e : Engine) :
    (undo e).state.originalImageData = e.originalImageData
      ∧ (undo e).state.history = e.history := by
  unfold undo
  split
  · exact restoreState_frame _
  · exact ⟨rfl, rfl⟩

theorem redo_frame (e : Engine) :
    (redo e).state.originalImageData = e.originalImageData
      ∧ (redo e).state.history = e.history := by
  unfold redo
  split
  · exact restoreState_frame _
  · exact ⟨rfl, rfl⟩

theorem exec_original (H : Host) (e : Engine) (call : Call) :
    (call.exec H e).state.originalImageData = e.originalImageData := by
  cases call with
  | applyEffect effectName value => exact applyEffect_original H effectName value e
  | applyPreset presetName => exact applyPreset_original H presetName e
  | reset => exact reset_original e
  | undo => exact (undo_frame e).1
  | redo => exact (redo_frame e).1

/-- C17: whatever the engine state, no sequence of `applyEffect`, `applyPreset`, `reset`,
`undo` and `redo` calls, with any identifiers and values and whether the calls return or
throw, changes the original buffer: after the calls it is the buffer `loadImage` left, which
for a non-empty source is a copy of the source. -/
theorem original_never_changes (H : Host) (e0 : Engine) (source : ImageData)
    (calls : List Call) :
    (run H (loadImage source e0).state calls).originalImageData
        = (loadImage source e0).state.originalImageData
      ∧ (loadImage source e0).state.originalImageData
        = (if source.width = 0 ∨ source.height = 0 then e0.originalImageData
           else some source)
      ∧ ∀ e : Engine, (run H e calls).originalImageData = e.originalImageData := by
  have hrun : ∀ e : Engine, (run H e calls).originalImageData = e.originalImageData := by
    induction calls with
    | nil => intro e; rfl
    | cons call rest ih =>
      intro e
      show (run H (call.exec H e).state rest).originalImageData = e.originalImageData
      rw [ih, exec_original]
  refine ⟨hrun _, ?_, hrun⟩
  unfold loadImage
  split_ifs
  · rfl
  · rw [(saveState_frame _).2.1]

theorem applyPreset_loaded (H : Host) (e : Engine) (imageData original : ImageData)
    (presetName : String) (preset : Preset) (result : ImageData) (draws : Nat)
    (hcur : e.imageData = some imageData) (horig : e.originalImageData = some original)
    (hshape : SameShape imageData original)
    (hpreset : mapGet e.presets presetName = some preset)
    (hcompose : composeEffects H (registeredSettings e.effects preset.settings)
      (original, e.draws) = Except.ok (result, draws)) :
    reset e = saveState { e with imageData := some original }
      ∧ applyPreset H presetName e
        = saveState { (saveState { e with imageData := some original }).state with
            imageData := some result, draws := draws } := by
  have hcopy : ({ imageData with data := original.data } : ImageData) = original := by
    obtain ⟨w, h, d⟩ := original
    obtain ⟨hw, hh, -⟩ := hshape
    simp only at hw hh
    rw [← hw, ← hh]
  have hr := reset_loaded e imageData original hcur horig hshape.2.2
  rw [hcopy] at hr
  refine ⟨hr, ?_⟩
  have hf := saveState_frame ({ e with imageData := some original } : Engine)
  have hn := saveState_isNormal ({ e with imageData := some original } : Engine) original rfl
  unfold applyPreset
  simp only [hpreset, hr]
  cases hs : saveState ({ e with imageData := some original } : Engine) with
  | throws err e1 => rw [hs] at hn; exact absurd hn (by simp [Completion.isNormal])
  | normal e1 =>
    rw [hs] at hf
    simp only [Completion.state] at hf
    simp only []
    have hc : composeEffects H (registeredSettings e1.effects preset.settings)
        (original, e1.draws) = Except.ok (result, draws) := by
      rw [hf.2.2.1, hf.2.2.2.2.2]; exact hcompose
    rw [applySettings_compose H preset.settings e1 original result draws hf.1 hc]
    rfl

/-- C14, counterexample: after `loadImage` and `applyEffect('brightness', 20)`, `undo()`
changes the working buffer and a following `redo()` changes it again, and neither appends
a snapshot: the history stays the same two entries. -/
theorem undo_redo_append_no_snapshot :
    (undo (run Host.sample (loadImage grayPixel Engine.new).state
        [Call.applyEffect "brightness" 20])).state.imageData
        ≠ (run Host.sample (loadImage grayPixel Engine.new).state
            [Call.applyEffect "brightness" 20]).imageData
      ∧ (undo (run Host.sample (loadImage grayPixel Engine.new).state
        [Call.applyEffect "brightness" 20])).state.history
        = (run Host.sample (loadImage grayPixel Engine.new).state
            [Call.applyEffect "brightness" 20]).history
      ∧ (redo (run Host.sample (loadImage grayPixel Engine.new).state
        [Call.applyEffect "brightness" 20, Call.undo])).state.imageData
        ≠ (run Host.sample (loadImage grayPixel Engine.new).state
            [Call.applyEffect "brightness" 20, Call.undo]).imageData
      ∧ (redo (run Host.sample (loadImage grayPixel Engine.new).state
        [Call.applyEffect "brightness" 20, Call.undo])).state.history
        = (run Host.sample (loadImage grayPixel Engine.new).state
            [Call.applyEffect "brightness" 20, Call.undo]).history
      ∧ (run Host.sample (loadImage grayPixel Engine.new).state
            [Call.applyEffect "brightness" 20]).history.length = 2 := by
  decide!

theorem applyEffect_pushes_one_entry (H : Host) (e : Engine) (imageData original : ImageData)
    (effectName : String) (value : JSNum) (effect : Effect) (result : ImageData) (draws : Nat)
    (hcur : e.imageData = some imageData) (horig : e.originalImageData = some original)
    (hshape : SameShape imageData original)
    (heff : mapGet e.effects effectName = some effect)
    (happly : effect.apply H e.draws original value = Except.ok (result, draws))
    (htail : e.historyIndex = (e.history.length : Int) - 1)
    (hroom : e.history.length < e.maxHistorySize) :
    applyEffect H effectName value e = Completion.normal { e with
      imageData := some result, draws := draws,
      history := e.history ++ [result], historyIndex := e.historyIndex + 1 } := by
  have hcopy : ({ imageData with data := original.data } : ImageData) = original := by
    obtain ⟨w, h, d⟩ := original
    obtain ⟨hw, hh, -⟩ := hshape
    simp only at hw hh
    rw [← hw, ← hh]
  rw [applyEffect_loaded H e imageData original effectName value effect hcur horig hshape.2.2
    heff, hcopy, happly]
  simp only []
  rw [saveState_loaded _ result rfl]
  have hk : keptHistory ({ e with imageData := some result, draws := draws } : Engine)
      = e.history := by
    unfold keptHistory
    rw [if_neg]
    show ¬ (e.historyIndex < (e.history.length : Int) - 1)
    omega
  rw [hk, if_neg]
  show ¬ (e.maxHistorySize < (e.history ++ [result]).length)
  rw [List.length_append, List.length_singleton]
  omega

/-- C15, the code at the failing input: on the engine just loaded with the gray pixel
(history of length `1`, `historyIndex = 0` at the tail, cap `50`), `applyPreset('portrait')`
returns normally and leaves a history of length `3` with `historyIndex = 2`: entry `1` is the
snapshot of the original taken by `reset()`, entry `2` the preset result. The same call of
`applyEffect('brightness', 20)` leaves length `2` and index `1`. -/
theorem applyPreset_pushes_two_entries :
    (loadImage grayPixel Engine.new).state.history.length = 1
      ∧ (loadImage grayPixel Engine.new).state.historyIndex = 0
      ∧ (loadImage grayPixel Engine.new).state.maxHistorySize = 50
      ∧ (applyPreset Host.sample "portrait" (loadImage grayPixel Engine.new).state).isNormal
          = true
      ∧ (applyPreset Host.sample "portrait"
          (loadImage grayPixel Engine.new).state).state.history.length = 3
      ∧ (applyPreset Host.sample "portrait"
          (loadImage grayPixel Engine.new).state).state.historyIndex = 2
      ∧ (applyPreset Host.sample "portrait"
          (loadImage grayPixel Engine.new).state).state.history[1]? = some grayPixel
      ∧ (applyPreset Host.sample "portrait"
          (loadImage grayPixel Engine.new).state).state.history[2]?
          = (applyPreset Host.sample "portrait"
              (loadImage grayPixel Engine.new).state).state.imageData
      ∧ (applyEffect Host.sample "brightness" 20
          (loadImage grayPixel Engine.new).state).state.history.length = 2
      ∧ (applyEffect Host.sample "brightness" 20
          (loadImage grayPixel Engine.new).state).state.historyIndex = 1 := by
  decide!

/-- C16, the code at the failing input: `loadImage` of the red pixel on an engine that
already holds the gray pixel leaves a history of two snapshots (the gray one still first)
and `historyIndex = 1`; `undo()` then copies the gray samples into the buffer of the red
image. When the first image is the 4×4 white square and the second the gray pixel, that
`undo()` throws, the snapshot being longer than the working buffer. On a new engine the
history is the one snapshot and the index `0`. -/
theorem loadImage_keeps_old_history :
    (loadImage redPixel (loadImage grayPixel Engine.new).state).state.imageData = some redPixel
      ∧ (loadImage redPixel (loadImage grayPixel Engine.new).state).state.originalImageData
          = some redPixel
      ∧ (loadImage redPixel (loadImage grayPixel Engine.new).state).state.history
          = [grayPixel, redPixel]
      ∧ (loadImage redPixel (loadImage grayPixel Engine.new).state).state.historyIndex = 1
      ∧ (undo (loadImage redPixel (loadImage grayPixel Engine.new).state).state).state.imageData
          = some grayPixel
      ∧ (undo (loadImage grayPixel (loadImage whiteSquare Engine.new).state).state).thrown
          = some Abrupt.rangeError
      ∧ (loadImage grayPixel Engine.new).state.history = [grayPixel]
      ∧ (loadImage grayPixel Engine.new).state.historyIndex = 0 := by
  decide!

/-- C18, the code at the failing input: the registry holds 28 effects, and for each of
`crossProcess`, `filmGrain`, `colorPop`, `drama` and `orton`, whose method the class does not
define, `applyEffect` on a loaded engine throws (a `TypeError`), with the value inside the
declared range `[0, 100]`; the working buffer is left reset to the original and no snapshot
is saved. -/
theorem applyEffect_throws_for_undefined_methods :
    loadEffects.length = 28
      ∧ (applyEffect Host.sample "crossProcess" 60 (loadImage grayPixel Engine.new).state).thrown
          = some Abrupt.typeError
      ∧ (applyEffect Host.sample "filmGrain" 60 (loadImage grayPixel Engine.new).state).thrown
          = some Abrupt.typeError
      ∧ (applyEffect Host.sample "colorPop" 60 (loadImage grayPixel Engine.new).state).thrown
          = some Abrupt.typeError
      ∧ (applyEffect Host.sample "drama" 60 (loadImage grayPixel Engine.new).state).thrown
          = some Abrupt.typeError
      ∧ (applyEffect Host.sample "orton" 60 (loadImage grayPixel Engine.new).state).thrown
          = some Abrupt.typeError
      ∧ (applyEffect Host.sample "drama" 60
          (loadImage grayPixel Engine.new).state).state.history.length = 1
      ∧ (applyEffect Host.sample "drama" 60
          (loadImage grayPixel Engine.new).state).state.imageData = some grayPixel
      ∧ (mapGet loadEffects "drama").isSome = true := by
  decide!

theorem applyEffect_imageData (H : Host) (e : Engine) (imageData original : ImageData)
    (effectName : String) (value : JSNum) (effect : Effect) (result : ImageData) (draws : Nat)
    (hcur : e.imageData = some imageData) (horig : e.originalImageData = some original)
    (hshape : SameShape imageData original)
    (heff : mapGet e.effects effectName = some effect)
    (happly : effect.apply H e.draws original value = Except.ok (result, draws)) :
    (applyEffect H effectName value e).state.imageData = some result := by
  have hcopy : ({ imageData with data := original.data } : ImageData) = original := by
    obtain ⟨w, h, d⟩ := original
    obtain ⟨hw, hh, -⟩ := hshape
    simp only at hw hh
    rw [← hw, ← hh]
  rw [applyEffect_loaded H e imageData original effectName value effect hcur horig hshape.2.2
    heff, hcopy, happly]
  exact (saveState_frame _).1

theorem applyPreset_imageData (H : Host) (e : Engine) (imageData original : ImageData)
    (presetName : String) (preset : Preset) (result : ImageData) (draws : Nat)
    (hcur : e.imageData = some imageData) (horig : e.originalImageData = some original)
    (hshape : SameShape imageData original)
    (hpreset : mapGet e.presets presetName = some preset)
    (hcompose : composeEffects H (registeredSettings e.effects preset.settings)
      (original, e.draws) = Except.ok (result, draws)) :
    (applyPreset H presetName e).state.imageData = some result := by
  rw [(applyPreset_loaded H e imageData original presetName preset result draws hcur horig
    hshape hpreset hcompose).2]
  exact (saveState_frame _).1

/-- C19: there is a source image, the gray pixel `(100, 100, 100, 255)`, for which applying a
preset with the settings `{brightness: 10, contrast: 10}` leaves a working buffer other than
the one `applyEffect('contrast', 10)` leaves: the preset gives contrast applied to the
brightened buffer, `(126, 126, 126, 255)`, the single effect gives contrast applied to the
original, `(98, 98, 98, 255)`. -/
theorem preset_accumulates (H : Host) :
    ∃ source : ImageData,
      (applyPreset H "sequence"
          ((loadImage source Engine.new).state.setPreset "sequence"
            brightnessThenContrast)).state.imageData
        ≠ (applyEffect H "contrast" 10
          ((loadImage source Engine.new).state.setPreset "sequence"
            brightnessThenContrast)).state.imageData
      ∧ (applyPreset H "sequence"
          ((loadImage source Engine.new).state.setPreset "sequence"
            brightnessThenContrast)).state.imageData
        = some (adjustContrast (adjustBrightness source 10) 10)
      ∧ (applyEffect H "contrast" 10
          ((loadImage source Engine.new).state.setPreset "sequence"
            brightnessThenContrast)).state.imageData
        = some (adjustContrast source 10)
      ∧ adjustContrast (adjustBrightness source 10) 10 = ⟨1, 1, [126, 126, 126, 255]⟩
      ∧ adjustContrast source 10 = ⟨1, 1, [98, 98, 98, 255]⟩ := by
  have hp := applyPreset_imageData H
    ((loadImage grayPixel Engine.new).state.setPreset "sequence" brightnessThenContrast)
    grayPixel grayPixel "sequence" brightnessThenContrast
    (adjustContrast (adjustBrightness grayPixel 10) 10) 0 rfl rfl (SameShape.refl grayPixel)
    rfl rfl
  have he := applyEffect_imageData H
    ((loadImage grayPixel Engine.new).state.setPreset "sequence" brightnessThenContrast)
    grayPixel grayPixel "contrast" 10
    ⟨"对比度", EffectFn.ofTransform adjustContrast, ⟨-100, 100, 0⟩, "basic"⟩
    (adjustContrast grayPixel 10) 0 rfl rfl (SameShape.refl grayPixel) rfl rfl
  refine ⟨grayPixel, ?_, hp, he, by decide!, by decide!⟩
  rw [hp, he]
  decide!

/-- C21: `applyBlur(buffer, 0)` returns the buffer with every sample unchanged, whatever the
host functions. -/
theorem applyBlur_zero_returns_buffer (H : Host) (img : ImageData) :
    applyBlur H img 0 = Except.ok img := by
  unfold applyBlur
  rw [if_pos (by decide)]

theorem forLoop_induction_idx {σ : Type} (P : σ → Prop) (start stop step : Nat)
    (body : Nat → σ → σ)
    (hbody : ∀ k, k < (stop - start + (step - 1)) / step → ∀ s, P s → P (body (start + step * k) s))
    (s : σ) (hs : P s) : P (forLoop start stop step body s) := by
  unfold forLoop
  generalize (stop - start + (step - 1)) / step = n at hbody
  induction n with
  | zero => simpa using hs
  | succ n ih =>
    rw [List.range_succ, List.foldl_append, List.foldl_cons, List.foldl_nil]
    exact hbody n (Nat.lt_succ_self n) _ (ih (fun k hk => hbody k (Nat.lt_succ_of_lt hk)))

theorem store_keepsAlpha (d0 d : List Nat) (i : Nat) (x : JSNum) (hi : i % 4 ≠ 3)
    (h : KeepsAlpha d0 d) : KeepsAlpha d0 (store d i x) := by
  intro j hj
  rw [getElem?_store, if_neg (by omega)]
  exact h j hj

theorem keepsAlpha_self (d : List Nat) : KeepsAlpha d d := fun _ _ => rfl

theorem adjustBrightness_keepsAlpha (img : ImageData) (v : JSNum) :
    KeepsAlpha img.data (adjustBrightness img v).data := by
  dsimp only [adjustBrightness]
  refine forLoop_induction_idx (fun s => KeepsAlpha img.data s) _ _ _ _
    (fun k hk s hs => ?_) _ (keepsAlpha_self _)
  repeat (first | exact hs | refine store_keepsAlpha _ _ _ _ (by omega) ?_)

theorem adjustContrast_keepsAlpha (img : ImageData) (v : JSNum) :
    KeepsAlpha img.data (adjustContrast img v).data := by
  dsimp only [adjustContrast]
  refine forLoop_induction_idx (fun s => KeepsAlpha img.data s) _ _ _ _
    (fun k hk s hs => ?_) _ (keepsAlpha_self _)
  repeat (first | exact hs | refine store_keepsAlpha _ _ _ _ (by omega) ?_)

theorem adjustSaturation_keepsAlpha (img : ImageData) (v : JSNum) :
    KeepsAlpha img.data (adjustSaturation img v).data := by
  dsimp only [adjustSaturation]
  refine forLoop_induction_idx (fun s => KeepsAlpha img.data s) _ _ _ _
    (fun k hk s hs => ?_) _ (keepsAlpha_self _)
  repeat (first | exact hs | refine store_keepsAlpha _ _ _ _ (by omega) ?_)

theorem adjustHue_keepsAlpha (img : ImageData) (v : JSNum) :
    KeepsAlpha img.data (adjustHue img v).data := by
  dsimp only [adjustHue]
  refine forLoop_induction_idx (fun s => KeepsAlpha img.data s) _ _ _ _
    (fun k hk s hs => ?_) _ (keepsAlpha_self _)
  repeat (first | exact hs | refine store_keepsAlpha _ _ _ _ (by omega) ?_)

theorem adjustTemperature_keepsAlpha (img : ImageData) (v : JSNum) :
    KeepsAlpha img.data (adjustTemperature img v).data := by
  dsimp only [adjustTemperature]
  refine forLoop_induction_idx (fun s => KeepsAlpha img.data s) _ _ _ _
    (fun k hk s hs => ?_) _ (keepsAlpha_self _)
  (try split_ifs) <;>
    repeat (first | exact hs | refine store_keepsAlpha _ _ _ _ (by omega) ?_)

theorem adjustTint_keepsAlpha (img : ImageData) (v : JSNum) :
    KeepsAlpha img.data (adjustTint img v).data := by
  dsimp only [adjustTint]
  refine forLoop_induction_idx (fun s => KeepsAlpha img.data s) _ _ _ _
    (fun k hk s hs => ?_) _ (keepsAlpha_self _)
  (try split_ifs) <;>
    repeat (first | exact hs | refine store_keepsAlpha _ _ _ _ (by omega) ?_)

theorem adjustHighlights_keepsAlpha (img : ImageData) (v : JSNum) :
    KeepsAlpha img.data (adjustHighlights img v).data := by
  dsimp only [adjustHighlights]
  refine forLoop_induction_idx (fun s => KeepsAlpha img.data s) _ _ _ _
    (fun k hk s hs => ?_) _ (keepsAlpha_self _)
  (try split_ifs) <;>
    repeat (first | exact hs | refine store_keepsAlpha _ _ _ _ (by omega) ?_)

theorem adjustShadows_keepsAlpha (img : ImageData) (v : JSNum) :
    KeepsAlpha img.data (adjustShadows img v).data := by
  dsimp only [adjustShadows]
  refine forLoop_induction_idx (fun s => KeepsAlpha img.data s) _ _ _ _
    (fun k hk s hs => ?_) _ (keepsAlpha_self _)
  (try split_ifs) <;>
    repeat (first | exact hs | refine store_keepsAlpha _ _ _ _ (by omega) ?_)

theorem adjustWhites_keepsAlpha (img : ImageData) (v : JSNum) :
    KeepsAlpha img.data (adjustWhites img v).data := by
  dsimp only [adjustWhites]
  refine forLoop_induction_idx (fun s => KeepsAlpha img.data s) _ _ _ _
    (fun k hk s hs => ?_) _ (keepsAlpha_self _)
  (try split_ifs) <;>
    repeat (first | exact hs | refine store_keepsAlpha _ _ _ _ (by omega) ?_)

theorem adjustBlacks_keepsAlpha (img : ImageData) (v : JSNum) :
    KeepsAlpha img.data (adjustBlacks img v).data := by
  dsimp only [adjustBlacks]
  refine forLoop_induction_idx (fun s => KeepsAlpha img.data s) _ _ _ _
    (fun k hk s hs => ?_) _ (keepsAlpha_self _)
  (try split_ifs) <;>
    repeat (first | exact hs | refine store_keepsAlpha _ _ _ _ (by omega) ?_)

theorem adjustVibrance_keepsAlpha (img : ImageData) (v : JSNum) :
    KeepsAlpha img.data (adjustVibrance img v).data := by
  dsimp only [adjustVibrance]
  refine forLoop_induction_idx (fun s => KeepsAlpha img.data s) _ _ _ _
    (fun k hk s hs => ?_) _ (keepsAlpha_self _)
  (try split_ifs) <;>
    repeat (first | exact hs | refine store_keepsAlpha _ _ _ _ (by omega) ?_)

theorem adjustDehaze_keepsAlpha (img : ImageData) (v : JSNum) :
    KeepsAlpha img.data (adjustDehaze img v).data := by
  dsimp only [adjustDehaze]
  refine forLoop_induction_idx (fun s => KeepsAlpha img.data s) _ _ _ _
    (fun k hk s hs => ?_) _ (keepsAlpha_self _)
  repeat (first | exact hs | refine store_keepsAlpha _ _ _ _ (by omega) ?_)

theorem applyVintage_keepsAlpha (img : ImageData) (v : JSNum) :
    KeepsAlpha img.data (applyVintage img v).data := by
  dsimp only [applyVintage]
  refine forLoop_induction_idx (fun s => KeepsAlpha img.data s) _ _ _ _
    (fun k hk s hs => ?_) _ (keepsAlpha_self _)
  repeat (first | exact hs | refine store_keepsAlpha _ _ _ _ (by omega) ?_)

theorem applySepia_keepsAlpha (img : ImageData) (v : JSNum) :
    KeepsAlpha img.data (applySepia img v).data := by
  dsimp only [applySepia]
  refine forLoop_induction_idx (fun s => KeepsAlpha img.data s) _ _ _ _
    (fun k hk s hs => ?_) _ (keepsAlpha_self _)
  repeat (first | exact hs | refine store_keepsAlpha _ _ _ _ (by omega) ?_)

theorem applyBlackAndWhite_keepsAlpha (img : ImageData) (v : JSNum) :
    KeepsAlpha img.data (applyBlackAndWhite img v).data := by
  dsimp only [applyBlackAndWhite]
  refine forLoop_induction_idx (fun s => KeepsAlpha img.data s) _ _ _ _
    (fun k hk s hs => ?_) _ (keepsAlpha_self _)
  repeat (first | exact hs | refine store_keepsAlpha _ _ _ _ (by omega) ?_)

theorem adjustExposure_keepsAlpha (H : Host) (img : ImageData) (v : JSNum) :
    KeepsAlpha img.data (adjustExposure H img v).data := by
  dsimp only [adjustExposure]
  refine forLoop_induction_idx (fun s => KeepsAlpha img.data s) _ _ _ _
    (fun k hk s hs => ?_) _ (keepsAlpha_self _)
  repeat (first | exact hs | refine store_keepsAlpha _ _ _ _ (by omega) ?_)

theorem adjustClarity_keepsAlpha (img : ImageData) (v : JSNum) :
    KeepsAlpha img.data (adjustClarity img v).data := by
  dsimp only [adjustClarity]
  refine forLoop_induction_idx (fun s => KeepsAlpha img.data s) _ _ _ _
    (fun ky hky s hs =>
      forLoop_induction_idx _ _ _ _ _ (fun kx hkx s hs => ?_) s hs) _ (keepsAlpha_self _)
  repeat (first | exact hs | refine store_keepsAlpha _ _ _ _ (by omega) ?_)

theorem addVignette_keepsAlpha (H : Host) (img : ImageData) (v : JSNum) :
    KeepsAlpha img.data (addVignette H img v).data := by
  dsimp only [addVignette]
  refine forLoop_induction_idx (fun s => KeepsAlpha img.data s) _ _ _ _
    (fun ky hky s hs =>
      forLoop_induction_idx _ _ _ _ _ (fun kx hkx s hs => ?_) s hs) _ (keepsAlpha_self _)
  repeat (first | exact hs | refine store_keepsAlpha _ _ _ _ (by omega) ?_)

theorem applyGlow_keepsAlpha (img : ImageData) (v : JSNum) :
    KeepsAlpha img.data (applyGlow img v).data := by
  dsimp only [applyGlow]
  refine forLoop_induction_idx (fun s => KeepsAlpha img.data s) _ _ _ _
    (fun ky hky s hs =>
      forLoop_induction_idx _ _ _ _ _ (fun kx hkx s hs => ?_) s hs) _ (keepsAlpha_self _)
  (try split_ifs) <;>
    repeat (first | exact hs | refine store_keepsAlpha _ _ _ _ (by omega) ?_)

theorem applySharpen_keepsAlpha (img : ImageData) (v : JSNum) :
    KeepsAlpha img.data (applySharpen img v).data := by
  dsimp only [applySharpen]
  refine forLoop_induction_idx (fun s => KeepsAlpha img.data s) _ _ _ _
    (fun ky hky s hs =>
      forLoop_induction_idx _ _ _ _ _ (fun kx hkx s hs =>
        forLoop_induction_idx _ _ _ _ _ (fun kc hkc s hs => ?_) s hs) s hs) _ (keepsAlpha_self _)
  repeat (first | exact hs | refine store_keepsAlpha _ _ _ _ (by omega) ?_)

theorem addGrain_keepsAlpha (H : Host) (draws : Nat) (img : ImageData) (v : JSNum) :
    KeepsAlpha img.data (addGrain H draws img v).1.data := by
  dsimp only [addGrain]
  refine forLoop_induction_idx (fun s => KeepsAlpha img.data s) _ _ _ _
    (fun k hk s hs => ?_) _ (keepsAlpha_self _)
  repeat (first | exact hs | refine store_keepsAlpha _ _ _ _ (by omega) ?_)

theorem applyBlur_keepsAlpha (H : Host) (img : ImageData) (v : JSNum) :
    OnResult (applyBlur H img v) (fun res => KeepsAlpha img.data res.data) := by
  unfold applyBlur OnResult
  split_ifs with h0
  · exact keepsAlpha_self _
  · dsimp only
    cases hw : getGaussianWeights H (Math.floor v) with
    | error err => trivial
    | ok weights =>
      dsimp only
      refine forLoop_induction_idx (fun s => KeepsAlpha img.data s) _ _ _ _
        (fun kx hkx s hs =>
          forLoop_induction_idx _ _ _ _ _ (fun ky hky s hs => ?_) s hs) _ (keepsAlpha_self _)
      repeat (first | exact hs | refine store_keepsAlpha _ _ _ _ (by omega) ?_)

theorem applyDreamy_keepsAlpha (H : Host) (img : ImageData) (v : JSNum) :
    OnResult (applyDreamy H img v) (fun res => KeepsAlpha img.data res.data) := by
  have hb := applyBlur_keepsAlpha H img (v / 100 * 2)
  unfold applyDreamy
  dsimp only
  cases hr : applyBlur H img (v / 100 * 2) with
  | error err => trivial
  | ok blurred =>
    rw [hr] at hb
    have hb2 : KeepsAlpha img.data blurred.data := hb
    show KeepsAlpha img.data _
    dsimp only
    refine forLoop_induction_idx (fun s => KeepsAlpha img.data s) _ _ _ _
      (fun k hk s hs => ?_) _ hb2
    repeat (first | exact hs | refine store_keepsAlpha _ _ _ _ (by omega) ?_)

theorem onResult_and (r : Except Abrupt ImageData) (P Q : ImageData → Prop)
    (hP : ∀ res, r = Except.ok res → P res) (hQ : OnResult r Q) :
    OnResult r (fun res => P res ∧ Q res) := by
  cases r with
  | error err => trivial
  | ok res => exact ⟨hP res rfl, hQ⟩

/-- C30: each of the 23 pixel transforms the class defines (the `adjust*`, `add*` and
`apply*` methods) returns a buffer of the same width, height and number of samples whose
alpha samples, the samples at the indices `j` with `j % 4 = 3`, are those of the input, for
every input buffer and every value; for `applyBlur` and `applyDreamy` this holds of the
buffer they return whenever they return one. -/
theorem transforms_keep_alpha_and_shape (H : Host) (draws : Nat) (img : ImageData)
    (value : JSNum) :
    (SameShape (adjustBrightness img value) img ∧ KeepsAlpha img.data (adjustBrightness img value).data)
      ∧ (SameShape (adjustContrast img value) img ∧ KeepsAlpha img.data (adjustContrast img value).data)
      ∧ (SameShape (adjustSaturation img value) img ∧ KeepsAlpha img.data (adjustSaturation img value).data)
      ∧ (SameShape (adjustHue img value) img ∧ KeepsAlpha img.data (adjustHue img value).data)
      ∧ (SameShape (adjustTemperature img value) img ∧ KeepsAlpha img.data (adjustTemperature img value).data)
      ∧ (SameShape (adjustTint img value) img ∧ KeepsAlpha img.data (adjustTint img value).data)
      ∧ (SameShape (adjustHighlights img value) img ∧ KeepsAlpha img.data (adjustHighlights img value).data)
      ∧ (SameShape (adjustShadows img value) img ∧ KeepsAlpha img.data (adjustShadows img value).data)
      ∧ (SameShape (adjustWhites img value) img ∧ KeepsAlpha img.data (adjustWhites img value).data)
      ∧ (SameShape (adjustBlacks img value) img ∧ KeepsAlpha img.data (adjustBlacks img value).data)
      ∧ (SameShape (adjustClarity img value) img ∧ KeepsAlpha img.data (adjustClarity img value).data)
      ∧ (SameShape (adjustVibrance img value) img ∧ KeepsAlpha img.data (adjustVibrance img value).data)
      ∧ (SameShape (adjustDehaze img value) img ∧ KeepsAlpha img.data (adjustDehaze img value).data)
      ∧ (SameShape (applySharpen img value) img ∧ KeepsAlpha img.data (applySharpen img value).data)
      ∧ (SameShape (applyVintage img value) img ∧ KeepsAlpha img.data (applyVintage img value).data)
      ∧ (SameShape (applySepia img value) img ∧ KeepsAlpha img.data (applySepia img value).data)
      ∧ (SameShape (applyBlackAndWhite img value) img ∧ KeepsAlpha img.data (applyBlackAndWhite img value).data)
      ∧ (SameShape (applyGlow img value) img ∧ KeepsAlpha img.data (applyGlow img value).data)
      ∧ (SameShape (adjustExposure H img value) img ∧ KeepsAlpha img.data (adjustExposure H img value).data)
      ∧ (SameShape (addVignette H img value) img ∧ KeepsAlpha img.data (addVignette H img value).data)
      ∧ (SameShape (addGrain H draws img value).1 img
          ∧ KeepsAlpha img.data (addGrain H draws img value).1.data)
      ∧ OnResult (applyBlur H img value)
          (fun res => SameShape res img ∧ KeepsAlpha img.data res.data)
      ∧ OnResult (applyDreamy H img value)
          (fun res => SameShape res img ∧ KeepsAlpha img.data res.data) :=
  ⟨⟨adjustBrightness_shape img value, adjustBrightness_keepsAlpha img value⟩,
    ⟨adjustContrast_shape img value, adjustContrast_keepsAlpha img value⟩,
    ⟨adjustSaturation_shape img value, adjustSaturation_keepsAlpha img value⟩,
    ⟨adjustHue_shape img value, adjustHue_keepsAlpha img value⟩,
    ⟨adjustTemperature_shape img value, adjustTemperature_keepsAlpha img value⟩,
    ⟨adjustTint_shape img value, adjustTint_keepsAlpha img value⟩,
    ⟨adjustHighlights_shape img value, adjustHighlights_keepsAlpha img value⟩,
    ⟨adjustShadows_shape img value, adjustShadows_keepsAlpha img value⟩,
    ⟨adjustWhites_shape img value, adjustWhites_keepsAlpha img value⟩,
    ⟨adjustBlacks_shape img value, adjustBlacks_keepsAlpha img value⟩,
    ⟨adjustClarity_shape img value, adjustClarity_keepsAlpha img value⟩,
    ⟨adjustVibrance_shape img value, adjustVibrance_keepsAlpha img value⟩,
    ⟨adjustDehaze_shape img value, adjustDehaze_keepsAlpha img value⟩,
    ⟨applySharpen_shape img value, applySharpen_keepsAlpha img value⟩,
    ⟨applyVintage_shape img value, applyVintage_keepsAlpha img value⟩,
    ⟨applySepia_shape img value, applySepia_keepsAlpha img value⟩,
    ⟨applyBlackAndWhite_shape img value, applyBlackAndWhite_keepsAlpha img value⟩,
    ⟨applyGlow_shape img value, applyGlow_keepsAlpha img value⟩,
    ⟨adjustExposure_shape H img value, adjustExposure_keepsAlpha H img value⟩,
    ⟨addVignette_shape H img value, addVignette_keepsAlpha H img value⟩,
    ⟨addGrain_shape H draws img value, addGrain_keepsAlpha H draws img value⟩,
    onResult_and _ _ _ (fun res h => applyBlur_shape H img res value h) (applyBlur_keepsAlpha H img value),
    onResult_and _ _ _ (fun res h => applyDreamy_shape H img res value h) (applyDreamy_keepsAlpha H img value)⟩

theorem JSNum.roundDyadic_ne_nan (m e : Int) : JSNum.roundDyadic m e ≠ JSNum.nan := by
  unfold JSNum.roundDyadic
  dsimp only
  split_ifs <;> simp

theorem JSNum.roundQuot_ne_nan (a : Int) (b : Nat) (e : Int) (hb : b ≠ 0) :
    JSNum.roundQuot a b e ≠ JSNum.nan := by
  unfold JSNum.roundQuot
  rw [if_neg hb]
  exact JSNum.roundDyadic_ne_nan _ _

theorem JSNum.div_fin_ne_nan (a : JSNum) (m e : Int) (ha : a ≠ JSNum.nan) (hm : m ≠ 0) :
    a / JSNum.fin m e ≠ JSNum.nan := by
  show JSNum.div a (JSNum.fin m e) ≠ JSNum.nan
  cases a with
  | nan => exact absurd rfl ha
  | inf s => simp [JSNum.div]
  | fin m1 e1 =>
    simp only [JSNum.div, if_neg hm]
    exact JSNum.roundQuot_ne_nan _ _ _ (by omega)

theorem JSNum.mul_fin_ne_nan (a : JSNum) (m e : Int) (ha : a ≠ JSNum.nan) (hm : m ≠ 0) :
    a * JSNum.fin m e ≠ JSNum.nan := by
  show JSNum.mul a (JSNum.fin m e) ≠ JSNum.nan
  cases a with
  | nan => exact absurd rfl ha
  | inf s => simp [JSNum.mul, hm]
  | fin m1 e1 =>
    simp only [JSNum.mul]
    exact JSNum.roundDyadic_ne_nan _ _

theorem JSNum.fin_sub_ne_nan (m e : Int) (b : JSNum) (hb : b ≠ JSNum.nan) :
    JSNum.fin m e - b ≠ JSNum.nan := by
  show JSNum.add (JSNum.fin m e) (JSNum.neg b) ≠ JSNum.nan
  cases b with
  | nan => exact absurd rfl hb
  | inf s => simp [JSNum.add, JSNum.neg]
  | fin m1 e1 =>
    simp only [JSNum.add, JSNum.neg]
    exact JSNum.roundDyadic_ne_nan _ _

theorem JSNum.le_max_right (a : JSNum) (m e : Int) (ha : a ≠ JSNum.nan) :
    JSNum.le (JSNum.fin m e) (JSNum.max a (JSNum.fin m e)) = true := by
  cases a with
  | nan => exact absurd rfl ha
  | inf s =>
    simp only [JSNum.max]
    split_ifs with h
    · simp [JSNum.le, JSNum.lt]
    · simp only [JSNum.le, Bool.not_eq_true', ← Bool.not_eq_true]; exact h
  | fin m1 e1 =>
    simp only [JSNum.max]
    split_ifs with h
    · simp [JSNum.le, JSNum.lt]
    · simp only [JSNum.le, Bool.not_eq_true', ← Bool.not_eq_true]; exact h

theorem adjustDehaze_eq_rgbBody (img : ImageData) (value : JSNum) :
    adjustDehaze img value = { img with
      data := forLoop 0 img.data.length 4
        (rgbBody (fun c => Math.max 0 (Math.min 255
          ((c - 255) / Math.max (1 - value / 100 * 0.5) 0.1 + 255)))) img.data } := by
  unfold adjustDehaze
  dsimp only
  congr 2
  funext i d
  unfold rgbBody
  dsimp only
  rw [load_store_ne _ _ _ _ (by omega : i + 1 ≠ i + 2), load_store_ne _ _ _ _ (by omega : i ≠ i + 2),
    load_store_ne _ _ _ _ (by omega : i ≠ i + 1)]

theorem forLoop_rgbBody_sample (F : JSNum → JSNum) (d : List Nat) (j : Nat) :
    (forLoop 0 d.length 4 (rgbBody F) d)[j]? =
      if j % 4 = 3 then d[j]?
      else (d[j]?).map (fun (c : Nat) => JSNum.toUint8Clamp (F (JSNum.ofInt (c : Int)))) := by
  rw [forLoop_rgbBody_getElem?]
  cases d[j]? <;> rfl

theorem dehaze_divisor_ne_nan (value : JSNum) (hvalue : value ≠ JSNum.nan) :
    (1 : JSNum) - value / 100 * 0.5 ≠ JSNum.nan := by
  have h100 : (100 : JSNum) = JSNum.fin 7036874417766400 (-46) := by decide
  have h5 : (0.5 : JSNum) = JSNum.fin 4503599627370496 (-53) := by decide
  have h1 : (1 : JSNum) = JSNum.fin 4503599627370496 (-52) := by decide
  rw [h100, h5, h1]
  exact JSNum.fin_sub_ne_nan _ _ _
    (JSNum.mul_fin_ne_nan _ _ _ (JSNum.div_fin_ne_nan _ _ _ hvalue (by decide)) (by decide))

/-- C25: for every value that is a number (not `NaN`), the divisor of `adjustDehaze`,
`Math.max(1 - (value / 100) * 0.5, 0.1)`, is at least `0.1` and is not zero, and
`adjustDehaze` turns every colour sample `c` into `(c - 255) / divisor + 255` clamped to
`[0, 255]` (stored as an 8-bit sample) and leaves every alpha sample. -/
theorem adjustDehaze_divisor_and_formula (img : ImageData) (value : JSNum) (j : Nat)
    (hvalue : value ≠ JSNum.nan) :
    JSNum.le 0.1 (Math.max (1 - value / 100 * 0.5) 0.1) = true
      ∧ JSNum.strictEq (Math.max (1 - value / 100 * 0.5) 0.1) 0 = false
      ∧ (adjustDehaze img value).data[j]? =
          (if j % 4 = 3 then img.data[j]?
           else (img.data[j]?).map (fun (c : Nat) => JSNum.toUint8Clamp (Math.max 0 (Math.min 255
            ((JSNum.ofInt (c : Int) - 255) / Math.max (1 - value / 100 * 0.5) 0.1 + 255))))) := by
  have h01 : (0.1 : JSNum) = JSNum.fin 7205759403792794 (-56) := by decide
  have hle : JSNum.le 0.1 (Math.max (1 - value / 100 * 0.5) 0.1) = true := by
    rw [h01]
    exact JSNum.le_max_right _ _ _ (dehaze_divisor_ne_nan value hvalue)
  refine ⟨hle, ?_, ?_⟩
  · generalize Math.max (1 - value / 100 * 0.5) 0.1 = d at hle
    cases d with
    | nan => rfl
    | inf s => rfl
    | fin md ed =>
      by_cases h0 : JSNum.fin md ed = 0
      · rw [h0] at hle
        exact absurd hle (by decide)
      · simp only [JSNum.strictEq]
        exact decide_eq_false h0
  · rw [adjustDehaze_eq_rgbBody]
    exact forLoop_rgbBody_sample _ img.data j

theorem adjustDehaze_divisor_and_formula_witness :
    (150 : JSNum) ≠ JSNum.nan
      ∧ JSNum.le 0.1 (Math.max (1 - (150 : JSNum) / 100 * 0.5) 0.1) = true
      ∧ JSNum.strictEq (Math.max (1 - (150 : JSNum) / 100 * 0.5) 0.1) 0 = false
      ∧ (adjustDehaze grayPixel 150).data[1]? =
          (if 1 % 4 = 3 then grayPixel.data[1]?
           else (grayPixel.data[1]?).map (fun (c : Nat) => JSNum.toUint8Clamp (Math.max 0 (Math.min 255
            ((JSNum.ofInt (c : Int) - 255) / Math.max (1 - (150 : JSNum) / 100 * 0.5) 0.1
              + 255))))) :=
  ⟨by decide, adjustDehaze_divisor_and_formula grayPixel 150 1 (by decide)⟩

theorem store3_getElem? (d : List Nat) (i j : Nat) (a b c : JSNum) :
    (store (store (store d i a) (i + 1) b) (i + 2) c)[j]? =
      if j = i then (d[j]?).map (fun _ => JSNum.toUint8Clamp a)
      else if j = i + 1 then (d[j]?).map (fun _ => JSNum.toUint8Clamp b)
      else if j = i + 2 then (d[j]?).map (fun _ => JSNum.toUint8Clamp c)
      else d[j]? := by
  rw [getElem?_store, getElem?_store, getElem?_store]
  by_cases h0 : j = i
  · subst h0
    rw [if_neg (by omega), if_neg (by omega), if_pos rfl, if_pos rfl]
  · by_cases h1 : j = i + 1
    · subst h1
      rw [if_neg (by omega), if_pos rfl, if_neg (by omega), if_neg (by omega), if_pos rfl]
    · by_cases h2 : j = i + 2
      · subst h2
        rw [if_pos rfl, if_neg (by omega), if_neg (by omega), if_neg (by omega),
          if_neg (by omega), if_pos rfl]
      · rw [if_neg (by omega), if_neg (by omega), if_neg (by omega), if_neg h0, if_neg h1,
          if_neg h2]

theorem load_congr (d d' : List Nat) (i : Nat) (h : d[i]? = d'[i]?) : load d i = load d' i := by
  unfold load
  rw [h]

theorem foldl_pixelLocal (body : Nat → List Nat → List Nat) (h : PixelLocal body)
    (d : List Nat) (n j : Nat) :
    ((List.range n).foldl (fun acc k => body (0 + 4 * k) acc) d)[j]? =
      if j / 4 < n then (body (4 * (j / 4)) d)[j]? else d[j]? := by
  induction n generalizing j with
  | zero => simp
  | succ n ih =>
    rw [List.range_succ, List.foldl_append, List.foldl_cons, List.foldl_nil]
    by_cases hn : j / 4 = n
    · rw [if_pos (by omega)]
      have h4 : 0 + 4 * n = 4 * (j / 4) := by omega
      rw [h4]
      by_cases h3 : j = 4 * (j / 4) + 3
      · rw [h.1 _ _ j (by omega) (by omega) (by omega), h.1 _ _ j (by omega) (by omega) (by omega),
          ih, if_neg (by omega)]
      · refine h.2 _ _ _ j ?_ ?_ ?_ (by omega)
        · rw [ih, if_neg (by omega)]
        · rw [ih, if_neg (by omega)]
        · rw [ih, if_neg (by omega)]
    · rw [h.1 _ _ j (by omega) (by omega) (by omega), ih]
      by_cases hlt : j / 4 < n
      · rw [if_pos hlt, if_pos (by omega)]
      · rw [if_neg hlt, if_neg (by omega)]

theorem forLoop_pixelLocal (body : Nat → List Nat → List Nat) (h : PixelLocal body)
    (d : List Nat) (j : Nat) (hj : j < d.length) :
    (forLoop 0 d.length 4 body d)[j]? = (body (4 * (j / 4)) d)[j]? := by
  unfold forLoop
  rw [foldl_pixelLocal body h, if_pos (by omega)]

theorem toneBody_pixelLocal (gate : JSNum → Bool) (factor : JSNum → JSNum) :
    PixelLocal (toneBody gate factor) := by
  constructor
  · intro i d j h0 h1 h2
    unfold toneBody
    dsimp only
    split
    · rw [store3_getElem?, if_neg h0, if_neg h1, if_neg h2]
    · rfl
  · intro i d d' j h0 h1 h2 hj
    unfold toneBody
    dsimp only
    rw [load_congr d d' i h0, load_congr d d' (i + 1) h1, load_congr d d' (i + 2) h2]
    split
    · rw [store3_getElem?, store3_getElem?]
      rcases hj with hj | hj | hj
      · subst hj
        rw [if_pos rfl, if_pos rfl, h0]
      · subst hj
        rw [if_neg (by omega), if_pos rfl, if_neg (by omega), if_pos rfl, h1]
      · subst hj
        rw [if_neg (by omega), if_neg (by omega), if_pos rfl, if_neg (by omega),
          if_neg (by omega), if_pos rfl, h2]
    · rcases hj with hj | hj | hj
      · subst hj; exact h0
      · subst hj; exact h1
      · subst hj; exact h2

theorem forLoop_toneBody_outside (gate : JSNum → Bool) (factor : JSNum → JSNum)
    (d : List Nat) (p j : Nat) (hj : j < 4)
    (hgate : gate (luminance d (4 * p)) = false) :
    (forLoop 0 d.length 4 (toneBody gate factor) d)[4 * p + j]? = d[4 * p + j]? := by
  by_cases hlen : 4 * p + j < d.length
  · rw [forLoop_pixelLocal _ (toneBody_pixelLocal gate factor) d _ hlen]
    have hp : 4 * ((4 * p + j) / 4) = 4 * p := by omega
    rw [hp]
    unfold toneBody
    dsimp only
    unfold luminance at hgate
    rw [hgate]
    rfl
  · have h1 : (forLoop 0 d.length 4 (toneBody gate factor) d).length = d.length := by
      apply forLoop_length
      intro i s
      unfold toneBody
      dsimp only
      split
      · rw [store_length, store_length, store_length]
      · rfl
    rw [List.getElem?_eq_none (by omega), List.getElem?_eq_none (by omega)]

theorem adjustHighlights_eq_toneBody (img : ImageData) (value : JSNum) :
    (adjustHighlights img value).data = forLoop 0 img.data.length 4
      (toneBody (fun l => JSNum.gt l 128) (fun l => 1 + value / 100 * (l - 128) / 127))
      img.data := rfl

theorem adjustShadows_eq_toneBody (img : ImageData) (value : JSNum) :
    (adjustShadows img value).data = forLoop 0 img.data.length 4
      (toneBody (fun l => JSNum.lt l 128) (fun l => 1 + value / 100 * (128 - l) / 128))
      img.data := rfl

theorem adjustWhites_eq_toneBody (img : ImageData) (value : JSNum) :
    (adjustWhites img value).data = forLoop 0 img.data.length 4
      (toneBody (fun l => JSNum.gt l 200) (fun l => 1 + value / 100 * (l - 200) / 55))
      img.data := rfl

theorem adjustBlacks_eq_toneBody (img : ImageData) (value : JSNum) :
    (adjustBlacks img value).data = forLoop 0 img.data.length 4
      (toneBody (fun l => JSNum.lt l 55) (fun l => 1 + value / 100 * (55 - l) / 55))
      img.data := rfl

/-- C22: each tone effect leaves every pixel outside its luminance band unchanged, for every
value. With the luminance `L = 0.299 * R + 0.587 * G + 0.114 * B` of a pixel as the code
computes it, `adjustHighlights` leaves all four samples of a pixel with `L ≤ 128` as they
were, `adjustShadows` those of a pixel with `128 ≤ L`, `adjustWhites` those of a pixel with
`L ≤ 200` and `adjustBlacks` those of a pixel with `55 ≤ L`. -/
theorem tone_effects_leave_pixels_outside_band (img : ImageData) (value : JSNum)
    (ph ps pw pb j : Nat) (hj : j < 4)
    (hh : JSNum.le (luminance img.data (4 * ph)) 128 = true)
    (hs : JSNum.le 128 (luminance img.data (4 * ps)) = true)
    (hw : JSNum.le (luminance img.data (4 * pw)) 200 = true)
    (hb : JSNum.le 55 (luminance img.data (4 * pb)) = true) :
    (adjustHighlights img value).data[4 * ph + j]? = img.data[4 * ph + j]?
      ∧ (adjustShadows img value).data[4 * ps + j]? = img.data[4 * ps + j]?
      ∧ (adjustWhites img value).data[4 * pw + j]? = img.data[4 * pw + j]?
      ∧ (adjustBlacks img value).data[4 * pb + j]? = img.data[4 * pb + j]? := by
  refine ⟨?_, ?_, ?_, ?_⟩
  · rw [adjustHighlights_eq_toneBody]
    exact forLoop_toneBody_outside _ _ _ _ _ hj (JSNum.lt_false_of_le _ _ hh)
  · rw [adjustShadows_eq_toneBody]
    exact forLoop_toneBody_outside _ _ _ _ _ hj (JSNum.lt_false_of_le _ _ hs)
  · rw [adjustWhites_eq_toneBody]
    exact forLoop_toneBody_outside _ _ _ _ _ hj (JSNum.lt_false_of_le _ _ hw)
  · rw [adjustBlacks_eq_toneBody]
    exact forLoop_toneBody_outside _ _ _ _ _ hj (JSNum.lt_false_of_le _ _ hb)

theorem tone_effects_leave_pixels_outside_band_witness :
    (0 : Nat) < 4
      ∧ JSNum.le (luminance darkLightPair.data (4 * 0)) 128 = true
      ∧ JSNum.le 128 (luminance darkLightPair.data (4 * 1)) = true
      ∧ JSNum.le (luminance darkLightPair.data (4 * 0)) 200 = true
      ∧ JSNum.le 55 (luminance darkLightPair.data (4 * 1)) = true
      ∧ (adjustHighlights darkLightPair 100).data[4 * 0 + 0]? = darkLightPair.data[4 * 0 + 0]?
      ∧ (adjustShadows darkLightPair 100).data[4 * 1 + 0]? = darkLightPair.data[4 * 1 + 0]?
      ∧ (adjustWhites darkLightPair 100).data[4 * 0 + 0]? = darkLightPair.data[4 * 0 + 0]?
      ∧ (adjustBlacks darkLightPair 100).data[4 * 1 + 0]? = darkLightPair.data[4 * 1 + 0]? :=
  ⟨by decide, by decide!, by decide!, by decide!, by decide!,
    tone_effects_leave_pixels_outside_band darkLightPair 100 0 1 0 1 0 (by decide)
      (by decide!) (by decide!) (by decide!) (by decide!)⟩

theorem other_presets_complete_on_sample :
    ∀ p ∈ loadPresets, p.1 ≠ "dramatic" →
      (applyPreset Host.sample p.1 (loadImage grayPixel Engine.new).state).isNormal = true := by
  decide!

/-- C26, the code at the failing input: of the 12 built-in presets, `dramatic` holds the
setting `drama: 60`, whose effect is registered with a method the class does not define; so
for every host `applyPreset('dramatic')` on a loaded engine throws (a `TypeError`) in the
middle of the settings, after the reset has saved its snapshot and before the final
`saveState`: the history holds two entries, not three, and the last one is not the working
buffer. -/
theorem applyPreset_dramatic_throws (H : Host) :
    loadPresets.length = 12
      ∧ (mapGet loadPresets "dramatic").map (fun p => p.settings.map (fun s => s.1))
          = some ["contrast", "clarity", "highlights", "shadows", "blacks", "drama",
              "vignette", "saturation"]
      ∧ (applyPreset H "dramatic" (loadImage grayPixel Engine.new).state).thrown
          = some Abrupt.typeError
      ∧ (applyPreset H "dramatic" (loadImage grayPixel Engine.new).state).isNormal = false
      ∧ (applyPreset H "dramatic" (loadImage grayPixel Engine.new).state).state.history
          = [grayPixel, grayPixel]
      ∧ (applyPreset H "dramatic" (loadImage grayPixel Engine.new).state).state.imageData
          = some ⟨1, 1, [98, 98, 98, 255]⟩ :=
  ⟨by decide, by decide, rfl, rfl, rfl, rfl⟩

/-- C27, the code at the failing input: the blur value `0.5`, inside the declared range and
positive, passes the guard `value === 0` and gives `radius = floor(0.5) = 0`, so
`sigma = radius / 3 = 0` is not positive and the exponent's divisor `2 * sigma * sigma` is
zero. For every host the only weight is computed from `exp(NaN)`; with an `exp` that returns
`NaN` there, the weight is `NaN` and `applyBlur` turns the light-gray pixel
`(150, 150, 150, 255)` into `(0, 0, 0, 255)`. `applyDreamy` at `25` calls the blur with
`0.25 * 2 = 0.5` and goes the same way. -/
theorem applyBlur_below_one_has_zero_sigma (H : Host) :
    JSNum.gt (0.5 : JSNum) 0 = true ∧ JSNum.le (0.5 : JSNum) 10 = true
      ∧ JSNum.strictEq (0.5 : JSNum) 0 = false
      ∧ Math.floor (0.5 : JSNum) = 0
      ∧ JSNum.gt (Math.floor (0.5 : JSNum) / 3) 0 = false
      ∧ JSNum.strictEq (2 * (Math.floor (0.5 : JSNum) / 3) * (Math.floor (0.5 : JSNum) / 3)) 0
          = true
      ∧ getGaussianWeights H (Math.floor 0.5)
          = Except.ok [H.exp JSNum.nan / (0 + H.exp JSNum.nan)]
      ∧ getGaussianWeights Host.sample (Math.floor 0.5) = Except.ok [JSNum.nan]
      ∧ applyBlur Host.sample lightPixel 0.5 = Except.ok ⟨1, 1, [0, 0, 0, 255]⟩
      ∧ (25 : JSNum) / 100 * 2 = 0.5
      ∧ applyDreamy Host.sample lightPixel 25 = Except.ok ⟨1, 1, [19, 19, 19, 255]⟩
      ∧ applyDreamy Host.sample lightPixel 0 = Except.ok lightPixel :=
  ⟨by decide!, by decide!, by decide!, by decide!, by decide!, by decide!, rfl, rfl,
    rfl, by decide!, rfl, rfl⟩

theorem tail_concat_getElem? {α : Type} (k : List α) (x : α) (n : Nat)
    (h : k.length = n + 1) : (k ++ [x]).tail[n]? = some x := by
  cases k with
  | nil => simp at h
  | cons a l =>
    have hl : l.length = n := by simpa using h
    show (l ++ [x])[n]? = some x
    rw [← hl]
    simp

theorem saveState_snapshot (e : Engine) (img : ImageData) (hcur : e.imageData = some img)
    (hlow : -1 ≤ e.historyIndex) (hidx : e.historyIndex < e.history.length)
    (hcap : 0 < e.maxHistorySize) :
    (saveState e).isNormal = true
      ∧ (saveState e).state.historyIndex = ((saveState e).state.history.length : Int) - 1
      ∧ 0 ≤ (saveState e).state.historyIndex
      ∧ (saveState e).state.history[(saveState e).state.historyIndex.toNat]? = some img
      ∧ (saveState e).state.imageData = some img := by
  have hk := keptHistory_length e hlow hidx
  have hl : (keptHistory e ++ [img]).length = (keptHistory e).length + 1 := by simp
  rw [saveState_loaded e img hcur]
  split_ifs with hc
  · rw [hl] at hc
    refine ⟨rfl, ?_, ?_, ?_, hcur⟩
    · show e.historyIndex = ((keptHistory e ++ [img]).tail.length : Int) - 1
      rw [List.length_tail, hl]
      omega
    · show (0 : Int) ≤ e.historyIndex
      omega
    · show (keptHistory e ++ [img]).tail[e.historyIndex.toNat]? = some img
      exact tail_concat_getElem? _ _ _ (by omega)
  · refine ⟨rfl, ?_, ?_, ?_, hcur⟩
    · show e.historyIndex + 1 = ((keptHistory e ++ [img]).length : Int) - 1
      rw [hl]
      omega
    · show (0 : Int) ≤ e.historyIndex + 1
      omega
    · show (keptHistory e ++ [img])[(e.historyIndex + 1).toNat]? = some img
      have hn : (e.historyIndex + 1).toNat = (keptHistory e).length := by omega
      rw [hn]
      simp

theorem saveState_shaped (e : Engine) (original img : ImageData)
    (hcur : e.imageData = some img) (hs : e.Shaped original) (himg : SameShape img original) :
    (saveState e).state.Shaped original := by
  have hmem : ∀ s ∈ keptHistory e ++ [img], SameShape s original := by
    intro s h
    rcases List.mem_append.mp h with h | h
    · exact hs s (keptHistory_subset e s h)
    · rw [List.mem_singleton.mp h]; exact himg
  rw [saveState_loaded e img hcur]
  split_ifs with hc
  · intro s h
    exact hmem s (List.mem_of_mem_tail h)
  · exact hmem

theorem saveState_synced (e : Engine) (original : ImageData) (h : e.Ready original (-1))
    (hs : e.Shaped original) :
    (saveState e).isNormal = true ∧ (saveState e).state.Shaped original
      ∧ (saveState e).state.Synced := by
  obtain ⟨img, himg, hshape⟩ := h.hCurrent
  have hsnap := saveState_snapshot e img himg h.hLow h.hIndex (by rw [h.hCap]; decide)
  exact ⟨hsnap.1, saveState_shaped e original img himg hs hshape,
    hsnap.2.2.1, img, hsnap.2.2.2.2, hsnap.2.2.2.1⟩

theorem applySettings_history (H : Host) (settings : List (String × JSNum)) (e : Engine) :
    (applySettings H settings e).state.history = e.history
      ∧ (applySettings H settings e).state.historyIndex = e.historyIndex := by
  induction settings generalizing e with
  | nil => exact ⟨rfl, rfl⟩
  | cons entry rest ih =>
    obtain ⟨effectName, value⟩ := entry
    unfold applySettings
    split
    · exact ih e
    · split
      · exact ⟨rfl, rfl⟩
      · split
        · exact ⟨rfl, rfl⟩
        · exact ih _

theorem loadImage_synced (source : ImageData) (hw : 0 < source.width) (hh : 0 < source.height) :
    (loadImage source Engine.new).isNormal = true
      ∧ (loadImage source Engine.new).state.Shaped source
      ∧ (loadImage source Engine.new).state.Synced := by
  unfold loadImage
  rw [if_neg (by omega)]
  exact saveState_synced _ source
    ⟨rfl, rfl, rfl, rfl, ⟨source, rfl, SameShape.refl source⟩,
      fun s hs => absurd hs (List.not_mem_nil s), le_refl _,
      (by show (-1 : Int) < ((0 : Nat) : Int); decide), Nat.zero_le _⟩
    (fun s hs => absurd hs (List.not_mem_nil s))

theorem applyEffect_synced (H : Host) (e : Engine) (original : ImageData)
    (effectName : String) (value : JSNum) (h : e.Ready original 0) (hs : e.Shaped original)
    (hsync : e.Synced ∨ (mapGet e.effects effectName).isSome = true)
    (hnormal : (applyEffect H effectName value e).isNormal = true) :
    (applyEffect H effectName value e).state.Shaped original
      ∧ (applyEffect H effectName value e).state.Synced := by
  cases heff : mapGet e.effects effectName with
  | none =>
    have he : applyEffect H effectName value e = Completion.normal e := by
      unfold applyEffect
      simp only [heff]
    rw [he]
    rw [heff] at hsync
    rcases hsync with hsync | hsync
    · exact ⟨hs, hsync⟩
    · exact absurd hsync (by simp)
  | some effect =>
    obtain ⟨img, himg, hshape⟩ := h.hCurrent
    have hpres := registered_preservesShape e original 0 h effectName effect heff
    have hreset : SameShape { img with data := original.data } original :=
      ⟨hshape.1, hshape.2.1, rfl⟩
    rw [applyEffect_loaded H e img original effectName value effect himg h.hOriginal hshape.2.2
      heff] at hnormal ⊢
    cases hr : effect.apply H e.draws { img with data := original.data } value with
    | error err =>
      rw [hr] at hnormal
      exact absurd hnormal (by simp [Completion.isNormal])
    | ok r =>
      obtain ⟨res, n⟩ := r
      simp only []
      exact (saveState_synced _ original
        (h.weaken.withImage res n ((hpres H _ _ _ _ _ hr).trans hreset)) hs).2

theorem reset_synced (e : Engine) (original : ImageData) (h : e.Ready original 0)
    (hs : e.Shaped original) :
    (reset e).isNormal = true ∧ (reset e).state.Shaped original ∧ (reset e).state.Synced := by
  obtain ⟨img, himg, hshape⟩ := h.hCurrent
  rw [reset_loaded e img original himg h.hOriginal hshape.2.2]
  exact saveState_synced _ original
    (h.weaken.withImage _ e.draws ⟨hshape.1, hshape.2.1, rfl⟩) hs

theorem applyPreset_synced (H : Host) (e : Engine) (original : ImageData)
    (presetName : String) (h : e.Ready original 0) (hs : e.Shaped original)
    (hsync : e.Synced ∨ (mapGet e.presets presetName).isSome = true)
    (hnormal : (applyPreset H presetName e).isNormal = true) :
    (applyPreset H presetName e).state.Shaped original
      ∧ (applyPreset H presetName e).state.Synced := by
  unfold applyPreset at hnormal ⊢
  cases hp : mapGet e.presets presetName with
  | none =>
    rw [hp] at hsync
    rcases hsync with hsync | hsync
    · exact ⟨hs, hsync⟩
    · exact absurd hsync (by simp)
  | some preset =>
    rw [hp] at hnormal
    simp only [] at hnormal ⊢
    have hr := reset_ready e original h
    have hrs := reset_synced e original h hs
    cases hreset : reset e with
    | throws err e1 => rw [hreset] at hr; exact absurd hr.1 (by simp [Completion.isNormal])
    | normal e1 =>
      rw [hreset] at hr hrs hnormal
      have h1 : e1.Ready original 0 := hr.2
      have hs1 : e1.Shaped original := hrs.2.1
      simp only [] at hnormal ⊢
      have h2 := applySettings_ready H preset.settings e1 original 0 h1
      have hh2 := applySettings_history H preset.settings e1
      cases hset : applySettings H preset.settings e1 with
      | throws err e2 =>
        rw [hset] at hnormal
        exact absurd hnormal (by simp [Completion.isNormal])
      | normal e2 =>
        rw [hset] at h2 hh2
        have h2r : e2.Ready original 0 := h2
        have hs2 : e2.Shaped original := by
          intro s hmem
          have hhist : e2.history = e1.history := hh2.1
          rw [hhist] at hmem
          exact hs1 s hmem
        simp only []
        obtain ⟨img, himg, hshape⟩ := h2r.hCurrent
        simp only [himg]
        exact (saveState_synced e2 original h2r.weaken hs2).2

theorem restoreState_synced (e : Engine) (original : ImageData) (h : e.Ready original 0)
    (hs : e.Shaped original) :
    (restoreState e).state.Shaped original ∧ (restoreState e).state.Synced := by
  obtain ⟨img, himg, hshape⟩ := h.hCurrent
  have hlow := h.hLow
  have hidx := h.hIndex
  have hlt : e.historyIndex.toNat < e.history.length := by omega
  have hget : e.history[e.historyIndex.toNat]? = some (e.history[e.historyIndex.toNat]) :=
    List.getElem?_eq_getElem hlt
  have hst : SameShape (e.history[e.historyIndex.toNat]) original :=
    hs _ (List.getElem_mem hlt)
  have himgst : SameShape img (e.history[e.historyIndex.toNat]) :=
    ⟨hshape.1.trans hst.1.symm, hshape.2.1.trans hst.2.1.symm, hshape.2.2.trans hst.2.2.symm⟩
  rw [restoreState_spec e img _ himg hlow hget himgst]
  exact ⟨hs, hlow, _, rfl, hget⟩

theorem undo_synced (e : Engine) (original : ImageData) (h : e.Ready original 0)
    (hs : e.Shaped original) (hsync : e.Synced ∨ 0 < e.historyIndex) :
    (undo e).state.Shaped original ∧ (undo e).state.Synced := by
  unfold undo
  split_ifs with hpos
  · have h1 : ({ e with historyIndex := e.historyIndex - 1 } : Engine).Ready original 0 :=
      ⟨h.hEffects, h.hPresets, h.hCap, h.hOriginal, h.hCurrent, h.hHistory,
        (by show (0 : Int) ≤ e.historyIndex - 1; omega),
        (by show e.historyIndex - 1 < (e.history.length : Int); have := h.hIndex; omega),
        h.hLength⟩
    exact restoreState_synced _ original h1 hs
  · rcases hsync with hsync | hsync
    · exact ⟨hs, hsync⟩
    · exact absurd hsync hpos

theorem redo_synced (e : Engine) (original : ImageData) (h : e.Ready original 0)
    (hs : e.Shaped original)
    (hsync : e.Synced ∨ e.historyIndex < (e.history.length : Int) - 1) :
    (redo e).state.Shaped original ∧ (redo e).state.Synced := by
  unfold redo
  split_ifs with hlt
  · have h1 : ({ e with historyIndex := e.historyIndex + 1 } : Engine).Ready original 0 :=
      ⟨h.hEffects, h.hPresets, h.hCap, h.hOriginal, h.hCurrent, h.hHistory,
        (by show (0 : Int) ≤ e.historyIndex + 1; have := h.hLow; omega),
        (by show e.historyIndex + 1 < (e.history.length : Int); omega),
        h.hLength⟩
    exact restoreState_synced _ original h1 hs
  · rcases hsync with hsync | hsync
    · exact ⟨hs, hsync⟩
    · exact absurd hsync hlt

theorem exec_synced (H : Host) (e : Engine) (original : ImageData) (call : Call)
    (h : e.Ready original 0) (hs : e.Shaped original)
    (hsync : e.Synced ∨ call.acts e = true)
    (hnormal : (call.exec H e).isNormal = true) :
    (call.exec H e).state.Shaped original ∧ (call.exec H e).state.Synced := by
  cases call with
  | applyEffect effectName value =>
    exact applyEffect_synced H e original effectName value h hs hsync hnormal
  | applyPreset presetName => exact applyPreset_synced H e original presetName h hs hsync hnormal
  | reset => exact (reset_synced e original h hs).2
  | undo =>
    refine undo_synced e original h hs ?_
    rcases hsync with hsync | hsync
    · exact Or.inl hsync
    · exact Or.inr (of_decide_eq_true hsync)
  | redo =>
    refine redo_synced e original h hs ?_
    rcases hsync with hsync | hsync
    · exact Or.inl hsync
    · exact Or.inr (of_decide_eq_true hsync)

/-- C28, counterexample: two runs in which a call returns normally and leaves the working
buffer different from `history[historyIndex]`. After `loadImage` of the gray pixel and then of
the white 4×4 square, `undo()` returns normally with `historyIndex = 0` and has copied the four
samples of the 1×1 snapshot into the 4×4 buffer, which is neither snapshot. After
`applyEffect('brightness', 20)` and a throwing `applyEffect('drama', 60)`, which has reset the
buffer to the original, `redo()` returns normally without touching anything: the buffer is the
original and `history[1]` is the brightened snapshot. -/
theorem undo_redo_can_leave_buffer_outside_history :
    (loadImage whiteSquare grayEngine).isNormal = true
      ∧ (undo (loadImage whiteSquare grayEngine).state).isNormal = true
      ∧ (undo (loadImage whiteSquare grayEngine).state).state.historyIndex = 0
      ∧ (undo (loadImage whiteSquare grayEngine).state).state.history
          = [grayPixel, whiteSquare]
      ∧ (undo (loadImage whiteSquare grayEngine).state).state.imageData
          = some ⟨4, 4, [100, 100, 100, 255] ++ List.replicate 60 255⟩
      ∧ (applyEffect Host.sample "brightness" 20 grayEngine).isNormal = true
      ∧ (applyEffect Host.sample "drama" 60
          (applyEffect Host.sample "brightness" 20 grayEngine).state).isNormal = false
      ∧ (redo (applyEffect Host.sample "drama" 60
          (applyEffect Host.sample "brightness" 20 grayEngine).state).state).isNormal = true
      ∧ (redo (applyEffect Host.sample "drama" 60
          (applyEffect Host.sample "brightness" 20 grayEngine).state).state).state.historyIndex
          = 1
      ∧ (redo (applyEffect Host.sample "drama" 60
          (applyEffect Host.sample "brightness" 20 grayEngine).state).state).state.history
          = [grayPixel, ⟨1, 1, [151, 151, 151, 255]⟩]
      ∧ (redo (applyEffect Host.sample "drama" 60
          (applyEffect Host.sample "brightness" 20 grayEngine).state).state).state.imageData
          = some grayPixel := by
  decide!

/-- C28, amended: `saveState` on an engine that holds a buffer, with
`-1 ≤ historyIndex < history.length` and a positive cap, returns normally with
`historyIndex = history.length - 1` and `history[historyIndex]` equal to the working buffer,
whether or not the cap evicts the oldest entry. Hence `loadImage` on a new engine leaves the
working buffer equal to `history[historyIndex]`; and on a loaded engine whose snapshots all
have the shape of the loaded image, a call of `applyEffect`, `applyPreset`, `reset`, `undo` or
`redo` that returns normally leaves it so, provided the call got past the guard of its method
or the buffer equalled `history[historyIndex]` before the call. -/
theorem saveState_and_calls_keep_buffer_in_history (H : Host) (e0 e : Engine)
    (img source original : ImageData) (call : Call)
    (hcur : e0.imageData = some img) (hlow : -1 ≤ e0.historyIndex)
    (hidx : e0.historyIndex < e0.history.length) (hcap : 0 < e0.maxHistorySize)
    (hw : 0 < source.width) (hh : 0 < source.height)
    (hready : e.Ready original 0) (hshaped : e.Shaped original)
    (hsync : e.Synced ∨ call.acts e = true)
    (hnormal : (call.exec H e).isNormal = true) :
    ((saveState e0).isNormal = true
        ∧ (saveState e0).state.historyIndex = ((saveState e0).state.history.length : Int) - 1
        ∧ 0 ≤ (saveState e0).state.historyIndex
        ∧ (saveState e0).state.history[(saveState e0).state.historyIndex.toNat]? = some img
        ∧ (saveState e0).state.imageData = some img)
      ∧ ((loadImage source Engine.new).isNormal = true
        ∧ (loadImage source Engine.new).state.Ready source 0
        ∧ (loadImage source Engine.new).state.Shaped source
        ∧ (loadImage source Engine.new).state.Synced)
      ∧ ((call.exec H e).state.Ready original 0
        ∧ (call.exec H e).state.Shaped original
        ∧ (call.exec H e).state.Synced) :=
  ⟨saveState_snapshot e0 img hcur hlow hidx hcap,
    ⟨(loadImage_ready source hw hh).1, (loadImage_ready source hw hh).2,
      (loadImage_synced source hw hh).2.1, (loadImage_synced source hw hh).2.2⟩,
    ⟨exec_ready H e original call hready,
      (exec_synced H e original call hready hshaped hsync hnormal).1,
      (exec_synced H e original call hready hshaped hsync hnormal).2⟩⟩

theorem saveState_and_calls_keep_buffer_in_history_witness :
    grayEngine.imageData = some grayPixel ∧ -1 ≤ grayEngine.historyIndex
      ∧ grayEngine.historyIndex < grayEngine.history.length ∧ 0 < grayEngine.maxHistorySize
      ∧ 0 < grayPixel.width ∧ 0 < grayPixel.height
      ∧ grayEngine.Ready grayPixel 0 ∧ grayEngine.Shaped grayPixel
      ∧ (Call.applyEffect "brightness" 20).acts grayEngine = true
      ∧ ((Call.applyEffect "brightness" 20).exec Host.sample grayEngine).isNormal = true
      ∧ ((saveState grayEngine).isNormal = true
          ∧ (saveState grayEngine).state.historyIndex
              = ((saveState grayEngine).state.history.length : Int) - 1
          ∧ 0 ≤ (saveState grayEngine).state.historyIndex
          ∧ (saveState grayEngine).state.history[(saveState grayEngine).state.historyIndex.toNat]?
              = some grayPixel
          ∧ (saveState grayEngine).state.imageData = some grayPixel)
        ∧ ((loadImage grayPixel Engine.new).isNormal = true
          ∧ (loadImage grayPixel Engine.new).state.Ready grayPixel 0
          ∧ (loadImage grayPixel Engine.new).state.Shaped grayPixel
          ∧ (loadImage grayPixel Engine.new).state.Synced)
        ∧ (((Call.applyEffect "brightness" 20).exec Host.sample grayEngine).state.Ready
              grayPixel 0
          ∧ ((Call.applyEffect "brightness" 20).exec Host.sample grayEngine).state.Shaped
              grayPixel
          ∧ ((Call.applyEffect "brightness" 20).exec Host.sample grayEngine).state.Synced) :=
  ⟨by decide!, by decide!, by decide!, by decide!, by decide, by decide,
    (loadImage_ready grayPixel (by decide) (by decide)).2,
    (loadImage_synced grayPixel (by decide) (by decide)).2.1,
    by decide!, by decide!,
    saveState_and_calls_keep_buffer_in_history Host.sample grayEngine grayEngine grayPixel
      grayPixel grayPixel (Call.applyEffect "brightness" 20)
      (by decide!) (by decide!) (by decide!) (by decide!) (by decide) (by decide)
      (loadImage_ready grayPixel (by decide) (by decide)).2
      (loadImage_synced grayPixel (by decide) (by decide)).2.1
      (Or.inr (by decide!)) (by decide!)⟩

theorem forLoop_indexed {σ : Type} (P : Nat → σ → Prop) (start stop : Nat)
    (body : Nat → σ → σ)
    (hbody : ∀ k, k < stop - start → ∀ s, P k s → P (k + 1) (body (start + k) s))
    (s : σ) (hs : P 0 s) : P (stop - start) (forLoop start stop 1 body s) := by
  unfold forLoop
  have hn : (stop - start + (1 - 1)) / 1 = stop - start := by simp
  rw [hn]
  generalize stop - start = n at hbody
  induction n with
  | zero => simpa using hs
  | succ n ih =>
    rw [List.range_succ, List.foldl_append, List.foldl_cons, List.foldl_nil]
    have h1 := hbody n (Nat.lt_succ_self n) _ (ih (fun k hk => hbody k (Nat.lt_succ_of_lt hk)))
    rw [Nat.one_mul]
    exact h1

/-- Induction over the two loops `for (y = 1; y < height - 1; y++) for (x = 1; x < width - 1;
x++)`: an invariant indexed by the next pixel to visit that each visit carries one pixel on,
and that passes from the end of a row to the start of the next, holds when the loops end. -/
theorem raster_induction {σ : Type} (width height : Nat) (I : Nat → Nat → σ → Prop)
    (B : Nat → Nat → σ → σ)
    (hstep : ∀ y x s, Interior width height y x → I y x s → I y (x + 1) (B y x s))
    (hrow : ∀ y x s, width ≤ x + 1 → I y x s → I (y + 1) 1 s)
    (s : σ) (hs : I 1 1 s) :
    I (1 + (height - 1 - 1)) 1
      (forLoop 1 (height - 1) 1 (fun y s => forLoop 1 (width - 1) 1 (fun x s => B y x s) s) s) := by
  refine forLoop_indexed (fun k s => I (1 + k) 1 s) 1 (height - 1)
    (fun y s => forLoop 1 (width - 1) 1 (fun x s => B y x s) s) ?_ s hs
  intro k hk s hI
  have hinner := forLoop_indexed (fun j s => I (1 + k) (1 + j) s) 1 (width - 1)
    (fun x s => B (1 + k) x s) (fun j hj s h =>
      hstep (1 + k) (1 + j) s ⟨by omega, by omega, by omega, by omega⟩ h) s hI
  exact hrow (1 + k) _ _ (by omega) hinner

theorem offset_inj (w y x c y' x' c' : Nat) (hx : x < w) (hx' : x' < w) (hc : c < 4)
    (hc' : c' < 4) (h : (y * w + x) * 4 + c = (y' * w + x') * 4 + c') :
    y = y' ∧ x = x' ∧ c = c' := by
  have h1 : y * w + x = y' * w + x' := by omega
  have h2 : c = c' := by omega
  have hy : y = y' := by
    rcases Nat.lt_trichotomy y y' with hlt | heq | hgt
    · have := Nat.mul_le_mul_right w (Nat.succ_le_of_lt hlt)
      rw [Nat.succ_mul] at this
      omega
    · exact heq
    · have := Nat.mul_le_mul_right w (Nat.succ_le_of_lt hgt)
      rw [Nat.succ_mul] at this
      omega
  subst hy
  exact ⟨rfl, by omega, h2⟩

theorem forLoop_three {σ : Type} (body : Nat → σ → σ) (s : σ) :
    forLoop 0 3 1 body s = body 2 (body 1 (body 0 s)) := rfl

theorem raster_store3 (w h : Nat) (V : Nat → Nat → Nat → JSNum) (d : List Nat) :
    (∀ j, (∀ y x c, Interior w h y x → c < 3 → j ≠ (y * w + x) * 4 + c) →
        (forLoop 1 (h - 1) 1 (fun y s => forLoop 1 (w - 1) 1 (fun x s =>
          store (store (store s ((y * w + x) * 4) (V y x 0)) ((y * w + x) * 4 + 1) (V y x 1))
            ((y * w + x) * 4 + 2) (V y x 2)) s) d)[j]? = d[j]?)
      ∧ (∀ y x c, Interior w h y x → c < 3 →
        (forLoop 1 (h - 1) 1 (fun y s => forLoop 1 (w - 1) 1 (fun x s =>
          store (store (store s ((y * w + x) * 4) (V y x 0)) ((y * w + x) * 4 + 1) (V y x 1))
            ((y * w + x) * 4 + 2) (V y x 2)) s) d)[(y * w + x) * 4 + c]?
          = (d[(y * w + x) * 4 + c]?).map (fun _ => JSNum.toUint8Clamp (V y x c))) := by
  have key := raster_induction w h
    (fun y0 x0 s =>
      (∀ j, (∀ y x c, Interior w h y x → Before y x y0 x0 → c < 3 → j ≠ (y * w + x) * 4 + c) →
          s[j]? = d[j]?)
        ∧ (∀ y x c, Interior w h y x → Before y x y0 x0 → c < 3 →
          s[(y * w + x) * 4 + c]?
            = (d[(y * w + x) * 4 + c]?).map (fun _ => JSNum.toUint8Clamp (V y x c))))
    (fun y x s =>
      store (store (store s ((y * w + x) * 4) (V y x 0)) ((y * w + x) * 4 + 1) (V y x 1))
        ((y * w + x) * 4 + 2) (V y x 2))
    ?_ ?_ d ?_
  · obtain ⟨hA, hB⟩ := key
    constructor
    · intro j hj
      exact hA j (fun y x c hi _ hc => hj y x c hi hc)
    · intro y x c hi hc
      refine hB y x c hi ?_ hc
      unfold Before
      unfold Interior at hi
      omega
  · intro y x s hi ⟨hA, hB⟩
    have hbefore : Before y x y (x + 1) := Or.inr ⟨rfl, Nat.lt_succ_self x⟩
    have hmono : ∀ y' x', Before y' x' y x → Before y' x' y (x + 1) := by
      intro y' x' hb
      unfold Before at hb ⊢
      omega
    have hold : ∀ c, c < 3 → s[(y * w + x) * 4 + c]? = d[(y * w + x) * 4 + c]? := by
      intro c hc
      refine hA _ ?_
      intro y' x' c' hi' hb' hc' heq
      have hinj := offset_inj w y x c y' x' c' (by unfold Interior at hi; omega)
        (by unfold Interior at hi'; omega) (by omega) (by omega) heq
      unfold Before at hb'
      omega
    constructor
    · intro j hj
      have h0 := hj y x 0 hi hbefore (by omega)
      have h1 := hj y x 1 hi hbefore (by omega)
      have h2 := hj y x 2 hi hbefore (by omega)
      rw [store3_getElem?, if_neg (by omega), if_neg h1, if_neg h2]
      exact hA j (fun y' x' c' hi' hb' hc' => hj y' x' c' hi' (hmono y' x' hb') hc')
    · intro y' x' c hi' hb' hc
      by_cases hsame : y' = y ∧ x' = x
      · obtain ⟨hy, hx⟩ := hsame
        subst hy
        subst hx
        rw [store3_getElem?]
        have hc3 : c = 0 ∨ c = 1 ∨ c = 2 := by omega
        rcases hc3 with h | h | h
        · subst h
          rw [if_pos (by omega), hold 0 (by omega)]
        · subst h
          rw [if_neg (by omega), if_pos rfl, hold 1 (by omega)]
        · subst h
          rw [if_neg (by omega), if_neg (by omega), if_pos rfl, hold 2 (by omega)]
      · have hb : Before y' x' y x := by
          unfold Before at hb' ⊢
          omega
        have hne : ∀ c', c' < 3 → (y' * w + x') * 4 + c ≠ (y * w + x) * 4 + c' := by
          intro c' hc' heq
          have hinj := offset_inj w y' x' c y x c' (by unfold Interior at hi'; omega)
            (by unfold Interior at hi; omega) (by omega) (by omega) heq
          exact hsame ⟨hinj.1, hinj.2.1⟩
        have h0 := hne 0 (by omega)
        have h1 := hne 1 (by omega)
        have h2 := hne 2 (by omega)
        rw [store3_getElem?, if_neg (by omega), if_neg h1, if_neg h2]
        exact hB y' x' c hi' hb hc
  · intro y x s hw ⟨hA, hB⟩
    constructor
    · intro j hj
      refine hA j (fun y' x' c' hi' hb' hc' => hj y' x' c' hi' ?_ hc')
      unfold Before at hb' ⊢
      omega
    · intro y' x' c hi' hb' hc
      refine hB y' x' c hi' ?_ hc
      unfold Before at hb' ⊢
      unfold Interior at hi'
      omega
  · constructor
    · intro j _
      rfl
    · intro y x c hi hb
      unfold Before at hb
      unfold Interior at hi
      omega

theorem applySharpen_data (img : ImageData) (value : JSNum) :
    (applySharpen img value).data =
      forLoop 1 (img.height - 1) 1 (fun y s => forLoop 1 (img.width - 1) 1 (fun x s =>
        store (store (store s ((y * img.width + x) * 4)
            (Math.max 0 (Math.min 255 (sharpenSum img.data img.width (value / 100) y x 0))))
          ((y * img.width + x) * 4 + 1)
            (Math.max 0 (Math.min 255 (sharpenSum img.data img.width (value / 100) y x 1))))
          ((y * img.width + x) * 4 + 2)
            (Math.max 0 (Math.min 255 (sharpenSum img.data img.width (value / 100) y x 2))))
        s) img.data := rfl

/-- C24: `applySharpen` with `s = value / 100` sets every colour channel `c < 3` of every
interior pixel `(x, y)` to the kernel sum clamped to `[0, 255]` (and stored as an 8-bit
sample), the sum of the nine products of the kernel `[[0, -s, 0], [-s, 1 + 4s, -s],
[0, -s, 0]]` with the samples of that channel around the pixel, all read from the unmodified
input buffer; and it leaves every alpha sample and every sample of a border pixel (first or
last column, first or last row) as it was. -/
theorem applySharpen_kernel_on_interior (img : ImageData) (value : JSNum)
    (y x c yb xb cb : Nat)
    (hint : Interior img.width img.height y x) (hc : c < 3)
    (hxb : xb < img.width) (hcb : cb < 4)
    (hborder : cb = 3 ∨ xb = 0 ∨ xb + 1 = img.width ∨ yb = 0 ∨ img.height ≤ yb + 1) :
    (applySharpen img value).data[(y * img.width + x) * 4 + c]?
        = (img.data[(y * img.width + x) * 4 + c]?).map (fun _ =>
            JSNum.toUint8Clamp (Math.max 0 (Math.min 255
              (sharpenSum img.data img.width (value / 100) y x c))))
      ∧ (applySharpen img value).data[(yb * img.width + xb) * 4 + cb]?
        = img.data[(yb * img.width + xb) * 4 + cb]? := by
  rw [applySharpen_data]
  have key := raster_store3 img.width img.height
    (fun y x c => Math.max 0 (Math.min 255 (sharpenSum img.data img.width (value / 100) y x c)))
    img.data
  refine ⟨key.2 y x c hint hc, key.1 _ ?_⟩
  intro y' x' c' hi' hc' heq
  have hinj := offset_inj img.width yb xb cb y' x' c' hxb (by unfold Interior at hi'; omega)
    hcb (by omega) heq
  unfold Interior at hi'
  omega

theorem applySharpen_kernel_on_interior_witness :
    Interior whiteSquare.width whiteSquare.height 1 1 ∧ 0 < 3
      ∧ 0 < whiteSquare.width ∧ 0 < 4
      ∧ ((0 : Nat) = 3 ∨ (0 : Nat) = 0 ∨ 0 + 1 = whiteSquare.width ∨ (0 : Nat) = 0
          ∨ whiteSquare.height ≤ 0 + 1)
      ∧ (applySharpen whiteSquare 50).data[(1 * whiteSquare.width + 1) * 4 + 0]?
        = (whiteSquare.data[(1 * whiteSquare.width + 1) * 4 + 0]?).map (fun _ =>
            JSNum.toUint8Clamp (Math.max 0 (Math.min 255
              (sharpenSum whiteSquare.data whiteSquare.width (50 / 100) 1 1 0))))
      ∧ (applySharpen whiteSquare 50).data[(0 * whiteSquare.width + 0) * 4 + 0]?
        = whiteSquare.data[(0 * whiteSquare.width + 0) * 4 + 0]? :=
  ⟨⟨by decide, by decide, by decide, by decide⟩, by decide, by decide, by decide,
    Or.inr (Or.inl rfl),
    applySharpen_kernel_on_interior whiteSquare 50 1 1 0 0 0 0
      ⟨by decide, by decide, by decide, by decide⟩ (by decide) (by decide) (by decide)
      (Or.inr (Or.inl rfl))⟩

theorem adjustClarity_data (img : ImageData) (value : JSNum) :
    (adjustClarity img value).data =
      forLoop 1 (img.height - 1) 1 (fun y s => forLoop 1 (img.width - 1) 1 (fun x s =>
        clarityPixel img.width (value / 100) y x s) s) img.data := rfl

theorem load_store3_other (s : List Nat) (i k : Nat) (a b c : JSNum)
    (h0 : k ≠ i) (h1 : k ≠ i + 1) (h2 : k ≠ i + 2) :
    load (store (store (store s i a) (i + 1) b) (i + 2) c) k = load s k := by
  unfold load
  rw [store3_getElem?, if_neg h0, if_neg h1, if_neg h2]

theorem clarityPixel_eq (width : Nat) (strength : JSNum) (y x : Nat) (s : List Nat) :
    clarityPixel width strength y x s =
      store (store (store s ((y * width + x) * 4)
          (Math.max 0 (Math.min 255 (load s ((y * width + x) * 4)
            + strength * clarityLaplacian s s width y x * 0.2))))
        ((y * width + x) * 4 + 1)
          (Math.max 0 (Math.min 255 (load s ((y * width + x) * 4 + 1)
            + strength * clarityLaplacian s s width y x * 0.2))))
        ((y * width + x) * 4 + 2)
          (Math.max 0 (Math.min 255 (load s ((y * width + x) * 4 + 2)
            + strength * clarityLaplacian s s width y x * 0.2))) := by
  unfold clarityPixel clarityLaplacian
  dsimp only
  rw [load_store_ne _ _ _ _ (by omega : (y * width + x) * 4 + 1 ≠ (y * width + x) * 4 + 2),
    load_store_ne _ _ _ _ (by omega : (y * width + x) * 4 ≠ (y * width + x) * 4 + 2),
    load_store_ne _ _ _ _ (by omega : (y * width + x) * 4 ≠ (y * width + x) * 4 + 1)]

theorem raster_clarity (w h : Nat) (strength : JSNum) (d : List Nat) :
    (∀ j, (∀ y x c, Interior w h y x → c < 3 → j ≠ (y * w + x) * 4 + c) →
        (forLoop 1 (h - 1) 1 (fun y s => forLoop 1 (w - 1) 1 (fun x s =>
          clarityPixel w strength y x s) s) d)[j]? = d[j]?)
      ∧ (∀ y x c, Interior w h y x → c < 3 →
        (forLoop 1 (h - 1) 1 (fun y s => forLoop 1 (w - 1) 1 (fun x s =>
          clarityPixel w strength y x s) s) d)[(y * w + x) * 4 + c]?
          = (d[(y * w + x) * 4 + c]?).map (fun _ => JSNum.toUint8Clamp
              (Math.max 0 (Math.min 255 (load d ((y * w + x) * 4 + c)
                + strength * clarityLaplacian d
                    (forLoop 1 (h - 1) 1 (fun y s => forLoop 1 (w - 1) 1 (fun x s =>
                      clarityPixel w strength y x s) s) d) w y x * 0.2))))) := by
  have key := raster_induction w h
    (fun y0 x0 s =>
      (∀ j, (∀ y x c, Interior w h y x → Before y x y0 x0 → c < 3 → j ≠ (y * w + x) * 4 + c) →
          s[j]? = d[j]?)
        ∧ (∀ y x c, Interior w h y x → Before y x y0 x0 → c < 3 →
          s[(y * w + x) * 4 + c]?
            = (d[(y * w + x) * 4 + c]?).map (fun _ => JSNum.toUint8Clamp
                (Math.max 0 (Math.min 255 (load d ((y * w + x) * 4 + c)
                  + strength * clarityLaplacian d s w y x * 0.2))))))
    (fun y x s => clarityPixel w strength y x s)
    ?_ ?_ d ?_
  · obtain ⟨hA, hB⟩ := key
    constructor
    · intro j hj
      exact hA j (fun y x c hi _ hc => hj y x c hi hc)
    · intro y x c hi hc
      refine hB y x c hi ?_ hc
      unfold Before
      unfold Interior at hi
      omega
  · intro y x s hi ⟨hA, hB⟩
    beta_reduce
    have hxw : x < w := by unfold Interior at hi; omega
    have hbefore : Before y x y (x + 1) := Or.inr ⟨rfl, Nat.lt_succ_self x⟩
    have hmono : ∀ y' x', Before y' x' y x → Before y' x' y (x + 1) := by
      intro y' x' hb
      unfold Before at hb ⊢
      omega
    -- a sample of a pixel that was not visited yet still holds the input
    have hfresh : ∀ y1 x1 c, x1 < w → c < 4 → ¬ Before y1 x1 y x →
        s[(y1 * w + x1) * 4 + c]? = d[(y1 * w + x1) * 4 + c]? := by
      intro y1 x1 c hx1 hc hnb
      refine hA _ ?_
      intro y' x' c' hi' hb' hc' heq
      have hinj := offset_inj w y1 x1 c y' x' c' hx1 (by unfold Interior at hi'; omega) hc
        (by omega) heq
      rw [hinj.1, hinj.2.1] at hnb
      exact hnb hb'
    have hirr : ¬ Before y x y x := by unfold Before; omega
    have hold : ∀ c, c < 3 → s[(y * w + x) * 4 + c]? = d[(y * w + x) * 4 + c]? :=
      fun c hc => hfresh y x c hxw (by omega) hirr
    -- a sample of another pixel is not written by this visit
    have hother : ∀ y1 x1, x1 < w → ¬ (y1 = y ∧ x1 = x) →
        load (clarityPixel w strength y x s) ((y1 * w + x1) * 4) = load s ((y1 * w + x1) * 4) := by
      intro y1 x1 hx1 hne
      have hk : ∀ c', c' < 3 → (y1 * w + x1) * 4 ≠ (y * w + x) * 4 + c' := by
        intro c' hc' heq
        have hinj := offset_inj w y1 x1 0 y x c' hx1 hxw (by omega) (by omega) heq
        exact hne ⟨hinj.1, hinj.2.1⟩
      rw [clarityPixel_eq]
      exact load_store3_other _ _ _ _ _ _ (by have := hk 0 (by omega); omega)
        (hk 1 (by omega)) (hk 2 (by omega))
    -- the Laplacian of a pixel visited up to now reads the same samples after this visit
    have hlap : ∀ y1 x1, Interior w h y1 x1 → Before y1 x1 y (x + 1) →
        clarityLaplacian d (clarityPixel w strength y x s) w y1 x1
          = clarityLaplacian d s w y1 x1 := by
      intro y1 x1 hi1 hb1
      unfold clarityLaplacian
      rw [hother (y1 - 1) x1 (by unfold Interior at hi1; omega)
          (by unfold Before at hb1; unfold Interior at hi1; omega),
        hother y1 (x1 - 1) (by unfold Interior at hi1; omega)
          (by unfold Before at hb1; unfold Interior at hi1; omega)]
    have hself : clarityLaplacian s s w y x = clarityLaplacian d s w y x := by
      unfold clarityLaplacian
      have e0 : s[(y * w + x) * 4]? = d[(y * w + x) * 4]? := hold 0 (by omega)
      have e1 : s[((y + 1) * w + x) * 4]? = d[((y + 1) * w + x) * 4]? :=
        hfresh (y + 1) x 0 hxw (by omega) (by unfold Before; omega)
      have e2 : s[(y * w + (x + 1)) * 4]? = d[(y * w + (x + 1)) * 4]? :=
        hfresh y (x + 1) 0 (by unfold Interior at hi; omega) (by omega)
          (by unfold Before; omega)
      rw [load_congr s d _ e0, load_congr s d _ e1, load_congr s d _ e2]
    constructor
    · intro j hj
      have h0 := hj y x 0 hi hbefore (by omega)
      have h1 := hj y x 1 hi hbefore (by omega)
      have h2 := hj y x 2 hi hbefore (by omega)
      rw [clarityPixel_eq, store3_getElem?, if_neg (by omega), if_neg h1, if_neg h2]
      exact hA j (fun y' x' c' hi' hb' hc' => hj y' x' c' hi' (hmono y' x' hb') hc')
    · intro y' x' c hi' hb' hc
      rw [hlap y' x' hi' hb']
      by_cases hsame : y' = y ∧ x' = x
      · obtain ⟨hy, hx⟩ := hsame
        subst hy
        subst hx
        rw [clarityPixel_eq, store3_getElem?, hself]
        have hc3 : c = 0 ∨ c = 1 ∨ c = 2 := by omega
        rcases hc3 with h | h | h
        · subst h
          have e0 : s[(y' * w + x') * 4]? = d[(y' * w + x') * 4]? := hold 0 (by omega)
          simp only [Nat.add_zero]
          rw [if_pos trivial, e0, load_congr s d _ e0]
        · subst h
          rw [if_neg (by omega), if_pos rfl, hold 1 (by omega),
            load_congr s d _ (hold 1 (by omega))]
        · subst h
          rw [if_neg (by omega), if_neg (by omega), if_pos rfl, hold 2 (by omega),
            load_congr s d _ (hold 2 (by omega))]
      · have hb : Before y' x' y x := by
          unfold Before at hb' ⊢
          omega
        have hne : ∀ c', c' < 3 → (y' * w + x') * 4 + c ≠ (y * w + x) * 4 + c' := by
          intro c' hc' heq
          have hinj := offset_inj w y' x' c y x c' (by unfold Interior at hi'; omega)
            hxw (by omega) (by omega) heq
          exact hsame ⟨hinj.1, hinj.2.1⟩
        have h0 := hne 0 (by omega)
        have h1 := hne 1 (by omega)
        have h2 := hne 2 (by omega)
        rw [clarityPixel_eq, store3_getElem?, if_neg (by omega), if_neg h1, if_neg h2]
        exact hB y' x' c hi' hb hc
  · intro y x s hw ⟨hA, hB⟩
    constructor
    · intro j hj
      refine hA j (fun y' x' c' hi' hb' hc' => hj y' x' c' hi' ?_ hc')
      unfold Before at hb' ⊢
      omega
    · intro y' x' c hi' hb' hc
      refine hB y' x' c hi' ?_ hc
      unfold Before at hb' ⊢
      unfold Interior at hi'
      omega
  · constructor
    · intro j _
      rfl
    · intro y x c hi hb
      unfold Before at hb
      unfold Interior at hi
      omega

/-- C23, counterexample: on the image `twoDots` the green channel is flat, so the Laplacian
of the green channel is `0` at both interior pixels and the value `c + 0.2 * (value / 100) *
laplacian` is the input sample `c`; yet `adjustClarity(buffer, 100)` changes both pixels. The
code takes the Laplacian of sample 0, the red channel: at `(1, 1)` it is `4 * 100 - 100 = 300`
and the pixel becomes `(160, 60, 60)`. And it reads the buffer it is writing: at `(2, 1)` the
left neighbour already holds `160`, the Laplacian is `4 * 100 - 160 = 240` and the pixel
becomes `(148, 48, 48)`, where the red Laplacian of the input buffer, `300`, would give
`160`. -/
theorem adjustClarity_not_green_not_input :
    greenLaplacian twoDots.data twoDots.width 1 1 = 0
      ∧ greenLaplacian twoDots.data twoDots.width 1 2 = 0
      ∧ JSNum.toUint8Clamp (Math.max 0 (Math.min 255
          (load twoDots.data ((1 * 4 + 1) * 4)
            + 0.2 * ((100 : JSNum) / 100) * greenLaplacian twoDots.data twoDots.width 1 1)))
          = 100
      ∧ (adjustClarity twoDots 100).data =
          [0, 0, 0, 255, 0, 0, 0, 255, 0, 0, 0, 255, 0, 0, 0, 255,
           0, 0, 0, 255, 160, 60, 60, 255, 148, 48, 48, 255, 0, 0, 0, 255,
           0, 0, 0, 255, 0, 0, 0, 255, 0, 0, 0, 255, 0, 0, 0, 255]
      ∧ clarityLaplacian twoDots.data twoDots.data twoDots.width 1 1 = 300
      ∧ clarityLaplacian twoDots.data twoDots.data twoDots.width 1 2 = 300
      ∧ clarityLaplacian twoDots.data (adjustClarity twoDots 100).data twoDots.width 1 2 = 240
      ∧ JSNum.toUint8Clamp (Math.max 0 (Math.min 255
          (load twoDots.data ((1 * 4 + 2) * 4)
            + (100 : JSNum) / 100
              * clarityLaplacian twoDots.data twoDots.data twoDots.width 1 2 * 0.2)))
          = 160 := by
  decide!

/-- C23, amended: `adjustClarity` leaves every alpha sample and every sample of a border
pixel (first or last column, first or last row) untouched, and sets each colour channel
`c < 3` of every interior pixel `(x, y)` to `c + (value / 100) * laplacian * 0.2` clamped to
`[0, 255]` (and stored as an 8-bit sample), where `laplacian = 4 * center - top - bottom -
left - right` is taken on sample 0, the red channel, in the buffer as it stands when the
pixel is reached: the pixel and its bottom and right neighbours hold their input samples,
the top and left neighbours the samples of the returned buffer. -/
theorem adjustClarity_red_laplacian_in_place (img : ImageData) (value : JSNum)
    (y x c yb xb cb : Nat)
    (hint : Interior img.width img.height y x) (hc : c < 3)
    (hxb : xb < img.width) (hcb : cb < 4)
    (hborder : cb = 3 ∨ xb = 0 ∨ xb + 1 = img.width ∨ yb = 0 ∨ img.height ≤ yb + 1) :
    (adjustClarity img value).data[(y * img.width + x) * 4 + c]?
        = (img.data[(y * img.width + x) * 4 + c]?).map (fun _ =>
            JSNum.toUint8Clamp (Math.max 0 (Math.min 255
              (load img.data ((y * img.width + x) * 4 + c)
                + value / 100
                  * clarityLaplacian img.data (adjustClarity img value).data img.width y x
                  * 0.2))))
      ∧ (adjustClarity img value).data[(yb * img.width + xb) * 4 + cb]?
        = img.data[(yb * img.width + xb) * 4 + cb]? := by
  rw [adjustClarity_data]
  have key := raster_clarity img.width img.height (value / 100) img.data
  refine ⟨key.2 y x c hint hc, key.1 _ ?_⟩
  intro y' x' c' hi' hc' heq
  have hinj := offset_inj img.width yb xb cb y' x' c' hxb (by unfold Interior at hi'; omega)
    hcb (by omega) heq
  unfold Interior at hi'
  omega

theorem adjustClarity_red_laplacian_in_place_witness :
    Interior twoDots.width twoDots.height 1 2 ∧ 0 < 3
      ∧ 0 < twoDots.width ∧ 0 < 4
      ∧ ((0 : Nat) = 3 ∨ (0 : Nat) = 0 ∨ 0 + 1 = twoDots.width ∨ (0 : Nat) = 0
          ∨ twoDots.height ≤ 0 + 1)
      ∧ (adjustClarity twoDots 100).data[(1 * twoDots.width + 2) * 4 + 0]?
        = (twoDots.data[(1 * twoDots.width + 2) * 4 + 0]?).map (fun _ =>
            JSNum.toUint8Clamp (Math.max 0 (Math.min 255
              (load twoDots.data ((1 * twoDots.width + 2) * 4 + 0)
                + 100 / 100
                  * clarityLaplacian twoDots.data (adjustClarity twoDots 100).data
                      twoDots.width 1 2
                  * 0.2))))
      ∧ (adjustClarity twoDots 100).data[(0 * twoDots.width + 0) * 4 + 0]?
        = twoDots.data[(0 * twoDots.width + 0) * 4 + 0]? :=
  ⟨⟨by decide, by decide, by decide, by decide⟩, by decide, by decide, by decide,
    Or.inr (Or.inl rfl),
    adjustClarity_red_laplacian_in_place twoDots 100 1 2 0 0 0 0
      ⟨by decide, by decide, by decide, by decide⟩ (by decide) (by decide) (by decide)
      (Or.inr (Or.inl rfl))⟩

theorem piExact_pos : 0 < piExact := by
  unfold piExact
  norm_num

theorem remExact_two (q : ℤ) (w : ℚ) (hq : 0 ≤ q) (hw0 : 0 ≤ w) (hw1 : w < 2) :
    remExact (2 * (q : ℚ) + w) 2 = w := by
  unfold remExact
  have hq2 : (0 : ℚ) ≤ (q : ℚ) := by exact_mod_cast hq
  have hnn : (0 : ℚ) ≤ (2 * (q : ℚ) + w) / 2 := by positivity
  rw [if_pos hnn]
  have hfloor : ⌊(2 * (q : ℚ) + w) / 2⌋ = q := by
    rw [Int.floor_eq_iff]
    constructor <;> linarith
  rw [hfloor]
  ring

theorem roundExact_natCast (n : Nat) : roundExact (n : ℚ) = n := by
  unfold roundExact
  have : ⌊(n : ℚ) + 1 / 2⌋ = (n : ℤ) := by
    rw [Int.floor_eq_iff]
    constructor <;> push_cast <;> linarith
  rw [this]
  simp

theorem hsvToRgbExact_sector (hsv : ℚ × ℚ × ℚ) (k : Nat) (u : ℚ) (hk : k < 6)
    (hu0 : 0 ≤ u) (hu1 : u < 1) (hh : hsv.1 = ((k : ℚ) + u) / 6 * 2 * piExact) :
    hsvToRgbExact hsv =
      (roundExact (((sectorRgb k u (hsv.2.2 * hsv.2.1)).1 + (hsv.2.2 - hsv.2.2 * hsv.2.1)) * 255),
        roundExact (((sectorRgb k u (hsv.2.2 * hsv.2.1)).2.1
          + (hsv.2.2 - hsv.2.2 * hsv.2.1)) * 255),
        roundExact (((sectorRgb k u (hsv.2.2 * hsv.2.1)).2.2
          + (hsv.2.2 - hsv.2.2 * hsv.2.1)) * 255)) := by
  have hpi := piExact_pos
  have hh1 : hsv.1 / (2 * piExact) = ((k : ℚ) + u) / 6 := by
    rw [hh]
    field_simp
    ring
  have hh6 : ((k : ℚ) + u) / 6 * 6 = (k : ℚ) + u := by ring
  unfold hsvToRgbExact
  simp only [hh1, hh6]
  interval_cases k
  · have hr : remExact (((0 : Nat) : ℚ) + u) 2 = u := by
      have := remExact_two 0 u (le_refl _) hu0 (by linarith)
      simpa using this
    have ha : |u - 1| = 1 - u := by rw [abs_of_nonpos (by linarith)]; ring
    rw [hr, ha, if_pos (by push_cast; linarith)]
    simp only [sectorRgb]
    ring_nf
  · have hr : remExact (((1 : Nat) : ℚ) + u) 2 = 1 + u := by
      have := remExact_two 0 (1 + u) (le_refl _) (by linarith) (by linarith)
      simpa using this
    have ha : |1 + u - 1| = u := by rw [abs_of_nonneg (by linarith)]; ring
    rw [hr, ha, if_neg (by push_cast; linarith), if_pos (by push_cast; linarith)]
    simp only [sectorRgb]
  · have hr : remExact (((2 : Nat) : ℚ) + u) 2 = u := by
      have := remExact_two 1 u (by norm_num) hu0 (by linarith)
      simpa using this
    have ha : |u - 1| = 1 - u := by rw [abs_of_nonpos (by linarith)]; ring
    rw [hr, ha, if_neg (by push_cast; linarith), if_neg (by push_cast; linarith),
      if_pos (by push_cast; linarith)]
    simp only [sectorRgb]
    ring_nf
  · have hr : remExact (((3 : Nat) : ℚ) + u) 2 = 1 + u := by
      have := remExact_two 1 (1 + u) (by norm_num) (by linarith) (by linarith)
      have h3 : 2 * ((1 : ℤ) : ℚ) + (1 + u) = ((3 : Nat) : ℚ) + u := by push_cast; ring
      rw [h3] at this
      exact this
    have ha : |1 + u - 1| = u := by rw [abs_of_nonneg (by linarith)]; ring
    rw [hr, ha, if_neg (by push_cast; linarith), if_neg (by push_cast; linarith),
      if_neg (by push_cast; linarith), if_pos (by push_cast; linarith)]
    simp only [sectorRgb]
  · have hr : remExact (((4 : Nat) : ℚ) + u) 2 = u := by
      have := remExact_two 2 u (by norm_num) hu0 (by linarith)
      have h4 : 2 * ((2 : ℤ) : ℚ) + u = ((4 : Nat) : ℚ) + u := by push_cast; ring
      rw [h4] at this
      exact this
    have ha : |u - 1| = 1 - u := by rw [abs_of_nonpos (by linarith)]; ring
    rw [hr, ha, if_neg (by push_cast; linarith), if_neg (by push_cast; linarith),
      if_neg (by push_cast; linarith), if_neg (by push_cast; linarith),
      if_pos (by push_cast; linarith)]
    simp only [sectorRgb]
    ring_nf
  · have hr : remExact (((5 : Nat) : ℚ) + u) 2 = 1 + u := by
      have := remExact_two 2 (1 + u) (by norm_num) (by linarith) (by linarith)
      have h5 : 2 * ((2 : ℤ) : ℚ) + (1 + u) = ((5 : Nat) : ℚ) + u := by push_cast; ring
      rw [h5] at this
      exact this
    have ha : |1 + u - 1| = u := by rw [abs_of_nonneg (by linarith)]; ring
    rw [hr, ha, if_neg (by push_cast; linarith), if_neg (by push_cast; linarith),
      if_neg (by push_cast; linarith), if_neg (by push_cast; linarith),
      if_neg (by push_cast; linarith)]
    simp only [sectorRgb]

theorem rgbToHsvExact_of (r g b M m : ℚ)
    (hM : Max.max (Max.max (r / 255) (g / 255)) (b / 255) = M)
    (hm : Min.min (Min.min (r / 255) (g / 255)) (b / 255) = m) :
    rgbToHsvExact (r, g, b) =
      ((if M - m ≠ 0 then
          if M = r / 255 then
            ((g / 255 - b / 255) / (M - m) + (if g / 255 < b / 255 then 6 else 0)) / 6
          else if M = g / 255 then ((b / 255 - r / 255) / (M - m) + 2) / 6
          else if M = b / 255 then ((r / 255 - g / 255) / (M - m) + 4) / 6
          else 0
        else 0) * 2 * piExact,
        (if M = 0 then 0 else (M - m) / M), M) := by
  unfold rgbToHsvExact
  simp only [hM, hm]

theorem sector_core (R G B : ℚ) (hR : 0 ≤ R) (hG : 0 ≤ G) (hB : 0 ≤ B) :
    ∃ (k : Nat) (u : ℚ), k < 6 ∧ 0 ≤ u ∧ u < 1
      ∧ (if Max.max (Max.max R G) B - Min.min (Min.min R G) B ≠ 0 then
          if Max.max (Max.max R G) B = R then
            ((G - B) / (Max.max (Max.max R G) B - Min.min (Min.min R G) B)
              + (if G < B then 6 else 0)) / 6
          else if Max.max (Max.max R G) B = G then
            ((B - R) / (Max.max (Max.max R G) B - Min.min (Min.min R G) B) + 2) / 6
          else if Max.max (Max.max R G) B = B then
            ((R - G) / (Max.max (Max.max R G) B - Min.min (Min.min R G) B) + 4) / 6
          else 0
        else 0) = ((k : ℚ) + u) / 6
      ∧ (sectorRgb k u (Max.max (Max.max R G) B
            * (if Max.max (Max.max R G) B = 0 then 0
              else (Max.max (Max.max R G) B - Min.min (Min.min R G) B)
                / Max.max (Max.max R G) B))).1
          + (Max.max (Max.max R G) B - Max.max (Max.max R G) B
            * (if Max.max (Max.max R G) B = 0 then 0
              else (Max.max (Max.max R G) B - Min.min (Min.min R G) B)
                / Max.max (Max.max R G) B)) = R
      ∧ (sectorRgb k u (Max.max (Max.max R G) B
            * (if Max.max (Max.max R G) B = 0 then 0
              else (Max.max (Max.max R G) B - Min.min (Min.min R G) B)
                / Max.max (Max.max R G) B))).2.1
          + (Max.max (Max.max R G) B - Max.max (Max.max R G) B
            * (if Max.max (Max.max R G) B = 0 then 0
              else (Max.max (Max.max R G) B - Min.min (Min.min R G) B)
                / Max.max (Max.max R G) B)) = G
      ∧ (sectorRgb k u (Max.max (Max.max R G) B
            * (if Max.max (Max.max R G) B = 0 then 0
              else (Max.max (Max.max R G) B - Min.min (Min.min R G) B)
                / Max.max (Max.max R G) B))).2.2
          + (Max.max (Max.max R G) B - Max.max (Max.max R G) B
            * (if Max.max (Max.max R G) B = 0 then 0
              else (Max.max (Max.max R G) B - Min.min (Min.min R G) B)
                / Max.max (Max.max R G) B)) = B := by
  -- the chroma `v * s` is `max - min`
  have hchroma : ∀ M m : ℚ, 0 ≤ m → m ≤ M →
      M * (if M = 0 then 0 else (M - m) / M) = M - m := by
    intro M m h0 hle
    by_cases hM0 : M = 0
    · rw [if_pos hM0, hM0]
      have : m = 0 := le_antisymm (hM0 ▸ hle) h0
      rw [this]
      ring
    · rw [if_neg hM0]
      field_simp
  by_cases hA : G ≤ R ∧ B ≤ R
  · obtain ⟨hGR, hBR⟩ := hA
    have hM : Max.max (Max.max R G) B = R := by
      rw [max_eq_left hGR, max_eq_left hBR]
    by_cases hGB : G < B
    · -- max = r, g < b: the last sector
      have hm : Min.min (Min.min R G) B = G := by
        rw [min_eq_right hGR, min_eq_left (le_of_lt hGB)]
      have hd : 0 < R - G := by linarith
      have hd0 : R - G ≠ 0 := ne_of_gt hd
      have h1 : -1 ≤ (G - B) / (R - G) := by rw [le_div_iff₀ hd]; linarith
      have h2 : (G - B) / (R - G) < 0 := div_neg_of_neg_of_pos (by linarith) hd
      simp only [hM, hm, hchroma R G hG hGR]
      refine ⟨5, 1 + (G - B) / (R - G), by norm_num, by linarith, by linarith, ?_, ?_, ?_, ?_⟩
      · rw [if_pos hd0, if_pos trivial, if_pos hGB]
        push_cast
        ring
      · simp only [sectorRgb]
        ring
      · simp only [sectorRgb]
        ring
      · simp only [sectorRgb]
        field_simp
        try ring
    · have hBG : B ≤ G := not_lt.mp hGB
      have hm : Min.min (Min.min R G) B = B := by
        rw [min_eq_right hGR, min_eq_right hBG]
      simp only [hM, hm, hchroma R B hB hBR]
      by_cases hd0 : R - B = 0
      · -- a gray: no hue, no chroma
        have hRB : R = B := by linarith
        have hRG : R = G := by linarith
        refine ⟨0, 0, by norm_num, le_refl _, by norm_num, ?_, ?_, ?_, ?_⟩
        · rw [if_neg (not_not.mpr hd0)]
          norm_num
        · simp only [sectorRgb]
          ring
        · simp only [sectorRgb]
          linarith
        · simp only [sectorRgb]
          linarith
      · have hd : 0 < R - B := lt_of_le_of_ne (by linarith) (Ne.symm hd0)
        have h1 : 0 ≤ (G - B) / (R - B) := div_nonneg (by linarith) (le_of_lt hd)
        by_cases hGltR : G < R
        · -- max = r, b ≤ g < r: the first sector
          have h2 : (G - B) / (R - B) < 1 := by rw [div_lt_one hd]; linarith
          refine ⟨0, (G - B) / (R - B), by norm_num, h1, h2, ?_, ?_, ?_, ?_⟩
          · rw [if_pos hd0, if_pos trivial, if_neg hGB]
            push_cast
            ring
          · simp only [sectorRgb]
            ring
          · simp only [sectorRgb]
            field_simp
            try ring
          · simp only [sectorRgb]
            ring
        · -- max = r = g: the start of the second sector
          have hGeqR : G = R := le_antisymm hGR (not_lt.mp hGltR)
          refine ⟨1, 0, by norm_num, le_refl _, by norm_num, ?_, ?_, ?_, ?_⟩
          · rw [if_pos hd0, if_pos trivial, if_neg hGB, hGeqR, div_self hd0]
            push_cast
            ring
          · simp only [sectorRgb]
            ring
          · simp only [sectorRgb]
            rw [hGeqR]
            ring
          · simp only [sectorRgb]
            ring
  · by_cases hBcase : R < G ∧ B ≤ G
    · obtain ⟨hRG, hBG⟩ := hBcase
      have hM : Max.max (Max.max R G) B = G := by
        rw [max_eq_right (le_of_lt hRG), max_eq_left hBG]
      have hne : ¬ G = R := ne_of_gt hRG
      by_cases hBR : B < R
      · -- max = g, b < r: the second sector
        have hm : Min.min (Min.min R G) B = B := by
          rw [min_eq_left (le_of_lt hRG), min_eq_right (le_of_lt hBR)]
        have hd : 0 < G - B := by linarith
        have hd0 : G - B ≠ 0 := ne_of_gt hd
        have h1 : -1 < (B - R) / (G - B) := by rw [lt_div_iff₀ hd]; linarith
        have h2 : (B - R) / (G - B) < 0 := div_neg_of_neg_of_pos (by linarith) hd
        simp only [hM, hm, hchroma G B hB hBG]
        refine ⟨1, 1 + (B - R) / (G - B), by norm_num, by linarith, by linarith, ?_, ?_, ?_, ?_⟩
        · rw [if_pos hd0, if_neg hne, if_pos trivial]
          push_cast
          ring
        · simp only [sectorRgb]
          field_simp
          try ring
        · simp only [sectorRgb]
          ring
        · simp only [sectorRgb]
          ring
      · have hRB : R ≤ B := not_lt.mp hBR
        have hm : Min.min (Min.min R G) B = R := by
          rw [min_eq_left (le_of_lt hRG), min_eq_left hRB]
        have hd : 0 < G - R := by linarith
        have hd0 : G - R ≠ 0 := ne_of_gt hd
        have h1 : 0 ≤ (B - R) / (G - R) := div_nonneg (by linarith) (le_of_lt hd)
        simp only [hM, hm, hchroma G R hR (le_of_lt hRG)]
        by_cases hBltG : B < G
        · -- max = g, r ≤ b < g: the third sector
          have h2 : (B - R) / (G - R) < 1 := by rw [div_lt_one hd]; linarith
          refine ⟨2, (B - R) / (G - R), by norm_num, h1, h2, ?_, ?_, ?_, ?_⟩
          · rw [if_pos hd0, if_neg hne, if_pos trivial]
            push_cast
            ring
          · simp only [sectorRgb]
            ring
          · simp only [sectorRgb]
            ring
          · simp only [sectorRgb]
            field_simp
            try ring
        · -- max = g = b: the start of the fourth sector
          have hBeqG : B = G := le_antisymm hBG (not_lt.mp hBltG)
          refine ⟨3, 0, by norm_num, le_refl _, by norm_num, ?_, ?_, ?_, ?_⟩
          · rw [if_pos hd0, if_neg hne, if_pos trivial, hBeqG, div_self hd0]
            push_cast
            ring
          · simp only [sectorRgb]
            ring
          · simp only [sectorRgb]
            ring
          · simp only [sectorRgb]
            rw [hBeqG]
            ring
    · -- max = b alone
      have hRB : R < B := by
        by_contra hcon
        have hBR : B ≤ R := not_lt.mp hcon
        by_cases hGR : G ≤ R
        · exact hA ⟨hGR, hBR⟩
        · exact hBcase ⟨not_le.mp hGR, le_trans hBR (le_of_lt (not_le.mp hGR))⟩
      have hGB : G < B := by
        by_contra hcon
        have hBG : B ≤ G := not_lt.mp hcon
        exact hBcase ⟨lt_of_lt_of_le hRB hBG, hBG⟩
      have hM : Max.max (Max.max R G) B = B := by
        rw [max_eq_right (max_le (le_of_lt hRB) (le_of_lt hGB))]
      have hneR : ¬ B = R := ne_of_gt hRB
      have hneG : ¬ B = G := ne_of_gt hGB
      by_cases hRG : R < G
      · -- max = b, r < g: the fourth sector
        have hm : Min.min (Min.min R G) B = R := by
          rw [min_eq_left (le_of_lt hRG), min_eq_left (le_of_lt hRB)]
        have hd : 0 < B - R := by linarith
        have hd0 : B - R ≠ 0 := ne_of_gt hd
        have h1 : -1 < (R - G) / (B - R) := by rw [lt_div_iff₀ hd]; linarith
        have h2 : (R - G) / (B - R) < 0 := div_neg_of_neg_of_pos (by linarith) hd
        simp only [hM, hm, hchroma B R hR (le_of_lt hRB)]
        refine ⟨3, 1 + (R - G) / (B - R), by norm_num, by linarith, by linarith, ?_, ?_, ?_, ?_⟩
        · rw [if_pos hd0, if_neg hneR, if_neg hneG, if_pos trivial]
          push_cast
          ring
        · simp only [sectorRgb]
          ring
        · simp only [sectorRgb]
          field_simp
          try ring
        · simp only [sectorRgb]
          ring
      · -- max = b, g ≤ r: the fifth sector
        have hGR : G ≤ R := not_lt.mp hRG
        have hm : Min.min (Min.min R G) B = G := by
          rw [min_eq_right hGR, min_eq_left (le_of_lt hGB)]
        have hd : 0 < B - G := by linarith
        have hd0 : B - G ≠ 0 := ne_of_gt hd
        have h1 : 0 ≤ (R - G) / (B - G) := div_nonneg (by linarith) (le_of_lt hd)
        have h2 : (R - G) / (B - G) < 1 := by rw [div_lt_one hd]; linarith
        simp only [hM, hm, hchroma B G hG (le_of_lt hGB)]
        refine ⟨4, (R - G) / (B - G), by norm_num, h1, h2, ?_, ?_, ?_, ?_⟩
        · rw [if_pos hd0, if_neg hneR, if_neg hneG, if_pos trivial]
          push_cast
          ring
        · simp only [sectorRgb]
          field_simp
          try ring
        · simp only [sectorRgb]
          ring
        · simp only [sectorRgb]
          ring

/-- What the round trip needs of `rgbToHsv`: the hue lies at a fraction `u` of a sector `k`,
and the colour of that sector for the chroma `v * s`, lifted by `m = v - v * s`, is the
colour the conversion started from, scaled to `[0, 1]`. -/
theorem rgbToHsvExact_sector (r g b : ℚ) (hr : 0 ≤ r) (hg : 0 ≤ g) (hb : 0 ≤ b) :
    ∃ (k : Nat) (u : ℚ), k < 6 ∧ 0 ≤ u ∧ u < 1
      ∧ (rgbToHsvExact (r, g, b)).1 = ((k : ℚ) + u) / 6 * 2 * piExact
      ∧ (sectorRgb k u ((rgbToHsvExact (r, g, b)).2.2 * (rgbToHsvExact (r, g, b)).2.1)).1
          + ((rgbToHsvExact (r, g, b)).2.2
            - (rgbToHsvExact (r, g, b)).2.2 * (rgbToHsvExact (r, g, b)).2.1) = r / 255
      ∧ (sectorRgb k u ((rgbToHsvExact (r, g, b)).2.2 * (rgbToHsvExact (r, g, b)).2.1)).2.1
          + ((rgbToHsvExact (r, g, b)).2.2
            - (rgbToHsvExact (r, g, b)).2.2 * (rgbToHsvExact (r, g, b)).2.1) = g / 255
      ∧ (sectorRgb k u ((rgbToHsvExact (r, g, b)).2.2 * (rgbToHsvExact (r, g, b)).2.1)).2.2
          + ((rgbToHsvExact (r, g, b)).2.2
            - (rgbToHsvExact (r, g, b)).2.2 * (rgbToHsvExact (r, g, b)).2.1) = b / 255 := by
  obtain ⟨k, u, hk, hu0, hu1, hh, h1, h2, h3⟩ :=
    sector_core (r / 255) (g / 255) (b / 255) (by positivity) (by positivity) (by positivity)
  rw [rgbToHsvExact_of r g b _ _ rfl rfl]
  refine ⟨k, u, hk, hu0, hu1, ?_, h1, h2, h3⟩
  show _ * 2 * piExact = _
  rw [hh]

theorem hsv_round_trip (r g b : Nat) :
    hsvToRgbExact (rgbToHsvExact ((r : ℚ), (g : ℚ), (b : ℚ))) = ((r : ℚ), (g : ℚ), (b : ℚ)) := by
  obtain ⟨k, u, hk, hu0, hu1, hh, h1, h2, h3⟩ :=
    rgbToHsvExact_sector (r : ℚ) (g : ℚ) (b : ℚ) (by positivity) (by positivity) (by positivity)
  rw [hsvToRgbExact_sector _ k u hk hu0 hu1 hh, h1, h2, h3]
  have e : ∀ n : Nat, (n : ℚ) / 255 * 255 = (n : ℚ) := fun n => by field_simp
  rw [e, e, e, roundExact_natCast, roundExact_natCast, roundExact_natCast]

/-! ## Rounding to binary64 is monotone -/

theorem bitLenAux_spec (fuel n : Nat) (h : n ≤ fuel) (hn : 0 < n) :
    2 ^ (bitLenAux fuel n - 1) ≤ n ∧ n < 2 ^ bitLenAux fuel n ∧ 0 < bitLenAux fuel n := by
  induction fuel generalizing n with
  | zero => omega
  | succ fuel ih =>
    unfold bitLenAux
    rw [if_neg (by omega)]
    by_cases h2 : n / 2 = 0
    · have hn1 : n = 1 := by omega
      subst hn1
      have : bitLenAux fuel (1 / 2) = 0 := by
        cases fuel with
        | zero => rfl
        | succ f => unfold bitLenAux; simp
      rw [this]
      simp
    · have hpos : 0 < n / 2 := Nat.pos_of_ne_zero h2
      obtain ⟨h1, h3, h4⟩ := ih (n / 2) (by omega) hpos
      refine ⟨?_, ?_, by omega⟩
      · have e : bitLenAux fuel (n / 2) + 1 - 1 = (bitLenAux fuel (n / 2) - 1) + 1 := by omega
        rw [e, pow_succ]
        omega
      · rw [pow_succ]
        omega

theorem bitLen_spec (n : Nat) (hn : 0 < n) :
    2 ^ (bitLen n - 1) ≤ n ∧ n < 2 ^ bitLen n ∧ 0 < bitLen n :=
  bitLenAux_spec n n (le_refl n) hn

theorem rne_mono (z1 z2 : ℚ) (h : z1 ≤ z2) : rne z1 ≤ rne z2 := by
  have hf : ⌊z1⌋ ≤ ⌊z2⌋ := Int.floor_mono h
  have h1 := Int.floor_le z1
  have h1' := Int.lt_floor_add_one z1
  have h2 := Int.floor_le z2
  have h2' := Int.lt_floor_add_one z2
  unfold rne
  dsimp only
  rcases lt_or_eq_of_le hf with hlt | heq
  · have hle : ⌊z1⌋ + 1 ≤ ⌊z2⌋ := hlt
    split_ifs <;> omega
  · rw [heq] at h1 h1' ⊢
    split_ifs <;> first | omega | (exfalso; linarith)

theorem rne_intCast (k : ℤ) : rne (k : ℚ) = k := by
  unfold rne
  simp

theorem rne_le_of_le (z : ℚ) (k : ℤ) (h : z ≤ k) : rne z ≤ k := by
  have := rne_mono z k h
  rwa [rne_intCast] at this

theorem le_rne_of_le (z : ℚ) (k : ℤ) (h : (k : ℚ) ≤ z) : k ≤ rne z := by
  have := rne_mono k z h
  rwa [rne_intCast] at this

theorem rne_of_floor (z : ℚ) (Q : ℤ) (r : ℚ) (hz : z = (Q : ℚ) + r) (h0 : 0 ≤ r) (h1 : r < 1) :
    rne z = if r < 1 / 2 then Q else if 1 / 2 < r then Q + 1
      else if Q % 2 = 0 then Q else Q + 1 := by
  have hfloor : ⌊z⌋ = Q := by
    rw [Int.floor_eq_iff, hz]
    constructor <;> linarith
  have hfrac : z - (Q : ℚ) = r := by rw [hz]; ring
  unfold rne
  dsimp only
  rw [hfloor, hfrac]

theorem roundShift_eq_rne (n s : Nat) : ((roundShift n s : Nat) : ℤ) = rne ((n : ℚ) / 2 ^ s) := by
  unfold roundShift
  dsimp only
  by_cases hs : s = 0
  · subst hs
    rw [if_pos rfl]
    have := rne_intCast (n : ℤ)
    simpa using this.symm
  · rw [if_neg hs]
    have hpow : (0 : ℚ) < 2 ^ s := by positivity
    have hdm := Nat.div_add_mod n (2 ^ s)
    have hmod : n % 2 ^ s < 2 ^ s := Nat.mod_lt _ (by positivity)
    have hhalfN : 2 ^ s = 2 * 2 ^ (s - 1) := by
      have : s = (s - 1) + 1 := by omega
      conv_lhs => rw [this, pow_succ]
      ring
    generalize n / 2 ^ s = Q at hdm ⊢
    generalize n % 2 ^ s = R at hdm hmod ⊢
    generalize hP : 2 ^ s = P at hdm hmod hhalfN hpow ⊢
    generalize 2 ^ (s - 1) = Hf at hhalfN ⊢
    have hPq : (0 : ℚ) < (P : ℚ) := by
      have : 0 < P := by omega
      exact_mod_cast this
    have hPcast : ((2 : ℚ) ^ s) = (P : ℚ) := by
      rw [← hP]
      push_cast
      rfl
    rw [hPcast]
    have hcast : (n : ℚ) = (P : ℚ) * (Q : ℚ) + (R : ℚ) := by
      rw [← hdm]
      push_cast
      ring
    have hz : (n : ℚ) / P = ((Q : ℤ) : ℚ) + (R : ℚ) / P := by
      rw [hcast]
      field_simp
      ring
    have hr0 : (0 : ℚ) ≤ (R : ℚ) / P := by positivity
    have hr1 : (R : ℚ) / P < 1 := by
      rw [div_lt_one hPq]
      exact_mod_cast hmod
    rw [rne_of_floor _ (Q : ℤ) _ hz hr0 hr1]
    have hcmp1 : (R < Hf) ↔ (R : ℚ) / P < 1 / 2 := by
      rw [div_lt_iff₀ hPq]
      constructor
      · intro h
        have h1 : (R : ℚ) < (Hf : ℚ) := by exact_mod_cast h
        have h2 : (P : ℚ) = 2 * (Hf : ℚ) := by exact_mod_cast hhalfN
        linarith
      · intro h
        have h2 : (P : ℚ) = 2 * (Hf : ℚ) := by exact_mod_cast hhalfN
        have h1 : (R : ℚ) < (Hf : ℚ) := by linarith
        exact_mod_cast h1
    have hcmp2 : (Hf < R) ↔ 1 / 2 < (R : ℚ) / P := by
      rw [lt_div_iff₀ hPq]
      constructor
      · intro h
        have h1 : (Hf : ℚ) < (R : ℚ) := by exact_mod_cast h
        have h2 : (P : ℚ) = 2 * (Hf : ℚ) := by exact_mod_cast hhalfN
        linarith
      · intro h
        have h2 : (P : ℚ) = 2 * (Hf : ℚ) := by exact_mod_cast hhalfN
        have h1 : (Hf : ℚ) < (R : ℚ) := by linarith
        exact_mod_cast h1
    by_cases c1 : R < Hf
    · rw [if_pos c1, if_pos (hcmp1.mp c1)]
    · rw [if_neg c1, if_neg (fun h => c1 (hcmp1.mpr h))]
      by_cases c2 : Hf < R
      · rw [if_pos c2, if_pos (hcmp2.mp c2)]
        rfl
      · rw [if_neg c2, if_neg (fun h => c2 (hcmp2.mpr h))]
        have hpar : (Q % 2 = 0) ↔ ((Q : ℤ) % 2 = 0) := by omega
        by_cases c3 : Q % 2 = 0
        · rw [if_pos c3, if_pos (hpar.mp c3)]
        · rw [if_neg c3, if_neg (fun h => c3 (hpar.mpr h))]
          push_cast
          rfl

theorem cast_shift (m e e0 : Int) (h : e0 ≤ e) :
    ((m * 2 ^ (e - e0).toNat : Int) : ℚ) * (2 : ℚ) ^ e0 = (m : ℚ) * (2 : ℚ) ^ e := by
  have h2 : (2 : ℚ) ≠ 0 := by norm_num
  have he : e = e0 + ((e - e0).toNat : Int) := by
    rw [Int.toNat_of_nonneg (by omega)]
    ring
  push_cast
  conv_rhs => rw [he, zpow_add₀ h2, zpow_natCast]
  ring

theorem JSNum.lt_fin_iff (m1 e1 m2 e2 : Int) :
    JSNum.lt (JSNum.fin m1 e1) (JSNum.fin m2 e2) = true
      ↔ (m1 : ℚ) * (2 : ℚ) ^ e1 < (m2 : ℚ) * (2 : ℚ) ^ e2 := by
  unfold JSNum.lt
  dsimp only
  rw [decide_eq_true_iff]
  have hpos : (0 : ℚ) < (2 : ℚ) ^ (Min.min e1 e2) := by positivity
  rw [← cast_shift m1 e1 (Min.min e1 e2) (min_le_left _ _),
    ← cast_shift m2 e2 (Min.min e1 e2) (min_le_right _ _)]
  rw [mul_lt_mul_right hpos]
  exact Int.cast_lt.symm

theorem JSNum.le_fin_iff (m1 e1 m2 e2 : Int) :
    JSNum.le (JSNum.fin m1 e1) (JSNum.fin m2 e2) = true
      ↔ (m1 : ℚ) * (2 : ℚ) ^ e1 ≤ (m2 : ℚ) * (2 : ℚ) ^ e2 := by
  have h := JSNum.lt_fin_iff m2 e2 m1 e1
  unfold JSNum.le
  dsimp only
  rw [Bool.not_eq_true', ← not_lt, ← h]
  simp

theorem packPos_le (q1 q2 : Nat) (u1 u2 : Int)
    (hval : (q1 : ℚ) * (2 : ℚ) ^ u1 ≤ (q2 : ℚ) * (2 : ℚ) ^ u2) (hq2 : q2 < 2 ^ 53)
    (hn1 : 971 < u1 → 2 ^ 52 ≤ q1) :
    JSNum.le (packPos q1 u1) (packPos q2 u2) = true := by
  have hp1 : (0 : ℚ) < (2 : ℚ) ^ u1 := by positivity
  have hp2 : (0 : ℚ) < (2 : ℚ) ^ u2 := by positivity
  unfold packPos
  by_cases h10 : q1 = 0
  · rw [if_pos h10]
    by_cases h20 : q2 = 0
    · rw [if_pos h20]
      rfl
    · rw [if_neg h20]
      by_cases ho2 : 971 < u2
      · rw [if_pos ho2]
        rfl
      · rw [if_neg ho2, JSNum.le_fin_iff]
        have : (0 : ℚ) ≤ (q2 : ℚ) := by positivity
        have := mul_nonneg this (le_of_lt hp2)
        simpa using this
  · rw [if_neg h10]
    have hq1pos : (0 : ℚ) < (q1 : ℚ) := by
      have : 0 < q1 := Nat.pos_of_ne_zero h10
      exact_mod_cast this
    have hv1 : (0 : ℚ) < (q1 : ℚ) * (2 : ℚ) ^ u1 := mul_pos hq1pos hp1
    have h20 : q2 ≠ 0 := by
      intro h
      rw [h] at hval
      simp at hval
      linarith
    rw [if_neg h20]
    by_cases ho1 : 971 < u1
    · rw [if_pos ho1]
      have hq1 := hn1 ho1
      have ho2 : 971 < u2 := by
        by_contra hcon
        have hu2 : u2 ≤ 971 := not_lt.mp hcon
        have h1 : (2 : ℚ) ^ (52 : Int) * (2 : ℚ) ^ (972 : Int) ≤ (q1 : ℚ) * (2 : ℚ) ^ u1 := by
          have ha : (2 : ℚ) ^ (52 : Int) ≤ (q1 : ℚ) := by
            have : ((2 ^ 52 : Nat) : ℚ) ≤ (q1 : ℚ) := by exact_mod_cast hq1
            have e : ((2 ^ 52 : Nat) : ℚ) = (2 : ℚ) ^ (52 : Int) := by norm_num
            rw [e] at this
            exact this
          have hb : (2 : ℚ) ^ (972 : Int) ≤ (2 : ℚ) ^ u1 :=
            zpow_le_zpow_right₀ (by norm_num) (by omega)
          exact mul_le_mul ha hb (by positivity) (by positivity)
        have h2 : (q2 : ℚ) * (2 : ℚ) ^ u2 < (2 : ℚ) ^ (53 : Int) * (2 : ℚ) ^ (971 : Int) := by
          have ha : (q2 : ℚ) < (2 : ℚ) ^ (53 : Int) := by
            have : (q2 : ℚ) < ((2 ^ 53 : Nat) : ℚ) := by exact_mod_cast hq2
            have e : ((2 ^ 53 : Nat) : ℚ) = (2 : ℚ) ^ (53 : Int) := by norm_num
            rw [e] at this
            exact this
          have hb : (2 : ℚ) ^ u2 ≤ (2 : ℚ) ^ (971 : Int) :=
            zpow_le_zpow_right₀ (by norm_num) hu2
          exact mul_lt_mul ha hb hp2 (by positivity)
        have h3 : (2 : ℚ) ^ (52 : Int) * (2 : ℚ) ^ (972 : Int)
            = (2 : ℚ) ^ (53 : Int) * (2 : ℚ) ^ (971 : Int) := by
          rw [← zpow_add₀ (by norm_num : (2 : ℚ) ≠ 0), ← zpow_add₀ (by norm_num : (2 : ℚ) ≠ 0)]
          norm_num
        linarith
      rw [if_pos ho2]
      rfl
    · rw [if_neg ho1]
      by_cases ho2 : 971 < u2
      · rw [if_pos ho2]
        rfl
      · rw [if_neg ho2, JSNum.le_fin_iff]
        simpa using hval

theorem IsRounding.bounds {x : ℚ} {E : Int} {q : Nat} (hlo : (2 : ℚ) ^ E ≤ x)
    (hhi : x < (2 : ℚ) ^ (E + 1))
    (hq : (q : Int) = rne (x / (2 : ℚ) ^ (Max.max E (-1022) - 52))) :
    q ≤ 2 ^ 53 ∧ (-1022 ≤ E → 2 ^ 52 ≤ q) := by
  have h2 : (2 : ℚ) ≠ 0 := by norm_num
  have hpu : (0 : ℚ) < (2 : ℚ) ^ (Max.max E (-1022) - 52) := by positivity
  constructor
  · have h1 : x / (2 : ℚ) ^ (Max.max E (-1022) - 52) ≤ ((2 ^ 53 : Int) : ℚ) := by
      rw [div_le_iff₀ hpu]
      have : (2 : ℚ) ^ (E + 1) ≤ ((2 ^ 53 : Int) : ℚ) * (2 : ℚ) ^ (Max.max E (-1022) - 52) := by
        have e53 : ((2 ^ 53 : Int) : ℚ) = (2 : ℚ) ^ (53 : Int) := by norm_num
        rw [e53, ← zpow_add₀ h2]
        exact zpow_le_zpow_right₀ (by norm_num) (by
          have := le_max_left E (-1022)
          omega)
      linarith
    have := rne_le_of_le _ _ h1
    rw [← hq] at this
    exact_mod_cast this
  · intro hE
    have hu : Max.max E (-1022) - 52 = E - 52 := by rw [max_eq_left hE]
    have h1 : ((2 ^ 52 : Int) : ℚ) ≤ x / (2 : ℚ) ^ (Max.max E (-1022) - 52) := by
      rw [le_div_iff₀ hpu, hu]
      have e52 : ((2 ^ 52 : Int) : ℚ) = (2 : ℚ) ^ (52 : Int) := by norm_num
      rw [e52, ← zpow_add₀ h2]
      have : (52 : Int) + (E - 52) = E := by ring
      rw [this]
      exact hlo
    have := le_rne_of_le _ _ h1
    rw [← hq] at this
    exact_mod_cast this

theorem isRounding_mono {x1 x2 : ℚ} {r1 r2 : JSNum} (h1 : IsRounding x1 r1)
    (h2 : IsRounding x2 r2) (hx : x1 ≤ x2) : JSNum.le r1 r2 = true := by
  obtain ⟨E1, q1, hlo1, hhi1, hq1, hr1⟩ := h1
  obtain ⟨E2, q2, hlo2, hhi2, hq2, hr2⟩ := h2
  have h2ne : (2 : ℚ) ≠ 0 := by norm_num
  have hE : E1 ≤ E2 := by
    have : (2 : ℚ) ^ E1 < (2 : ℚ) ^ (E2 + 1) := lt_of_le_of_lt (le_trans hlo1 hx) hhi2
    have := (zpow_lt_zpow_iff_right₀ (by norm_num : (1 : ℚ) < 2)).mp this
    omega
  obtain ⟨hb1, hn1⟩ := IsRounding.bounds hlo1 hhi1 hq1
  obtain ⟨hb2, hn2⟩ := IsRounding.bounds hlo2 hhi2 hq2
  generalize hu1 : Max.max E1 (-1022) - 52 = u1 at hq1 hr1
  generalize hu2 : Max.max E2 (-1022) - 52 = u2 at hq2 hr2
  have hu : u1 ≤ u2 := by
    rw [← hu1, ← hu2]
    have := max_le_max hE (le_refl (-1022 : Int))
    omega
  have hpu1 : (0 : ℚ) < (2 : ℚ) ^ u1 := by positivity
  have hpu2 : (0 : ℚ) < (2 : ℚ) ^ u2 := by positivity
  -- the values before the mantissa is brought back below `2 ^ 53`
  have hval : (q1 : ℚ) * (2 : ℚ) ^ u1 ≤ (q2 : ℚ) * (2 : ℚ) ^ u2 := by
    rcases lt_or_eq_of_le hu with hlt | heq
    · have hE2 : -1022 ≤ E2 := by
        by_contra hcon
        have : Max.max E2 (-1022) = -1022 := max_eq_right (by omega)
        have h3 := le_max_right E1 (-1022)
        omega
      have hq2lo := hn2 hE2
      have ha : (q1 : ℚ) * (2 : ℚ) ^ u1 ≤ (2 : ℚ) ^ (53 : Int) * (2 : ℚ) ^ u1 := by
        have : (q1 : ℚ) ≤ ((2 ^ 53 : Nat) : ℚ) := by exact_mod_cast hb1
        have e : ((2 ^ 53 : Nat) : ℚ) = (2 : ℚ) ^ (53 : Int) := by norm_num
        rw [e] at this
        exact mul_le_mul_of_nonneg_right this (le_of_lt hpu1)
      have hb : (2 : ℚ) ^ (52 : Int) * (2 : ℚ) ^ u2 ≤ (q2 : ℚ) * (2 : ℚ) ^ u2 := by
        have : ((2 ^ 52 : Nat) : ℚ) ≤ (q2 : ℚ) := by exact_mod_cast hq2lo
        have e : ((2 ^ 52 : Nat) : ℚ) = (2 : ℚ) ^ (52 : Int) := by norm_num
        rw [e] at this
        exact mul_le_mul_of_nonneg_right this (le_of_lt hpu2)
      have hc : (2 : ℚ) ^ (53 : Int) * (2 : ℚ) ^ u1 ≤ (2 : ℚ) ^ (52 : Int) * (2 : ℚ) ^ u2 := by
        rw [← zpow_add₀ h2ne, ← zpow_add₀ h2ne]
        exact zpow_le_zpow_right₀ (by norm_num) (by omega)
      linarith
    · rw [← heq] at hq2 ⊢
      have hdiv : x1 / (2 : ℚ) ^ u1 ≤ x2 / (2 : ℚ) ^ u1 :=
        div_le_div_of_nonneg_right hx (le_of_lt hpu1)
      have := rne_mono _ _ hdiv
      rw [← hq1, ← hq2] at this
      have hq : (q1 : ℚ) ≤ (q2 : ℚ) := by exact_mod_cast this
      exact mul_le_mul_of_nonneg_right hq (le_of_lt hpu1)
  rw [hr1, hr2]
  refine packPos_le _ _ _ _ ?_ ?_ ?_
  · -- bringing the mantissa back below `2 ^ 53` keeps the value
    have hren : ∀ (q : Nat) (u : Int),
        (((if q = 2 ^ 53 then 2 ^ 52 else q : Nat) : ℚ))
          * (2 : ℚ) ^ (if q = 2 ^ 53 then u + 1 else u) = (q : ℚ) * (2 : ℚ) ^ u := by
      intro q u
      by_cases h : q = 2 ^ 53
      · rw [if_pos h, if_pos h, h, zpow_add₀ h2ne]
        push_cast
        ring
      · rw [if_neg h, if_neg h]
    rw [hren, hren]
    exact hval
  · by_cases h : q2 = 2 ^ 53
    · rw [if_pos h]
      norm_num
    · rw [if_neg h]
      omega
  · intro hbig
    have hE1 : -1022 ≤ E1 := by
      by_contra hcon
      have : Max.max E1 (-1022) = -1022 := max_eq_right (by omega)
      split_ifs at hbig <;> omega
    have := hn1 hE1
    by_cases h : q1 = 2 ^ 53
    · rw [if_pos h]
    · rw [if_neg h]
      exact this

theorem JSNum.roundDyadic_isRounding (n : Nat) (e : Int) (hn : 0 < n) :
    IsRounding ((n : ℚ) * (2 : ℚ) ^ e) (JSNum.roundDyadic (n : Int) e) := by
  have h2ne : (2 : ℚ) ≠ 0 := by norm_num
  obtain ⟨hlo, hhi, hbl⟩ := bitLen_spec n hn
  have hpe : (0 : ℚ) < (2 : ℚ) ^ e := by positivity
  refine ⟨(bitLen n : Int) - 1 + e,
    (if Max.max ((bitLen n : Int) - 1 + e) (-1022) - 52 ≤ e then
      n * 2 ^ (e - (Max.max ((bitLen n : Int) - 1 + e) (-1022) - 52)).toNat
     else roundShift n ((Max.max ((bitLen n : Int) - 1 + e) (-1022) - 52) - e).toNat),
    ?_, ?_, ?_, ?_⟩
  · have e1 : ((bitLen n : Int) - 1 + e) = ((bitLen n - 1 : Nat) : Int) + e := by omega
    rw [e1, zpow_add₀ h2ne, zpow_natCast]
    have : ((2 ^ (bitLen n - 1) : Nat) : ℚ) ≤ (n : ℚ) := by exact_mod_cast hlo
    push_cast at this
    exact mul_le_mul_of_nonneg_right this (le_of_lt hpe)
  · have e1 : ((bitLen n : Int) - 1 + e + 1) = ((bitLen n : Nat) : Int) + e := by omega
    rw [e1, zpow_add₀ h2ne, zpow_natCast]
    have : (n : ℚ) < ((2 ^ bitLen n : Nat) : ℚ) := by exact_mod_cast hhi
    push_cast at this
    exact mul_lt_mul_of_pos_right this hpe
  · generalize Max.max ((bitLen n : Int) - 1 + e) (-1022) - 52 = u
    by_cases hu : u ≤ e
    · rw [if_pos hu]
      have hx : (n : ℚ) * (2 : ℚ) ^ e / (2 : ℚ) ^ u
          = (((n * 2 ^ (e - u).toNat : Nat) : Int) : ℚ) := by
        have he : e = u + ((e - u).toNat : Int) := by
          rw [Int.toNat_of_nonneg (by omega)]
          ring
        conv_lhs => rw [he, zpow_add₀ h2ne, zpow_natCast]
        have hpu : (2 : ℚ) ^ u ≠ 0 := by positivity
        field_simp
        ring
      rw [hx, rne_intCast]
    · rw [if_neg hu]
      have hx : (n : ℚ) * (2 : ℚ) ^ e / (2 : ℚ) ^ u = (n : ℚ) / (2 : ℚ) ^ (u - e).toNat := by
        have he : u = e + ((u - e).toNat : Int) := by
          rw [Int.toNat_of_nonneg (by omega)]
          ring
        conv_lhs => rw [he, zpow_add₀ h2ne, zpow_natCast]
        field_simp
        ring
      rw [hx, roundShift_eq_rne]
  · unfold JSNum.roundDyadic
    have hn0 : ¬ ((n : Int) = 0) := by omega
    have hneg : ¬ ((n : Int) < 0) := by omega
    simp only [if_neg hn0, Int.natAbs_ofNat, hneg, decide_False, if_false]
    unfold packPos
    rfl

theorem rne_split (Q t : Nat) (ψ : ℚ) (ht : 1 ≤ t) (h0 : 0 ≤ ψ) (h1 : ψ < 1) :
    rne (((Q : ℚ) + ψ) / 2 ^ t) =
      if Q % 2 ^ t < 2 ^ (t - 1) then ((Q / 2 ^ t : Nat) : Int)
      else if 2 ^ (t - 1) < Q % 2 ^ t ∨ (Q % 2 ^ t = 2 ^ (t - 1) ∧ ψ ≠ 0) then
        ((Q / 2 ^ t : Nat) : Int) + 1
      else if ((Q / 2 ^ t : Nat) : Int) % 2 = 0 then ((Q / 2 ^ t : Nat) : Int)
      else ((Q / 2 ^ t : Nat) : Int) + 1 := by
  have hdm := Nat.div_add_mod Q (2 ^ t)
  have hmod : Q % 2 ^ t < 2 ^ t := Nat.mod_lt _ (by positivity)
  have hhalfN : 2 ^ t = 2 * 2 ^ (t - 1) := by
    have : t = (t - 1) + 1 := by omega
    conv_lhs => rw [this, pow_succ]
    ring
  have hPcast : ((2 : ℚ) ^ t) = ((2 ^ t : Nat) : ℚ) := by push_cast; rfl
  rw [hPcast]
  generalize Q / 2 ^ t = Q' at hdm ⊢
  generalize Q % 2 ^ t = R at hdm hmod ⊢
  generalize 2 ^ t = P at hdm hmod hhalfN ⊢
  generalize 2 ^ (t - 1) = Hf at hhalfN ⊢
  have hPq : (0 : ℚ) < (P : ℚ) := by
    have : 0 < P := by omega
    exact_mod_cast this
  have hP2 : (P : ℚ) = 2 * (Hf : ℚ) := by exact_mod_cast hhalfN
  have hcast : (Q : ℚ) = (P : ℚ) * (Q' : ℚ) + (R : ℚ) := by
    rw [← hdm]
    push_cast
    ring
  have hz : ((Q : ℚ) + ψ) / P = ((Q' : ℤ) : ℚ) + ((R : ℚ) + ψ) / P := by
    rw [hcast]
    field_simp
    ring
  have hRle : (R : ℚ) + 1 ≤ (P : ℚ) := by
    have : R + 1 ≤ P := hmod
    exact_mod_cast this
  have hr0 : (0 : ℚ) ≤ ((R : ℚ) + ψ) / P := by positivity
  have hr1 : ((R : ℚ) + ψ) / P < 1 := by
    rw [div_lt_one hPq]
    linarith
  rw [rne_of_floor _ (Q' : ℤ) _ hz hr0 hr1]
  have hcmp1 : (R < Hf) ↔ ((R : ℚ) + ψ) / P < 1 / 2 := by
    rw [div_lt_iff₀ hPq]
    constructor
    · intro h
      have h1 : (R : ℚ) + 1 ≤ (Hf : ℚ) := by
        have : R + 1 ≤ Hf := h
        exact_mod_cast this
      linarith
    · intro h
      have h1 : (R : ℚ) < (Hf : ℚ) := by linarith
      exact_mod_cast h1
  have hcmp2 : (Hf < R ∨ (R = Hf ∧ ψ ≠ 0)) ↔ 1 / 2 < ((R : ℚ) + ψ) / P := by
    rw [lt_div_iff₀ hPq]
    constructor
    · rintro (h | ⟨h, hψ⟩)
      · have h1 : (Hf : ℚ) < (R : ℚ) := by exact_mod_cast h
        linarith
      · have h1 : (R : ℚ) = (Hf : ℚ) := by exact_mod_cast h
        have h2 : 0 < ψ := lt_of_le_of_ne h0 (Ne.symm hψ)
        linarith
    · intro h
      by_cases hlt : Hf < R
      · exact Or.inl hlt
      · right
        have hle : R ≤ Hf := not_lt.mp hlt
        have h1 : (R : ℚ) ≤ (Hf : ℚ) := by exact_mod_cast hle
        have h2 : (Hf : ℚ) < (R : ℚ) + ψ := by linarith
        have h3 : (Hf : ℚ) < (R : ℚ) + 1 := by linarith
        have h4 : Hf < R + 1 := by exact_mod_cast h3
        refine ⟨by omega, ?_⟩
        intro hψ
        rw [hψ] at h2
        linarith
  by_cases c1 : R < Hf
  · rw [if_pos c1, if_pos (hcmp1.mp c1)]
  · rw [if_neg c1, if_neg (fun h => c1 (hcmp1.mpr h))]
    by_cases c2 : Hf < R ∨ (R = Hf ∧ ψ ≠ 0)
    · rw [if_pos c2, if_pos (hcmp2.mp c2)]
    · rw [if_neg c2, if_neg (fun h => c2 (hcmp2.mpr h))]

/-- A sticky bit stands for the discarded part of a quotient: rounding at a bit `t ≥ 1`
places up sees the same halfway cases. -/
theorem rne_sticky (Q t : Nat) (φ σ : ℚ) (ht : 1 ≤ t) (hφ0 : 0 ≤ φ) (hφ1 : φ < 1)
    (hσ0 : 0 ≤ σ) (hσ1 : σ < 1) (hiff : φ = 0 ↔ σ = 0) :
    rne (((Q : ℚ) + φ) / 2 ^ t) = rne (((Q : ℚ) + σ) / 2 ^ t) := by
  rw [rne_split Q t φ ht hφ0 hφ1, rne_split Q t σ ht hσ0 hσ1]
  have : (φ ≠ 0) ↔ (σ ≠ 0) := not_congr hiff
  simp only [this]

theorem JSNum.roundQuot_isRounding (a b : Nat) (e : Int) (ha : 0 < a) (hb : 0 < b) :
    IsRounding ((a : ℚ) / (b : ℚ) * (2 : ℚ) ^ e) (JSNum.roundQuot (a : Int) b e) := by
  have h2ne : (2 : ℚ) ≠ 0 := by norm_num
  have hbq : (0 : ℚ) < (b : ℚ) := by exact_mod_cast hb
  obtain ⟨-, hbhi, -⟩ := bitLen_spec b hb
  -- the quotient with `k` more bits and its remainder
  have hdm := Nat.div_add_mod (a * 2 ^ (55 + bitLen b)) b
  have hmod : a * 2 ^ (55 + bitLen b) % b < b := Nat.mod_lt _ hb
  have hq55 : 2 ^ 55 ≤ a * 2 ^ (55 + bitLen b) / b := by
    rw [Nat.le_div_iff_mul_le hb, pow_add]
    have h1 : 2 ^ 55 * b ≤ 2 ^ 55 * 2 ^ bitLen b := Nat.mul_le_mul_left _ (le_of_lt hbhi)
    have h2 : 2 ^ 55 * 2 ^ bitLen b ≤ a * (2 ^ 55 * 2 ^ bitLen b) :=
      Nat.le_mul_of_pos_left _ ha
    omega
  have hunf : JSNum.roundQuot (a : Int) b e =
      JSNum.roundDyadic
        (((2 * (a * 2 ^ (55 + bitLen b) / b)
          + (if a * 2 ^ (55 + bitLen b) % b = 0 then 0 else 1) : Nat)) : Int)
        (e - ((55 + bitLen b : Nat) : Int) - 1) := by
    unfold JSNum.roundQuot
    have hb0 : ¬ b = 0 := by omega
    have hneg : ¬ ((a : Int) < 0) := by omega
    simp only [if_neg hb0, Int.natAbs_ofNat, hneg, if_false]
  rw [hunf]
  generalize hk : 55 + bitLen b = k at hdm hmod hq55 ⊢
  generalize hQ : a * 2 ^ k / b = Q at hdm hq55 ⊢
  generalize hR : a * 2 ^ k % b = R at hdm hmod ⊢
  have hmant : 0 < 2 * Q + (if R = 0 then 0 else 1) := by
    have : 0 < 2 ^ 55 := by positivity
    omega
  obtain ⟨E, qz, hlo, hhi, hq, hr⟩ :=
    JSNum.roundDyadic_isRounding (2 * Q + (if R = 0 then 0 else 1)) (e - (k : Int) - 1) hmant
  -- the exact quotient and the value with the sticky bit, in units of `2 ^ (e - k)`
  have hg : (0 : ℚ) < (2 : ℚ) ^ (e - (k : Int)) := by positivity
  have hx : (a : ℚ) / (b : ℚ) * (2 : ℚ) ^ e
      = ((Q : ℚ) + (R : ℚ) / (b : ℚ)) * (2 : ℚ) ^ (e - (k : Int)) := by
    have h1 : (a : ℚ) * (2 : ℚ) ^ k = (b : ℚ) * (Q : ℚ) + (R : ℚ) := by
      have := congrArg (fun n : Nat => (n : ℚ)) hdm
      simp only [Nat.cast_add, Nat.cast_mul, Nat.cast_pow, Nat.cast_ofNat] at this
      exact this.symm
    have hpk : (0 : ℚ) < (2 : ℚ) ^ k := by positivity
    have ha' : (a : ℚ) = ((b : ℚ) * (Q : ℚ) + (R : ℚ)) / (2 : ℚ) ^ k := by
      rw [eq_div_iff (ne_of_gt hpk)]
      exact h1
    rw [zpow_sub₀ h2ne, zpow_natCast, ha']
    field_simp
    ring
  have hσ : ∃ σ : ℚ, 0 ≤ σ ∧ σ < 1 ∧ (σ = 0 ↔ R = 0)
      ∧ (((2 * Q + (if R = 0 then 0 else 1) : Nat)) : ℚ) * (2 : ℚ) ^ (e - (k : Int) - 1)
        = ((Q : ℚ) + σ) * (2 : ℚ) ^ (e - (k : Int)) := by
    by_cases hR0 : R = 0
    · refine ⟨0, le_refl _, by norm_num, by simp [hR0], ?_⟩
      rw [if_pos hR0, zpow_sub₀ h2ne, zpow_one]
      push_cast
      ring
    · refine ⟨1 / 2, by norm_num, by norm_num, by simp [hR0], ?_⟩
      rw [if_neg hR0, zpow_sub₀ h2ne, zpow_one]
      push_cast
      ring
  obtain ⟨σ, hσ0, hσ1, hσiff, hz⟩ := hσ
  rw [hz] at hlo hhi hq
  have hφ0 : (0 : ℚ) ≤ (R : ℚ) / (b : ℚ) := by positivity
  have hφ1 : (R : ℚ) / (b : ℚ) < 1 := by
    rw [div_lt_one hbq]
    exact_mod_cast hmod
  have hφiff : (R : ℚ) / (b : ℚ) = 0 ↔ σ = 0 := by
    rw [hσiff, div_eq_zero_iff]
    constructor
    · rintro (h | h)
      · exact_mod_cast h
      · exact absurd h (ne_of_gt hbq)
    · intro h
      left
      exact_mod_cast h
  -- the leading bit is at least 55 places above the unit
  have hQ55 : (2 : ℚ) ^ (55 : Int) ≤ (Q : ℚ) := by
    have : ((2 ^ 55 : Nat) : ℚ) ≤ (Q : ℚ) := by exact_mod_cast hq55
    have e55 : ((2 ^ 55 : Nat) : ℚ) = (2 : ℚ) ^ (55 : Int) := by norm_num
    rw [e55] at this
    exact this
  have hT : 55 ≤ E - (e - (k : Int)) := by
    have h1 : (2 : ℚ) ^ (55 : Int) * (2 : ℚ) ^ (e - (k : Int))
        ≤ ((Q : ℚ) + σ) * (2 : ℚ) ^ (e - (k : Int)) :=
      mul_le_mul_of_nonneg_right (by linarith) (le_of_lt hg)
    rw [← zpow_add₀ h2ne] at h1
    have h2 := lt_of_le_of_lt h1 hhi
    have := (zpow_lt_zpow_iff_right₀ (by norm_num : (1 : ℚ) < 2)).mp h2
    omega
  have hEg : ∀ j : Int, 0 ≤ j → (2 : ℚ) ^ (E + j)
      = ((2 ^ (E + j - (e - (k : Int))).toNat : Nat) : ℚ) * (2 : ℚ) ^ (e - (k : Int)) := by
    intro j hj
    have he : E + j = ((E + j - (e - (k : Int))).toNat : Int) + (e - (k : Int)) := by
      rw [Int.toNat_of_nonneg (by omega)]
      ring
    conv_lhs => rw [he, zpow_add₀ h2ne, zpow_natCast]
    push_cast
    rfl
  have hlo' : ((2 ^ (E + 0 - (e - (k : Int))).toNat : Nat) : ℚ) ≤ (Q : ℚ) := by
    have h1 := hlo
    rw [← add_zero E, hEg 0 (le_refl _)] at h1
    have h2 := le_of_mul_le_mul_right h1 hg
    have h3 : ((2 ^ (E + 0 - (e - (k : Int))).toNat : Nat) : ℚ) < (Q : ℚ) + 1 := by linarith
    have h4 : 2 ^ (E + 0 - (e - (k : Int))).toNat < Q + 1 := by exact_mod_cast h3
    have h5 : 2 ^ (E + 0 - (e - (k : Int))).toNat ≤ Q := by omega
    exact_mod_cast h5
  have hhi' : (Q : ℚ) + 1 ≤ ((2 ^ (E + 1 - (e - (k : Int))).toNat : Nat) : ℚ) := by
    have h1 := hhi
    rw [hEg 1 (by norm_num)] at h1
    have h2 := lt_of_mul_lt_mul_right h1 (le_of_lt hg)
    have h3 : (Q : ℚ) < ((2 ^ (E + 1 - (e - (k : Int))).toNat : Nat) : ℚ) := by linarith
    have h4 : Q < 2 ^ (E + 1 - (e - (k : Int))).toNat := by exact_mod_cast h3
    have h5 : Q + 1 ≤ 2 ^ (E + 1 - (e - (k : Int))).toNat := h4
    exact_mod_cast h5
  have hdiv : ∀ ψ : ℚ, ((Q : ℚ) + ψ) * (2 : ℚ) ^ (e - (k : Int))
        / (2 : ℚ) ^ (Max.max E (-1022) - 52)
      = ((Q : ℚ) + ψ) / 2 ^ (Max.max E (-1022) - 52 - (e - (k : Int))).toNat := by
    intro ψ
    have hmax := le_max_left E (-1022)
    have he : Max.max E (-1022) - 52
        = ((Max.max E (-1022) - 52 - (e - (k : Int))).toNat : Int) + (e - (k : Int)) := by
      rw [Int.toNat_of_nonneg (by omega)]
      ring
    conv_lhs => rw [he, zpow_add₀ h2ne, zpow_natCast]
    field_simp
    ring
  refine ⟨E, qz, ?_, ?_, ?_, hr⟩
  · rw [hx, ← add_zero E, hEg 0 (le_refl _)]
    exact mul_le_mul_of_nonneg_right (by linarith) (le_of_lt hg)
  · rw [hx, hEg 1 (by norm_num)]
    exact mul_lt_mul_of_pos_right (by linarith) hg
  · rw [hx, hdiv]
    rw [hdiv] at hq
    rw [hq]
    have hmax := le_max_left E (-1022)
    have ht : 1 ≤ (Max.max E (-1022) - 52 - (e - (k : Int))).toNat := by
      have : (1 : Int) ≤ Max.max E (-1022) - 52 - (e - (k : Int)) := by omega
      omega
    exact rne_sticky Q _ σ ((R : ℚ) / (b : ℚ)) ht hσ0 hσ1 hφ0 hφ1 hφiff.symm

theorem JSNum.FinNonneg.toRat_nonneg {a : JSNum} (h : a.FinNonneg) : 0 ≤ a.toRat := by
  obtain ⟨m, e, rfl, hm⟩ := h
  unfold JSNum.toRat
  have : (0 : ℚ) ≤ (m : ℚ) := by exact_mod_cast hm
  positivity

theorem JSNum.le_iff_toRat {a b : JSNum} (ha : a.FinNonneg) (hb : b.FinNonneg) :
    JSNum.le a b = true ↔ a.toRat ≤ b.toRat := by
  obtain ⟨m1, e1, rfl, -⟩ := ha
  obtain ⟨m2, e2, rfl, -⟩ := hb
  exact JSNum.le_fin_iff m1 e1 m2 e2

theorem packPos_finNonneg_or_inf (q : Nat) (u : Int) :
    (packPos q u).FinNonneg ∨ packPos q u = JSNum.inf false := by
  unfold packPos
  split_ifs
  · exact Or.inl ⟨0, 0, rfl, le_refl _⟩
  · exact Or.inr rfl
  · exact Or.inl ⟨q, u, rfl, Int.natCast_nonneg q⟩

theorem Rounds.finNonneg_or_inf {x : ℚ} {r : JSNum} (h : Rounds x r) :
    r.FinNonneg ∨ r = JSNum.inf false := by
  rcases h with ⟨-, hr⟩ | ⟨-, E, q, -, -, -, hr⟩
  · exact Or.inl ⟨0, 0, hr, le_refl _⟩
  · rw [hr]
    exact packPos_finNonneg_or_inf _ _

theorem Rounds.mono {x1 x2 : ℚ} {r1 r2 : JSNum} (h1 : Rounds x1 r1) (h2 : Rounds x2 r2)
    (hx : x1 ≤ x2) : JSNum.le r1 r2 = true := by
  rcases h1 with ⟨hx1, hr1⟩ | ⟨hx1, hi1⟩
  · rcases h2.finNonneg_or_inf with ⟨m, e, hr2, hm⟩ | hr2
    · rw [hr1, hr2, JSNum.le_fin_iff]
      have : (0 : ℚ) ≤ (m : ℚ) := by exact_mod_cast hm
      have h0 : (0 : ℚ) ≤ (m : ℚ) * (2 : ℚ) ^ e := by positivity
      simpa using h0
    · rw [hr1, hr2]
      rfl
  · rcases h2 with ⟨hx2, -⟩ | ⟨-, hi2⟩
    · linarith
    · exact isRounding_mono hi1 hi2 hx

theorem JSNum.roundDyadic_rounds (m e : Int) (hm : 0 ≤ m) :
    Rounds ((m : ℚ) * (2 : ℚ) ^ e) (JSNum.roundDyadic m e) := by
  by_cases h0 : m = 0
  · left
    subst h0
    refine ⟨by simp, ?_⟩
    unfold JSNum.roundDyadic
    rw [if_pos rfl]
  · right
    have hpos : 0 < m := lt_of_le_of_ne hm (Ne.symm h0)
    obtain ⟨n, rfl⟩ := Int.eq_ofNat_of_zero_le hm
    have hn : 0 < n := by omega
    refine ⟨?_, ?_⟩
    · have : (0 : ℚ) < (n : ℚ) := by exact_mod_cast hn
      push_cast
      positivity
    · have := JSNum.roundDyadic_isRounding n e hn
      simpa using this

theorem JSNum.mul_rounds {a b : JSNum} (ha : a.FinNonneg) (hb : b.FinNonneg) :
    Rounds (a.toRat * b.toRat) (a * b) := by
  obtain ⟨m1, e1, rfl, h1⟩ := ha
  obtain ⟨m2, e2, rfl, h2⟩ := hb
  have h2ne : (2 : ℚ) ≠ 0 := by norm_num
  have := JSNum.roundDyadic_rounds (m1 * m2) (e1 + e2) (mul_nonneg h1 h2)
  have hv : (((m1 * m2 : Int)) : ℚ) * (2 : ℚ) ^ (e1 + e2)
      = (JSNum.fin m1 e1).toRat * (JSNum.fin m2 e2).toRat := by
    unfold JSNum.toRat
    rw [zpow_add₀ h2ne]
    push_cast
    ring
  rw [hv] at this
  exact this

theorem JSNum.sq_rounds (m e : Int) :
    Rounds ((JSNum.fin m e).toRat * (JSNum.fin m e).toRat) (JSNum.fin m e * JSNum.fin m e) := by
  have h2ne : (2 : ℚ) ≠ 0 := by norm_num
  have := JSNum.roundDyadic_rounds (m * m) (e + e) (mul_self_nonneg m)
  have hv : (((m * m : Int)) : ℚ) * (2 : ℚ) ^ (e + e)
      = (JSNum.fin m e).toRat * (JSNum.fin m e).toRat := by
    unfold JSNum.toRat
    rw [zpow_add₀ h2ne]
    push_cast
    ring
  rw [hv] at this
  exact this

theorem JSNum.add_fin_eq (m1 e1 m2 e2 : Int) :
    JSNum.fin m1 e1 + JSNum.fin m2 e2 =
      JSNum.roundDyadic (m1 * 2 ^ (e1 - Min.min e1 e2).toNat + m2 * 2 ^ (e2 - Min.min e1 e2).toNat)
        (Min.min e1 e2) := rfl

theorem JSNum.add_fin_value (m1 e1 m2 e2 : Int) :
    (((m1 * 2 ^ (e1 - Min.min e1 e2).toNat + m2 * 2 ^ (e2 - Min.min e1 e2).toNat : Int)) : ℚ)
        * (2 : ℚ) ^ (Min.min e1 e2)
      = (JSNum.fin m1 e1).toRat + (JSNum.fin m2 e2).toRat := by
  have h1 := cast_shift m1 e1 (Min.min e1 e2) (min_le_left _ _)
  have h2 := cast_shift m2 e2 (Min.min e1 e2) (min_le_right _ _)
  simp only [JSNum.toRat]
  rw [← h1, ← h2]
  push_cast
  ring

theorem JSNum.add_rounds {a b : JSNum} (ha : a.FinNonneg) (hb : b.FinNonneg) :
    Rounds (a.toRat + b.toRat) (a + b) := by
  obtain ⟨m1, e1, rfl, h1⟩ := ha
  obtain ⟨m2, e2, rfl, h2⟩ := hb
  rw [JSNum.add_fin_eq, ← JSNum.add_fin_value]
  refine JSNum.roundDyadic_rounds _ _ ?_
  have ha : 0 ≤ m1 * 2 ^ (e1 - Min.min e1 e2).toNat := mul_nonneg h1 (by positivity)
  have hb : 0 ≤ m2 * 2 ^ (e2 - Min.min e1 e2).toNat := mul_nonneg h2 (by positivity)
  omega

theorem JSNum.sub_fin_eq (m1 e1 m2 e2 : Int) :
    JSNum.fin m1 e1 - JSNum.fin m2 e2 = JSNum.fin m1 e1 + JSNum.fin (-m2) e2 := rfl

theorem JSNum.toRat_fin_neg (m e : Int) :
    (JSNum.fin (-m) e).toRat = -(JSNum.fin m e).toRat := by
  unfold JSNum.toRat
  push_cast
  ring

theorem JSNum.sub_rounds {a b : JSNum} (ha : a.FinNonneg) (hb : b.FinNonneg)
    (hle : b.toRat ≤ a.toRat) : Rounds (a.toRat - b.toRat) (a - b) := by
  obtain ⟨m1, e1, rfl, h1⟩ := ha
  obtain ⟨m2, e2, rfl, h2⟩ := hb
  rw [JSNum.sub_fin_eq, JSNum.add_fin_eq]
  have hv := JSNum.add_fin_value m1 e1 (-m2) e2
  rw [JSNum.toRat_fin_neg] at hv
  have hv' : (JSNum.fin m1 e1).toRat - (JSNum.fin m2 e2).toRat
      = (((m1 * 2 ^ (e1 - Min.min e1 e2).toNat + -m2 * 2 ^ (e2 - Min.min e1 e2).toNat : Int)) : ℚ)
        * (2 : ℚ) ^ (Min.min e1 e2) := by
    rw [hv]
    ring
  rw [hv']
  refine JSNum.roundDyadic_rounds _ _ ?_
  have hpos : (0 : ℚ) < (2 : ℚ) ^ (Min.min e1 e2) := by positivity
  have h3 : (0 : ℚ) ≤ (((m1 * 2 ^ (e1 - Min.min e1 e2).toNat
      + -m2 * 2 ^ (e2 - Min.min e1 e2).toNat : Int)) : ℚ) * (2 : ℚ) ^ (Min.min e1 e2) := by
    rw [← hv']
    linarith
  have h4 := nonneg_of_mul_nonneg_left h3 hpos
  exact_mod_cast h4

theorem JSNum.div_rounds {a b : JSNum} (ha : a.FinNonneg) (hb : b.FinNonneg)
    (hpos : 0 < b.toRat) : Rounds (a.toRat / b.toRat) (a / b) := by
  obtain ⟨m1, e1, rfl, h1⟩ := ha
  obtain ⟨m2, e2, rfl, h2⟩ := hb
  have h2ne : (2 : ℚ) ≠ 0 := by norm_num
  have hm2 : 0 < m2 := by
    rcases lt_or_eq_of_le h2 with h | h
    · exact h
    · rw [← h] at hpos
      simp [JSNum.toRat] at hpos
  obtain ⟨n1, rfl⟩ := Int.eq_ofNat_of_zero_le h1
  obtain ⟨n2, rfl⟩ := Int.eq_ofNat_of_zero_le h2
  have hn2 : 0 < n2 := by omega
  have hdiv : JSNum.fin (n1 : Int) e1 / JSNum.fin (n2 : Int) e2
      = JSNum.roundQuot (n1 : Int) n2 (e1 - e2) := by
    show JSNum.div _ _ = _
    unfold JSNum.div
    have h0 : ¬ ((n2 : Int) = 0) := by omega
    have hneg : ¬ ((n2 : Int) < 0) := by omega
    simp only [if_neg h0, if_neg hneg, Int.natAbs_ofNat]
  rw [hdiv]
  have hval : (JSNum.fin (n1 : Int) e1).toRat / (JSNum.fin (n2 : Int) e2).toRat
      = (n1 : ℚ) / (n2 : ℚ) * (2 : ℚ) ^ (e1 - e2) := by
    unfold JSNum.toRat
    rw [zpow_sub₀ h2ne]
    have : (0 : ℚ) < (n2 : ℚ) := by exact_mod_cast hn2
    push_cast
    field_simp
  rw [hval]
  by_cases hn1 : n1 = 0
  · left
    subst hn1
    refine ⟨by simp, ?_⟩
    unfold JSNum.roundQuot
    have h0 : ¬ n2 = 0 := by omega
    simp [h0, JSNum.roundDyadic]
  · right
    have hn1' : 0 < n1 := Nat.pos_of_ne_zero hn1
    refine ⟨?_, JSNum.roundQuot_isRounding n1 n2 (e1 - e2) hn1' hn2⟩
    have h1q : (0 : ℚ) < (n1 : ℚ) := by exact_mod_cast hn1'
    have h2q : (0 : ℚ) < (n2 : ℚ) := by exact_mod_cast hn2
    positivity

theorem Rounds.exact {x : ℚ} {r : JSNum} (h : Rounds x r) (hrep : Representable x) :
    r.FinNonneg ∧ r.toRat = x := by
  have h2ne : (2 : ℚ) ≠ 0 := by norm_num
  rcases h with ⟨hx, hr⟩ | ⟨hx, E, q, hlo, hhi, hq, hr⟩
  · rw [hr, hx]
    exact ⟨⟨0, 0, rfl, le_refl _⟩, by simp [JSNum.toRat]⟩
  · obtain ⟨n, e, hxe, hn, he, hbig⟩ := hrep
    have hpe : (0 : ℚ) < (2 : ℚ) ^ e := by positivity
    -- the leading bit is below bit 53 of `n` and below `2 ^ 1023`
    have hE1 : E < 53 + e := by
      have h1 : (n : ℚ) < (2 : ℚ) ^ (53 : Int) := by
        have : (n : ℚ) < ((2 ^ 53 : Nat) : ℚ) := by exact_mod_cast hn
        have e53 : ((2 ^ 53 : Nat) : ℚ) = (2 : ℚ) ^ (53 : Int) := by norm_num
        rw [e53] at this
        exact this
      have h2 : x < (2 : ℚ) ^ (53 : Int) * (2 : ℚ) ^ e := by
        rw [hxe]
        exact mul_lt_mul_of_pos_right h1 hpe
      rw [← zpow_add₀ h2ne] at h2
      exact (zpow_lt_zpow_iff_right₀ (by norm_num : (1 : ℚ) < 2)).mp (lt_of_le_of_lt hlo h2)
    have hE2 : E < 1023 :=
      (zpow_lt_zpow_iff_right₀ (by norm_num : (1 : ℚ) < 2)).mp (lt_of_le_of_lt hlo hbig)
    generalize hu : Max.max E (-1022) - 52 = u at hq hr
    have hue : u ≤ e := by
      rw [← hu]
      rcases max_cases E (-1022) with ⟨h1, -⟩ | ⟨h1, -⟩ <;> omega
    have hu970 : u ≤ 970 := by
      rw [← hu]
      rcases max_cases E (-1022) with ⟨h1, -⟩ | ⟨h1, -⟩ <;> omega
    have hpu : (0 : ℚ) < (2 : ℚ) ^ u := by positivity
    have hxu : x / (2 : ℚ) ^ u = (((n * 2 ^ (e - u).toNat : Nat) : Int) : ℚ) := by
      have hee : e = u + ((e - u).toNat : Int) := by
        rw [Int.toNat_of_nonneg (by omega)]
        ring
      rw [hxe]
      conv_lhs => rw [hee, zpow_add₀ h2ne, zpow_natCast]
      field_simp
      ring
    rw [hxu, rne_intCast] at hq
    have hqn : q = n * 2 ^ (e - u).toNat := by exact_mod_cast hq
    have hqval : (q : ℚ) * (2 : ℚ) ^ u = x := by
      have : (q : ℚ) = x / (2 : ℚ) ^ u := by
        rw [hxu, hqn]
        push_cast
        rfl
      rw [this]
      field_simp
    have hq0 : q ≠ 0 := by
      intro h0
      rw [h0] at hqval
      simp at hqval
      linarith
    rw [hr]
    unfold packPos
    by_cases h53 : q = 2 ^ 53
    · rw [if_pos h53, if_pos h53, if_neg (by norm_num), if_neg (by omega)]
      refine ⟨⟨_, _, rfl, by positivity⟩, ?_⟩
      show (((2 ^ 52 : Nat) : Int) : ℚ) * (2 : ℚ) ^ (u + 1) = x
      rw [← hqval, h53, zpow_add₀ h2ne]
      push_cast
      ring
    · rw [if_neg h53, if_neg h53, if_neg hq0, if_neg (by omega)]
      refine ⟨⟨_, _, rfl, Int.natCast_nonneg q⟩, ?_⟩
      show (((q : Nat) : Int) : ℚ) * (2 : ℚ) ^ u = x
      exact_mod_cast hqval

theorem Rounds.finNonneg {x : ℚ} {r : JSNum} (h : Rounds x r)
    (hx : x < (2 : ℚ) ^ (1023 : Int)) : r.FinNonneg := by
  rcases h with ⟨-, hr⟩ | ⟨-, E, q, hlo, hhi, hq, hr⟩
  · exact ⟨0, 0, hr, le_refl _⟩
  · have hE2 : E < 1023 :=
      (zpow_lt_zpow_iff_right₀ (by norm_num : (1 : ℚ) < 2)).mp (lt_of_le_of_lt hlo hx)
    have hu970 : Max.max E (-1022) - 52 ≤ 970 := by
      rcases max_cases E (-1022) with ⟨h1, -⟩ | ⟨h1, -⟩ <;> omega
    rw [hr]
    unfold packPos
    split_ifs
    · exact ⟨0, 0, rfl, le_refl _⟩
    · omega
    · exact ⟨_, _, rfl, by positivity⟩
    · exact ⟨0, 0, rfl, le_refl _⟩
    · omega
    · exact ⟨_, _, rfl, by positivity⟩

theorem representable_natCast (n : Nat) (hn : n < 2 ^ 53) : Representable (n : ℚ) := by
  refine ⟨n, 0, by simp, hn, by norm_num, ?_⟩
  have h1 : (n : ℚ) < ((2 ^ 53 : Nat) : ℚ) := by exact_mod_cast hn
  have h2 : ((2 ^ 53 : Nat) : ℚ) ≤ (2 : ℚ) ^ (1023 : Int) := by norm_num
  linarith

theorem representable_half (n : Nat) (hn : n < 2 ^ 53) : Representable ((n : ℚ) / 2) := by
  refine ⟨n, -1, ?_, hn, by norm_num, ?_⟩
  · rw [zpow_neg_one]
    ring
  · have h1 : (n : ℚ) < ((2 ^ 53 : Nat) : ℚ) := by exact_mod_cast hn
    have h2 : ((2 ^ 53 : Nat) : ℚ) ≤ (2 : ℚ) ^ (1023 : Int) := by norm_num
    have h3 : (0 : ℚ) ≤ (n : ℚ) := by positivity
    linarith

theorem JSNum.ofInt_natCast (n : Nat) (hn : n < 2 ^ 53) :
    (JSNum.ofInt (n : Int)).FinNonneg ∧ (JSNum.ofInt (n : Int)).toRat = (n : ℚ) := by
  have h := JSNum.roundDyadic_rounds (n : Int) 0 (Int.natCast_nonneg n)
  have hv : (((n : Int)) : ℚ) * (2 : ℚ) ^ (0 : Int) = (n : ℚ) := by simp
  rw [hv] at h
  exact h.exact (representable_natCast n hn)

theorem JSNum.toUint8Clamp_eq_rne (m e : Int) (hm : 0 ≤ m) :
    ((JSNum.toUint8Clamp (JSNum.fin m e) : Nat) : Int)
      = Min.min 255 (rne ((m : ℚ) * (2 : ℚ) ^ e)) := by
  have h2ne : (2 : ℚ) ≠ 0 := by norm_num
  obtain ⟨n, rfl⟩ := Int.eq_ofNat_of_zero_le hm
  simp only [JSNum.toUint8Clamp]
  by_cases h0 : n = 0
  · subst h0
    simp [rne_intCast]
    have := rne_intCast 0
    simp at this
    rw [this]
    rfl
  · have hpos : ¬ ((n : Int) ≤ 0) := by omega
    rw [if_neg hpos]
    by_cases he : 0 ≤ e
    · rw [if_pos he]
      have hv : (((n : Int)) : ℚ) * (2 : ℚ) ^ e = (((n * 2 ^ e.toNat : Nat) : Int) : ℚ) := by
        have hee : e = (e.toNat : Int) := (Int.toNat_of_nonneg he).symm
        conv_lhs => rw [hee, zpow_natCast]
        push_cast
        rfl
      rw [hv, rne_intCast, Int.natAbs_ofNat]
      push_cast
      rfl
    · rw [if_neg he]
      have hv : (((n : Int)) : ℚ) * (2 : ℚ) ^ e = (n : ℚ) / 2 ^ (-e).toNat := by
        have hee : e = -((-e).toNat : Int) := by
          rw [Int.toNat_of_nonneg (by omega)]
          ring
        conv_lhs => rw [hee, zpow_neg, zpow_natCast]
        push_cast
        rfl
      rw [hv, ← roundShift_eq_rne, Int.natAbs_ofNat]
      push_cast
      rfl

theorem JSNum.toUint8Clamp_mono {a b : JSNum} (ha : a.FinNonneg) (hb : b.FinNonneg)
    (h : a.toRat ≤ b.toRat) : JSNum.toUint8Clamp a ≤ JSNum.toUint8Clamp b := by
  obtain ⟨m1, e1, rfl, h1⟩ := ha
  obtain ⟨m2, e2, rfl, h2⟩ := hb
  have e1' := JSNum.toUint8Clamp_eq_rne m1 e1 h1
  have e2' := JSNum.toUint8Clamp_eq_rne m2 e2 h2
  have hr := rne_mono _ _ h
  have : ((JSNum.toUint8Clamp (JSNum.fin m1 e1) : Nat) : Int)
      ≤ ((JSNum.toUint8Clamp (JSNum.fin m2 e2) : Nat) : Int) := by
    rw [e1', e2']
    exact min_le_min (le_refl _) hr
  exact_mod_cast this

theorem JSNum.toUint8Clamp_of_toRat {a : JSNum} (ha : a.FinNonneg) (n : Nat) (hn : n ≤ 255)
    (h : a.toRat = (n : ℚ)) : JSNum.toUint8Clamp a = n := by
  obtain ⟨m, e, rfl, hm⟩ := ha
  have e1 := JSNum.toUint8Clamp_eq_rne m e hm
  have hv : (m : ℚ) * (2 : ℚ) ^ e = ((n : Int) : ℚ) := by
    have : (JSNum.fin m e).toRat = (m : ℚ) * (2 : ℚ) ^ e := rfl
    rw [← this, h]
    simp
  rw [hv, rne_intCast] at e1
  have : ((JSNum.toUint8Clamp (JSNum.fin m e) : Nat) : Int) = (n : Int) := by
    rw [e1]
    exact min_eq_right (by exact_mod_cast hn)
  exact_mod_cast this

theorem JSNum.roundDyadic_neg (m e : Int) :
    JSNum.roundDyadic (-m) e = JSNum.neg (JSNum.roundDyadic m e) := by
  unfold JSNum.roundDyadic
  by_cases h0 : m = 0
  · subst h0
    simp [JSNum.neg]
  · have h0' : ¬ (-m = 0) := by omega
    rw [if_neg h0, if_neg h0']
    simp only [Int.natAbs_neg]
    by_cases hneg : m < 0
    · have hneg' : ¬ (-m < 0) := by omega
      split_ifs <;> simp [JSNum.neg, hneg, hneg']
    · have hneg' : -m < 0 := by omega
      split_ifs <;> simp [JSNum.neg, hneg, hneg']

theorem JSNum.sub_antisymm (m1 e1 m2 e2 : Int) :
    JSNum.fin m1 e1 - JSNum.fin m2 e2 = JSNum.neg (JSNum.fin m2 e2 - JSNum.fin m1 e1) := by
  rw [JSNum.sub_fin_eq, JSNum.sub_fin_eq, JSNum.add_fin_eq, JSNum.add_fin_eq,
    ← JSNum.roundDyadic_neg, min_comm e2 e1]
  congr 1
  ring

theorem JSNum.sub_exact {a b : JSNum} (ha : a.FinNonneg) (hb : b.FinNonneg)
    (hrep : Representable |a.toRat - b.toRat|) :
    ∃ (m e : Int), a - b = JSNum.fin m e ∧ (JSNum.fin m e).toRat = a.toRat - b.toRat := by
  by_cases hle : b.toRat ≤ a.toRat
  · have h := JSNum.sub_rounds ha hb hle
    rw [abs_of_nonneg (by linarith)] at hrep
    obtain ⟨⟨m, e, hme, -⟩, hv⟩ := h.exact hrep
    exact ⟨m, e, hme, by rw [← hme]; exact hv⟩
  · have hlt : a.toRat < b.toRat := not_le.mp hle
    have h := JSNum.sub_rounds hb ha (le_of_lt hlt)
    rw [abs_of_neg (by linarith)] at hrep
    have hrep' : Representable (b.toRat - a.toRat) := by
      have : -(a.toRat - b.toRat) = b.toRat - a.toRat := by ring
      rw [← this]
      exact hrep
    obtain ⟨⟨m, e, hme, -⟩, hv⟩ := h.exact hrep'
    obtain ⟨m1, e1, rfl, -⟩ := ha
    obtain ⟨m2, e2, rfl, -⟩ := hb
    refine ⟨-m, e, ?_, ?_⟩
    · rw [JSNum.sub_antisymm, hme]
      rfl
    · rw [JSNum.toRat_fin_neg, ← hme, hv]
      ring

theorem Rounds.of_representable {y : ℚ} (hy : Representable y) :
    ∃ r : JSNum, Rounds y r ∧ r.FinNonneg ∧ r.toRat = y := by
  obtain ⟨n, e, hye, hn, he, hbig⟩ := hy
  have h := JSNum.roundDyadic_rounds (n : Int) e (Int.natCast_nonneg n)
  have hv : (((n : Int)) : ℚ) * (2 : ℚ) ^ e = y := by rw [hye]; simp
  rw [hv] at h
  exact ⟨_, h, h.exact ⟨n, e, hye, hn, he, hbig⟩⟩

theorem Rounds.le_toRat {x y : ℚ} {r : JSNum} (h : Rounds x r) (hr : r.FinNonneg)
    (hy : Representable y) (hyx : y ≤ x) : y ≤ r.toRat := by
  obtain ⟨ry, hry, hfin, hval⟩ := Rounds.of_representable hy
  have := Rounds.mono hry h hyx
  rw [JSNum.le_iff_toRat hfin hr, hval] at this
  exact this

theorem Rounds.toRat_le {x y : ℚ} {r : JSNum} (h : Rounds x r)
    (hy : Representable y) (hxy : x ≤ y) : r.FinNonneg ∧ r.toRat ≤ y := by
  obtain ⟨ry, hry, hfin, hval⟩ := Rounds.of_representable hy
  have hle := Rounds.mono h hry hxy
  rcases h.finNonneg_or_inf with hr | hr
  · refine ⟨hr, ?_⟩
    rw [JSNum.le_iff_toRat hr hfin, hval] at hle
    exact hle
  · obtain ⟨m, e, hme, -⟩ := hfin
    rw [hr, hme] at hle
    simp [JSNum.le, JSNum.lt] at hle

theorem Rounds.zero {r : JSNum} (h : Rounds 0 r) : r = JSNum.fin 0 0 := by
  rcases h with ⟨-, hr⟩ | ⟨hpos, -⟩
  · exact hr
  · exact absurd hpos (lt_irrefl 0)

theorem JSNum.finNonneg_of_le {a : JSNum} (m e : Int) (h0 : JSNum.le 0 a = true)
    (h1 : JSNum.le a (JSNum.fin m e) = true) : a.FinNonneg := by
  cases a with
  | nan => exact absurd h0 (by decide)
  | inf s =>
    cases s
    · simp [JSNum.le, JSNum.lt] at h1
    · have : (0 : JSNum) = JSNum.fin 0 0 := rfl
      rw [this] at h0
      simp [JSNum.le, JSNum.lt] at h0
  | fin ma ea =>
    have : (0 : JSNum) = JSNum.fin 0 0 := rfl
    rw [this, JSNum.le_fin_iff] at h0
    refine ⟨ma, ea, rfl, ?_⟩
    have hp : (0 : ℚ) < (2 : ℚ) ^ ea := by positivity
    have h2 : (0 : ℚ) ≤ (ma : ℚ) * (2 : ℚ) ^ ea := by simpa using h0
    have h3 := nonneg_of_mul_nonneg_left h2 hp
    exact_mod_cast h3

theorem representable_one : Representable 1 := by
  have := representable_natCast 1 (by norm_num)
  simpa using this

theorem JSNum.natLit (n : Nat) (hn : n < 2 ^ 53) :
    (OfNat.ofNat n : JSNum).FinNonneg ∧ (OfNat.ofNat n : JSNum).toRat = (n : ℚ) :=
  JSNum.ofInt_natCast n hn

theorem JSNum.half_ofInt (n : Nat) (hn : n < 2 ^ 53) :
    (JSNum.ofInt (n : Int) / 2).FinNonneg ∧ (JSNum.ofInt (n : Int) / 2).toRat = (n : ℚ) / 2 := by
  obtain ⟨h1, h2⟩ := JSNum.ofInt_natCast n hn
  obtain ⟨h3, h4⟩ := JSNum.natLit 2 (by norm_num)
  have hr := JSNum.div_rounds h1 h3 (by rw [h4]; norm_num)
  rw [h2, h4] at hr
  exact hr.exact (by
    have := representable_half n hn
    simpa using this)

theorem axis_sq (n x : Nat) (hn : n < 2 ^ 51) (hx : x < 2 ^ 51) :
    Rounds (((x : ℚ) - (n : ℚ) / 2) * ((x : ℚ) - (n : ℚ) / 2))
      ((JSNum.ofInt (x : Int) - JSNum.ofInt (n : Int) / 2)
        * (JSNum.ofInt (x : Int) - JSNum.ofInt (n : Int) / 2)) := by
  obtain ⟨hc1, hc2⟩ := JSNum.half_ofInt n (by omega)
  obtain ⟨hx1, hx2⟩ := JSNum.ofInt_natCast x (by omega)
  have hrep : Representable |(JSNum.ofInt (x : Int)).toRat
      - (JSNum.ofInt (n : Int) / 2).toRat| := by
    rw [hx2, hc2]
    by_cases hle : n ≤ 2 * x
    · have h1 : (n : ℚ) ≤ 2 * (x : ℚ) := by exact_mod_cast hle
      rw [abs_of_nonneg (by linarith)]
      have := representable_half (2 * x - n) (by omega)
      have hcast : (((2 * x - n : Nat)) : ℚ) = 2 * (x : ℚ) - (n : ℚ) := by
        rw [Nat.cast_sub hle]
        push_cast
        ring
      rw [hcast] at this
      have e : (2 * (x : ℚ) - (n : ℚ)) / 2 = (x : ℚ) - (n : ℚ) / 2 := by ring
      rw [e] at this
      exact this
    · have hlt : 2 * x < n := not_le.mp hle
      have h1 : 2 * (x : ℚ) < (n : ℚ) := by exact_mod_cast hlt
      rw [abs_of_neg (by linarith)]
      have := representable_half (n - 2 * x) (by omega)
      have hcast : (((n - 2 * x : Nat)) : ℚ) = (n : ℚ) - 2 * (x : ℚ) := by
        rw [Nat.cast_sub (le_of_lt hlt)]
        push_cast
        ring
      rw [hcast] at this
      have e : ((n : ℚ) - 2 * (x : ℚ)) / 2 = -((x : ℚ) - (n : ℚ) / 2) := by ring
      rw [e] at this
      exact this
  obtain ⟨m, e, hme, hv⟩ := JSNum.sub_exact hx1 hc1 hrep
  rw [hx2, hc2] at hv
  rw [hme, ← hv]
  exact JSNum.sq_rounds m e

theorem axis_center_sq (n : Nat) (hn : n < 2 ^ 51) :
    Rounds ((n : ℚ) / 2 * ((n : ℚ) / 2))
      (JSNum.ofInt (n : Int) / 2 * (JSNum.ofInt (n : Int) / 2)) := by
  obtain ⟨hc1, hc2⟩ := JSNum.half_ofInt n (by omega)
  have := JSNum.mul_rounds hc1 hc1
  rw [hc2] at this
  exact this

theorem representable_two_pow (k : Nat) (hk : k < 1023) : Representable ((2 : ℚ) ^ k) := by
  refine ⟨1, (k : Int), by rw [zpow_natCast]; simp, by norm_num, by omega, ?_⟩
  have : (2 : ℚ) ^ k = (2 : ℚ) ^ (k : Int) := (zpow_natCast 2 k).symm
  rw [this]
  exact zpow_lt_zpow_right₀ (by norm_num) (by omega)

theorem representable_quarter : Representable (1 / 4) := by
  refine ⟨1, -2, ?_, by norm_num, by norm_num, ?_⟩
  · norm_num [zpow_neg]
  · have : (1 : ℚ) ≤ (2 : ℚ) ^ (1023 : Int) := one_le_zpow₀ (by norm_num) (by norm_num)
    linarith

theorem vignette_core (H : Host) (hH : H.SqrtMonotone) (Smax S S' value : JSNum)
    (hmax : Smax.FinNonneg) (hpos : 0 < Smax.toRat)
    (hS : S.FinNonneg) (hS' : S'.FinNonneg) (hSS : S.toRat ≤ S'.toRat)
    (hSmax : S'.toRat ≤ Smax.toRat)
    (hv : value.FinNonneg) (hv100 : value.toRat ≤ 100) :
    (1 - (H.sqrt S / H.sqrt Smax) * (value / 100)).FinNonneg
      ∧ (1 - (H.sqrt S / H.sqrt Smax) * (value / 100)).toRat ≤ 1
      ∧ (1 - (H.sqrt S' / H.sqrt Smax) * (value / 100)).toRat
          ≤ (1 - (H.sqrt S / H.sqrt Smax) * (value / 100)).toRat
      ∧ (value.toRat = 0 → (1 - (H.sqrt S / H.sqrt Smax) * (value / 100)).toRat = 1) := by
  obtain ⟨h1f, h1v⟩ := JSNum.natLit 1 (by norm_num)
  obtain ⟨h100f, h100v⟩ := JSNum.natLit 100 (by norm_num)
  have hone : Representable 1 := representable_one
  -- the strength
  have hs := JSNum.div_rounds hv h100f (by rw [h100v]; norm_num)
  rw [h100v] at hs
  have hv0 := hv.toRat_nonneg
  obtain ⟨hsf, hs1⟩ := hs.toRat_le hone (by
    rw [div_le_one (by norm_num)]
    exact_mod_cast hv100)
  have hs0 := hsf.toRat_nonneg
  -- the distances
  have hM := hH.finNonneg Smax hmax
  have hMpos := hH.pos Smax hmax hpos
  have key : ∀ T : JSNum, T.FinNonneg → T.toRat ≤ Smax.toRat →
      (H.sqrt T / H.sqrt Smax).FinNonneg ∧ (H.sqrt T / H.sqrt Smax).toRat ≤ 1
        ∧ Rounds ((H.sqrt T).toRat / (H.sqrt Smax).toRat) (H.sqrt T / H.sqrt Smax)
        ∧ (H.sqrt T / H.sqrt Smax * (value / 100)).FinNonneg
        ∧ (H.sqrt T / H.sqrt Smax * (value / 100)).toRat ≤ 1
        ∧ Rounds ((H.sqrt T / H.sqrt Smax).toRat * (value / 100 : JSNum).toRat)
            (H.sqrt T / H.sqrt Smax * (value / 100))
        ∧ Rounds (1 - (H.sqrt T / H.sqrt Smax * (value / 100)).toRat)
            (1 - H.sqrt T / H.sqrt Smax * (value / 100)) := by
    intro T hT hTle
    have hD := hH.finNonneg T hT
    have hDle := hH.mono T Smax hT hmax hTle
    have hq := JSNum.div_rounds hD hM hMpos
    obtain ⟨hqf, hq1⟩ := hq.toRat_le hone (by
      rw [div_le_one hMpos]
      exact hDle)
    have hq0 := hqf.toRat_nonneg
    have hm := JSNum.mul_rounds hqf hsf
    obtain ⟨hmf, hm1⟩ := hm.toRat_le hone (by nlinarith)
    have hsub := JSNum.sub_rounds h1f hmf (by rw [h1v]; exact hm1)
    rw [h1v] at hsub
    exact ⟨hqf, hq1, hq, hmf, hm1, hm, hsub⟩
  obtain ⟨hqf, hq1, hq, hmf, hm1, hm, hsub⟩ := key S hS (le_trans hSS hSmax)
  obtain ⟨hqf', hq1', hq', hmf', hm1', hm', hsub'⟩ := key S' hS' hSmax
  have hm0 := hmf.toRat_nonneg
  have hm0' := hmf'.toRat_nonneg
  obtain ⟨hvf, hv1⟩ := hsub.toRat_le hone (by linarith)
  obtain ⟨hvf', hv1'⟩ := hsub'.toRat_le hone (by linarith)
  refine ⟨hvf, hv1, ?_, ?_⟩
  · -- a larger distance gives a smaller factor
    have hD := hH.mono S S' hS hS' hSS
    have hqq : (H.sqrt S / H.sqrt Smax).toRat ≤ (H.sqrt S' / H.sqrt Smax).toRat := by
      have := Rounds.mono hq hq' (div_le_div_of_nonneg_right hD (le_of_lt hMpos))
      rwa [JSNum.le_iff_toRat hqf hqf'] at this
    have hmm : (H.sqrt S / H.sqrt Smax * (value / 100)).toRat
        ≤ (H.sqrt S' / H.sqrt Smax * (value / 100)).toRat := by
      have := Rounds.mono hm hm' (mul_le_mul_of_nonneg_right hqq hs0)
      rwa [JSNum.le_iff_toRat hmf hmf'] at this
    have := Rounds.mono hsub' hsub (by linarith)
    rwa [JSNum.le_iff_toRat hvf' hvf] at this
  · intro hzero
    have hs00 : (value / 100 : JSNum) = JSNum.fin 0 0 := by
      rw [hzero] at hs
      simp only [zero_div] at hs
      exact hs.zero
    have hT0 : H.sqrt S / H.sqrt Smax * (value / 100) = JSNum.fin 0 0 := by
      have h := hm
      rw [hs00] at h
      have hz : (JSNum.fin 0 0).toRat = 0 := by simp [JSNum.toRat]
      rw [hz, mul_zero] at h
      rw [hs00]
      exact h.zero
    have h := hsub
    rw [hT0] at h
    have hz : (JSNum.fin 0 0).toRat = 0 := by simp [JSNum.toRat]
    rw [hz, sub_zero] at h
    rw [hT0]
    exact (h.exact hone).2

theorem axis_facts (n x : Nat) (hn1 : 1 ≤ n) (hn : n < 2 ^ 51) (hx : x < n) :
    ((JSNum.ofInt (x : Int) - JSNum.ofInt (n : Int) / 2)
        * (JSNum.ofInt (x : Int) - JSNum.ofInt (n : Int) / 2)).FinNonneg
      ∧ (JSNum.ofInt (n : Int) / 2 * (JSNum.ofInt (n : Int) / 2)).FinNonneg
      ∧ ((JSNum.ofInt (x : Int) - JSNum.ofInt (n : Int) / 2)
          * (JSNum.ofInt (x : Int) - JSNum.ofInt (n : Int) / 2)).toRat
        ≤ (JSNum.ofInt (n : Int) / 2 * (JSNum.ofInt (n : Int) / 2)).toRat
      ∧ (JSNum.ofInt (n : Int) / 2 * (JSNum.ofInt (n : Int) / 2)).toRat ≤ (2 : ℚ) ^ 100
      ∧ 1 / 4 ≤ (JSNum.ofInt (n : Int) / 2 * (JSNum.ofInt (n : Int) / 2)).toRat
      ∧ ((JSNum.ofInt ((n / 2 : Nat) : Int) - JSNum.ofInt (n : Int) / 2)
          * (JSNum.ofInt ((n / 2 : Nat) : Int) - JSNum.ofInt (n : Int) / 2)).toRat
        ≤ ((JSNum.ofInt (x : Int) - JSNum.ofInt (n : Int) / 2)
          * (JSNum.ofInt (x : Int) - JSNum.ofInt (n : Int) / 2)).toRat := by
  have hS := axis_sq n x hn (by omega)
  have hS0 := axis_sq n (n / 2) hn (by omega)
  have hC := axis_center_sq n hn
  have hnq : (n : ℚ) < (2 : ℚ) ^ 51 := by
    have : (n : ℚ) < ((2 ^ 51 : Nat) : ℚ) := by exact_mod_cast hn
    have e : ((2 ^ 51 : Nat) : ℚ) = (2 : ℚ) ^ 51 := by norm_num
    rw [e] at this
    exact this
  have hn1q : (1 : ℚ) ≤ (n : ℚ) := by exact_mod_cast hn1
  have hxq : (x : ℚ) < (n : ℚ) := by exact_mod_cast hx
  have hx0 : (0 : ℚ) ≤ (x : ℚ) := by positivity
  have hCb : (n : ℚ) / 2 * ((n : ℚ) / 2) ≤ (2 : ℚ) ^ 100 := by
    have h50 : (n : ℚ) / 2 ≤ (2 : ℚ) ^ 50 := by
      have : (2 : ℚ) ^ 51 = 2 * (2 : ℚ) ^ 50 := by norm_num
      linarith
    have h0 : (0 : ℚ) ≤ (n : ℚ) / 2 := by positivity
    have : (2 : ℚ) ^ 100 = (2 : ℚ) ^ 50 * (2 : ℚ) ^ 50 := by norm_num
    rw [this]
    exact mul_le_mul h50 h50 h0 (by positivity)
  have hSC : ((x : ℚ) - (n : ℚ) / 2) * ((x : ℚ) - (n : ℚ) / 2)
      ≤ (n : ℚ) / 2 * ((n : ℚ) / 2) := by nlinarith
  obtain ⟨hCf, hCle⟩ := hC.toRat_le (representable_two_pow 100 (by norm_num)) hCb
  obtain ⟨hSf, -⟩ := hS.toRat_le (representable_two_pow 100 (by norm_num)) (le_trans hSC hCb)
  have hS0C : (((n / 2 : Nat) : ℚ) - (n : ℚ) / 2) * (((n / 2 : Nat) : ℚ) - (n : ℚ) / 2)
      ≤ ((x : ℚ) - (n : ℚ) / 2) * ((x : ℚ) - (n : ℚ) / 2) := by
    -- twice the offset from the centre is an integer of the parity of `n`
    have hdm := Nat.div_add_mod n 2
    have hmod : n % 2 < 2 := Nat.mod_lt _ (by norm_num)
    generalize n / 2 = k at hdm ⊢
    have hint : (2 * (k : Int) - (n : Int)) * (2 * (k : Int) - (n : Int))
        ≤ (2 * (x : Int) - (n : Int)) * (2 * (x : Int) - (n : Int)) := by
      have h1 : 2 * (k : Int) - (n : Int) = -((n % 2 : Nat) : Int) := by omega
      rw [h1]
      rcases Nat.mod_two_eq_zero_or_one n with h0 | h0
      · rw [h0]
        simpa using mul_self_nonneg (2 * (x : Int) - (n : Int))
      · rw [h0]
        have hne : 2 * (x : Int) - (n : Int) ≠ 0 := by omega
        have : 1 ≤ (2 * (x : Int) - (n : Int)) * (2 * (x : Int) - (n : Int)) := by
          rcases lt_or_gt_of_ne hne with h | h
          · nlinarith
          · nlinarith
        simpa using this
    have hq : (((2 * (k : Int) - (n : Int)) * (2 * (k : Int) - (n : Int)) : Int) : ℚ)
        ≤ (((2 * (x : Int) - (n : Int)) * (2 * (x : Int) - (n : Int)) : Int) : ℚ) := by
      exact_mod_cast hint
    push_cast at hq
    nlinarith
  have hS0f : ((JSNum.ofInt ((n / 2 : Nat) : Int) - JSNum.ofInt (n : Int) / 2)
      * (JSNum.ofInt ((n / 2 : Nat) : Int) - JSNum.ofInt (n : Int) / 2)).FinNonneg :=
    (hS0.toRat_le (representable_two_pow 100 (by norm_num))
      (le_trans (le_trans hS0C hSC) hCb)).1
  refine ⟨hSf, hCf, ?_, hCle, ?_, ?_⟩
  · have := Rounds.mono hS hC hSC
    rwa [JSNum.le_iff_toRat hSf hCf] at this
  · exact hC.le_toRat hCf representable_quarter (by nlinarith)
  · have := Rounds.mono hS0 hS hS0C
    rwa [JSNum.le_iff_toRat hS0f hSf] at this

theorem vignetteAt_spec (H : Host) (hH : H.SqrtMonotone) (W Hh : Nat) (hW1 : 1 ≤ W)
    (hH1 : 1 ≤ Hh) (hWb : W < 2 ^ 51) (hHb : Hh < 2 ^ 51) (value : JSNum)
    (hv : value.FinNonneg) (hv100 : value.toRat ≤ 100) (y x : Nat) (hx : x < W) (hy : y < Hh) :
    (vignetteAt H W Hh value y x).FinNonneg
      ∧ (vignetteAt H W Hh value y x).toRat ≤ 1
      ∧ (vignetteAt H W Hh value y x).toRat ≤ (vignetteAt H W Hh value (Hh / 2) (W / 2)).toRat
      ∧ (value.toRat = 0 → (vignetteAt H W Hh value y x).toRat = 1) := by
  obtain ⟨hSXf, hCXf, hSXC, hCXb, hCXq, hSX0⟩ := axis_facts W x hW1 hWb hx
  obtain ⟨hSYf, hCYf, hSYC, hCYb, hCYq, hSY0⟩ := axis_facts Hh y hH1 hHb hy
  obtain ⟨hSX0f, -, -, -, -, -⟩ := axis_facts W (W / 2) hW1 hWb (by omega)
  obtain ⟨hSY0f, -, -, -, -, -⟩ := axis_facts Hh (Hh / 2) hH1 hHb (by omega)
  have hrep : Representable ((2 : ℚ) ^ 101) := representable_two_pow 101 (by norm_num)
  have h101 : (2 : ℚ) ^ 101 = (2 : ℚ) ^ 100 + (2 : ℚ) ^ 100 := by norm_num
  have hS := JSNum.add_rounds hSXf hSYf
  have hS0 := JSNum.add_rounds hSX0f hSY0f
  have hC := JSNum.add_rounds hCXf hCYf
  have hCXn := hCXf.toRat_nonneg
  have hCYn := hCYf.toRat_nonneg
  obtain ⟨hCf, -⟩ := hC.toRat_le hrep (by rw [h101]; linarith)
  obtain ⟨hSf, -⟩ := hS.toRat_le hrep (by rw [h101]; linarith)
  obtain ⟨hS0f, -⟩ := hS0.toRat_le hrep (by rw [h101]; linarith)
  have hCpos : 0 < (JSNum.ofInt (W : Int) / 2 * (JSNum.ofInt (W : Int) / 2)
      + JSNum.ofInt (Hh : Int) / 2 * (JSNum.ofInt (Hh : Int) / 2)).toRat := by
    have := hC.le_toRat hCf representable_quarter (by linarith)
    linarith
  have hSC := Rounds.mono hS hC (by linarith)
  rw [JSNum.le_iff_toRat hSf hCf] at hSC
  have hS0S := Rounds.mono hS0 hS (by linarith)
  rw [JSNum.le_iff_toRat hS0f hSf] at hS0S
  obtain ⟨-, -, hmono, -⟩ := vignette_core H hH _ _ _ value hCf hCpos hS0f hSf hS0S hSC hv hv100
  obtain ⟨hf, hle1, -, hzero⟩ :=
    vignette_core H hH _ _ _ value hCf hCpos hSf hSf (le_refl _) hSC hv hv100
  exact ⟨hf, hle1, hmono, hzero⟩

/-- Induction over the two loops `for (y = 0; y < height; y++) for (x = 0; x < width; x++)`,
with an invariant indexed by the next pixel to visit. -/
theorem raster_induction_full {σ : Type} (width height : Nat) (I : Nat → Nat → σ → Prop)
    (B : Nat → Nat → σ → σ)
    (hstep : ∀ y x s, y < height → x < width → I y x s → I y (x + 1) (B y x s))
    (hrow : ∀ y s, I y width s → I (y + 1) 0 s)
    (s : σ) (hs : I 0 0 s) :
    I height 0
      (forLoop 0 height 1 (fun y s => forLoop 0 width 1 (fun x s => B y x s) s) s) := by
  have := forLoop_indexed (fun k s => I k 0 s) 0 height
    (fun y s => forLoop 0 width 1 (fun x s => B y x s) s) ?_ s hs
  · simpa using this
  intro k hk s hI
  have hinner := forLoop_indexed (fun j s => I (0 + k) j s) 0 width
    (fun x s => B (0 + k) x s) (fun j hj s h => by
      have := hstep (0 + k) (0 + j) s (by omega) (by omega) (by simpa using h)
      simpa using this) s (by simpa using hI)
  have h2 := hrow (0 + k) _ (by simpa using hinner)
  simpa using h2

theorem raster_scale (w h : Nat) (V : Nat → Nat → JSNum) (d : List Nat) :
    ∀ y x c, y < h → x < w → c < 3 →
      (forLoop 0 h 1 (fun y s => forLoop 0 w 1 (fun x s =>
        store (store (store s ((y * w + x) * 4) (load s ((y * w + x) * 4) * V y x))
          ((y * w + x) * 4 + 1) (load s ((y * w + x) * 4 + 1) * V y x))
          ((y * w + x) * 4 + 2) (load s ((y * w + x) * 4 + 2) * V y x)) s) d)[(y * w + x) * 4 + c]?
        = (d[(y * w + x) * 4 + c]?).map (fun _ =>
            JSNum.toUint8Clamp (load d ((y * w + x) * 4 + c) * V y x)) := by
  have key := raster_induction_full w h
    (fun y0 x0 s =>
      (∀ j, (∀ y x c, x < w → Before y x y0 x0 → c < 3 → j ≠ (y * w + x) * 4 + c) →
          s[j]? = d[j]?)
        ∧ (∀ y x c, x < w → Before y x y0 x0 → c < 3 →
          s[(y * w + x) * 4 + c]?
            = (d[(y * w + x) * 4 + c]?).map (fun _ =>
                JSNum.toUint8Clamp (load d ((y * w + x) * 4 + c) * V y x))))
    (fun y x s =>
      store (store (store s ((y * w + x) * 4) (load s ((y * w + x) * 4) * V y x))
        ((y * w + x) * 4 + 1) (load s ((y * w + x) * 4 + 1) * V y x))
        ((y * w + x) * 4 + 2) (load s ((y * w + x) * 4 + 2) * V y x))
    ?_ ?_ d ?_
  · intro y x c hy hx hc
    exact key.2 y x c hx (Or.inl hy) hc
  · intro y x s hy hxw ⟨hA, hB⟩
    beta_reduce
    have hbefore : Before y x y (x + 1) := Or.inr ⟨rfl, Nat.lt_succ_self x⟩
    have hmono : ∀ y' x', Before y' x' y x → Before y' x' y (x + 1) := by
      intro y' x' hb
      unfold Before at hb ⊢
      omega
    have hold : ∀ c, c < 3 → s[(y * w + x) * 4 + c]? = d[(y * w + x) * 4 + c]? := by
      intro c hc
      refine hA _ ?_
      intro y' x' c' hx' hb' hc' heq
      have hinj := offset_inj w y x c y' x' c' hxw hx' (by omega) (by omega) heq
      unfold Before at hb'
      omega
    have e0 : s[(y * w + x) * 4]? = d[(y * w + x) * 4]? := hold 0 (by omega)
    constructor
    · intro j hj
      have h0 := hj y x 0 hxw hbefore (by omega)
      have h1 := hj y x 1 hxw hbefore (by omega)
      have h2 := hj y x 2 hxw hbefore (by omega)
      rw [store3_getElem?, if_neg (by omega), if_neg h1, if_neg h2]
      exact hA j (fun y' x' c' hx' hb' hc' => hj y' x' c' hx' (hmono y' x' hb') hc')
    · intro y' x' c hx' hb' hc
      by_cases hsame : y' = y ∧ x' = x
      · obtain ⟨hy', hx''⟩ := hsame
        subst hy'
        subst hx''
        rw [store3_getElem?]
        have hc3 : c = 0 ∨ c = 1 ∨ c = 2 := by omega
        rcases hc3 with h | h | h
        · subst h
          simp only [Nat.add_zero]
          rw [if_pos trivial, e0, load_congr s d _ e0]
        · subst h
          rw [if_neg (by omega), if_pos rfl, hold 1 (by omega),
            load_congr s d _ (hold 1 (by omega))]
        · subst h
          rw [if_neg (by omega), if_neg (by omega), if_pos rfl, hold 2 (by omega),
            load_congr s d _ (hold 2 (by omega))]
      · have hb : Before y' x' y x := by
          unfold Before at hb' ⊢
          omega
        have hne : ∀ c', c' < 3 → (y' * w + x') * 4 + c ≠ (y * w + x) * 4 + c' := by
          intro c' hc' heq
          have hinj := offset_inj w y' x' c y x c' hx' hxw (by omega) (by omega) heq
          exact hsame ⟨hinj.1, hinj.2.1⟩
        have h0 := hne 0 (by omega)
        have h1 := hne 1 (by omega)
        have h2 := hne 2 (by omega)
        rw [store3_getElem?, if_neg (by omega), if_neg h1, if_neg h2]
        exact hB y' x' c hx' hb hc
  · intro y s ⟨hA, hB⟩
    constructor
    · intro j hj
      refine hA j (fun y' x' c' hx' hb' hc' => hj y' x' c' hx' ?_ hc')
      unfold Before at hb' ⊢
      omega
    · intro y' x' c hx' hb' hc
      refine hB y' x' c hx' ?_ hc
      unfold Before at hb' ⊢
      omega
  · constructor
    · intro j _
      rfl
    · intro y x c hx hb
      unfold Before at hb
      omega

theorem addVignette_data (H : Host) (img : ImageData) (value : JSNum) :
    (addVignette H img value).data =
      forLoop 0 img.height 1 (fun y s => forLoop 0 img.width 1 (fun x s =>
        store (store (store s ((y * img.width + x) * 4)
            (load s ((y * img.width + x) * 4) * vignetteAt H img.width img.height value y x))
          ((y * img.width + x) * 4 + 1)
            (load s ((y * img.width + x) * 4 + 1) * vignetteAt H img.width img.height value y x))
          ((y * img.width + x) * 4 + 2)
            (load s ((y * img.width + x) * 4 + 2) * vignetteAt H img.width img.height value y x))
        s) img.data := by
  unfold addVignette vignetteAt
  dsimp only
  congr 1
  funext y s
  congr 1
  funext x s'
  rw [load_store_ne _ _ _ _ (by omega : (y * img.width + x) * 4 + 1 ≠ (y * img.width + x) * 4 + 2),
    load_store_ne _ _ _ _ (by omega : (y * img.width + x) * 4 ≠ (y * img.width + x) * 4 + 2),
    load_store_ne _ _ _ _ (by omega : (y * img.width + x) * 4 ≠ (y * img.width + x) * 4 + 1)]

theorem Host.identitySqrt_monotone : Host.identitySqrt.SqrtMonotone :=
  ⟨fun _ h => h, fun _ _ _ _ h => h, fun _ _ h => h⟩

/-- C20: for a host whose `Math.sqrt` is monotone, on a uniform gray image of width and
height at least 1 (with complete pixels, within the largest typed-array length `2 ^ 53`) and
for every vignette value in `[0, 100]`, each colour sample of the centre pixel
`(floor(width / 2), floor(height / 2))` after `addVignette` is at least the same sample of any
pixel `(x, y)` of the image, the pixels of the border among them; and at value `0` the two
are equal. -/
theorem addVignette_centre_brightest (H : Host) (hH : H.SqrtMonotone) (img : ImageData)
    (value : JSNum) (g x y c : Nat)
    (hw : 1 ≤ img.width) (hh : 1 ≤ img.height)
    (hlen : img.data.length = 4 * (img.width * img.height))
    (hsize : img.data.length < 2 ^ 53)
    (hgray : ∀ j, j < img.data.length → j % 4 ≠ 3 → img.data[j]? = some g) (hg : g ≤ 255)
    (hv0 : JSNum.le 0 value = true) (hv100 : JSNum.le value 100 = true)
    (hx : x < img.width) (hy : y < img.height) (hc : c < 3) :
    ∃ centre other : Nat,
      (addVignette H img value).data[(img.height / 2 * img.width + img.width / 2) * 4 + c]?
          = some centre
        ∧ (addVignette H img value).data[(y * img.width + x) * 4 + c]? = some other
        ∧ other ≤ centre
        ∧ (value = 0 → other = centre) := by
  -- sizes
  have hWH : img.width * img.height < 2 ^ 51 := by omega
  have hWb : img.width < 2 ^ 51 :=
    lt_of_le_of_lt (Nat.le_mul_of_pos_right _ (by omega)) hWH
  have hHb : img.height < 2 ^ 51 :=
    lt_of_le_of_lt (Nat.le_mul_of_pos_left _ (by omega)) hWH
  have hidx : ∀ y' x', y' < img.height → x' < img.width →
      img.data[(y' * img.width + x') * 4 + c]? = some g := by
    intro y' x' hy' hx'
    refine hgray _ ?_ (by omega)
    have h1 : (y' + 1) * img.width ≤ img.height * img.width := Nat.mul_le_mul_right _ hy'
    rw [Nat.succ_mul, Nat.mul_comm img.height img.width] at h1
    omega
  have hload : ∀ y' x', y' < img.height → x' < img.width →
      load img.data ((y' * img.width + x') * 4 + c) = JSNum.ofInt (g : Int) := by
    intro y' x' hy' hx'
    unfold load
    rw [hidx y' x' hy' hx']
  -- the value
  obtain ⟨⟨m100, e100, h100eq, -⟩, h100v⟩ := JSNum.natLit 100 (by norm_num)
  have hvf : value.FinNonneg := by
    rw [h100eq] at hv100
    exact JSNum.finNonneg_of_le m100 e100 hv0 hv100
  have hvle : value.toRat ≤ 100 := by
    have := (JSNum.le_iff_toRat hvf (JSNum.natLit 100 (by norm_num)).1).mp hv100
    rw [h100v] at this
    exact_mod_cast this
  -- the two factors
  have hcx : img.width / 2 < img.width := by omega
  have hcy : img.height / 2 < img.height := by omega
  obtain ⟨hpf, hp1, hpc, hp0⟩ :=
    vignetteAt_spec H hH img.width img.height hw hh hWb hHb value hvf hvle y x hx hy
  obtain ⟨hcf, hc1, -, hc0⟩ :=
    vignetteAt_spec H hH img.width img.height hw hh hWb hHb value hvf hvle
      (img.height / 2) (img.width / 2) hcx hcy
  obtain ⟨hgf, hgv⟩ := JSNum.ofInt_natCast g (by omega)
  have hgq : (0 : ℚ) ≤ (g : ℚ) := by positivity
  have hg255 : (g : ℚ) ≤ 255 := by exact_mod_cast hg
  have hrep255 : Representable 255 := by
    have := representable_natCast 255 (by norm_num)
    simpa using this
  have hP := JSNum.mul_rounds hgf hpf
  have hC := JSNum.mul_rounds hgf hcf
  rw [hgv] at hP hC
  have hpn := hpf.toRat_nonneg
  have hcn := hcf.toRat_nonneg
  obtain ⟨hPf, -⟩ := hP.toRat_le hrep255 (by nlinarith)
  obtain ⟨hCf, -⟩ := hC.toRat_le hrep255 (by nlinarith)
  have hle := Rounds.mono hP hC (mul_le_mul_of_nonneg_left hpc hgq)
  rw [JSNum.le_iff_toRat hPf hCf] at hle
  refine ⟨JSNum.toUint8Clamp (JSNum.ofInt (g : Int)
      * vignetteAt H img.width img.height value (img.height / 2) (img.width / 2)),
    JSNum.toUint8Clamp (JSNum.ofInt (g : Int) * vignetteAt H img.width img.height value y x),
    ?_, ?_, JSNum.toUint8Clamp_mono hPf hCf hle, ?_⟩
  · rw [addVignette_data, raster_scale _ _ _ _ _ _ c hcy hcx hc, hidx _ _ hcy hcx,
      hload _ _ hcy hcx]
    rfl
  · rw [addVignette_data, raster_scale _ _ _ _ _ _ c hy hx hc, hidx _ _ hy hx, hload _ _ hy hx]
    rfl
  · intro hzero
    have hz : value.toRat = 0 := by
      rw [hzero]
      exact_mod_cast (JSNum.natLit 0 (by norm_num)).2
    have e1 := hp0 hz
    have e2 := hc0 hz
    rw [e1, mul_one] at hP
    rw [e2, mul_one] at hC
    have hrepg : Representable (g : ℚ) := representable_natCast g (by omega)
    rw [JSNum.toUint8Clamp_of_toRat hPf g hg (hP.exact hrepg).2,
      JSNum.toUint8Clamp_of_toRat hCf g hg (hC.exact hrepg).2]

theorem addVignette_centre_brightest_witness :
    Host.identitySqrt.SqrtMonotone
      ∧ 1 ≤ whiteSquare.width ∧ 1 ≤ whiteSquare.height
      ∧ whiteSquare.data.length = 4 * (whiteSquare.width * whiteSquare.height)
      ∧ whiteSquare.data.length < 2 ^ 53
      ∧ (∀ j, j < whiteSquare.data.length → j % 4 ≠ 3 → whiteSquare.data[j]? = some 255)
      ∧ 255 ≤ 255
      ∧ JSNum.le 0 50 = true ∧ JSNum.le 50 100 = true
      ∧ 0 < whiteSquare.width ∧ 0 < whiteSquare.height ∧ 0 < 3
      ∧ ∃ centre other : Nat,
          (addVignette Host.identitySqrt whiteSquare 50).data[
              (whiteSquare.height / 2 * whiteSquare.width + whiteSquare.width / 2) * 4 + 0]?
            = some centre
          ∧ (addVignette Host.identitySqrt whiteSquare 50).data[
              (0 * whiteSquare.width + 0) * 4 + 0]? = some other
          ∧ other ≤ centre
          ∧ ((50 : JSNum) = 0 → other = centre) :=
  ⟨Host.identitySqrt_monotone, by decide, by decide, by decide, by decide, by decide,
    by decide, by decide, by decide, by decide, by decide, by decide,
    addVignette_centre_brightest Host.identitySqrt Host.identitySqrt_monotone whiteSquare 50
      255 0 0 0 (by decide) (by decide) (by decide) (by decide) (by decide) (by decide)
      (by decide) (by decide) (by decide) (by decide) (by decide)⟩

/-- C6 as amended: `applyEffect(id, value)` hands `value` to the transform as it is, for
every value, inside or outside the declared range: the working buffer is the transform of
the original at `value` itself. The call with the clamped value leaves the transform at the
clamped value, so the two buffers agree exactly when the transform gives the same buffer at
both values; for a value inside the declared range the two calls are the same call. -/
theorem applyEffect_passes_value_unclamped (H : Host) (e : Engine)
    (imageData original : ImageData) (effectName : String) (value : JSNum) (effect : Effect)
    (result : ImageData) (draws : Nat)
    (hcur : e.imageData = some imageData) (horig : e.originalImageData = some original)
    (hshape : SameShape imageData original)
    (heff : mapGet e.effects effectName = some effect)
    (happly : effect.apply H e.draws original value = Except.ok (result, draws)) :
    (applyEffect H effectName value e).isNormal = true
      ∧ (applyEffect H effectName value e).state.imageData = some result
      ∧ (∀ (clamped : ImageData) (n : Nat),
          effect.apply H e.draws original
              (clampToRange value effect.range.min effect.range.max) = Except.ok (clamped, n) →
            (applyEffect H effectName (clampToRange value effect.range.min effect.range.max)
                e).state.imageData = some clamped
              ∧ ((applyEffect H effectName value e).state.imageData
                    = (applyEffect H effectName
                        (clampToRange value effect.range.min effect.range.max) e).state.imageData
                  ↔ result = clamped))
      ∧ (JSNum.le effect.range.min value = true → JSNum.le value effect.range.max = true →
          applyEffect H effectName (clampToRange value effect.range.min effect.range.max) e
            = applyEffect H effectName value e) := by
  have hcopy : ({ imageData with data := original.data } : ImageData) = original := by
    obtain ⟨w, h, d⟩ := original
    obtain ⟨hw, hh, -⟩ := hshape
    simp only at hw hh
    rw [← hw, ← hh]
  have general : ∀ (v : JSNum) (res : ImageData) (n : Nat),
      effect.apply H e.draws original v = Except.ok (res, n) →
      (applyEffect H effectName v e).isNormal = true
        ∧ (applyEffect H effectName v e).state.imageData = some res := by
    intro v res n hv
    rw [applyEffect_loaded H e imageData original effectName v effect hcur horig hshape.2.2
      heff, hcopy, hv]
    exact ⟨saveState_isNormal _ res rfl, (saveState_frame _).1⟩
  refine ⟨(general value result draws happly).1, (general value result draws happly).2, ?_, ?_⟩
  · intro clamped n hc
    refine ⟨(general _ clamped n hc).2, ?_⟩
    rw [(general value result draws happly).2, (general _ clamped n hc).2]
    exact ⟨fun h => Option.some.inj h, fun h => congrArg some h⟩
  · intro hmin hmax
    have h1 : JSNum.lt value effect.range.min = false := JSNum.lt_false_of_le _ _ hmin
    have h2 : JSNum.lt effect.range.max value = false := JSNum.lt_false_of_le _ _ hmax
    unfold clampToRange
    rw [h1, h2]
    rfl

theorem applyEffect_passes_value_unclamped_witness :
    (loadImage lightPixel Engine.new).state.imageData = some lightPixel
      ∧ (loadImage lightPixel Engine.new).state.originalImageData = some lightPixel
      ∧ SameShape lightPixel lightPixel
      ∧ mapGet (loadImage lightPixel Engine.new).state.effects "contrast"
          = some ⟨"对比度", EffectFn.ofTransform adjustContrast, ⟨-100, 100, 0⟩, "basic"⟩
      ∧ EffectFn.ofTransform adjustContrast Host.sample
            (loadImage lightPixel Engine.new).state.draws lightPixel 200
          = Except.ok (adjustContrast lightPixel 200, 0)
      ∧ (applyEffect Host.sample "contrast" 200 (loadImage lightPixel Engine.new).state).isNormal
          = true
      ∧ (applyEffect Host.sample "contrast" 200
            (loadImage lightPixel Engine.new).state).state.imageData
          = some (adjustContrast lightPixel 200)
      ∧ (∀ (clamped : ImageData) (n : Nat),
          EffectFn.ofTransform adjustContrast Host.sample
              (loadImage lightPixel Engine.new).state.draws lightPixel
              (clampToRange 200 (-100) 100) = Except.ok (clamped, n) →
            (applyEffect Host.sample "contrast" (clampToRange 200 (-100) 100)
                (loadImage lightPixel Engine.new).state).state.imageData = some clamped
              ∧ ((applyEffect Host.sample "contrast" 200
                    (loadImage lightPixel Engine.new).state).state.imageData
                    = (applyEffect Host.sample "contrast" (clampToRange 200 (-100) 100)
                        (loadImage lightPixel Engine.new).state).state.imageData
                  ↔ adjustContrast lightPixel 200 = clamped))
      ∧ (JSNum.le (-100) 200 = true → JSNum.le 200 100 = true →
          applyEffect Host.sample "contrast" (clampToRange 200 (-100) 100)
              (loadImage lightPixel Engine.new).state
            = applyEffect Host.sample "contrast" 200 (loadImage lightPixel Engine.new).state) :=
  ⟨rfl, rfl, SameShape.refl lightPixel, rfl, rfl,
    applyEffect_passes_value_unclamped Host.sample (loadImage lightPixel Engine.new).state
      lightPixel lightPixel "contrast" 200
      ⟨"对比度", EffectFn.ofTransform adjustContrast, ⟨-100, 100, 0⟩, "basic"⟩
      (adjustContrast lightPixel 200) 0 rfl rfl (SameShape.refl lightPixel) rfl rfl⟩

theorem applyEffect_shaped (H : Host) (e : Engine) (original : ImageData)
    (effectName : String) (value : JSNum) (h : e.Ready original 0) (hs : e.Shaped original) :
    (applyEffect H effectName value e).state.Shaped original := by
  cases heff : mapGet e.effects effectName with
  | none =>
    unfold applyEffect
    simp only [heff]
    exact hs
  | some effect =>
    obtain ⟨img, himg, hshape⟩ := h.hCurrent
    have hpres := registered_preservesShape e original 0 h effectName effect heff
    have hreset : SameShape { img with data := original.data } original :=
      ⟨hshape.1, hshape.2.1, rfl⟩
    rw [applyEffect_loaded H e img original effectName value effect himg h.hOriginal hshape.2.2
      heff]
    cases hr : effect.apply H e.draws { img with data := original.data } value with
    | error err => exact hs
    | ok r =>
      obtain ⟨res, n⟩ := r
      exact saveState_shaped _ original res rfl hs ((hpres H _ _ _ _ _ hr).trans hreset)

theorem reset_shaped (e : Engine) (original : ImageData) (h : e.Ready original 0)
    (hs : e.Shaped original) : (reset e).state.Shaped original := by
  obtain ⟨img, himg, hshape⟩ := h.hCurrent
  rw [reset_loaded e img original himg h.hOriginal hshape.2.2]
  exact saveState_shaped _ original _ rfl hs ⟨hshape.1, hshape.2.1, rfl⟩

theorem applyPreset_shaped (H : Host) (e : Engine) (original : ImageData)
    (presetName : String) (h : e.Ready original 0) (hs : e.Shaped original) :
    (applyPreset H presetName e).state.Shaped original := by
  unfold applyPreset
  cases hp : mapGet e.presets presetName with
  | none => exact hs
  | some preset =>
    simp only []
    have hr := reset_ready e original h
    have hrs := reset_shaped e original h hs
    cases hreset : reset e with
    | throws err e1 => rw [hreset] at hr; exact absurd hr.1 (by simp [Completion.isNormal])
    | normal e1 =>
      rw [hreset] at hr hrs
      have h1 : e1.Ready original 0 := hr.2
      have hs1 : e1.Shaped original := hrs
      simp only []
      have h2 := applySettings_ready H preset.settings e1 original 0 h1
      have hh2 := applySettings_history H preset.settings e1
      cases hset : applySettings H preset.settings e1 with
      | throws err e2 =>
        rw [hset] at hh2
        intro s hmem
        have hhist : e2.history = e1.history := hh2.1
        have hmem2 : s ∈ e2.history := hmem
        rw [hhist] at hmem2
        exact hs1 s hmem2
      | normal e2 =>
        rw [hset] at h2 hh2
        have h2r : e2.Ready original 0 := h2
        have hs2 : e2.Shaped original := by
          intro s hmem
          have hhist : e2.history = e1.history := hh2.1
          rw [hhist] at hmem
          exact hs1 s hmem
        simp only []
        obtain ⟨img, himg, hshape⟩ := h2r.hCurrent
        simp only [himg]
        exact saveState_shaped e2 original img himg hs2 hshape

theorem exec_shaped (H : Host) (e : Engine) (original : ImageData) (call : Call)
    (h : e.Ready original 0) (hs : e.Shaped original) :
    (call.exec H e).state.Shaped original := by
  cases call with
  | applyEffect effectName value => exact applyEffect_shaped H e original effectName value h hs
  | applyPreset presetName => exact applyPreset_shaped H e original presetName h hs
  | reset => exact reset_shaped e original h hs
  | undo =>
    intro s hmem
    have hmem2 : s ∈ (undo e).state.history := hmem
    rw [(undo_frame e).2] at hmem2
    exact hs s hmem2
  | redo =>
    intro s hmem
    have hmem2 : s ∈ (redo e).state.history := hmem
    rw [(redo_frame e).2] at hmem2
    exact hs s hmem2

theorem run_shaped (H : Host) (calls : List Call) (e : Engine) (original : ImageData)
    (h : e.Ready original 0) (hs : e.Shaped original) :
    (run H e calls).Ready original 0 ∧ (run H e calls).Shaped original := by
  induction calls generalizing e with
  | nil => exact ⟨h, hs⟩
  | cons call rest ih =>
    exact ih _ (exec_ready H e original call h) (exec_shaped H e original call h hs)

theorem restoreState_general (e : Engine) (imageData state : ImageData)
    (hcur : e.imageData = some imageData) (hlow : 0 ≤ e.historyIndex)
    (hstate : e.history[e.historyIndex.toNat]? = some state) :
    restoreState e =
      match typedArraySet imageData.data state.data with
      | Except.ok data =>
        Completion.normal { e with imageData := some { imageData with data := data } }
      | Except.error err => Completion.throws err e := by
  unfold restoreState
  simp only [hcur, if_pos hlow, hstate]
  cases typedArraySet imageData.data state.data <;> rfl

theorem undo_redo_same_shape (e : Engine) (imageData : ImageData)
    (hcur : e.imageData = some imageData) (hlow : 0 ≤ e.historyIndex)
    (hidx : e.historyIndex < e.history.length)
    (hshape : ∀ s ∈ e.history, SameShape imageData s) : e.StepsAlongHistory := by
  have hundo : undo e = Completion.normal
        (if e.historyIndex = 0 then e
         else { e with historyIndex := e.historyIndex - 1,
                       imageData := e.history[(e.historyIndex - 1).toNat]? }) := by
    unfold undo
    by_cases h0 : e.historyIndex = 0
    · rw [if_neg (by omega), if_pos h0]
    · rw [if_pos (by omega), if_neg h0]
      have hlt : (e.historyIndex - 1).toNat < e.history.length := by omega
      have hget : e.history[(e.historyIndex - 1).toNat]?
          = some (e.history[(e.historyIndex - 1).toNat]) := List.getElem?_eq_getElem hlt
      rw [restoreState_spec { e with historyIndex := e.historyIndex - 1 } imageData
        (e.history[(e.historyIndex - 1).toNat]) hcur
        (by show (0 : Int) ≤ e.historyIndex - 1; omega) hget
        (hshape _ (List.getElem_mem hlt)), hget]
  have hredo : redo e = Completion.normal
        (if e.historyIndex = (e.history.length : Int) - 1 then e
         else { e with historyIndex := e.historyIndex + 1,
                       imageData := e.history[(e.historyIndex + 1).toNat]? }) := by
    unfold redo
    by_cases h0 : e.historyIndex = (e.history.length : Int) - 1
    · rw [if_neg (by omega), if_pos h0]
    · rw [if_pos (by omega), if_neg h0]
      have hlt : (e.historyIndex + 1).toNat < e.history.length := by omega
      have hget : e.history[(e.historyIndex + 1).toNat]?
          = some (e.history[(e.historyIndex + 1).toNat]) := List.getElem?_eq_getElem hlt
      rw [restoreState_spec { e with historyIndex := e.historyIndex + 1 } imageData
        (e.history[(e.historyIndex + 1).toNat]) hcur
        (by show (0 : Int) ≤ e.historyIndex + 1; omega) hget
        (hshape _ (List.getElem_mem hlt)), hget]
  refine ⟨hundo, hredo, ?_, ?_⟩
  · have hlt : (e.historyIndex - 1).toNat < e.history.length := by omega
    rw [List.getElem?_eq_getElem hlt]; rfl
  · by_cases hne : e.historyIndex = (e.history.length : Int) - 1
    · exact Or.inl hne
    · have hlt : (e.historyIndex + 1).toNat < e.history.length := by omega
      rw [List.getElem?_eq_getElem hlt]; exact Or.inr rfl

/-- C13, counterexample: `loadImage` keeps the snapshots of the image loaded before. After
`loadImage` of the gray pixel and then of the white 4×4 square, `undo()` decrements
`historyIndex` to `0` and copies the four samples of the 1×1 snapshot over the first four of the
sixty-four samples of the working buffer, which is then not `history[0]`. With the two images
loaded in the other order, `undo()` decrements `historyIndex` to `0` and then throws a
`RangeError`, the working buffer still the gray pixel, not `history[0]`. -/
theorem undo_across_loads_does_not_restore :
    (loadImage whiteSquare (loadImage grayPixel Engine.new).state).state.history
        = [grayPixel, whiteSquare]
      ∧ (loadImage whiteSquare (loadImage grayPixel Engine.new).state).state.historyIndex = 1
      ∧ (undo (loadImage whiteSquare (loadImage grayPixel Engine.new).state).state).state.historyIndex
          = 0
      ∧ (undo (loadImage whiteSquare (loadImage grayPixel Engine.new).state).state).state.imageData
          = some ⟨4, 4, [100, 100, 100, 255] ++ List.replicate 60 255⟩
      ∧ (undo (loadImage whiteSquare (loadImage grayPixel Engine.new).state).state).state.imageData
          ≠ (undo (loadImage whiteSquare
              (loadImage grayPixel Engine.new).state).state).state.history[0]?
      ∧ (loadImage grayPixel (loadImage whiteSquare Engine.new).state).state.history
          = [whiteSquare, grayPixel]
      ∧ (undo (loadImage grayPixel (loadImage whiteSquare Engine.new).state).state).thrown
          = some Abrupt.rangeError
      ∧ (undo (loadImage grayPixel (loadImage whiteSquare Engine.new).state).state).state.historyIndex
          = 0
      ∧ (undo (loadImage grayPixel (loadImage whiteSquare Engine.new).state).state).state.imageData
          = some grayPixel
      ∧ (undo (loadImage grayPixel (loadImage whiteSquare Engine.new).state).state).state.imageData
          ≠ (undo (loadImage grayPixel
              (loadImage whiteSquare Engine.new).state).state).state.history[0]? := by
  decide!

/-- C13 as amended. In a session of calls after a single `loadImage` on a new engine, where
every snapshot has the dimensions of the working buffer, `undo()` changes nothing when
`historyIndex = 0` and otherwise decrements `historyIndex` and makes the working buffer equal
to the entry at the new index, and `redo()` likewise at `historyIndex = history.length - 1`
and with an increment. On any engine that holds a buffer and whose index is in range, `undo()`
and `redo()` do nothing at the first, respectively last, entry and otherwise move the index and
copy the samples of the entry at the new index over the leading samples of the working buffer
(`TypedArray.prototype.set`): the buffer becomes that entry when the entry has its dimensions,
keeps its own width, height and trailing samples when the entry is shorter, and is left as it
was by a `RangeError` thrown after the index has moved when the entry is longer. The history
and the original buffer stay as they are in every case. -/
theorem undo_redo_move_along_history (H : Host) (source : ImageData) (calls : List Call)
    (e : Engine) (imageData : ImageData)
    (hw : 0 < source.width) (hh : 0 < source.height)
    (hcur : e.imageData = some imageData) (hlow : 0 ≤ e.historyIndex)
    (hidx : e.historyIndex < e.history.length) :
    (run H (loadImage source Engine.new).state calls).StepsAlongHistory
      ∧ (e.historyIndex = 0 → undo e = Completion.normal e)
      ∧ (e.historyIndex = (e.history.length : Int) - 1 → redo e = Completion.normal e)
      ∧ (e.historyIndex ≠ 0 → ∃ state, e.history[(e.historyIndex - 1).toNat]? = some state
          ∧ undo e =
              (match typedArraySet imageData.data state.data with
               | Except.ok data => Completion.normal { e with
                   historyIndex := e.historyIndex - 1,
                   imageData := some { imageData with data := data } }
               | Except.error err =>
                 Completion.throws err { e with historyIndex := e.historyIndex - 1 })
          ∧ (SameShape imageData state → undo e = Completion.normal { e with
              historyIndex := e.historyIndex - 1, imageData := some state })
          ∧ (state.data.length ≤ imageData.data.length → undo e = Completion.normal { e with
              historyIndex := e.historyIndex - 1,
              imageData := some { imageData with
                data := state.data ++ imageData.data.drop state.data.length } })
          ∧ (imageData.data.length < state.data.length → undo e
              = Completion.throws Abrupt.rangeError { e with historyIndex := e.historyIndex - 1 }))
      ∧ (e.historyIndex ≠ (e.history.length : Int) - 1 →
          ∃ state, e.history[(e.historyIndex + 1).toNat]? = some state
          ∧ redo e =
              (match typedArraySet imageData.data state.data with
               | Except.ok data => Completion.normal { e with
                   historyIndex := e.historyIndex + 1,
                   imageData := some { imageData with data := data } }
               | Except.error err =>
                 Completion.throws err { e with historyIndex := e.historyIndex + 1 })
          ∧ (SameShape imageData state → redo e = Completion.normal { e with
              historyIndex := e.historyIndex + 1, imageData := some state })
          ∧ (state.data.length ≤ imageData.data.length → redo e = Completion.normal { e with
              historyIndex := e.historyIndex + 1,
              imageData := some { imageData with
                data := state.data ++ imageData.data.drop state.data.length } })
          ∧ (imageData.data.length < state.data.length → redo e
              = Completion.throws Abrupt.rangeError { e with historyIndex := e.historyIndex + 1 }))
      ∧ (undo e).state.history = e.history ∧ (redo e).state.history = e.history
      ∧ (undo e).state.originalImageData = e.originalImageData
      ∧ (redo e).state.originalImageData = e.originalImageData := by
  have hsession : (run H (loadImage source Engine.new).state calls).StepsAlongHistory := by
    obtain ⟨hr, hs⟩ := run_shaped H calls _ source (loadImage_ready source hw hh).2
      (loadImage_synced source hw hh).2.1
    obtain ⟨img, himg, hshape⟩ := hr.hCurrent
    exact undo_redo_same_shape _ img himg hr.hLow hr.hIndex
      (fun s hmem => hshape.trans
        ⟨(hs s hmem).1.symm, (hs s hmem).2.1.symm, (hs s hmem).2.2.symm⟩)
  have key : ∀ (k : Int), 0 ≤ k → k < e.history.length →
      ∃ state, e.history[k.toNat]? = some state
        ∧ restoreState { e with historyIndex := k } =
            (match typedArraySet imageData.data state.data with
             | Except.ok data => Completion.normal { e with
                 historyIndex := k, imageData := some { imageData with data := data } }
             | Except.error err => Completion.throws err { e with historyIndex := k })
        ∧ (SameShape imageData state → restoreState { e with historyIndex := k }
            = Completion.normal { e with historyIndex := k, imageData := some state })
        ∧ (state.data.length ≤ imageData.data.length → restoreState { e with historyIndex := k }
            = Completion.normal { e with
                historyIndex := k,
                imageData := some { imageData with
                  data := state.data ++ imageData.data.drop state.data.length } })
        ∧ (imageData.data.length < state.data.length → restoreState { e with historyIndex := k }
            = Completion.throws Abrupt.rangeError { e with historyIndex := k }) := by
    intro k hk0 hk1
    have hlt : k.toNat < e.history.length := by omega
    have hget : e.history[k.toNat]? = some (e.history[k.toNat]) := List.getElem?_eq_getElem hlt
    have hgen := restoreState_general { e with historyIndex := k } imageData (e.history[k.toNat])
      hcur hk0 hget
    refine ⟨_, hget, hgen, ?_, ?_, ?_⟩
    · intro hsh
      exact restoreState_spec { e with historyIndex := k } imageData _ hcur hk0 hget hsh
    · intro hle
      rw [hgen]
      unfold typedArraySet
      rw [if_neg (by omega)]
    · intro hgt
      rw [hgen]
      unfold typedArraySet
      rw [if_pos hgt]
  refine ⟨hsession, ?_, ?_, ?_, ?_, (undo_frame e).2, (redo_frame e).2, (undo_frame e).1,
    (redo_frame e).1⟩
  · intro h0
    unfold undo
    rw [if_neg (by omega)]
  · intro h0
    unfold redo
    rw [if_neg (by omega)]
  · intro h0
    have hu : undo e = restoreState { e with historyIndex := e.historyIndex - 1 } := by
      unfold undo
      rw [if_pos (by omega)]
    rw [hu]
    exact key (e.historyIndex - 1) (by omega) (by omega)
  · intro h0
    have hu : redo e = restoreState { e with historyIndex := e.historyIndex + 1 } := by
      unfold redo
      rw [if_pos (by omega)]
    rw [hu]
    exact key (e.historyIndex + 1) (by omega) (by omega)

theorem undo_redo_move_along_history_witness :
    0 < grayPixel.width ∧ 0 < grayPixel.height
      ∧ twoLoads.imageData = some whiteSquare ∧ 0 ≤ twoLoads.historyIndex
      ∧ twoLoads.historyIndex < twoLoads.history.length
      ∧ (run Host.sample (loadImage grayPixel Engine.new).state
          [Call.applyEffect "brightness" 20, Call.undo]).StepsAlongHistory
      ∧ (twoLoads.historyIndex = 0 → undo twoLoads = Completion.normal twoLoads)
      ∧ (twoLoads.historyIndex = (twoLoads.history.length : Int) - 1 → redo twoLoads = Completion.normal twoLoads)
      ∧ (twoLoads.historyIndex ≠ 0 → ∃ state, twoLoads.history[(twoLoads.historyIndex - 1).toNat]? = some state
          ∧ undo twoLoads =
              (match typedArraySet whiteSquare.data state.data with
               | Except.ok data => Completion.normal { twoLoads with
                   historyIndex := twoLoads.historyIndex - 1,
                   imageData := some { whiteSquare with data := data } }
               | Except.error err =>
                 Completion.throws err { twoLoads with historyIndex := twoLoads.historyIndex - 1 })
          ∧ (SameShape whiteSquare state → undo twoLoads = Completion.normal { twoLoads with
              historyIndex := twoLoads.historyIndex - 1, imageData := some state })
          ∧ (state.data.length ≤ whiteSquare.data.length → undo twoLoads = Completion.normal { twoLoads with
              historyIndex := twoLoads.historyIndex - 1,
              imageData := some { whiteSquare with
                data := state.data ++ whiteSquare.data.drop state.data.length } })
          ∧ (whiteSquare.data.length < state.data.length → undo twoLoads
              = Completion.throws Abrupt.rangeError { twoLoads with historyIndex := twoLoads.historyIndex - 1 }))
      ∧ (twoLoads.historyIndex ≠ (twoLoads.history.length : Int) - 1 →
          ∃ state, twoLoads.history[(twoLoads.historyIndex + 1).toNat]? = some state
          ∧ redo twoLoads =
              (match typedArraySet whiteSquare.data state.data with
               | Except.ok data => Completion.normal { twoLoads with
                   historyIndex := twoLoads.historyIndex + 1,
                   imageData := some { whiteSquare with data := data } }
               | Except.error err =>
                 Completion.throws err { twoLoads with historyIndex := twoLoads.historyIndex + 1 })
          ∧ (SameShape whiteSquare state → redo twoLoads = Completion.normal { twoLoads with
              historyIndex := twoLoads.historyIndex + 1, imageData := some state })
          ∧ (state.data.length ≤ whiteSquare.data.length → redo twoLoads = Completion.normal { twoLoads with
              historyIndex := twoLoads.historyIndex + 1,
              imageData := some { whiteSquare with
                data := state.data ++ whiteSquare.data.drop state.data.length } })
          ∧ (whiteSquare.data.length < state.data.length → redo twoLoads
              = Completion.throws Abrupt.rangeError { twoLoads with historyIndex := twoLoads.historyIndex + 1 }))
      ∧ (undo twoLoads).state.history = twoLoads.history ∧ (redo twoLoads).state.history = twoLoads.history
      ∧ (undo twoLoads).state.originalImageData = twoLoads.originalImageData
      ∧ (redo twoLoads).state.originalImageData = twoLoads.originalImageData :=
  ⟨by decide, by decide, by decide!, by decide!, by decide!,
    undo_redo_move_along_history Host.sample grayPixel
      [Call.applyEffect "brightness" 20, Call.undo] twoLoads whiteSquare
      (by decide) (by decide) (by decide!) (by decide!) (by decide!)⟩

theorem saveState_history (e : Engine) (img : ImageData) (hcur : e.imageData = some img) :
    (saveState e).state.history = pushSnapshot e.maxHistorySize (keptHistory e) img := by
  rw [saveState_loaded e img hcur]
  unfold pushSnapshot
  split_ifs <;> rfl

theorem keptHistory_at_end (e : Engine) (h : e.historyIndex = (e.history.length : Int) - 1) :
    keptHistory e = e.history := by
  unfold keptHistory
  rw [if_neg (by omega)]

theorem pushSnapshot_room (cap : Nat) (kept : List ImageData) (state : ImageData)
    (h : kept.length < cap) : pushSnapshot cap kept state = kept ++ [state] := by
  unfold pushSnapshot
  rw [if_neg (by simp; omega)]

/-- C14 as amended: on a loaded engine a successful `applyEffect` and `reset` each append
one snapshot, the resulting working buffer, to the entries `saveState` keeps (those up to
`historyIndex`), the oldest entry being dropped when the cap is exceeded; a successful
`applyPreset` appends two, the original buffer that its `reset()` saves and then the result.
With the index at the last entry and room under the cap the new history is the old one with
the new entries at its end. `undo` and `redo` append nothing: they leave the history sequence
as it is. -/
theorem mutations_append_but_undo_redo_keep_history (H : Host) (e : Engine)
    (imageData original : ImageData) (effectName : String) (value : JSNum) (effect : Effect)
    (effectResult : ImageData) (effectDraws : Nat) (presetName : String) (preset : Preset)
    (presetResult : ImageData) (presetDraws : Nat)
    (hcur : e.imageData = some imageData) (horig : e.originalImageData = some original)
    (hshape : SameShape imageData original) (hcap : 0 < e.maxHistorySize)
    (hlow : 0 ≤ e.historyIndex) (hidx : e.historyIndex < e.history.length)
    (heff : mapGet e.effects effectName = some effect)
    (happly : effect.apply H e.draws original value = Except.ok (effectResult, effectDraws))
    (hpreset : mapGet e.presets presetName = some preset)
    (hcompose : composeEffects H (registeredSettings e.effects preset.settings)
      (original, e.draws) = Except.ok (presetResult, presetDraws)) :
    ((applyEffect H effectName value e).state.history
          = pushSnapshot e.maxHistorySize (keptHistory e) effectResult
        ∧ (applyEffect H effectName value e).state.imageData = some effectResult)
      ∧ ((reset e).state.history = pushSnapshot e.maxHistorySize (keptHistory e) original
        ∧ (reset e).state.imageData = some original)
      ∧ ((applyPreset H presetName e).state.history
          = pushSnapshot e.maxHistorySize
              (pushSnapshot e.maxHistorySize (keptHistory e) original) presetResult
        ∧ (applyPreset H presetName e).state.imageData = some presetResult)
      ∧ (e.historyIndex = (e.history.length : Int) - 1 → e.history.length < e.maxHistorySize →
          (applyEffect H effectName value e).state.history = e.history ++ [effectResult]
            ∧ (reset e).state.history = e.history ++ [original])
      ∧ (e.historyIndex = (e.history.length : Int) - 1 →
          e.history.length + 1 < e.maxHistorySize →
          (applyPreset H presetName e).state.history = e.history ++ [original, presetResult])
      ∧ (undo e).state.history = e.history
      ∧ (redo e).state.history = e.history := by
  have hcopy : ({ imageData with data := original.data } : ImageData) = original := by
    obtain ⟨w, h, d⟩ := original
    obtain ⟨hw, hh, -⟩ := hshape
    simp only at hw hh
    rw [← hw, ← hh]
  have hp := applyPreset_loaded H e imageData original presetName preset presetResult presetDraws
    hcur horig hshape hpreset hcompose
  have hf := saveState_frame ({ e with imageData := some original } : Engine)
  have hsnap := saveState_snapshot ({ e with imageData := some original } : Engine) original rfl
    (by show (-1 : Int) ≤ e.historyIndex; omega) hidx hcap
  have heffect : (applyEffect H effectName value e).state.history
        = pushSnapshot e.maxHistorySize (keptHistory e) effectResult := by
    rw [applyEffect_loaded H e imageData original effectName value effect hcur horig hshape.2.2
      heff, hcopy, happly]
    exact saveState_history _ effectResult rfl
  have hreset : (reset e).state.history
        = pushSnapshot e.maxHistorySize (keptHistory e) original := by
    rw [hp.1]
    exact saveState_history _ original rfl
  have hpre : (applyPreset H presetName e).state.history
        = pushSnapshot e.maxHistorySize
            (pushSnapshot e.maxHistorySize (keptHistory e) original) presetResult := by
    rw [hp.2, saveState_history _ presetResult rfl]
    have hk : keptHistory ({ (saveState { e with imageData := some original }).state with
          imageData := some presetResult, draws := presetDraws } : Engine)
        = (saveState { e with imageData := some original }).state.history :=
      keptHistory_at_end _ hsnap.2.1
    have hh : (saveState { e with imageData := some original }).state.history
        = pushSnapshot e.maxHistorySize (keptHistory e) original :=
      saveState_history _ original rfl
    have hm : ({ (saveState { e with imageData := some original }).state with
          imageData := some presetResult, draws := presetDraws } : Engine).maxHistorySize
        = e.maxHistorySize := hf.2.2.2.2.1
    rw [hk, hh, hm]
  refine ⟨⟨heffect, ?_⟩, ⟨hreset, ?_⟩, ⟨hpre, ?_⟩, ?_, ?_, (undo_frame e).2, (redo_frame e).2⟩
  · rw [applyEffect_loaded H e imageData original effectName value effect hcur horig hshape.2.2
      heff, hcopy, happly]
    exact (saveState_frame _).1
  · rw [hp.1]
    exact (saveState_frame _).1
  · rw [hp.2]
    exact (saveState_frame _).1
  · intro hend hroom
    rw [heffect, hreset, keptHistory_at_end e hend, pushSnapshot_room _ _ _ hroom,
      pushSnapshot_room _ _ _ hroom]
    exact ⟨rfl, rfl⟩
  · intro hend hroom
    have h1 : pushSnapshot e.maxHistorySize e.history original = e.history ++ [original] :=
      pushSnapshot_room _ _ _ (by omega)
    rw [hpre, keptHistory_at_end e hend, h1, pushSnapshot_room _ _ _ (by simp; omega)]
    simp

theorem mutations_append_but_undo_redo_keep_history_witness :
    grayEngine.imageData = some grayPixel
      ∧ grayEngine.originalImageData = some grayPixel
      ∧ SameShape grayPixel grayPixel
      ∧ 0 < grayEngine.maxHistorySize
      ∧ 0 ≤ grayEngine.historyIndex ∧ grayEngine.historyIndex < grayEngine.history.length
      ∧ mapGet grayEngine.effects "brightness"
          = some ⟨"亮度", EffectFn.ofTransform adjustBrightness, ⟨-100, 100, 0⟩, "basic"⟩
      ∧ EffectFn.ofTransform adjustBrightness Host.sample grayEngine.draws grayPixel 20
          = Except.ok (adjustBrightness grayPixel 20, 0)
      ∧ mapGet grayEngine.presets "warm"
          = some ⟨"暖色调", "温暖舒适的色调",
            [("temperature", 25), ("tint", 5), ("exposure", 5), ("highlights", -10),
             ("shadows", 10), ("vibrance", 20), ("saturation", 5)]⟩
      ∧ composeEffects Host.sample
          (registeredSettings grayEngine.effects
            [("temperature", 25), ("tint", 5), ("exposure", 5), ("highlights", -10),
             ("shadows", 10), ("vibrance", 20), ("saturation", 5)])
          (grayPixel, grayEngine.draws)
          = Except.ok ((adjustSaturation (adjustVibrance (adjustShadows (adjustHighlights
            (adjustExposure Host.sample (adjustTint (adjustTemperature grayPixel 25) 5) 5)
              (-10)) 10) 20) 5), 0)
      ∧ ((applyEffect Host.sample "brightness" 20 grayEngine).state.history
            = pushSnapshot grayEngine.maxHistorySize (keptHistory grayEngine)
                (adjustBrightness grayPixel 20)
          ∧ (applyEffect Host.sample "brightness" 20 grayEngine).state.imageData
            = some (adjustBrightness grayPixel 20))
      ∧ ((reset grayEngine).state.history
            = pushSnapshot grayEngine.maxHistorySize (keptHistory grayEngine) grayPixel
          ∧ (reset grayEngine).state.imageData = some grayPixel)
      ∧ ((applyPreset Host.sample "warm" grayEngine).state.history
            = pushSnapshot grayEngine.maxHistorySize
                (pushSnapshot grayEngine.maxHistorySize (keptHistory grayEngine) grayPixel)
                (adjustSaturation (adjustVibrance (adjustShadows (adjustHighlights
                  (adjustExposure Host.sample (adjustTint (adjustTemperature grayPixel 25) 5) 5)
                    (-10)) 10) 20) 5)
          ∧ (applyPreset Host.sample "warm" grayEngine).state.imageData
            = some (adjustSaturation (adjustVibrance (adjustShadows (adjustHighlights
                (adjustExposure Host.sample (adjustTint (adjustTemperature grayPixel 25) 5) 5)
                  (-10)) 10) 20) 5))
      ∧ (grayEngine.historyIndex = (grayEngine.history.length : Int) - 1 →
          grayEngine.history.length < grayEngine.maxHistorySize →
          (applyEffect Host.sample "brightness" 20 grayEngine).state.history
              = grayEngine.history ++ [adjustBrightness grayPixel 20]
            ∧ (reset grayEngine).state.history = grayEngine.history ++ [grayPixel])
      ∧ (grayEngine.historyIndex = (grayEngine.history.length : Int) - 1 →
          grayEngine.history.length + 1 < grayEngine.maxHistorySize →
          (applyPreset Host.sample "warm" grayEngine).state.history
            = grayEngine.history ++ [grayPixel,
                adjustSaturation (adjustVibrance (adjustShadows (adjustHighlights
                  (adjustExposure Host.sample (adjustTint (adjustTemperature grayPixel 25) 5) 5)
                    (-10)) 10) 20) 5])
      ∧ (undo grayEngine).state.history = grayEngine.history
      ∧ (redo grayEngine).state.history = grayEngine.history :=
  ⟨rfl, rfl, SameShape.refl grayPixel, by decide, by decide, by decide, rfl, rfl, rfl, rfl,
    mutations_append_but_undo_redo_keep_history Host.sample grayEngine
      grayPixel grayPixel "brightness" 20
      ⟨"亮度", EffectFn.ofTransform adjustBrightness, ⟨-100, 100, 0⟩, "basic"⟩
      (adjustBrightness grayPixel 20) 0 "warm" _ _ 0
      rfl rfl (SameShape.refl grayPixel) (by decide) (by decide) (by decide) rfl rfl rfl rfl⟩

/-! ## The error of the binary64 operations -/

theorem rne_abs (z : ℚ) : |((rne z : ℤ) : ℚ) - z| ≤ 1 / 2 := by
  have h1 := Int.floor_le z
  have h2 := Int.lt_floor_add_one z
  unfold rne
  dsimp only
  rw [abs_le]
  split_ifs <;> push_cast <;> constructor <;> linarith

theorem IsRounding.near {x : ℚ} {r : JSNum} (h : IsRounding x r) (hx : x ≤ 1024) :
    ∃ (m e : Int), r = JSNum.fin m e ∧ 0 ≤ m ∧ |(m : ℚ) * (2 : ℚ) ^ e - x| ≤ 1 / 2 ^ 43
      ∧ ((m = 0 ∧ e = 0) ∨ e < 0) := by
  obtain ⟨E, q, hlo, hhi, hq, hr⟩ := h
  have h2ne : (2 : ℚ) ≠ 0 := by norm_num
  have hE : E ≤ 10 := by
    have h10 : (2 : ℚ) ^ E ≤ (2 : ℚ) ^ (10 : Int) := le_trans hlo (by norm_num; exact hx)
    exact (zpow_le_zpow_iff_right₀ (by norm_num : (1 : ℚ) < 2)).mp h10
  generalize hu : Max.max E (-1022) - 52 = u at hq hr
  have hu42 : u ≤ -42 := by
    rw [← hu]
    rcases max_cases E (-1022) with ⟨h1, -⟩ | ⟨h1, -⟩ <;> omega
  have hpu : (0 : ℚ) < (2 : ℚ) ^ u := by positivity
  have hr1 := rne_abs (x / (2 : ℚ) ^ u)
  rw [← hq] at hr1
  push_cast at hr1
  have hval : |(q : ℚ) * (2 : ℚ) ^ u - x| ≤ (2 : ℚ) ^ u / 2 := by
    have e1 : (q : ℚ) * (2 : ℚ) ^ u - x = ((q : ℚ) - x / (2 : ℚ) ^ u) * (2 : ℚ) ^ u := by
      field_simp
    rw [e1, abs_mul, abs_of_pos hpu]
    calc |(q : ℚ) - x / (2 : ℚ) ^ u| * (2 : ℚ) ^ u ≤ 1 / 2 * (2 : ℚ) ^ u :=
          mul_le_mul_of_nonneg_right hr1 hpu.le
      _ = (2 : ℚ) ^ u / 2 := by ring
  have hup : (2 : ℚ) ^ u / 2 ≤ 1 / 2 ^ 43 := by
    have h42 : (2 : ℚ) ^ u ≤ (2 : ℚ) ^ (-42 : Int) := zpow_le_zpow_right₀ (by norm_num) hu42
    have e42 : (2 : ℚ) ^ (-42 : Int) = 1 / 2 ^ 42 := by
      rw [zpow_neg]
      norm_num
    rw [e42] at h42
    have e43 : (1 : ℚ) / 2 ^ 43 = 1 / 2 ^ 42 / 2 := by norm_num
    rw [e43]
    linarith
  have hval2 : |(q : ℚ) * (2 : ℚ) ^ u - x| ≤ 1 / 2 ^ 43 := le_trans hval hup
  rw [hr]
  unfold packPos
  by_cases h53 : q = 2 ^ 53
  · rw [if_pos h53, if_pos h53, if_neg (by norm_num), if_neg (by omega)]
    refine ⟨_, _, rfl, by positivity, ?_, Or.inr (by omega)⟩
    have e2 : (((2 ^ 52 : Nat) : Int) : ℚ) * (2 : ℚ) ^ (u + 1) = (q : ℚ) * (2 : ℚ) ^ u := by
      rw [h53, zpow_add₀ h2ne]
      push_cast
      ring
    rw [e2]
    exact hval2
  · rw [if_neg h53, if_neg h53]
    by_cases hq0 : q = 0
    · rw [if_pos hq0]
      refine ⟨0, 0, rfl, le_refl _, ?_, Or.inl ⟨rfl, rfl⟩⟩
      rw [hq0] at hval2
      simpa using hval2
    · rw [if_neg hq0, if_neg (by omega)]
      refine ⟨_, _, rfl, Int.natCast_nonneg q, ?_, Or.inr (by omega)⟩
      exact_mod_cast hval2

/-- The rounded quotient of magnitude at most `1024` is finite and within `2 ^ (-43)` of the
quotient, and has its sign. -/
theorem JSNum.roundQuot_near (a : Int) (b : Nat) (e : Int) (hb : 0 < b)
    (h : |(a : ℚ) / (b : ℚ) * (2 : ℚ) ^ e| ≤ 1024) :
    ∃ (m' e' : Int), JSNum.roundQuot a b e = JSNum.fin m' e'
      ∧ |(m' : ℚ) * (2 : ℚ) ^ e' - (a : ℚ) / (b : ℚ) * (2 : ℚ) ^ e| ≤ 1 / 2 ^ 43
      ∧ ((m' = 0 ∧ e' = 0) ∨ e' < 0) ∧ (0 ≤ a → 0 ≤ m') ∧ (a ≤ 0 → m' ≤ 0) := by
  have roundQuot_neg : ∀ (a : Int) (b : Nat) (e : Int),
      JSNum.roundQuot (-a) b e = JSNum.neg (JSNum.roundQuot a b e) := by
    intro a b e
    unfold JSNum.roundQuot
    by_cases hb : b = 0
    · rw [if_pos hb, if_pos hb]
      rfl
    · rw [if_neg hb, if_neg hb]
      dsimp only
      rw [Int.natAbs_neg]
      rcases lt_trichotomy a 0 with h | h | h
      · rw [if_neg (show ¬ -a < 0 by omega), if_pos h, ← JSNum.roundDyadic_neg, neg_neg]
      · subst h
        simp [JSNum.roundDyadic, JSNum.neg]
      · rw [if_pos (show -a < 0 by omega), if_neg (show ¬ a < 0 by omega), JSNum.roundDyadic_neg]
  have hpe : (0 : ℚ) < (2 : ℚ) ^ e := by positivity
  have hpb : (0 : ℚ) < (b : ℚ) := by exact_mod_cast hb
  rcases lt_trichotomy a 0 with hneg | hzero | hpos
  · obtain ⟨n, hn⟩ : ∃ n : Nat, a = -(n : Int) := ⟨a.natAbs, by omega⟩
    have hn0 : 0 < n := by omega
    have hx : (n : ℚ) / (b : ℚ) * (2 : ℚ) ^ e ≤ 1024 := by
      rw [hn] at h
      push_cast at h
      rw [neg_div, neg_mul, abs_neg, abs_of_nonneg (by positivity)] at h
      exact h
    obtain ⟨m', e', hr, hm', hv, hz⟩ := (JSNum.roundQuot_isRounding n b e hn0 hb).near hx
    refine ⟨-m', e', ?_, ?_, ?_, by omega, by omega⟩
    · rw [hn, roundQuot_neg, hr]
      rfl
    · rw [hn]
      push_cast
      have e1 : -(m' : ℚ) * (2 : ℚ) ^ e' - -(n : ℚ) / (b : ℚ) * (2 : ℚ) ^ e
          = -((m' : ℚ) * (2 : ℚ) ^ e' - (n : ℚ) / (b : ℚ) * (2 : ℚ) ^ e) := by ring
      rw [e1, abs_neg]
      exact hv
    · rcases hz with ⟨h1, h2⟩ | h1
      · exact Or.inl ⟨by omega, h2⟩
      · exact Or.inr h1
  · refine ⟨0, 0, ?_, ?_, Or.inl ⟨rfl, rfl⟩, fun _ => le_refl _, fun _ => le_refl _⟩
    · rw [hzero]
      unfold JSNum.roundQuot
      rw [if_neg (by omega)]
      simp [JSNum.roundDyadic]
    · rw [hzero]
      simp
  · obtain ⟨n, hn⟩ : ∃ n : Nat, a = (n : Int) := ⟨a.natAbs, by omega⟩
    have hn0 : 0 < n := by omega
    have hx : (n : ℚ) / (b : ℚ) * (2 : ℚ) ^ e ≤ 1024 := by
      rw [hn] at h
      push_cast at h
      rw [abs_of_nonneg (by positivity)] at h
      exact h
    obtain ⟨m', e', hr, hm', hv, hz⟩ := (JSNum.roundQuot_isRounding n b e hn0 hb).near hx
    refine ⟨m', e', ?_, ?_, hz, fun _ => hm', fun h0 => by omega⟩
    · rw [hn, hr]
    · rw [hn]
      push_cast
      exact hv

theorem JSNum.Tame.tame_isFin {a : JSNum} (h : a.Tame) : a.IsFin := by
  obtain ⟨m, e, hm, -⟩ := h
  exact ⟨m, e, hm⟩

theorem JSNum.FinNonneg.finNonneg_isFin {a : JSNum} (h : a.FinNonneg) : a.IsFin := by
  obtain ⟨m, e, hm, -⟩ := h
  exact ⟨m, e, hm⟩

theorem value_sign (M e : Int) : (0 ≤ (M : ℚ) * (2 : ℚ) ^ e ↔ 0 ≤ M)
    ∧ ((M : ℚ) * (2 : ℚ) ^ e ≤ 0 ↔ M ≤ 0) := by
  have hpe : (0 : ℚ) < (2 : ℚ) ^ e := by positivity
  constructor
  · constructor
    · intro h
      by_contra hneg
      push_neg at hneg
      have : (M : ℚ) * (2 : ℚ) ^ e < 0 :=
        mul_neg_of_neg_of_pos (by exact_mod_cast hneg) hpe
      linarith
    · intro h
      have : (0 : ℚ) ≤ (M : ℚ) := by exact_mod_cast h
      positivity
  · constructor
    · intro h
      by_contra hneg
      push_neg at hneg
      have : 0 < (M : ℚ) * (2 : ℚ) ^ e := mul_pos (by exact_mod_cast hneg) hpe
      linarith
    · intro h
      have : (M : ℚ) ≤ 0 := by exact_mod_cast h
      exact mul_nonpos_of_nonpos_of_nonneg this hpe.le

theorem Rounded.isFin {x : ℚ} {r : JSNum} (h : Rounded x r) : r.IsFin := h.1.tame_isFin

theorem JSNum.roundDyadic_rounded (m e : Int) (h : |(m : ℚ) * (2 : ℚ) ^ e| ≤ 1024) :
    Rounded ((m : ℚ) * (2 : ℚ) ^ e) (JSNum.roundDyadic m e) := by
  -- The rounding of a dyadic of magnitude at most `1024` is finite and within `2 ^ (-43)`
  -- of it, and has its sign.
  have roundDyadic_near : ∀ (m e : Int) (h : |(m : ℚ) * (2 : ℚ) ^ e| ≤ 1024),
      ∃ (m' e' : Int), JSNum.roundDyadic m e = JSNum.fin m' e'
        ∧ |(m' : ℚ) * (2 : ℚ) ^ e' - (m : ℚ) * (2 : ℚ) ^ e| ≤ 1 / 2 ^ 43
        ∧ ((m' = 0 ∧ e' = 0) ∨ e' < 0) ∧ (0 ≤ m → 0 ≤ m') ∧ (m ≤ 0 → m' ≤ 0) := by
    intro m e h
    have hpe : (0 : ℚ) < (2 : ℚ) ^ e := by positivity
    rcases lt_trichotomy m 0 with hneg | hzero | hpos
    · obtain ⟨n, hn⟩ : ∃ n : Nat, m = -(n : Int) := ⟨m.natAbs, by omega⟩
      have hn0 : 0 < n := by omega
      have hx : (n : ℚ) * (2 : ℚ) ^ e ≤ 1024 := by
        rw [hn] at h
        push_cast at h
        rw [neg_mul, abs_neg, abs_of_nonneg (by positivity)] at h
        exact h
      obtain ⟨m', e', hr, hm', hv, hz⟩ := (JSNum.roundDyadic_isRounding n e hn0).near hx
      refine ⟨-m', e', ?_, ?_, ?_, by omega, by omega⟩
      · rw [hn, JSNum.roundDyadic_neg, hr]
        rfl
      · rw [hn]
        push_cast
        have e1 : -(m' : ℚ) * (2 : ℚ) ^ e' - -(n : ℚ) * (2 : ℚ) ^ e
            = -((m' : ℚ) * (2 : ℚ) ^ e' - (n : ℚ) * (2 : ℚ) ^ e) := by ring
        rw [e1, abs_neg]
        exact hv
      · rcases hz with ⟨h1, h2⟩ | h1
        · exact Or.inl ⟨by omega, h2⟩
        · exact Or.inr h1
    · refine ⟨0, 0, ?_, ?_, Or.inl ⟨rfl, rfl⟩, fun _ => le_refl _, fun _ => le_refl _⟩
      · rw [hzero]
        unfold JSNum.roundDyadic
        rw [if_pos rfl]
      · rw [hzero]
        simp
    · obtain ⟨n, hn⟩ : ∃ n : Nat, m = (n : Int) := ⟨m.natAbs, by omega⟩
      have hn0 : 0 < n := by omega
      have hx : (n : ℚ) * (2 : ℚ) ^ e ≤ 1024 := by
        rw [hn] at h
        push_cast at h
        rw [abs_of_nonneg (by positivity)] at h
        exact h
      obtain ⟨m', e', hr, hm', hv, hz⟩ := (JSNum.roundDyadic_isRounding n e hn0).near hx
      refine ⟨m', e', ?_, ?_, hz, fun _ => hm', fun h0 => by omega⟩
      · rw [hn, hr]
      · rw [hn]
        push_cast
        exact hv
  obtain ⟨m', e', hr, herr, hform, hpos, hneg⟩ := roundDyadic_near m e h
  rw [hr]
  refine ⟨⟨m', e', rfl, hform⟩, herr, ?_, ?_⟩
  · intro h0
    exact (value_sign m' e').1.mpr (hpos ((value_sign m e).1.mp h0))
  · intro h0
    exact (value_sign m' e').2.mpr (hneg ((value_sign m e).2.mp h0))

theorem JSNum.add_rounded {a b : JSNum} (ha : a.IsFin) (hb : b.IsFin)
    (h : |a.toRat + b.toRat| ≤ 1024) : Rounded (a.toRat + b.toRat) (a + b) := by
  obtain ⟨m1, e1, rfl⟩ := ha
  obtain ⟨m2, e2, rfl⟩ := hb
  have hv := JSNum.add_fin_value m1 e1 m2 e2
  rw [JSNum.add_fin_eq, ← hv]
  rw [← hv] at h
  exact JSNum.roundDyadic_rounded _ _ h

theorem JSNum.sub_rounded {a b : JSNum} (ha : a.IsFin) (hb : b.IsFin)
    (h : |a.toRat - b.toRat| ≤ 1024) : Rounded (a.toRat - b.toRat) (a - b) := by
  obtain ⟨m1, e1, rfl⟩ := ha
  obtain ⟨m2, e2, rfl⟩ := hb
  have e0 : (JSNum.fin m1 e1).toRat - (JSNum.fin m2 e2).toRat
      = (JSNum.fin m1 e1).toRat + (JSNum.fin (-m2) e2).toRat := by
    rw [JSNum.toRat_fin_neg]
    ring
  rw [JSNum.sub_fin_eq, e0]
  rw [e0] at h
  exact JSNum.add_rounded ⟨_, _, rfl⟩ ⟨_, _, rfl⟩ h

theorem JSNum.mul_rounded {a b : JSNum} (ha : a.IsFin) (hb : b.IsFin)
    (h : |a.toRat * b.toRat| ≤ 1024) : Rounded (a.toRat * b.toRat) (a * b) := by
  obtain ⟨m1, e1, rfl⟩ := ha
  obtain ⟨m2, e2, rfl⟩ := hb
  have h2ne : (2 : ℚ) ≠ 0 := by norm_num
  have hv : (((m1 * m2 : Int)) : ℚ) * (2 : ℚ) ^ (e1 + e2)
      = (JSNum.fin m1 e1).toRat * (JSNum.fin m2 e2).toRat := by
    simp only [JSNum.toRat]
    rw [zpow_add₀ h2ne]
    push_cast
    ring
  have hmul : JSNum.fin m1 e1 * JSNum.fin m2 e2 = JSNum.roundDyadic (m1 * m2) (e1 + e2) := rfl
  rw [hmul, ← hv]
  rw [← hv] at h
  exact JSNum.roundDyadic_rounded _ _ h

theorem JSNum.div_rounded {a b : JSNum} (ha : a.IsFin) (hb : b.IsFin) (hb0 : b.toRat ≠ 0)
    (h : |a.toRat / b.toRat| ≤ 1024) : Rounded (a.toRat / b.toRat) (a / b) := by
  obtain ⟨m1, e1, rfl⟩ := ha
  obtain ⟨m2, e2, rfl⟩ := hb
  have h2ne : (2 : ℚ) ≠ 0 := by norm_num
  have hm2 : m2 ≠ 0 := by
    intro h0
    apply hb0
    simp [JSNum.toRat, h0]
  have hm2q : (m2 : ℚ) ≠ 0 := by exact_mod_cast hm2
  have hdiv : JSNum.fin m1 e1 / JSNum.fin m2 e2
      = JSNum.roundQuot (if m2 < 0 then -m1 else m1) m2.natAbs (e1 - e2) := by
    show (if m2 = 0 then (if m1 = 0 then JSNum.nan else JSNum.inf (decide (m1 < 0)))
      else JSNum.roundQuot (if m2 < 0 then -m1 else m1) m2.natAbs (e1 - e2)) = _
    rw [if_neg hm2]
  have hv : (((if m2 < 0 then -m1 else m1 : Int)) : ℚ) / ((m2.natAbs : Nat) : ℚ)
        * (2 : ℚ) ^ (e1 - e2)
      = (JSNum.fin m1 e1).toRat / (JSNum.fin m2 e2).toRat := by
    simp only [JSNum.toRat]
    rw [zpow_sub₀ h2ne]
    have hp1 : (2 : ℚ) ^ e1 ≠ 0 := by positivity
    have hp2 : (2 : ℚ) ^ e2 ≠ 0 := by positivity
    by_cases hneg : m2 < 0
    · rw [if_pos hneg]
      have hab : ((m2.natAbs : Nat) : ℚ) = -(m2 : ℚ) := by
        rw [Nat.cast_natAbs, Int.cast_abs, abs_of_neg (by exact_mod_cast hneg)]
      rw [hab]
      push_cast
      field_simp
    · rw [if_neg hneg]
      have hab : ((m2.natAbs : Nat) : ℚ) = (m2 : ℚ) := by
        rw [Nat.cast_natAbs, Int.cast_abs, abs_of_nonneg (by exact_mod_cast (not_lt.mp hneg))]
      rw [hab]
      field_simp
  rw [hdiv, ← hv]
  rw [← hv] at h
  obtain ⟨m', e', hr, herr, hform, hpos, hneg⟩ :=
    JSNum.roundQuot_near _ m2.natAbs (e1 - e2) (by omega) h
  rw [hr]
  have hsign : ∀ (A : Int) (B : Nat), 0 < B →
      ((0 ≤ (A : ℚ) / (B : ℚ) * (2 : ℚ) ^ (e1 - e2) → 0 ≤ A)
        ∧ ((A : ℚ) / (B : ℚ) * (2 : ℚ) ^ (e1 - e2) ≤ 0 → A ≤ 0)) := by
    intro A B hB
    have hBq : (0 : ℚ) < (B : ℚ) := by exact_mod_cast hB
    have hpe : (0 : ℚ) < (2 : ℚ) ^ (e1 - e2) := by positivity
    constructor
    · intro h0
      by_contra hc
      push_neg at hc
      have hA : (A : ℚ) < 0 := by exact_mod_cast hc
      have : (A : ℚ) / (B : ℚ) * (2 : ℚ) ^ (e1 - e2) < 0 :=
        mul_neg_of_neg_of_pos (div_neg_of_neg_of_pos hA hBq) hpe
      linarith
    · intro h0
      by_contra hc
      push_neg at hc
      have hA : (0 : ℚ) < (A : ℚ) := by exact_mod_cast hc
      have : 0 < (A : ℚ) / (B : ℚ) * (2 : ℚ) ^ (e1 - e2) := mul_pos (div_pos hA hBq) hpe
      linarith
  refine ⟨⟨m', e', rfl, hform⟩, herr, ?_, ?_⟩
  · intro h0
    exact (value_sign m' e').1.mpr (hpos ((hsign _ _ (by omega)).1 h0))
  · intro h0
    exact (value_sign m' e').2.mpr (hneg ((hsign _ _ (by omega)).2 h0))

/-- The comparison `a < b` of two finite numbers is the comparison of their values. -/
theorem JSNum.lt_toRat {a b : JSNum} (ha : a.IsFin) (hb : b.IsFin) :
    (JSNum.lt a b = true ↔ a.toRat < b.toRat)
      ∧ (JSNum.lt a b = false ↔ b.toRat ≤ a.toRat) := by
  obtain ⟨m1, e1, rfl⟩ := ha
  obtain ⟨m2, e2, rfl⟩ := hb
  have h : JSNum.lt (JSNum.fin m1 e1) (JSNum.fin m2 e2) = true
      ↔ (JSNum.fin m1 e1).toRat < (JSNum.fin m2 e2).toRat := JSNum.lt_fin_iff m1 e1 m2 e2
  refine ⟨h, ?_⟩
  rw [← not_lt, ← h]
  simp

/-- The remainder of a non-negative dividend by a positive divisor: `a - b * floor(a / b)`. -/
theorem JSNum.rem_rounded {a b : JSNum} (ha : a.IsFin) (hb : b.IsFin) (h0 : 0 ≤ a.toRat)
    (hpos : 0 < b.toRat) (hbd : b.toRat ≤ 1024) :
    Rounded (a.toRat - b.toRat * ((⌊a.toRat / b.toRat⌋ : Int) : ℚ)) (JSNum.rem a b) := by
  obtain ⟨m1, e1, rfl⟩ := ha
  obtain ⟨m2, e2, rfl⟩ := hb
  have hm1 : 0 ≤ m1 := (value_sign m1 e1).1.mp h0
  have hm2 : 0 < m2 := by
    by_contra hc
    push_neg at hc
    have := (value_sign m2 e2).2.mpr hc
    have h1 : (JSNum.fin m2 e2).toRat = (m2 : ℚ) * (2 : ℚ) ^ e2 := rfl
    linarith
  generalize he : Min.min e1 e2 = e
  have hle1 : e ≤ e1 := by rw [← he]; exact min_le_left _ _
  have hle2 : e ≤ e2 := by rw [← he]; exact min_le_right _ _
  obtain ⟨A, hA⟩ : ∃ A : Nat, m1 * 2 ^ (e1 - e).toNat = (A : Int) :=
    ⟨(m1 * 2 ^ (e1 - e).toNat).toNat, by
      rw [Int.toNat_of_nonneg (by positivity)]⟩
  obtain ⟨B, hB⟩ : ∃ B : Nat, m2 * 2 ^ (e2 - e).toNat = (B : Int) :=
    ⟨(m2 * 2 ^ (e2 - e).toNat).toNat, by
      rw [Int.toNat_of_nonneg (by positivity)]⟩
  have hBpos : 0 < B := by
    have : (0 : Int) < m2 * 2 ^ (e2 - e).toNat := by positivity
    omega
  have hrem : JSNum.rem (JSNum.fin m1 e1) (JSNum.fin m2 e2)
      = JSNum.roundDyadic ((A % B : Nat) : Int) e := by
    have h1 : JSNum.rem (JSNum.fin m1 e1) (JSNum.fin m2 e2)
        = JSNum.roundDyadic
            (if m1 * 2 ^ (e1 - Min.min e1 e2).toNat < 0 then
              -((((m1 * 2 ^ (e1 - Min.min e1 e2).toNat).natAbs
                  % (m2 * 2 ^ (e2 - Min.min e1 e2).toNat).natAbs : Nat)) : Int)
             else ((((m1 * 2 ^ (e1 - Min.min e1 e2).toNat).natAbs
                  % (m2 * 2 ^ (e2 - Min.min e1 e2).toNat).natAbs : Nat)) : Int))
            (Min.min e1 e2) := by
      show (if m2 = 0 then JSNum.nan else _) = _
      rw [if_neg (show ¬ m2 = 0 by omega)]
    rw [h1, he, hA, hB, if_neg (show ¬ (A : Int) < 0 by omega), Int.natAbs_ofNat,
      Int.natAbs_ofNat]
  have hAv : (A : ℚ) * (2 : ℚ) ^ e = (JSNum.fin m1 e1).toRat := by
    have := cast_shift m1 e1 e hle1
    rw [hA] at this
    exact_mod_cast this
  have hBv : (B : ℚ) * (2 : ℚ) ^ e = (JSNum.fin m2 e2).toRat := by
    have := cast_shift m2 e2 e hle2
    rw [hB] at this
    exact_mod_cast this
  have hpe : (0 : ℚ) < (2 : ℚ) ^ e := by positivity
  have hBq : (0 : ℚ) < (B : ℚ) := by exact_mod_cast hBpos
  have hquot : (JSNum.fin m1 e1).toRat / (JSNum.fin m2 e2).toRat = (A : ℚ) / (B : ℚ) := by
    rw [← hAv, ← hBv]
    field_simp
    ring
  have hfloor : (⌊(A : ℚ) / (B : ℚ)⌋ : Int) = ((A / B : Nat) : Int) := by
    have := Rat.floor_intCast_div_natCast (A : Int) B
    push_cast at this
    rw [this]
    rfl
  have hmod : ((A % B : Nat) : ℚ) = (A : ℚ) - (B : ℚ) * ((A / B : Nat) : ℚ) := by
    have := Nat.mod_add_div A B
    have h2 : ((A % B + B * (A / B) : Nat) : ℚ) = (A : ℚ) := by rw [this]
    push_cast at h2
    linarith
  have hval : (((A % B : Nat) : Int) : ℚ) * (2 : ℚ) ^ e
      = (JSNum.fin m1 e1).toRat
        - (JSNum.fin m2 e2).toRat
          * ((⌊(JSNum.fin m1 e1).toRat / (JSNum.fin m2 e2).toRat⌋ : Int) : ℚ) := by
    have hmodI : (((A % B : Nat) : Int) : ℚ) = (A : ℚ) - (B : ℚ) * ((A / B : Nat) : ℚ) := by
      rw [Int.cast_natCast]
      exact hmod
    have hdivI : (((A / B : Nat) : Int) : ℚ) = ((A / B : Nat) : ℚ) := Int.cast_natCast _
    rw [hquot, hfloor, ← hAv, ← hBv, hmodI, hdivI]
    ring
  rw [hrem, ← hval]
  apply JSNum.roundDyadic_rounded
  have hlt : ((A % B : Nat) : ℚ) < (B : ℚ) := by exact_mod_cast Nat.mod_lt A hBpos
  have hnn : (0 : ℚ) ≤ ((A % B : Nat) : ℚ) := by positivity
  rw [Int.cast_natCast, abs_of_nonneg (by positivity)]
  have hle : ((A % B : Nat) : ℚ) * (2 : ℚ) ^ e ≤ (B : ℚ) * (2 : ℚ) ^ e :=
    mul_le_mul_of_nonneg_right hlt.le hpe.le
  linarith

theorem JSNum.natLit_rat (n : Nat) (hn : n < 2 ^ 53) :
    (OfNat.ofNat n : JSNum).IsFin ∧ (OfNat.ofNat n : JSNum).toRat = (n : ℚ) :=
  ⟨(JSNum.natLit n hn).1.finNonneg_isFin, (JSNum.natLit n hn).2⟩

/-- The function `Math.round` of a value within a half of the natural number `n` is `n`. -/
theorem JSNum.round_of_near {y : JSNum} (hy : y.Tame) (n : Nat)
    (h : |y.toRat - (n : ℚ)| < 1 / 2) : Math.round y = JSNum.ofInt (n : Int) := by
  obtain ⟨m, e, rfl, hform⟩ := hy
  rw [abs_lt] at h
  rcases hform with ⟨hm, he⟩ | he
  · subst hm
    subst he
    have hn : n = 0 := by
      have h1 : (JSNum.fin 0 0).toRat = 0 := by simp [JSNum.toRat]
      rw [h1] at h
      have : (n : ℚ) < 1 := by linarith
      have : n < 1 := by exact_mod_cast this
      omega
    subst hn
    rfl
  · obtain ⟨k, hk⟩ : ∃ k : Nat, e = -(k : Int) := ⟨(-e).toNat, by omega⟩
    have hround : Math.round (JSNum.fin m e)
        = JSNum.ofInt ((2 * m + 2 ^ k) / 2 ^ (k + 1)) := by
      show (if 0 ≤ e then JSNum.fin m e
        else JSNum.ofInt ((2 * m + 2 ^ (-e).toNat) / 2 ^ ((-e).toNat + 1))) = _
      rw [if_neg (show ¬ 0 ≤ e by omega)]
      have : (-e).toNat = k := by omega
      rw [this]
    rw [hround]
    congr 1
    have hv : (JSNum.fin m e).toRat = (m : ℚ) / (2 : ℚ) ^ k := by
      simp only [JSNum.toRat]
      rw [hk, zpow_neg, zpow_natCast]
      rfl
    rw [hv] at h
    have hpk : (0 : ℚ) < (2 : ℚ) ^ k := by positivity
    obtain ⟨h1, h2⟩ := h
    have h1' : ((n : ℚ) - 1 / 2) * (2 : ℚ) ^ k < (m : ℚ) := by
      have := (lt_div_iff₀ hpk).mp (by linarith : (n : ℚ) - 1 / 2 < (m : ℚ) / (2 : ℚ) ^ k)
      exact this
    have h2' : (m : ℚ) < ((n : ℚ) + 1 / 2) * (2 : ℚ) ^ k := by
      have := (div_lt_iff₀ hpk).mp (by linarith : (m : ℚ) / (2 : ℚ) ^ k < (n : ℚ) + 1 / 2)
      exact this
    have hc : (0 : Int) < 2 ^ (k + 1) := by positivity
    have hlo : (n : Int) ≤ (2 * m + 2 ^ k) / 2 ^ (k + 1) := by
      rw [Int.le_ediv_iff_mul_le hc]
      have : ((n : Int) : ℚ) * ((2 : ℚ) ^ (k + 1)) ≤ 2 * (m : ℚ) + (2 : ℚ) ^ k := by
        rw [pow_succ]
        push_cast
        nlinarith
      exact_mod_cast this
    have hhi : (2 * m + 2 ^ k) / 2 ^ (k + 1) < (n : Int) + 1 := by
      rw [Int.ediv_lt_iff_lt_mul hc]
      have : 2 * (m : ℚ) + (2 : ℚ) ^ k < (((n : Int) : ℚ) + 1) * ((2 : ℚ) ^ (k + 1)) := by
        rw [pow_succ]
        push_cast
        nlinarith
      exact_mod_cast this
    omega

/-! ## The hue round trip in binary64 -/

theorem clamp01_lipschitz (x y : ℚ) : |clamp01 x - clamp01 y| ≤ |x - y| := by
  unfold clamp01
  rw [abs_le]
  rcases abs_cases (x - y) with ⟨h1, h2⟩ | ⟨h1, h2⟩ <;>
    simp only [max_def, min_def] <;> split_ifs <;> constructor <;> linarith

/-- The three closed forms change by no more than the hue does. -/
theorem rho_lipschitz (s t : ℚ) :
    |rhoR s - rhoR t| ≤ |s - t| ∧ |rhoG s - rhoG t| ≤ |s - t|
      ∧ |rhoB s - rhoB t| ≤ |s - t| := by
  refine ⟨?_, ?_, ?_⟩
  · unfold rhoR
    refine le_trans (clamp01_lipschitz _ _) ?_
    have h := abs_abs_sub_abs_le_abs_sub (s - 3) (t - 3)
    have e1 : |s - 3| - 1 - (|t - 3| - 1) = |s - 3| - |t - 3| := by ring
    have e2 : s - 3 - (t - 3) = s - t := by ring
    rw [e1]
    rw [e2] at h
    exact h
  · unfold rhoG
    refine le_trans (clamp01_lipschitz _ _) ?_
    have h := abs_abs_sub_abs_le_abs_sub (t - 2) (s - 2)
    have e1 : 2 - |s - 2| - (2 - |t - 2|) = |t - 2| - |s - 2| := by ring
    have e2 : t - 2 - (s - 2) = -(s - t) := by ring
    rw [e1]
    rw [e2, abs_neg] at h
    exact h
  · unfold rhoB
    refine le_trans (clamp01_lipschitz _ _) ?_
    have h := abs_abs_sub_abs_le_abs_sub (t - 4) (s - 4)
    have e1 : 2 - |s - 4| - (2 - |t - 4|) = |t - 4| - |s - 4| := by ring
    have e2 : t - 4 - (s - 4) = -(s - t) := by ring
    rw [e1]
    rw [e2, abs_neg] at h
    exact h

theorem clamp01_of_mem (x : ℚ) (h0 : 0 ≤ x) (h1 : x ≤ 1) : clamp01 x = x := by
  unfold clamp01
  rw [min_eq_right h1, max_eq_right h0]

/-- The six sectors of `hsvToRgb`, each widened by `η` on both sides: in the sector that
starts at `j` (`j - η ≤ t ≤ j + 1 + η`) the components the code picks (`1` for `c`, the
triangle wave `1 - |t mod 2 - 1|` for `x`, `0`) are within `2 * η` of the closed forms; `k` is
`floor(t / 2)`. -/
theorem sector_bounds (t η : ℚ) (k : Int) (ht0 : 0 ≤ t) (ht6 : t < 6) (hη0 : 0 ≤ η)
    (hη : η ≤ 1 / 4) (hk0 : 2 * (k : ℚ) ≤ t) (hk1 : t < 2 * (k : ℚ) + 2) :
    (0 - η ≤ t → t ≤ 0 + 1 + η →
        |1 - rhoR t| ≤ 2 * η ∧ |(1 - |t - 2 * (k : ℚ) - 1|) - rhoG t| ≤ 2 * η
          ∧ |0 - rhoB t| ≤ 2 * η)
      ∧ (1 - η ≤ t → t ≤ 1 + 1 + η →
        |(1 - |t - 2 * (k : ℚ) - 1|) - rhoR t| ≤ 2 * η ∧ |1 - rhoG t| ≤ 2 * η
          ∧ |0 - rhoB t| ≤ 2 * η)
      ∧ (2 - η ≤ t → t ≤ 2 + 1 + η →
        |0 - rhoR t| ≤ 2 * η ∧ |1 - rhoG t| ≤ 2 * η
          ∧ |(1 - |t - 2 * (k : ℚ) - 1|) - rhoB t| ≤ 2 * η)
      ∧ (3 - η ≤ t → t ≤ 3 + 1 + η →
        |0 - rhoR t| ≤ 2 * η ∧ |(1 - |t - 2 * (k : ℚ) - 1|) - rhoG t| ≤ 2 * η
          ∧ |1 - rhoB t| ≤ 2 * η)
      ∧ (4 - η ≤ t → t ≤ 4 + 1 + η →
        |(1 - |t - 2 * (k : ℚ) - 1|) - rhoR t| ≤ 2 * η ∧ |0 - rhoG t| ≤ 2 * η
          ∧ |1 - rhoB t| ≤ 2 * η)
      ∧ (5 - η ≤ t → t ≤ 5 + 1 + η →
        |1 - rhoR t| ≤ 2 * η ∧ |0 - rhoG t| ≤ 2 * η
          ∧ |(1 - |t - 2 * (k : ℚ) - 1|) - rhoB t| ≤ 2 * η) := by
  have clamp01_near_one : ∀ (x η : ℚ) (h : 1 - η ≤ x) (hη : 0 ≤ η),
      |1 - clamp01 x| ≤ 2 * η := by
    intro x η h hη
    unfold clamp01
    rw [abs_le]
    simp only [max_def, min_def]
    split_ifs <;> constructor <;> linarith
  have clamp01_near_zero : ∀ (x η : ℚ) (h : x ≤ η) (hη : 0 ≤ η),
      |0 - clamp01 x| ≤ 2 * η := by
    intro x η h hη
    unfold clamp01
    rw [abs_le]
    simp only [max_def, min_def]
    split_ifs <;> constructor <;> linarith
  have clamp01_near : ∀ (x y η : ℚ) (h0 : 0 ≤ x) (h1 : x ≤ 1) (h : |x - y| ≤ 2 * η),
      |x - clamp01 y| ≤ 2 * η := by
    intro x y η h0 h1 h
    have h2 := clamp01_lipschitz x y
    rw [clamp01_of_mem x h0 h1] at h2
    exact le_trans h2 h
  have hk3 : k < 3 := by
    have h : (k : ℚ) < 3 := by linarith
    exact_mod_cast h
  have hkm : -1 < k := by
    have h : (-1 : ℚ) < (k : ℚ) := by linarith
    exact_mod_cast h
  have hk : k = 0 ∨ k = 1 ∨ k = 2 := by omega
  refine ⟨?_, ?_, ?_, ?_, ?_, ?_⟩
  · intro hlo hhi
    refine ⟨?_, ?_, ?_⟩
    · unfold rhoR
      refine clamp01_near_one _ η ?_ hη0
      rcases abs_cases (t - 3) with ⟨h1, h2⟩ | ⟨h1, h2⟩ <;> linarith
    · unfold rhoG
      refine clamp01_near _ _ η ?_ ?_ ?_
      · rcases abs_cases (t - 2 * (k : ℚ) - 1) with ⟨h1, h2⟩ | ⟨h1, h2⟩ <;> linarith
      · rcases abs_cases (t - 2 * (k : ℚ) - 1) with ⟨h1, h2⟩ | ⟨h1, h2⟩ <;> linarith
      · rw [abs_le]
        rcases abs_cases (t - 2 * (k : ℚ) - 1) with ⟨h1, h2⟩ | ⟨h1, h2⟩ <;>
          rcases abs_cases (t - 2) with ⟨h7, h8⟩ | ⟨h7, h8⟩ <;>
          rcases hk with hk | hk | hk <;> subst hk <;> push_cast at hk0 hk1 h1 h2 ⊢ <;>
          constructor <;> linarith
    · unfold rhoB
      refine clamp01_near_zero _ η ?_ hη0
      rcases abs_cases (t - 4) with ⟨h1, h2⟩ | ⟨h1, h2⟩ <;> linarith
  · intro hlo hhi
    refine ⟨?_, ?_, ?_⟩
    · unfold rhoR
      refine clamp01_near _ _ η ?_ ?_ ?_
      · rcases abs_cases (t - 2 * (k : ℚ) - 1) with ⟨h1, h2⟩ | ⟨h1, h2⟩ <;> linarith
      · rcases abs_cases (t - 2 * (k : ℚ) - 1) with ⟨h1, h2⟩ | ⟨h1, h2⟩ <;> linarith
      · rw [abs_le]
        rcases abs_cases (t - 2 * (k : ℚ) - 1) with ⟨h1, h2⟩ | ⟨h1, h2⟩ <;>
          rcases abs_cases (t - 3) with ⟨h7, h8⟩ | ⟨h7, h8⟩ <;>
          rcases hk with hk | hk | hk <;> subst hk <;> push_cast at hk0 hk1 h1 h2 ⊢ <;>
          constructor <;> linarith
    · unfold rhoG
      refine clamp01_near_one _ η ?_ hη0
      rcases abs_cases (t - 2) with ⟨h1, h2⟩ | ⟨h1, h2⟩ <;> linarith
    · unfold rhoB
      refine clamp01_near_zero _ η ?_ hη0
      rcases abs_cases (t - 4) with ⟨h1, h2⟩ | ⟨h1, h2⟩ <;> linarith
  · intro hlo hhi
    refine ⟨?_, ?_, ?_⟩
    · unfold rhoR
      refine clamp01_near_zero _ η ?_ hη0
      rcases abs_cases (t - 3) with ⟨h1, h2⟩ | ⟨h1, h2⟩ <;> linarith
    · unfold rhoG
      refine clamp01_near_one _ η ?_ hη0
      rcases abs_cases (t - 2) with ⟨h1, h2⟩ | ⟨h1, h2⟩ <;> linarith
    · unfold rhoB
      refine clamp01_near _ _ η ?_ ?_ ?_
      · rcases abs_cases (t - 2 * (k : ℚ) - 1) with ⟨h1, h2⟩ | ⟨h1, h2⟩ <;> linarith
      · rcases abs_cases (t - 2 * (k : ℚ) - 1) with ⟨h1, h2⟩ | ⟨h1, h2⟩ <;> linarith
      · rw [abs_le]
        rcases abs_cases (t - 2 * (k : ℚ) - 1) with ⟨h1, h2⟩ | ⟨h1, h2⟩ <;>
          rcases abs_cases (t - 4) with ⟨h7, h8⟩ | ⟨h7, h8⟩ <;>
          rcases hk with hk | hk | hk <;> subst hk <;> push_cast at hk0 hk1 h1 h2 ⊢ <;>
          constructor <;> linarith
  · intro hlo hhi
    refine ⟨?_, ?_, ?_⟩
    · unfold rhoR
      refine clamp01_near_zero _ η ?_ hη0
      rcases abs_cases (t - 3) with ⟨h1, h2⟩ | ⟨h1, h2⟩ <;> linarith
    · unfold rhoG
      refine clamp01_near _ _ η ?_ ?_ ?_
      · rcases abs_cases (t - 2 * (k : ℚ) - 1) with ⟨h1, h2⟩ | ⟨h1, h2⟩ <;> linarith
      · rcases abs_cases (t - 2 * (k : ℚ) - 1) with ⟨h1, h2⟩ | ⟨h1, h2⟩ <;> linarith
      · rw [abs_le]
        rcases abs_cases (t - 2 * (k : ℚ) - 1) with ⟨h1, h2⟩ | ⟨h1, h2⟩ <;>
          rcases abs_cases (t - 2) with ⟨h7, h8⟩ | ⟨h7, h8⟩ <;>
          rcases hk with hk | hk | hk <;> subst hk <;> push_cast at hk0 hk1 h1 h2 ⊢ <;>
          constructor <;> linarith
    · unfold rhoB
      refine clamp01_near_one _ η ?_ hη0
      rcases abs_cases (t - 4) with ⟨h1, h2⟩ | ⟨h1, h2⟩ <;> linarith
  · intro hlo hhi
    refine ⟨?_, ?_, ?_⟩
    · unfold rhoR
      refine clamp01_near _ _ η ?_ ?_ ?_
      · rcases abs_cases (t - 2 * (k : ℚ) - 1) with ⟨h1, h2⟩ | ⟨h1, h2⟩ <;> linarith
      · rcases abs_cases (t - 2 * (k : ℚ) - 1) with ⟨h1, h2⟩ | ⟨h1, h2⟩ <;> linarith
      · rw [abs_le]
        rcases abs_cases (t - 2 * (k : ℚ) - 1) with ⟨h1, h2⟩ | ⟨h1, h2⟩ <;>
          rcases abs_cases (t - 3) with ⟨h7, h8⟩ | ⟨h7, h8⟩ <;>
          rcases hk with hk | hk | hk <;> subst hk <;> push_cast at hk0 hk1 h1 h2 ⊢ <;>
          constructor <;> linarith
    · unfold rhoG
      refine clamp01_near_zero _ η ?_ hη0
      rcases abs_cases (t - 2) with ⟨h1, h2⟩ | ⟨h1, h2⟩ <;> linarith
    · unfold rhoB
      refine clamp01_near_one _ η ?_ hη0
      rcases abs_cases (t - 4) with ⟨h1, h2⟩ | ⟨h1, h2⟩ <;> linarith
  · intro hlo hhi
    refine ⟨?_, ?_, ?_⟩
    · unfold rhoR
      refine clamp01_near_one _ η ?_ hη0
      rcases abs_cases (t - 3) with ⟨h1, h2⟩ | ⟨h1, h2⟩ <;> linarith
    · unfold rhoG
      refine clamp01_near_zero _ η ?_ hη0
      rcases abs_cases (t - 2) with ⟨h1, h2⟩ | ⟨h1, h2⟩ <;> linarith
    · unfold rhoB
      refine clamp01_near _ _ η ?_ ?_ ?_
      · rcases abs_cases (t - 2 * (k : ℚ) - 1) with ⟨h1, h2⟩ | ⟨h1, h2⟩ <;> linarith
      · rcases abs_cases (t - 2 * (k : ℚ) - 1) with ⟨h1, h2⟩ | ⟨h1, h2⟩ <;> linarith
      · rw [abs_le]
        rcases abs_cases (t - 2 * (k : ℚ) - 1) with ⟨h1, h2⟩ | ⟨h1, h2⟩ <;>
          rcases abs_cases (t - 4) with ⟨h7, h8⟩ | ⟨h7, h8⟩ <;>
          rcases hk with hk | hk | hk <;> subst hk <;> push_cast at hk0 hk1 h1 h2 ⊢ <;>
          constructor <;> linarith

theorem mul_err (a b x y εa εb X B : ℚ) (ha : |a - x| ≤ εa) (hb : |b - y| ≤ εb)
    (hx : |x| ≤ X) (hB : |b| ≤ B) : |a * b - x * y| ≤ εa * B + X * εb := by
  have e : a * b - x * y = (a - x) * b + x * (b - y) := by ring
  rw [e]
  refine le_trans (abs_add _ _) ?_
  rw [abs_mul, abs_mul]
  have h1 : |a - x| * |b| ≤ εa * B :=
    mul_le_mul ha hB (abs_nonneg _) (le_trans (abs_nonneg _) ha)
  have h2 : |x| * |b - y| ≤ X * εb :=
    mul_le_mul hx hb (abs_nonneg _) (le_trans (abs_nonneg _) hx)
  linarith

theorem div_err (a b x y εa εb lo Q : ℚ) (ha : |a - x| ≤ εa) (hb : |b - y| ≤ εb)
    (hlo : 0 < lo) (hb0 : lo ≤ b) (hy0 : 0 < y) (hQ : |x| ≤ Q * y) :
    |a / b - x / y| ≤ (εa + Q * εb) / lo := by
  have hbpos : 0 < b := lt_of_lt_of_le hlo hb0
  have hQ0 : 0 ≤ Q := by
    by_contra hc
    push_neg at hc
    have : Q * y < 0 := mul_neg_of_neg_of_pos hc hy0
    have := abs_nonneg x
    linarith
  have hxy : |x / y| ≤ Q := by
    rw [abs_div, abs_of_pos hy0, div_le_iff₀ hy0]
    exact hQ
  have e : a / b - x / y = ((a - x) - x / y * (b - y)) / b := by
    field_simp
    ring
  rw [e, abs_div, abs_of_pos hbpos]
  have hnum : |a - x - x / y * (b - y)| ≤ εa + Q * εb := by
    refine le_trans (abs_sub _ _) ?_
    rw [abs_mul]
    have h2 : |x / y| * |b - y| ≤ Q * εb :=
      mul_le_mul hxy hb (abs_nonneg _) hQ0
    linarith
  have hnn : 0 ≤ εa + Q * εb := le_trans (abs_nonneg _) hnum
  calc |a - x - x / y * (b - y)| / b ≤ (εa + Q * εb) / b :=
        div_le_div_of_nonneg_right hnum hbpos.le
    _ ≤ (εa + Q * εb) / lo := div_le_div_of_nonneg_left hnn hlo hb0

theorem ulp_small : (0 : ℚ) < 1 / 2 ^ 43 ∧ (1 : ℚ) / 2 ^ 43 ≤ 1 / 8000000000000 := by
  norm_num

theorem chan_bounds (n : Nat) (hn : n ≤ 255) :
    (chan n).IsFin ∧ |(chan n).toRat - (n : ℚ) / 255| ≤ 1 / 2 ^ 43 ∧ 0 ≤ (chan n).toRat
      ∧ (chan n).toRat ≤ 2 := by
  have chan_rounded : ∀ (n : Nat) (hn : n ≤ 255),
      Rounded ((n : ℚ) / 255) (chan n) := by
    intro n hn
    have h1 := JSNum.ofInt_natCast n (lt_of_le_of_lt hn (by norm_num))
    have h2 := JSNum.natLit_rat 255 (by norm_num)
    have hq : (n : ℚ) ≤ 255 := by exact_mod_cast hn
    have hq0 : (0 : ℚ) ≤ (n : ℚ) := by positivity
    have h := JSNum.div_rounded h1.1.finNonneg_isFin h2.1 (by rw [h2.2]; norm_num)
      (by
        rw [h1.2, h2.2]
        rw [abs_of_nonneg (by positivity)]
        have : (n : ℚ) / ((255 : Nat) : ℚ) ≤ 1 := by
          rw [div_le_one (by norm_num)]
          push_cast
          exact hq
        linarith)
    rw [h1.2, h2.2] at h
    push_cast at h
    exact h
  have h := chan_rounded n hn
  have hq : (n : ℚ) ≤ 255 := by exact_mod_cast hn
  have hq0 : (0 : ℚ) ≤ (n : ℚ) := by positivity
  obtain ⟨hu0, hu1⟩ := ulp_small
  have h0 := h.2.2.1 (by positivity)
  have herr := h.2.1
  refine ⟨h.isFin, herr, h0, ?_⟩
  rw [abs_le] at herr
  have : (n : ℚ) / 255 ≤ 1 := by
    rw [div_le_one (by norm_num)]
    exact hq
  linarith

theorem chan_lt (a b : Nat) (ha : a ≤ 255) (hb : b ≤ 255) (h : a < b) :
    (chan a).toRat < (chan b).toRat := by
  have h1 := (chan_bounds a ha).2.1
  have h2 := (chan_bounds b hb).2.1
  obtain ⟨hu0, hu1⟩ := ulp_small
  rw [abs_le] at h1 h2
  have hab : (a : ℚ) + 1 ≤ (b : ℚ) := by exact_mod_cast h
  have : (a : ℚ) / 255 + 1 / 255 ≤ (b : ℚ) / 255 := by
    rw [← add_div]
    exact div_le_div_of_nonneg_right hab (by norm_num)
  linarith

theorem chan_lt_iff (a b : Nat) (ha : a ≤ 255) (hb : b ≤ 255) :
    JSNum.lt (chan a) (chan b) = decide (a < b) := by
  have hfa := (chan_bounds a ha).1
  have hfb := (chan_bounds b hb).1
  by_cases h : a < b
  · rw [decide_eq_true h]
    exact (JSNum.lt_toRat hfa hfb).1.mpr (chan_lt a b ha hb h)
  · rw [decide_eq_false h]
    refine (JSNum.lt_toRat hfa hfb).2.mpr ?_
    rcases Nat.eq_or_lt_of_le (not_lt.mp h) with heq | hlt
    · rw [heq]
    · exact (chan_lt b a hb ha hlt).le

theorem JSNum.max_fin (a b : JSNum) (ha : a.IsFin) (hb : b.IsFin) :
    JSNum.max a b = if JSNum.lt a b then b else a := by
  obtain ⟨m1, e1, rfl⟩ := ha
  obtain ⟨m2, e2, rfl⟩ := hb
  rfl

theorem JSNum.min_fin (a b : JSNum) (ha : a.IsFin) (hb : b.IsFin) :
    JSNum.min a b = if JSNum.lt b a then b else a := by
  obtain ⟨m1, e1, rfl⟩ := ha
  obtain ⟨m2, e2, rfl⟩ := hb
  rfl

theorem JSNum.strictEq_fin (a b : JSNum) (ha : a.IsFin) (hb : b.IsFin) :
    JSNum.strictEq a b = decide (a = b) := by
  obtain ⟨m1, e1, rfl⟩ := ha
  obtain ⟨m2, e2, rfl⟩ := hb
  rfl

/-- The functions `Math.max` and `Math.min` of three channels are the channels of the largest
and of the smallest sample. -/
theorem chan_max_min3 (r g b : Nat) (hr : r ≤ 255) (hg : g ≤ 255) (hb : b ≤ 255) :
    JSNum.max3 (chan r) (chan g) (chan b) = chan (Max.max (Max.max r g) b)
      ∧ JSNum.min3 (chan r) (chan g) (chan b) = chan (Min.min (Min.min r g) b) := by
  have chan_max : ∀ (a b : Nat) (ha : a ≤ 255) (hb : b ≤ 255),
      JSNum.max (chan a) (chan b) = chan (Max.max a b) := by
    intro a b ha hb
    rw [JSNum.max_fin _ _ (chan_bounds a ha).1 (chan_bounds b hb).1, chan_lt_iff a b ha hb]
    by_cases h : a < b
    · rw [decide_eq_true h, if_pos rfl, max_eq_right h.le]
    · rw [decide_eq_false h, if_neg (by simp), max_eq_left (not_lt.mp h)]
  have chan_min : ∀ (a b : Nat) (ha : a ≤ 255) (hb : b ≤ 255),
      JSNum.min (chan a) (chan b) = chan (Min.min a b) := by
    intro a b ha hb
    rw [JSNum.min_fin _ _ (chan_bounds a ha).1 (chan_bounds b hb).1, chan_lt_iff b a hb ha]
    by_cases h : b < a
    · rw [decide_eq_true h, if_pos rfl, min_eq_right h.le]
    · rw [decide_eq_false h, if_neg (by simp), min_eq_left (not_lt.mp h)]
  constructor
  · unfold JSNum.max3
    rw [chan_max r g hr hg, chan_max _ b (max_le hr hg) hb]
  · unfold JSNum.min3
    rw [chan_min r g hr hg, chan_min _ b (le_trans (min_le_left _ _) hr) hb]

theorem chan_strictEq (a b : Nat) (ha : a ≤ 255) (hb : b ≤ 255) :
    JSNum.strictEq (chan a) (chan b) = decide (a = b) := by
  have chan_inj : ∀ (a b : Nat) (ha : a ≤ 255) (hb : b ≤ 255) (h : chan a = chan b),
      a = b := by
    intro a b ha hb h
    rcases lt_trichotomy a b with hlt | heq | hgt
    · have := chan_lt a b ha hb hlt
      rw [h] at this
      exact absurd this (lt_irrefl _)
    · exact heq
    · have := chan_lt b a hb ha hgt
      rw [h] at this
      exact absurd this (lt_irrefl _)
  rw [JSNum.strictEq_fin _ _ (chan_bounds a ha).1 (chan_bounds b hb).1]
  by_cases h : a = b
  · rw [decide_eq_true h, h]
    simp
  · rw [decide_eq_false h]
    simp only [decide_eq_false_iff_not]
    exact fun hc => h (chan_inj a b ha hb hc)

theorem chan_zero : chan 0 = JSNum.fin 0 0 := by decide!

theorem JSNum.zero_lit : (0 : JSNum) = JSNum.fin 0 0 := rfl

theorem JSNum.sub_self_fin (a : JSNum) (ha : a.IsFin) : a - a = JSNum.fin 0 0 := by
  obtain ⟨m, e, rfl⟩ := ha
  rw [JSNum.sub_fin_eq, JSNum.add_fin_eq]
  have : m * 2 ^ (e - Min.min e e).toNat + -m * 2 ^ (e - Min.min e e).toNat = 0 := by ring
  rw [this]
  unfold JSNum.roundDyadic
  rw [if_pos rfl]

/-- The difference `max - min` that `rgbToHsv` forms. -/
theorem chan_diff (M mn : Nat) (hM : M ≤ 255) (hle : mn ≤ M) :
    (chan M - chan mn).IsFin
      ∧ |(chan M - chan mn).toRat - ((M : ℚ) - (mn : ℚ)) / 255| ≤ 3 / 2 ^ 43
      ∧ JSNum.strictEq (chan M - chan mn) 0 = decide (M = mn)
      ∧ (mn < M → 1 / 256 ≤ (chan M - chan mn).toRat)
      ∧ (chan M - chan mn).toRat ≤ 2 ∧ 0 ≤ (chan M - chan mn).toRat := by
  have hmn : mn ≤ 255 := le_trans hle hM
  obtain ⟨hf1, he1, hn1, hb1⟩ := chan_bounds M hM
  obtain ⟨hf2, he2, hn2, hb2⟩ := chan_bounds mn hmn
  obtain ⟨hu0, hu1⟩ := ulp_small
  have hord : (chan mn).toRat ≤ (chan M).toRat := by
    rcases Nat.eq_or_lt_of_le hle with heq | hlt
    · rw [heq]
    · exact (chan_lt mn M hmn hM hlt).le
  have hs := JSNum.sub_rounded hf1 hf2 (by
    rw [abs_le]
    constructor <;> linarith)
  have herr := hs.2.1
  have hnn := hs.2.2.1 (by linarith)
  rw [abs_le] at he1 he2 herr
  have hval : |(chan M - chan mn).toRat - ((M : ℚ) - (mn : ℚ)) / 255| ≤ 3 / 2 ^ 43 := by
    rw [abs_le]
    constructor <;> linarith
  have hlow : mn < M → 1 / 256 ≤ (chan M - chan mn).toRat := by
    intro hlt
    have hq : (mn : ℚ) + 1 ≤ (M : ℚ) := by exact_mod_cast hlt
    rw [abs_le] at hval
    have : (1 : ℚ) / 255 ≤ ((M : ℚ) - (mn : ℚ)) / 255 :=
      div_le_div_of_nonneg_right (by linarith) (by norm_num)
    linarith [hval.1]
  have hM1 : (M : ℚ) / 255 ≤ 1 := by
    rw [div_le_one (by norm_num)]
    exact_mod_cast hM
  have hmn0 : (0 : ℚ) ≤ (mn : ℚ) / 255 := by positivity
  refine ⟨hs.isFin, hval, ?_, hlow, by linarith [he1.2, he2.1, herr.2], hnn⟩
  rw [JSNum.zero_lit, JSNum.strictEq_fin _ _ hs.isFin ⟨0, 0, rfl⟩]
  by_cases h : M = mn
  · rw [decide_eq_true h, h, JSNum.sub_self_fin _ hf2]
    simp
  · rw [decide_eq_false h]
    simp only [decide_eq_false_iff_not]
    intro hc
    have hlt : mn < M := lt_of_le_of_ne hle (Ne.symm h)
    have := hlow hlt
    rw [hc] at this
    simp [JSNum.toRat] at this
    linarith

/-- The exact hue, chroma and offset of a colour, by the branch `rgbToHsv` takes: `max = r`
with `g ≥ b` (hue `(g - b) / (max - min) + 0`) and with `g < b` (the same plus `6`);
`max = g` with `min = b` and with `min = r` (hue `(b - r) / (max - min) + 2`); `max = b` with
`min = r` and with `min = g` (hue `(r - g) / (max - min) + 4`); and a gray colour (no chroma,
hue `0`). -/
theorem exact_channels (r g b : ℚ) :
    (0 ≤ b → b ≤ g → g ≤ r → b < r → r ≤ 255 →
        ExactChannels r g b ((g - b) / (r - b) + 0) ((r - b) / 255) (b / 255))
      ∧ (0 ≤ g → g + 1 ≤ b → b ≤ r → r ≤ 255 →
        ExactChannels r g b ((g - b) / (r - g) + 6) ((r - g) / 255) (g / 255))
      ∧ (0 ≤ b → b ≤ r → r < g → g ≤ 255 →
        ExactChannels r g b ((b - r) / (g - b) + 2) ((g - b) / 255) (b / 255))
      ∧ (0 ≤ r → r ≤ b → b ≤ g → r < g → g ≤ 255 →
        ExactChannels r g b ((b - r) / (g - r) + 2) ((g - r) / 255) (r / 255))
      ∧ (0 ≤ r → r ≤ g → g < b → b ≤ 255 →
        ExactChannels r g b ((r - g) / (b - r) + 4) ((b - r) / 255) (r / 255))
      ∧ (0 ≤ g → g ≤ r → r < b → b ≤ 255 →
        ExactChannels r g b ((r - g) / (b - g) + 4) ((b - g) / 255) (g / 255))
      ∧ (0 ≤ r → r ≤ 255 → g = r → b = r →
        ExactChannels r g b 0 0 (r / 255)) := by
  have rho_at : ∀ (u : ℚ) (h0 : 0 ≤ u) (h1 : u ≤ 1),
      (rhoR u = 1 ∧ rhoG u = u ∧ rhoB u = 0)
        ∧ (rhoR (2 - u) = u ∧ rhoG (2 - u) = 1 ∧ rhoB (2 - u) = 0)
        ∧ (rhoR (2 + u) = 0 ∧ rhoG (2 + u) = 1 ∧ rhoB (2 + u) = u)
        ∧ (rhoR (4 - u) = 0 ∧ rhoG (4 - u) = u ∧ rhoB (4 - u) = 1)
        ∧ (rhoR (4 + u) = u ∧ rhoG (4 + u) = 0 ∧ rhoB (4 + u) = 1)
        ∧ (rhoR (6 - u) = 1 ∧ rhoG (6 - u) = 0 ∧ rhoB (6 - u) = u) := by
    intro u h0 h1
    have key : ∀ x : ℚ, (1 ≤ x → clamp01 x = 1) ∧ (x ≤ 0 → clamp01 x = 0) := by
      intro x
      unfold clamp01
      constructor
      · intro h
        rw [min_eq_left h, max_eq_right (by norm_num)]
      · intro h
        rw [min_eq_right (by linarith), max_eq_left h]
    have hu := clamp01_of_mem u h0 h1
    unfold rhoR rhoG rhoB
    refine ⟨⟨?_, ?_, ?_⟩, ⟨?_, ?_, ?_⟩, ⟨?_, ?_, ?_⟩, ⟨?_, ?_, ?_⟩, ⟨?_, ?_, ?_⟩, ⟨?_, ?_, ?_⟩⟩
    · rw [abs_of_nonpos (by linarith)]
      exact (key _).1 (by linarith)
    · rw [abs_of_nonpos (by linarith)]
      have e : 2 - -(u - 2) = u := by ring
      rw [e, hu]
    · rw [abs_of_nonpos (by linarith)]
      exact (key _).2 (by linarith)
    · rw [abs_of_nonpos (by linarith)]
      have e : -(2 - u - 3) - 1 = u := by ring
      rw [e, hu]
    · rw [abs_of_nonpos (by linarith)]
      exact (key _).1 (by linarith)
    · rw [abs_of_nonpos (by linarith)]
      exact (key _).2 (by linarith)
    · rw [abs_of_nonpos (by linarith)]
      exact (key _).2 (by linarith)
    · rw [abs_of_nonneg (by linarith)]
      exact (key _).1 (by linarith)
    · rw [abs_of_nonpos (by linarith)]
      have e : 2 - -(2 + u - 4) = u := by ring
      rw [e, hu]
    · rw [abs_of_nonneg (by linarith)]
      exact (key _).2 (by linarith)
    · rw [abs_of_nonneg (by linarith)]
      have e : 2 - (4 - u - 2) = u := by ring
      rw [e, hu]
    · rw [abs_of_nonpos (by linarith)]
      exact (key _).1 (by linarith)
    · rw [abs_of_nonneg (by linarith)]
      have e : 4 + u - 3 - 1 = u := by ring
      rw [e, hu]
    · rw [abs_of_nonneg (by linarith)]
      exact (key _).2 (by linarith)
    · rw [abs_of_nonneg (by linarith)]
      exact (key _).1 (by linarith)
    · rw [abs_of_nonneg (by linarith)]
      exact (key _).1 (by linarith)
    · rw [abs_of_nonneg (by linarith)]
      exact (key _).2 (by linarith)
    · rw [abs_of_nonneg (by linarith)]
      have e : 2 - (6 - u - 4) = u := by ring
      rw [e, hu]
  -- The fraction `u = (mid - lo) / (hi - lo)` of a colour with `lo ≤ mid ≤ hi`, `lo < hi`.
  have frac_facts : ∀ (hi mid lo : ℚ) (h1 : lo ≤ mid) (h2 : mid ≤ hi) (h3 : lo < hi),
      0 ≤ (mid - lo) / (hi - lo) ∧ (mid - lo) / (hi - lo) ≤ 1
        ∧ lo / 255 + (hi - lo) / 255 * ((mid - lo) / (hi - lo)) = mid / 255
        ∧ lo / 255 + (hi - lo) / 255 * 1 = hi / 255
        ∧ lo / 255 + (hi - lo) / 255 * 0 = lo / 255 := by
    intro hi mid lo h1 h2 h3
    have hpos : 0 < hi - lo := by linarith
    refine ⟨div_nonneg (by linarith) hpos.le, ?_, ?_, by ring, by ring⟩
    · rw [div_le_one hpos]
      linarith
    · field_simp
      ring
  refine ⟨?_, ?_, ?_, ?_, ?_, ?_, ?_⟩
  · intro h0 h1 h2 h3 h255
    obtain ⟨hu0, hu1, e1, e2, e3⟩ := frac_facts r g b h1 h2 h3
    obtain ⟨⟨hR, hG, hB⟩, -⟩ := rho_at _ hu0 hu1
    rw [add_zero]
    refine ⟨hu0, by linarith, div_nonneg (by linarith) (by norm_num),
      div_nonneg h0 (by norm_num), ?_, ?_, ?_, ?_⟩
    · rw [← add_div, div_le_one (by norm_num)]
      linarith
    · rw [hR]; exact e2
    · rw [hG]; exact e1
    · rw [hB]; exact e3
  · intro h0 h1 h2 h255
    obtain ⟨hu0, hu1, e1, e2, e3⟩ := frac_facts r b g (by linarith) h2 (by linarith)
    obtain ⟨-, -, -, -, -, hR, hG, hB⟩ := rho_at _ hu0 hu1
    have hpos : 0 < r - g := by linarith
    have et : (g - b) / (r - g) + 6 = 6 - (b - g) / (r - g) := by
      field_simp
      ring
    have hlow : 1 / 255 ≤ (b - g) / (r - g) := by
      rw [div_le_div_iff (by norm_num) hpos]
      linarith
    rw [et]
    refine ⟨by linarith, by linarith, div_nonneg (by linarith) (by norm_num),
      div_nonneg h0 (by norm_num), ?_, ?_, ?_, ?_⟩
    · rw [← add_div, div_le_one (by norm_num)]
      linarith
    · rw [hR]; exact e2
    · rw [hG]; exact e3
    · rw [hB]; exact e1
  · intro h0 h1 h2 h255
    obtain ⟨hu0, hu1, e1, e2, e3⟩ := frac_facts g r b h1 h2.le (by linarith)
    obtain ⟨-, ⟨hR, hG, hB⟩, -⟩ := rho_at _ hu0 hu1
    have hpos : 0 < g - b := by linarith
    have et : (b - r) / (g - b) + 2 = 2 - (r - b) / (g - b) := by
      field_simp
      ring
    rw [et]
    refine ⟨by linarith, by linarith, div_nonneg (by linarith) (by norm_num),
      div_nonneg h0 (by norm_num), ?_, ?_, ?_, ?_⟩
    · rw [← add_div, div_le_one (by norm_num)]
      linarith
    · rw [hR]; exact e1
    · rw [hG]; exact e2
    · rw [hB]; exact e3
  · intro h0 h1 h2 h3 h255
    obtain ⟨hu0, hu1, e1, e2, e3⟩ := frac_facts g b r h1 h2 h3
    obtain ⟨-, -, ⟨hR, hG, hB⟩, -⟩ := rho_at _ hu0 hu1
    have et : (b - r) / (g - r) + 2 = 2 + (b - r) / (g - r) := by ring
    rw [et]
    refine ⟨by linarith, by linarith, div_nonneg (by linarith) (by norm_num),
      div_nonneg h0 (by norm_num), ?_, ?_, ?_, ?_⟩
    · rw [← add_div, div_le_one (by norm_num)]
      linarith
    · rw [hR]; exact e3
    · rw [hG]; exact e2
    · rw [hB]; exact e1
  · intro h0 h1 h2 h255
    obtain ⟨hu0, hu1, e1, e2, e3⟩ := frac_facts b g r h1 h2.le (by linarith)
    obtain ⟨-, -, -, ⟨hR, hG, hB⟩, -⟩ := rho_at _ hu0 hu1
    have hpos : 0 < b - r := by linarith
    have et : (r - g) / (b - r) + 4 = 4 - (g - r) / (b - r) := by
      field_simp
      ring
    rw [et]
    refine ⟨by linarith, by linarith, div_nonneg (by linarith) (by norm_num),
      div_nonneg h0 (by norm_num), ?_, ?_, ?_, ?_⟩
    · rw [← add_div, div_le_one (by norm_num)]
      linarith
    · rw [hR]; exact e3
    · rw [hG]; exact e1
    · rw [hB]; exact e2
  · intro h0 h1 h2 h255
    obtain ⟨hu0, hu1, e1, e2, e3⟩ := frac_facts b r g h1 h2.le (by linarith)
    obtain ⟨-, -, -, -, ⟨hR, hG, hB⟩, -⟩ := rho_at _ hu0 hu1
    have et : (r - g) / (b - g) + 4 = 4 + (r - g) / (b - g) := by ring
    rw [et]
    refine ⟨by linarith, by linarith, div_nonneg (by linarith) (by norm_num),
      div_nonneg h0 (by norm_num), ?_, ?_, ?_, ?_⟩
    · rw [← add_div, div_le_one (by norm_num)]
      linarith
    · rw [hR]; exact e1
    · rw [hG]; exact e3
    · rw [hB]; exact e2
  · intro h0 h255 hgr hbr
    subst hgr
    subst hbr
    refine ⟨le_refl _, by norm_num, le_refl _, div_nonneg h0 (by norm_num), ?_, by ring, by ring,
      by ring⟩
    rw [add_zero, div_le_one (by norm_num)]
    exact h255

theorem piExact_bounds : (314 : ℚ) / 100 < piExact ∧ piExact < 315 / 100 := by
  unfold piExact
  constructor <;> norm_num

/-- The literals `1`, `2`, `6`, `255` and the constant `Math.PI` are finite numbers with
these values. -/
theorem JSNum.literals :
    ((1 : JSNum).IsFin ∧ (1 : JSNum).toRat = 1) ∧ ((2 : JSNum).IsFin ∧ (2 : JSNum).toRat = 2)
      ∧ ((6 : JSNum).IsFin ∧ (6 : JSNum).toRat = 6)
      ∧ ((255 : JSNum).IsFin ∧ (255 : JSNum).toRat = 255)
      ∧ ((Math.PI : JSNum).IsFin ∧ (Math.PI : JSNum).toRat = piExact) := by
  have l1 := JSNum.natLit_rat 1 (by norm_num)
  have l2 := JSNum.natLit_rat 2 (by norm_num)
  have l6 := JSNum.natLit_rat 6 (by norm_num)
  have l255 := JSNum.natLit_rat 255 (by norm_num)
  have hpi : JSNum.pi.toRat = piExact := by
    unfold JSNum.pi piExact
    simp only [JSNum.toRat]
    rw [zpow_neg]
    norm_num
  exact ⟨⟨l1.1, by rw [l1.2]; norm_num⟩, ⟨l2.1, by rw [l2.2]; norm_num⟩,
    ⟨l6.1, by rw [l6.2]; norm_num⟩, ⟨l255.1, by rw [l255.2]; norm_num⟩, ⟨⟨_, _, rfl⟩, hpi⟩⟩

/-- The quotient `(x - y) / diff` of a branch of `rgbToHsv`, from approximations of its
numerator and its denominator. -/
theorem quotient_step (N D : JSNum) (n d : ℚ) (hN : N.IsFin) (hD : D.IsFin)
    (heN : |N.toRat - n| ≤ 3 / 2 ^ 43) (heD : |D.toRat - d| ≤ 3 / 2 ^ 43)
    (hd : 1 / 255 ≤ d) (hd1 : d ≤ 1) (hn : |n| ≤ d) :
    (N / D).IsFin ∧ |(N / D).toRat - n / d| ≤ 1537 / 2 ^ 43
      ∧ (0 ≤ N.toRat → 0 ≤ (N / D).toRat) := by
  obtain ⟨hu0, hu1⟩ := ulp_small
  have hDlo : 1 / 256 ≤ D.toRat := by
    rw [abs_le] at heD
    linarith
  have hNb : |N.toRat| ≤ 2 := by
    rw [abs_le] at heN hn ⊢
    constructor <;> linarith
  have hqb : |N.toRat / D.toRat| ≤ 1024 := by
    rw [abs_div, abs_of_pos (by linarith : (0 : ℚ) < D.toRat), div_le_iff₀ (by linarith)]
    linarith
  have hq := JSNum.div_rounded hN hD (by linarith) hqb
  have heq0 := div_err N.toRat D.toRat n d _ _ (1 / 256) 1 heN heD (by norm_num) hDlo
    (by linarith) (by rw [one_mul]; exact hn)
  refine ⟨hq.isFin, ?_, fun h0 => hq.2.2.1 (div_nonneg h0 (by linarith))⟩
  have h1 := hq.2.1
  rw [abs_le] at h1 heq0 ⊢
  norm_num at heq0
  constructor <;> linarith

/-- The rest of a branch of `rgbToHsv`: `(q + K) / 6 * 2 * Math.PI`. -/
theorem hue_tail (q K : JSNum) (qE : ℚ) (k : Nat) (hq : q.IsFin) (hK : K.IsFin)
    (hKv : K.toRat = (k : ℚ)) (hk6 : k ≤ 6) (heq : |q.toRat - qE| ≤ 1537 / 2 ^ 43)
    (hqE : |qE| ≤ 1) (hsum : 0 ≤ q.toRat + K.toRat) :
    ((q + K) / 6 * 2 * Math.PI).IsFin ∧ 0 ≤ ((q + K) / 6 * 2 * Math.PI).toRat
      ∧ |((q + K) / 6 * 2 * Math.PI).toRat - (qE + (k : ℚ)) / 6 * 2 * piExact|
        ≤ 2000 / 2 ^ 43 := by
  obtain ⟨hu0, hu1⟩ := ulp_small
  have hkq : (k : ℚ) ≤ 6 := by exact_mod_cast hk6
  have hkq0 : (0 : ℚ) ≤ (k : ℚ) := by positivity
  rw [abs_le] at heq hqE
  -- the sum with the sector offset
  have hs := JSNum.add_rounded hq hK (by
    rw [hKv, abs_le]
    constructor <;> linarith)
  have hs0 := hs.2.2.1 hsum
  have hes := hs.2.1
  rw [hKv, abs_le] at hes
  generalize q + K = s1 at hs hs0 hes ⊢
  -- the division by six
  have hh := JSNum.div_rounded hs.isFin JSNum.literals.2.2.1.1
    (by rw [JSNum.literals.2.2.1.2]; norm_num) (by
    rw [JSNum.literals.2.2.1.2, abs_div, abs_of_pos (by norm_num : (0 : ℚ) < 6),
      div_le_iff₀ (by norm_num), abs_le]
    constructor <;> linarith)
  rw [JSNum.literals.2.2.1.2] at hh
  have hh0 := hh.2.2.1 (div_nonneg hs0 (by norm_num))
  have heh := hh.2.1
  rw [abs_le] at heh
  generalize s1 / 6 = hf at hh hh0 heh ⊢
  -- the product with two
  have hm := JSNum.mul_rounded hh.isFin JSNum.literals.2.1.1 (by
    rw [JSNum.literals.2.1.2, abs_le]
    constructor <;> linarith)
  rw [JSNum.literals.2.1.2] at hm
  have hm0 := hm.2.2.1 (by linarith)
  have hem := hm.2.1
  rw [abs_le] at hem
  generalize hf * 2 = h2 at hm hm0 hem ⊢
  have hem2 : |h2.toRat - (qE + (k : ℚ)) / 6 * 2| ≤ 517 / 2 ^ 43 := by
    rw [abs_le]
    constructor <;> linarith
  -- the product with π
  obtain ⟨hp3, hp4⟩ := piExact_bounds
  have hmb : |h2.toRat| ≤ 3 := by
    rw [abs_le]
    constructor <;> linarith
  have hH := JSNum.mul_rounded hm.isFin JSNum.literals.2.2.2.2.1 (by
    rw [JSNum.literals.2.2.2.2.2, abs_mul, abs_of_pos (by linarith : (0 : ℚ) < piExact)]
    nlinarith [abs_nonneg h2.toRat])
  rw [JSNum.literals.2.2.2.2.2] at hH
  have heH0 := mul_err h2.toRat piExact ((qE + (k : ℚ)) / 6 * 2) piExact (517 / 2 ^ 43) 0 3
    (315 / 100) hem2 (by simp)
    (by rw [abs_le]; constructor <;> linarith)
    (by rw [abs_of_pos (by linarith : (0 : ℚ) < piExact)]; linarith)
  refine ⟨hH.isFin, hH.2.2.1 (mul_nonneg hm0 (by linarith)), ?_⟩
  have h1 := hH.2.1
  generalize h2 * Math.PI = H at h1 ⊢
  rw [abs_le] at h1 heH0 ⊢
  norm_num at heH0
  constructor <;> linarith

/-- The hue `((x - y) / diff + K) / 6 * 2 * Math.PI` of one branch of `rgbToHsv`. -/
theorem hue_branch (x y M mn k : Nat) (K : JSNum) (hx : x ≤ 255) (hy : y ≤ 255)
    (hM : M ≤ 255) (hlt : mn < M) (hxy : |(x : ℚ) - (y : ℚ)| ≤ (M : ℚ) - (mn : ℚ))
    (hK : K.IsFin) (hKv : K.toRat = (k : ℚ)) (hk6 : k ≤ 6)
    (hk : (k = 0 ∧ y ≤ x) ∨ 2 ≤ k) :
    (((chan x - chan y) / (chan M - chan mn) + K) / 6 * 2 * Math.PI).IsFin
      ∧ 0 ≤ (((chan x - chan y) / (chan M - chan mn) + K) / 6 * 2 * Math.PI).toRat
      ∧ |(((chan x - chan y) / (chan M - chan mn) + K) / 6 * 2 * Math.PI).toRat
          - (((x : ℚ) - (y : ℚ)) / ((M : ℚ) - (mn : ℚ)) + (k : ℚ)) / 6 * 2 * piExact|
        ≤ 2000 / 2 ^ 43 := by
  obtain ⟨hu0, hu1⟩ := ulp_small
  obtain ⟨hfx, hex, hnx, hbx⟩ := chan_bounds x hx
  obtain ⟨hfy, hey, hny, hby⟩ := chan_bounds y hy
  obtain ⟨hfD, heD, -, -, -, -⟩ := chan_diff M mn hM hlt.le
  have hMq : (mn : ℚ) + 1 ≤ (M : ℚ) := by exact_mod_cast hlt
  have hMq2 : (M : ℚ) ≤ 255 := by exact_mod_cast hM
  have hmn0 : (0 : ℚ) ≤ (mn : ℚ) := by positivity
  have hd : (1 : ℚ) / 255 ≤ ((M : ℚ) - (mn : ℚ)) / 255 :=
    div_le_div_of_nonneg_right (by linarith) (by norm_num)
  have hdpos : (0 : ℚ) < (M : ℚ) - (mn : ℚ) := by linarith
  have hd1 : ((M : ℚ) - (mn : ℚ)) / 255 ≤ 1 := by
    rw [div_le_one (by norm_num)]
    linarith
  have hn0 : |((x : ℚ) - (y : ℚ)) / 255| ≤ ((M : ℚ) - (mn : ℚ)) / 255 := by
    rw [abs_div, abs_of_pos (by norm_num : (0 : ℚ) < 255)]
    exact div_le_div_of_nonneg_right hxy (by norm_num)
  have hn1 : |((x : ℚ) - (y : ℚ)) / 255| ≤ 1 := le_trans hn0 hd1
  have hord : y ≤ x → (chan y).toRat ≤ (chan x).toRat := by
    intro hc
    rcases Nat.eq_or_lt_of_le hc with heq | hl
    · rw [heq]
    · exact (chan_lt y x hy hx hl).le
  have hN := JSNum.sub_rounded hfx hfy (by
    rw [abs_le]
    constructor <;> linarith)
  have hN0 : y ≤ x → 0 ≤ (chan x - chan y).toRat := by
    intro hc
    have := hord hc
    exact hN.2.2.1 (by linarith)
  have heN : |(chan x - chan y).toRat - ((x : ℚ) - (y : ℚ)) / 255| ≤ 3 / 2 ^ 43 := by
    have h1 := hN.2.1
    rw [abs_le] at h1 hex hey ⊢
    constructor <;> linarith
  have hNf := hN.isFin
  generalize chan x - chan y = N at hN0 heN hNf ⊢
  generalize chan M - chan mn = D at hfD heD ⊢
  obtain ⟨hqf, heq, hq0⟩ := quotient_step N D _ _ hNf hfD heN heD hd hd1 hn0
  have hqE : ((x : ℚ) - (y : ℚ)) / 255 / (((M : ℚ) - (mn : ℚ)) / 255)
      = ((x : ℚ) - (y : ℚ)) / ((M : ℚ) - (mn : ℚ)) := by
    field_simp
  rw [hqE] at heq
  have hqE1 : |((x : ℚ) - (y : ℚ)) / ((M : ℚ) - (mn : ℚ))| ≤ 1 := by
    rw [abs_div, abs_of_pos hdpos, div_le_one hdpos]
    exact hxy
  generalize N / D = q at hqf heq hq0 ⊢
  refine hue_tail q K _ k hqf hK hKv hk6 heq hqE1 ?_
  rw [hKv]
  rcases hk with hc | hc
  · have h1 := hq0 (hN0 hc.2)
    have h2 : (0 : ℚ) ≤ (k : ℚ) := by positivity
    linarith
  · have h2 : (2 : ℚ) ≤ (k : ℚ) := by exact_mod_cast hc
    rw [abs_le] at heq hqE1
    linarith

/-- The saturation `diff / max` of `rgbToHsv` and the chroma `v * s` that `hsvToRgb` forms
of it. -/
theorem saturation_near (M mn : Nat) (hM : M ≤ 255) (hle : mn ≤ M) (hpos : 0 < M) :
    ((chan M - chan mn) / chan M).IsFin ∧ |((chan M - chan mn) / chan M).toRat| ≤ 2
      ∧ |(chan M).toRat * ((chan M - chan mn) / chan M).toRat - ((M : ℚ) - (mn : ℚ)) / 255|
        ≤ 1100 / 2 ^ 43 := by
  obtain ⟨hu0, hu1⟩ := ulp_small
  obtain ⟨hfV, heV, hnV, hbV⟩ := chan_bounds M hM
  obtain ⟨hfD, heD, -, -, hDhi, hD0⟩ := chan_diff M mn hM hle
  have hMq : (1 : ℚ) ≤ (M : ℚ) := by exact_mod_cast hpos
  have hMq2 : (M : ℚ) ≤ 255 := by exact_mod_cast hM
  have hmnq : (mn : ℚ) ≤ (M : ℚ) := by exact_mod_cast hle
  have hmn0 : (0 : ℚ) ≤ (mn : ℚ) := by positivity
  have hV : (1 : ℚ) / 255 ≤ (M : ℚ) / 255 := div_le_div_of_nonneg_right hMq (by norm_num)
  have hV1 : (M : ℚ) / 255 ≤ 1 := by
    rw [div_le_one (by norm_num)]
    exact hMq2
  have hd0 : (0 : ℚ) ≤ ((M : ℚ) - (mn : ℚ)) / 255 := div_nonneg (by linarith) (by norm_num)
  have hdV : ((M : ℚ) - (mn : ℚ)) / 255 ≤ (M : ℚ) / 255 :=
    div_le_div_of_nonneg_right (by linarith) (by norm_num)
  generalize chan M - chan mn = D at hfD heD hDhi hD0 ⊢
  generalize chan M = V at hfV heV hnV hbV ⊢
  have hVlo : (1 : ℚ) / 256 ≤ V.toRat := by
    rw [abs_le] at heV
    linarith
  have hsb : |D.toRat / V.toRat| ≤ 1024 := by
    rw [abs_div, abs_of_pos (by linarith : (0 : ℚ) < V.toRat), abs_of_nonneg hD0,
      div_le_iff₀ (by linarith)]
    linarith
  have hs := JSNum.div_rounded hfD hfV (by linarith) hsb
  have hes0 := div_err D.toRat V.toRat _ _ _ _ (1 / 256) 1 heD heV (by norm_num) hVlo
    (by linarith : (0 : ℚ) < (M : ℚ) / 255)
    (by rw [abs_of_nonneg hd0, one_mul]; exact hdV)
  have hprod : (M : ℚ) / 255 * (((M : ℚ) - (mn : ℚ)) / 255 / ((M : ℚ) / 255))
      = ((M : ℚ) - (mn : ℚ)) / 255 := by
    field_simp
    ring
  have hsE0 : 0 ≤ ((M : ℚ) - (mn : ℚ)) / 255 / ((M : ℚ) / 255)
      ∧ ((M : ℚ) - (mn : ℚ)) / 255 / ((M : ℚ) / 255) ≤ 1 := by
    constructor
    · exact div_nonneg hd0 (by linarith)
    · rw [div_le_one (by linarith)]
      exact hdV
  generalize ((M : ℚ) - (mn : ℚ)) / 255 / ((M : ℚ) / 255) = sE at hes0 hprod hsE0
  have hes1 := hs.2.1
  have hsf := hs.isFin
  generalize D / V = S at hes1 hsf ⊢
  have hes : |S.toRat - sE| ≤ 1025 / 2 ^ 43 := by
    rw [abs_le] at hes1 hes0 ⊢
    norm_num at hes0
    constructor <;> linarith
  have hsb2 : |S.toRat| ≤ 2 := by
    rw [abs_le] at hes ⊢
    constructor <;> linarith
  refine ⟨hsf, hsb2, ?_⟩
  have hm := mul_err V.toRat S.toRat ((M : ℚ) / 255) sE
    (1 / 2 ^ 43) (1025 / 2 ^ 43) 1 2 heV hes
    (by rw [abs_of_nonneg (by linarith)]; exact hV1) hsb2
  rw [hprod] at hm
  refine le_trans hm ?_
  norm_num

theorem chan_def (n : Nat) : JSNum.ofInt (n : Int) / 255 = chan n := rfl

/-- The result of `rgbToHsv` on three samples, with the comparisons it makes on numbers
replaced by the same comparisons on the samples. -/
theorem rgbToHsv_chan (r g b : Nat) (hr : r ≤ 255) (hg : g ≤ 255) (hb : b ≤ 255) :
    rgbToHsv (JSNum.ofInt (r : Int), JSNum.ofInt (g : Int), JSNum.ofInt (b : Int))
      = ((if Max.max (Max.max r g) b = Min.min (Min.min r g) b then (0 : JSNum)
          else if Max.max (Max.max r g) b = r then
            ((chan g - chan b) / (chan (Max.max (Max.max r g) b)
              - chan (Min.min (Min.min r g) b)) + (if g < b then 6 else 0)) / 6
          else if Max.max (Max.max r g) b = g then
            ((chan b - chan r) / (chan (Max.max (Max.max r g) b)
              - chan (Min.min (Min.min r g) b)) + 2) / 6
          else
            ((chan r - chan g) / (chan (Max.max (Max.max r g) b)
              - chan (Min.min (Min.min r g) b)) + 4) / 6) * 2 * Math.PI,
         if Max.max (Max.max r g) b = 0 then (0 : JSNum)
         else (chan (Max.max (Max.max r g) b) - chan (Min.min (Min.min r g) b))
            / chan (Max.max (Max.max r g) b),
         chan (Max.max (Max.max r g) b)) := by
  have chan_strictEq_zero : ∀ (a : Nat) (ha : a ≤ 255),
      JSNum.strictEq (chan a) 0 = decide (a = 0) := by
    intro a ha
    have h := chan_strictEq a 0 ha (by omega)
    rw [chan_zero] at h
    exact h
  have hM : Max.max (Max.max r g) b ≤ 255 := max_le (max_le hr hg) hb
  have hmn : Min.min (Min.min r g) b ≤ Max.max (Max.max r g) b :=
    le_trans (min_le_right _ _) (le_max_right _ _)
  unfold rgbToHsv
  dsimp only
  rw [chan_def, chan_def, chan_def, (chan_max_min3 r g b hr hg hb).1,
    (chan_max_min3 r g b hr hg hb).2,
    chan_strictEq_zero _ hM, (chan_diff _ _ hM hmn).2.2.1, chan_strictEq _ r hM hr,
    chan_strictEq _ g hM hg, chan_strictEq _ b hM hb, chan_lt_iff g b hg hb]
  generalize hMdef : Max.max (Max.max r g) b = M
  generalize hmndef : Min.min (Min.min r g) b = mn
  have hMcases : M = r ∨ M = g ∨ M = b := by
    rw [← hMdef]
    rcases max_choice (Max.max r g) b with h | h
    · rcases max_choice r g with h2 | h2
      · left; rw [h, h2]
      · right; left; rw [h, h2]
    · right; right; exact h
  by_cases h1 : M = mn
  · simp [h1]
  · by_cases h2 : M = r
    · by_cases h3 : g < b <;> simp [h1, h2, h3]
    · by_cases h3 : M = g
      · simp [h1, h2, h3]
      · have h4 : M = b := by
          rcases hMcases with h | h | h
          · exact absurd h h2
          · exact absurd h h3
          · exact h
        simp [h1, h2, h3, h4]

theorem zero_hue : (0 : JSNum) * 2 * Math.PI = JSNum.fin 0 0 := by decide!

/-- The result of `rgbToHsv` on a gray colour: hue `0`, no chroma. -/
theorem hsvNear_gray (M : Nat) (hM : M ≤ 255) :
    HsvNear ((0 : JSNum) * 2 * Math.PI,
        if M = 0 then (0 : JSNum) else (chan M - chan M) / chan M, chan M)
      0 0 ((M : ℚ) / 255) := by
  obtain ⟨hu0, hu1⟩ := ulp_small
  obtain ⟨h7, h8, h9, h10⟩ := chan_bounds M hM
  have hz : (JSNum.fin 0 0).toRat = 0 := by simp [JSNum.toRat]
  have hsat : (if M = 0 then (0 : JSNum) else (chan M - chan M) / chan M).IsFin
      ∧ |(if M = 0 then (0 : JSNum) else (chan M - chan M) / chan M).toRat| ≤ 1 / 2 ^ 43 := by
    by_cases h0 : M = 0
    · rw [if_pos h0, JSNum.zero_lit, hz]
      exact ⟨⟨0, 0, rfl⟩, by norm_num⟩
    · rw [if_neg h0, JSNum.sub_self_fin _ h7]
      have hMq : (1 : ℚ) ≤ (M : ℚ) := by exact_mod_cast Nat.pos_of_ne_zero h0
      have hV : (1 : ℚ) / 255 ≤ (M : ℚ) / 255 := div_le_div_of_nonneg_right hMq (by norm_num)
      have hVpos : (0 : ℚ) < (chan M).toRat := by
        rw [abs_le] at h8
        linarith
      have h := JSNum.div_rounded ⟨0, 0, rfl⟩ h7 (by linarith) (by
        rw [hz, zero_div, abs_zero]
        norm_num)
      rw [hz, zero_div] at h
      refine ⟨h.isFin, ?_⟩
      have := h.2.1
      rw [sub_zero] at this
      exact this
  generalize (if M = 0 then (0 : JSNum) else (chan M - chan M) / chan M) = S at hsat
  refine ⟨?_, ?_, ?_, hsat.1, le_trans hsat.2 (by norm_num), h7, ?_, ?_⟩
  · rw [zero_hue]
    exact ⟨0, 0, rfl⟩
  · show 0 ≤ ((0 : JSNum) * 2 * Math.PI).toRat
    rw [zero_hue, hz]
  · show |((0 : JSNum) * 2 * Math.PI).toRat - 0 / 6 * 2 * piExact| ≤ 2000 / 2 ^ 43
    rw [zero_hue, hz]
    norm_num
  · show |(chan M).toRat * S.toRat - 0| ≤ 1100 / 2 ^ 43
    rw [sub_zero, abs_mul, abs_of_nonneg h9]
    have := mul_le_mul h10 hsat.2 (abs_nonneg _) (by norm_num : (0 : ℚ) ≤ 2)
    refine le_trans this ?_
    norm_num
  · show |(chan M).toRat - ((M : ℚ) / 255 + 0)| ≤ 1 / 2 ^ 43
    rw [add_zero]
    exact h8

/-- The binary64 `rgbToHsv` on three 8-bit samples is near the exact hue, chroma and offset
of the colour. -/
theorem rgbToHsv_near (r g b : Nat) (hr : r ≤ 255) (hg : g ≤ 255) (hb : b ≤ 255) :
    ∃ t c m : ℚ,
      HsvNear (rgbToHsv (JSNum.ofInt (r : Int), JSNum.ofInt (g : Int), JSNum.ofInt (b : Int)))
          t c m
        ∧ ExactChannels (r : ℚ) (g : ℚ) (b : ℚ) t c m := by
  -- The result of a chromatic branch of `rgbToHsv` is near the exact hue, chroma and
  -- offset.
  have hsvNear_branch : ∀ (x y M mn k : Nat) (K : JSNum) (hx : x ≤ 255) (hy : y ≤ 255)
      (hM : M ≤ 255) (hlt : mn < M) (hxy : |(x : ℚ) - (y : ℚ)| ≤ (M : ℚ) - (mn : ℚ))
      (hK : K.IsFin) (hKv : K.toRat = (k : ℚ)) (hk6 : k ≤ 6) (hk : (k = 0 ∧ y ≤ x) ∨ 2 ≤ k),
      HsvNear (((chan x - chan y) / (chan M - chan mn) + K) / 6 * 2 * Math.PI,
          (chan M - chan mn) / chan M, chan M)
        (((x : ℚ) - (y : ℚ)) / ((M : ℚ) - (mn : ℚ)) + (k : ℚ))
        (((M : ℚ) - (mn : ℚ)) / 255) ((mn : ℚ) / 255) := by
    intro x y M mn k K hx hy hM hlt hxy hK hKv hk6 hk
    obtain ⟨h1, h2, h3⟩ := hue_branch x y M mn k K hx hy hM hlt hxy hK hKv hk6 hk
    obtain ⟨h4, h5, h6⟩ := saturation_near M mn hM hlt.le (by omega)
    obtain ⟨h7, h8, -, -⟩ := chan_bounds M hM
    refine ⟨h1, h2, h3, h4, h5, h7, h6, ?_⟩
    have e : (mn : ℚ) / 255 + ((M : ℚ) - (mn : ℚ)) / 255 = (M : ℚ) / 255 := by ring
    rw [e]
    exact h8
  have cast_abs_sub_le : ∀ (x y M mn : Nat) (hx1 : mn ≤ x) (hx2 : x ≤ M) (hy1 : mn ≤ y)
      (hy2 : y ≤ M),
      |(x : ℚ) - (y : ℚ)| ≤ (M : ℚ) - (mn : ℚ) := by
    intro x y M mn hx1 hx2 hy1 hy2
    have a1 : (mn : ℚ) ≤ (x : ℚ) := by exact_mod_cast hx1
    have a2 : (x : ℚ) ≤ (M : ℚ) := by exact_mod_cast hx2
    have a3 : (mn : ℚ) ≤ (y : ℚ) := by exact_mod_cast hy1
    have a4 : (y : ℚ) ≤ (M : ℚ) := by exact_mod_cast hy2
    rw [abs_le]
    constructor <;> linarith
  have hrq : (r : ℚ) ≤ 255 := by exact_mod_cast hr
  have hgq : (g : ℚ) ≤ 255 := by exact_mod_cast hg
  have hbq : (b : ℚ) ≤ 255 := by exact_mod_cast hb
  have hr0 : (0 : ℚ) ≤ (r : ℚ) := by positivity
  have hg0 : (0 : ℚ) ≤ (g : ℚ) := by positivity
  have hb0 : (0 : ℚ) ≤ (b : ℚ) := by positivity
  have l0 := JSNum.natLit_rat 0 (by norm_num)
  have l2 := JSNum.natLit_rat 2 (by norm_num)
  have l4 := JSNum.natLit_rat 4 (by norm_num)
  have l6 := JSNum.natLit_rat 6 (by norm_num)
  rw [rgbToHsv_chan r g b hr hg hb]
  by_cases hgray : r = g ∧ g = b
  · obtain ⟨h1, h2⟩ := hgray
    subst h1
    subst h2
    have hM : Max.max (Max.max r r) r = r := by simp
    have hmn : Min.min (Min.min r r) r = r := by simp
    rw [hM, hmn, if_pos rfl]
    exact ⟨0, 0, (r : ℚ) / 255, hsvNear_gray r hr,
      (exact_channels (r : ℚ) (r : ℚ) (r : ℚ)).2.2.2.2.2.2 hr0 hrq rfl rfl⟩
  · by_cases hmr : g ≤ r ∧ b ≤ r
    · have hM : Max.max (Max.max r g) b = r := by
        rw [max_eq_left hmr.1, max_eq_left hmr.2]
      by_cases hgb : g < b
      · have hmn : Min.min (Min.min r g) b = g := by
          rw [min_eq_right hmr.1, min_eq_left hgb.le]
        rw [hM, hmn, if_neg (by omega), if_pos rfl, if_pos hgb, if_neg (by omega)]
        refine ⟨_, _, _, hsvNear_branch g b r g 6 6 hg hb hr (by omega)
          (cast_abs_sub_le g b r g (le_refl _) hmr.1 hgb.le hmr.2) l6.1 l6.2 (le_refl _)
          (Or.inr (by norm_num)), ?_⟩
        have a1 : (g : ℚ) + 1 ≤ (b : ℚ) := by exact_mod_cast hgb
        have a2 : (b : ℚ) ≤ (r : ℚ) := by exact_mod_cast hmr.2
        have := (exact_channels (r : ℚ) (g : ℚ) (b : ℚ)).2.1 hg0 a1 a2 hrq
        exact_mod_cast this
      · have hbg : b ≤ g := not_lt.mp hgb
        have hmn : Min.min (Min.min r g) b = b := by
          rw [min_eq_right hmr.1, min_eq_right hbg]
        have hbr : b < r := by omega
        rw [hM, hmn, if_neg (by omega), if_pos rfl, if_neg hgb, if_neg (show ¬ r = 0 by omega)]
        refine ⟨_, _, _, hsvNear_branch g b r b 0 0 hg hb hr hbr
          (cast_abs_sub_le g b r b hbg hmr.1 (le_refl _) hmr.2) l0.1 l0.2 (by norm_num)
          (Or.inl ⟨rfl, hbg⟩), ?_⟩
        have a1 : (b : ℚ) ≤ (g : ℚ) := by exact_mod_cast hbg
        have a2 : (g : ℚ) ≤ (r : ℚ) := by exact_mod_cast hmr.1
        have a3 : (b : ℚ) < (r : ℚ) := by exact_mod_cast hbr
        have := (exact_channels (r : ℚ) (g : ℚ) (b : ℚ)).1 hb0 a1 a2 a3 hrq
        exact_mod_cast this
    · by_cases hmg : r ≤ g ∧ b ≤ g
      · have hrg : r < g := by omega
        have hM : Max.max (Max.max r g) b = g := by
          rw [max_eq_right hmg.1, max_eq_left hmg.2]
        by_cases hbr : b ≤ r
        · have hmn : Min.min (Min.min r g) b = b := by
            rw [min_eq_left hmg.1, min_eq_right hbr]
          rw [hM, hmn, if_neg (by omega), if_neg (by omega), if_pos rfl, if_neg (by omega)]
          refine ⟨_, _, _, hsvNear_branch b r g b 2 2 hb hr hg (by omega)
            (cast_abs_sub_le b r g b (le_refl _) hmg.2 hbr hmg.1) l2.1 l2.2 (by norm_num)
            (Or.inr (le_refl _)), ?_⟩
          have a1 : (b : ℚ) ≤ (r : ℚ) := by exact_mod_cast hbr
          have a2 : (r : ℚ) < (g : ℚ) := by exact_mod_cast hrg
          have := (exact_channels (r : ℚ) (g : ℚ) (b : ℚ)).2.2.1 hb0 a1 a2 hgq
          exact_mod_cast this
        · have hrb : r < b := not_le.mp hbr
          have hmn : Min.min (Min.min r g) b = r := by
            rw [min_eq_left hmg.1, min_eq_left hrb.le]
          rw [hM, hmn, if_neg (by omega), if_neg (by omega), if_pos rfl, if_neg (by omega)]
          refine ⟨_, _, _, hsvNear_branch b r g r 2 2 hb hr hg hrg
            (cast_abs_sub_le b r g r hrb.le hmg.2 (le_refl _) hmg.1) l2.1 l2.2 (by norm_num)
            (Or.inr (le_refl _)), ?_⟩
          have a1 : (r : ℚ) ≤ (b : ℚ) := by exact_mod_cast hrb.le
          have a2 : (b : ℚ) ≤ (g : ℚ) := by exact_mod_cast hmg.2
          have a3 : (r : ℚ) < (g : ℚ) := by exact_mod_cast hrg
          have := (exact_channels (r : ℚ) (g : ℚ) (b : ℚ)).2.2.2.1 hr0 a1 a2 a3 hgq
          exact_mod_cast this
      · have hrb : r < b := by omega
        have hgb : g < b := by omega
        have hM : Max.max (Max.max r g) b = b := by
          rw [max_eq_right (by
            rcases max_choice r g with h | h <;> rw [h] <;> omega)]
        by_cases hrg : r ≤ g
        · have hmn : Min.min (Min.min r g) b = r := by
            rw [min_eq_left hrg, min_eq_left hrb.le]
          rw [hM, hmn, if_neg (by omega), if_neg (by omega), if_neg (by omega),
            if_neg (by omega)]
          refine ⟨_, _, _, hsvNear_branch r g b r 4 4 hr hg hb hrb
            (cast_abs_sub_le r g b r (le_refl _) hrb.le hrg hgb.le) l4.1 l4.2 (by norm_num)
            (Or.inr (by norm_num)), ?_⟩
          have a1 : (r : ℚ) ≤ (g : ℚ) := by exact_mod_cast hrg
          have a2 : (g : ℚ) < (b : ℚ) := by exact_mod_cast hgb
          have := (exact_channels (r : ℚ) (g : ℚ) (b : ℚ)).2.2.2.2.1 hr0 a1 a2 hbq
          exact_mod_cast this
        · have hgr : g < r := not_le.mp hrg
          have hmn : Min.min (Min.min r g) b = g := by
            rw [min_eq_right hgr.le, min_eq_left hgb.le]
          rw [hM, hmn, if_neg (by omega), if_neg (by omega), if_neg (by omega),
            if_neg (by omega)]
          refine ⟨_, _, _, hsvNear_branch r g b g 4 4 hr hg hb hgb
            (cast_abs_sub_le r g b g hgr.le hrb.le (le_refl _) hgb.le) l4.1 l4.2 (by norm_num)
            (Or.inr (by norm_num)), ?_⟩
          have a1 : (g : ℚ) ≤ (r : ℚ) := by exact_mod_cast hgr.le
          have a2 : (r : ℚ) < (b : ℚ) := by exact_mod_cast hrb
          have := (exact_channels (r : ℚ) (g : ℚ) (b : ℚ)).2.2.2.2.2.1 hg0 a1 a2 hbq
          exact_mod_cast this

/-- The channel `Math.round((component + m) * 255)` that `hsvToRgb` returns is the sample `n`
when the component and `m` approximate numbers that add up to `n / 255`. -/
theorem channel_round (comp Mm : JSNum) (p ρT ρt c m : ℚ) (n : Nat) (hcomp : comp.IsFin)
    (hMm : Mm.IsFin) (ha : |comp.toRat - c * p| ≤ 2206 / 2 ^ 43)
    (hp : |p - ρT| ≤ 14 / 2 ^ 43) (hl : |ρT - ρt| ≤ 2011 / 2 ^ 43) (hc0 : 0 ≤ c)
    (hc1 : c ≤ 1) (hm : |Mm.toRat - m| ≤ 1103 / 2 ^ 43) (hex : m + c * ρt = (n : ℚ) / 255)
    (hn : n ≤ 255) : Math.round ((comp + Mm) * 255) = JSNum.ofInt (n : Int) := by
  -- One component of the colour `hsvToRgb` forms, against the closed form at the exact hue:
  -- `a` approximates `c * p`, where `p` (`1`, the triangle wave or `0`) is near the closed form
  -- `ρT` at the computed hue, itself near the closed form `ρt` at the exact hue.
  have comp_bound : ∀ (a p ρT ρt c : ℚ) (ha : |a - c * p| ≤ 2206 / 2 ^ 43)
      (hp : |p - ρT| ≤ 14 / 2 ^ 43) (hl : |ρT - ρt| ≤ 2011 / 2 ^ 43) (hc0 : 0 ≤ c) (hc1 : c ≤ 1),
      |a - c * ρt| ≤ 4231 / 2 ^ 43 := by
    intro a p ρT ρt c ha hp hl hc0 hc1
    have abs_scale_le : ∀ (c y : ℚ) (hc0 : 0 ≤ c) (hc1 : c ≤ 1),
        |c * y| ≤ |y| := by
      intro c y hc0 hc1
      rw [abs_mul, abs_of_nonneg hc0]
      exact mul_le_of_le_one_left (abs_nonneg y) hc1
    have h1 := le_trans (abs_scale_le c (p - ρT) hc0 hc1) hp
    have h2 := le_trans (abs_scale_le c (ρT - ρt) hc0 hc1) hl
    have e : a - c * ρt = (a - c * p) + c * (p - ρT) + c * (ρT - ρt) := by ring
    rw [e]
    refine le_trans (abs_add _ _) ?_
    have h3 := abs_add (a - c * p) (c * (p - ρT))
    have e2 : (2206 : ℚ) / 2 ^ 43 + 14 / 2 ^ 43 + 2011 / 2 ^ 43 = 4231 / 2 ^ 43 := by norm_num
    linarith
  obtain ⟨hu0, hu1⟩ := ulp_small
  have hb := comp_bound _ p ρT ρt c ha hp hl hc0 hc1
  have hnq : (n : ℚ) ≤ 255 := by exact_mod_cast hn
  have hn0 : (0 : ℚ) ≤ (n : ℚ) := by positivity
  have hn1 : (n : ℚ) / 255 ≤ 1 := by
    rw [div_le_one (by norm_num)]
    exact hnq
  have hn2 : (0 : ℚ) ≤ (n : ℚ) / 255 := by positivity
  rw [abs_le] at hb hm
  have hsum : |comp.toRat + Mm.toRat - (n : ℚ) / 255| ≤ 5334 / 2 ^ 43 := by
    rw [abs_le, ← hex]
    constructor <;> linarith
  rw [abs_le] at hsum
  have hs := JSNum.add_rounded hcomp hMm (by
    rw [abs_le]
    constructor <;> linarith)
  have hes := hs.2.1
  rw [abs_le] at hes
  have hsf := hs.isFin
  generalize comp + Mm = S at hes hsf ⊢
  have hy := JSNum.mul_rounded hsf JSNum.literals.2.2.2.1.1 (by
    rw [JSNum.literals.2.2.2.1.2, abs_le]
    constructor <;> linarith)
  rw [JSNum.literals.2.2.2.1.2] at hy
  have hey := hy.2.1
  rw [abs_le] at hey
  have hyt := hy.1
  generalize S * 255 = y at hey hyt ⊢
  refine JSNum.round_of_near hyt n ?_
  have e : (n : ℚ) = (n : ℚ) / 255 * 255 := by ring
  rw [abs_lt]
  constructor <;> linarith

/-- The six cases `hsvToRgb` distinguishes, with the thresholds `k / 6` it computes replaced
by bounds on the hue fraction. -/
theorem sector_cases (hh : JSNum) (hf : hh.IsFin) (P : JSNum × JSNum × JSNum → Prop)
    (a0 a1 a2 a3 a4 a5 : JSNum × JSNum × JSNum)
    (H0 : hh.toRat ≤ 1 / 6 + 1 / 2 ^ 43 → P a0)
    (H1 : 1 / 6 - 1 / 2 ^ 43 ≤ hh.toRat → hh.toRat ≤ 2 / 6 + 1 / 2 ^ 43 → P a1)
    (H2 : 2 / 6 - 1 / 2 ^ 43 ≤ hh.toRat → hh.toRat ≤ 3 / 6 + 1 / 2 ^ 43 → P a2)
    (H3 : 3 / 6 - 1 / 2 ^ 43 ≤ hh.toRat → hh.toRat ≤ 4 / 6 + 1 / 2 ^ 43 → P a3)
    (H4 : 4 / 6 - 1 / 2 ^ 43 ≤ hh.toRat → hh.toRat ≤ 5 / 6 + 1 / 2 ^ 43 → P a4)
    (H5 : 5 / 6 - 1 / 2 ^ 43 ≤ hh.toRat → P a5) :
    P (if JSNum.lt hh (1 / 6) then a0
      else if JSNum.lt hh (2 / 6) then a1
      else if JSNum.lt hh (3 / 6) then a2
      else if JSNum.lt hh (4 / 6) then a3
      else if JSNum.lt hh (5 / 6) then a4
      else a5) := by
  have sixth : ∀ (k : Nat) (hk : k ≤ 5),
      ((OfNat.ofNat k : JSNum) / 6).IsFin
        ∧ |((OfNat.ofNat k : JSNum) / 6).toRat - (k : ℚ) / 6| ≤ 1 / 2 ^ 43 := by
    intro k hk
    have hkv := JSNum.natLit_rat k (lt_of_le_of_lt hk (by norm_num))
    have hkq : (k : ℚ) ≤ 5 := by exact_mod_cast hk
    have hk0 : (0 : ℚ) ≤ (k : ℚ) := by positivity
    have h := JSNum.div_rounded hkv.1 JSNum.literals.2.2.1.1
      (by rw [JSNum.literals.2.2.1.2]; norm_num) (by
      rw [hkv.2, JSNum.literals.2.2.1.2, abs_of_nonneg (by positivity), div_le_iff₀ (by norm_num)]
      linarith)
    rw [hkv.2, JSNum.literals.2.2.1.2] at h
    exact ⟨h.isFin, h.2.1⟩
  obtain ⟨f1, e1⟩ := sixth 1 (by norm_num)
  obtain ⟨f2, e2⟩ := sixth 2 (by norm_num)
  obtain ⟨f3, e3⟩ := sixth 3 (by norm_num)
  obtain ⟨f4, e4⟩ := sixth 4 (by norm_num)
  obtain ⟨f5, e5⟩ := sixth 5 (by norm_num)
  rw [abs_le] at e1 e2 e3 e4 e5
  push_cast at e1 e2 e3 e4 e5
  have key : ∀ θ : JSNum, θ.IsFin →
      (JSNum.lt hh θ = true → hh.toRat < θ.toRat)
        ∧ (¬ JSNum.lt hh θ = true → θ.toRat ≤ hh.toRat) := by
    intro θ hθ
    refine ⟨(JSNum.lt_toRat hf hθ).1.mp, fun h => ?_⟩
    exact (JSNum.lt_toRat hf hθ).2.mp (by simpa using h)
  by_cases c1 : JSNum.lt hh (1 / 6) = true
  · rw [if_pos c1]
    have := (key _ f1).1 c1
    exact H0 (by linarith)
  · rw [if_neg c1]
    have l1 := (key _ f1).2 c1
    by_cases c2 : JSNum.lt hh (2 / 6) = true
    · rw [if_pos c2]
      have := (key _ f2).1 c2
      exact H1 (by linarith) (by linarith)
    · rw [if_neg c2]
      have l2 := (key _ f2).2 c2
      by_cases c3 : JSNum.lt hh (3 / 6) = true
      · rw [if_pos c3]
        have := (key _ f3).1 c3
        exact H2 (by linarith) (by linarith)
      · rw [if_neg c3]
        have l3 := (key _ f3).2 c3
        by_cases c4 : JSNum.lt hh (4 / 6) = true
        · rw [if_pos c4]
          have := (key _ f4).1 c4
          exact H3 (by linarith) (by linarith)
        · rw [if_neg c4]
          have l4 := (key _ f4).2 c4
          by_cases c5 : JSNum.lt hh (5 / 6) = true
          · rw [if_pos c5]
            have := (key _ f5).1 c5
            exact H4 (by linarith) (by linarith)
          · rw [if_neg c5]
            have l5 := (key _ f5).2 c5
            exact H5 (by linarith)

/-- The hue fraction `h / (2 * Math.PI)` of `hsvToRgb` and its multiple `h * 6`. -/
theorem hue_fraction (h1 : JSNum) (t : ℚ) (hfin : h1.IsFin) (h0 : 0 ≤ h1.toRat)
    (hhue : |h1.toRat - t / 6 * 2 * piExact| ≤ 2002 / 2 ^ 43) (ht0 : 0 ≤ t)
    (ht6 : t ≤ 6 - 1 / 255) :
    (h1 / (2 * Math.PI)).IsFin ∧ 0 ≤ (h1 / (2 * Math.PI)).toRat
      ∧ (h1 / (2 * Math.PI) * 6).IsFin ∧ 0 ≤ (h1 / (2 * Math.PI) * 6).toRat
      ∧ |(h1 / (2 * Math.PI) * 6).toRat - 6 * (h1 / (2 * Math.PI)).toRat| ≤ 1 / 2 ^ 43
      ∧ |(h1 / (2 * Math.PI) * 6).toRat - t| ≤ 2011 / 2 ^ 43
      ∧ (h1 / (2 * Math.PI) * 6).toRat < 6 := by
  obtain ⟨hu0, hu1⟩ := ulp_small
  obtain ⟨hp3, hp4⟩ := piExact_bounds
  have hP := JSNum.mul_rounded JSNum.literals.2.1.1 JSNum.literals.2.2.2.2.1 (by
    rw [JSNum.literals.2.1.2, JSNum.literals.2.2.2.2.2, abs_of_pos (by linarith)]
    linarith)
  rw [JSNum.literals.2.1.2, JSNum.literals.2.2.2.2.2] at hP
  have heP := hP.2.1
  have hPf := hP.isFin
  generalize (2 : JSNum) * Math.PI = P2 at heP hPf ⊢
  have heP2 := heP
  rw [abs_le] at heP2
  have hx : |t / 6 * 2 * piExact| ≤ 1 * (2 * piExact) := by
    rw [abs_of_nonneg (by positivity)]
    nlinarith
  have hhb : |h1.toRat| ≤ 7 := by
    rw [abs_le] at hhue hx ⊢
    constructor <;> linarith
  have hq := JSNum.div_rounded hfin hPf (by linarith) (by
    rw [abs_div, abs_of_pos (by linarith : (0 : ℚ) < P2.toRat), div_le_iff₀ (by linarith)]
    linarith)
  have hd := div_err h1.toRat P2.toRat (t / 6 * 2 * piExact) (2 * piExact) _ _ 6 1 hhue heP
    (by norm_num) (by linarith) (by linarith) hx
  have hxy : t / 6 * 2 * piExact / (2 * piExact) = t / 6 := by
    field_simp
    ring
  rw [hxy] at hd
  have hq0 := hq.2.2.1 (div_nonneg h0 (by linarith))
  have heq := hq.2.1
  have hqf := hq.isFin
  generalize h1 / P2 = hh at hq0 heq hqf ⊢
  rw [abs_le] at heq hd
  norm_num at hd
  have hm := JSNum.mul_rounded hqf JSNum.literals.2.2.1.1 (by
    rw [JSNum.literals.2.2.1.2, abs_le]
    constructor <;> linarith)
  rw [JSNum.literals.2.2.1.2] at hm
  have hm0 := hm.2.2.1 (by linarith)
  have hem := hm.2.1
  have hmf := hm.isFin
  generalize hh * 6 = T at hm0 hem hmf ⊢
  have hem2 : |T.toRat - 6 * hh.toRat| ≤ 1 / 2 ^ 43 := by
    rw [mul_comm]
    exact hem
  rw [abs_le] at hem
  refine ⟨hqf, hq0, hmf, hm0, hem2, ?_, by linarith⟩
  rw [abs_le]
  constructor <;> linarith

/-- The factor `1 - Math.abs((h * 6) % 2 - 1)` of `hsvToRgb`: within `3 * 2 ^ (-43)` of the
triangle wave at `T = h * 6`, with `k = floor(T / 2)`. -/
theorem wave_near (T : JSNum) (hT : T.IsFin) (h0 : 0 ≤ T.toRat) :
    ∃ k : Int, 2 * (k : ℚ) ≤ T.toRat ∧ T.toRat < 2 * (k : ℚ) + 2
      ∧ (1 - Math.abs (JSNum.rem T 2 - 1)).IsFin
      ∧ |(1 - Math.abs (JSNum.rem T 2 - 1)).toRat - (1 - |T.toRat - 2 * (k : ℚ) - 1|)|
        ≤ 3 / 2 ^ 43 := by
  have abs_toRat : ∀ {a : JSNum} (ha : a.Tame),
      (Math.abs a).Tame ∧ (Math.abs a).toRat = |a.toRat| := by
    intro a ha
    obtain ⟨m, e, rfl, hform⟩ := ha
    have hpe : (0 : ℚ) < (2 : ℚ) ^ e := by positivity
    refine ⟨⟨_, e, rfl, ?_⟩, ?_⟩
    · rcases hform with ⟨h1, h2⟩ | h1
      · left
        subst h1
        exact ⟨rfl, h2⟩
      · exact Or.inr h1
    · show ((Int.ofNat m.natAbs : Int) : ℚ) * (2 : ℚ) ^ e = |(m : ℚ) * (2 : ℚ) ^ e|
      have h1 : ((Int.ofNat m.natAbs : Int) : ℚ) = |(m : ℚ)| := by
        have h2 : (Int.ofNat m.natAbs : Int) = |m| := Int.natCast_natAbs m
        rw [h2, Int.cast_abs]
      rw [abs_mul, abs_of_pos hpe, h1]
  obtain ⟨hu0, hu1⟩ := ulp_small
  have hk0 := Int.floor_le (T.toRat / 2)
  have hk1 := Int.lt_floor_add_one (T.toRat / 2)
  have hW := JSNum.rem_rounded hT JSNum.literals.2.1.1 h0 (by rw [JSNum.literals.2.1.2]; norm_num)
    (by rw [JSNum.literals.2.1.2]; norm_num)
  rw [JSNum.literals.2.1.2] at hW
  generalize (⌊T.toRat / 2⌋ : Int) = k at hk0 hk1 hW
  have hk0' : 2 * (k : ℚ) ≤ T.toRat := by linarith
  have hk1' : T.toRat < 2 * (k : ℚ) + 2 := by linarith
  refine ⟨k, hk0', hk1', ?_⟩
  have heW := hW.2.1
  have hWf := hW.isFin
  generalize JSNum.rem T 2 = W at heW hWf ⊢
  rw [abs_le] at heW
  have hW1 := JSNum.sub_rounded hWf JSNum.literals.1.1 (by
    rw [JSNum.literals.1.2, abs_le]
    constructor <;> linarith)
  rw [JSNum.literals.1.2] at hW1
  have heW1 := hW1.2.1
  have hA := abs_toRat hW1.1
  generalize W - 1 = W1 at heW1 hA ⊢
  obtain ⟨hAt, hAv⟩ := hA
  have hdiff : |W1.toRat - (T.toRat - 2 * (k : ℚ) - 1)| ≤ 2 / 2 ^ 43 := by
    rw [abs_le] at heW1 ⊢
    constructor <;> linarith
  have habs := abs_abs_sub_abs_le_abs_sub W1.toRat (T.toRat - 2 * (k : ℚ) - 1)
  have hAb : |W1.toRat| ≤ 2 := by
    have h3 : |T.toRat - 2 * (k : ℚ) - 1| ≤ 1 := by
      rw [abs_le]
      constructor <;> linarith
    have := abs_sub_abs_le_abs_sub W1.toRat (T.toRat - 2 * (k : ℚ) - 1)
    linarith
  have hZ := JSNum.sub_rounded JSNum.literals.1.1 hAt.tame_isFin (by
    rw [JSNum.literals.1.2, hAv, abs_le]
    have := abs_nonneg W1.toRat
    constructor <;> linarith)
  rw [JSNum.literals.1.2, hAv] at hZ
  refine ⟨hZ.isFin, ?_⟩
  have heZ := hZ.2.1
  generalize (1 - Math.abs W1) = Z at heZ ⊢
  have h4 := le_trans habs hdiff
  rw [abs_le] at heZ h4 ⊢
  constructor <;> linarith

/-- The chroma `c = v * s`, the component `x = c * (1 - ...)` and the offset `m = v - c` of
`hsvToRgb`. -/
theorem chroma_parts (s v Z : JSNum) (c m φ : ℚ) (hs : s.IsFin) (hv : v.IsFin) (hZ : Z.IsFin)
    (hsb : |s.toRat| ≤ 2) (hc : |v.toRat * s.toRat - c| ≤ 1100 / 2 ^ 43)
    (hval : |v.toRat - (m + c)| ≤ 1 / 2 ^ 43) (hZe : |Z.toRat - φ| ≤ 3 / 2 ^ 43)
    (hφ : |φ| ≤ 1) (hc0 : 0 ≤ c) (hm0 : 0 ≤ m) (hmc : m + c ≤ 1) :
    ((v * s).IsFin ∧ |(v * s).toRat - c * 1| ≤ 2206 / 2 ^ 43)
      ∧ ((v * s * Z).IsFin ∧ |(v * s * Z).toRat - c * φ| ≤ 2206 / 2 ^ 43)
      ∧ ((v - v * s).IsFin ∧ |(v - v * s).toRat - m| ≤ 1103 / 2 ^ 43) := by
  obtain ⟨hu0, hu1⟩ := ulp_small
  have hc' := hc
  rw [abs_le] at hc' hval hφ hsb
  have hC := JSNum.mul_rounded hv hs (by
    rw [abs_le]
    constructor <;> linarith)
  have heC := hC.2.1
  have hCf := hC.isFin
  generalize v * s = C at heC hCf ⊢
  have heC2 : |C.toRat - c| ≤ 1101 / 2 ^ 43 := by
    rw [abs_le] at heC ⊢
    constructor <;> linarith
  have hZb : |Z.toRat| ≤ 2 := by
    rw [abs_le] at hZe ⊢
    constructor <;> linarith
  have hCb : |C.toRat| ≤ 2 := by
    rw [abs_le] at heC2 ⊢
    constructor <;> linarith
  have hX := JSNum.mul_rounded hCf hZ (by
    rw [abs_mul]
    have := mul_le_mul hCb hZb (abs_nonneg _) (by norm_num : (0 : ℚ) ≤ 2)
    linarith)
  have hme := mul_err C.toRat Z.toRat c φ _ _ 1 2 heC2 hZe
    (by rw [abs_le]; constructor <;> linarith) hZb
  have hM := JSNum.sub_rounded hv hCf (by
    rw [abs_le] at heC2 ⊢
    constructor <;> linarith)
  refine ⟨⟨hCf, ?_⟩, ⟨hX.isFin, ?_⟩, ⟨hM.isFin, ?_⟩⟩
  · rw [mul_one]
    exact le_trans heC2 (by norm_num)
  · have h1 := hX.2.1
    generalize C * Z = X at h1 ⊢
    rw [abs_le] at h1 hme ⊢
    norm_num at hme
    constructor <;> linarith
  · have h1 := hM.2.1
    generalize v - C = Mm at h1 ⊢
    rw [abs_le] at h1 heC2 ⊢
    constructor <;> linarith

/-- The three channels `hsvToRgb` returns in one of its six cases. -/
theorem sector_finish (cR cG cB Mm : JSNum) (pR pG pB T t c m : ℚ) (r g b : Nat)
    (hR : cR.IsFin ∧ |cR.toRat - c * pR| ≤ 2206 / 2 ^ 43)
    (hG : cG.IsFin ∧ |cG.toRat - c * pG| ≤ 2206 / 2 ^ 43)
    (hB : cB.IsFin ∧ |cB.toRat - c * pB| ≤ 2206 / 2 ^ 43)
    (hsec : |pR - rhoR T| ≤ 2 * (7 / 2 ^ 43) ∧ |pG - rhoG T| ≤ 2 * (7 / 2 ^ 43)
      ∧ |pB - rhoB T| ≤ 2 * (7 / 2 ^ 43))
    (hT : |T - t| ≤ 2011 / 2 ^ 43)
    (hMm : Mm.IsFin ∧ |Mm.toRat - m| ≤ 1103 / 2 ^ 43)
    (hex : ExactChannels (r : ℚ) (g : ℚ) (b : ℚ) t c m)
    (hr : r ≤ 255) (hg : g ≤ 255) (hb : b ≤ 255) :
    (Math.round ((cR + Mm) * 255), Math.round ((cG + Mm) * 255), Math.round ((cB + Mm) * 255))
      = (JSNum.ofInt (r : Int), JSNum.ofInt (g : Int), JSNum.ofInt (b : Int)) := by
  obtain ⟨-, -, hc0, hm0, hmc, eR, eG, eB⟩ := hex
  have hc1 : c ≤ 1 := by linarith
  obtain ⟨sR, sG, sB⟩ := hsec
  have e14 : (2 : ℚ) * (7 / 2 ^ 43) = 14 / 2 ^ 43 := by norm_num
  rw [e14] at sR sG sB
  rw [channel_round cR Mm pR (rhoR T) (rhoR t) c m r hR.1 hMm.1 hR.2 sR
      (le_trans ((rho_lipschitz T t).1) hT) hc0 hc1 hMm.2 eR hr,
    channel_round cG Mm pG (rhoG T) (rhoG t) c m g hG.1 hMm.1 hG.2 sG
      (le_trans ((rho_lipschitz T t).2.1) hT) hc0 hc1 hMm.2 eG hg,
    channel_round cB Mm pB (rhoB T) (rhoB t) c m b hB.1 hMm.1 hB.2 sB
      (le_trans ((rho_lipschitz T t).2.2) hT) hc0 hc1 hMm.2 eB hb]

/-- The binary64 `hsvToRgb` gives back the three samples when its argument is near the exact
hue, chroma and offset of the colour. -/
theorem hsvToRgb_of_near (h1 s v : JSNum) (r g b : Nat) (t c m : ℚ)
    (hr : r ≤ 255) (hg : g ≤ 255) (hb : b ≤ 255)
    (hfin : h1.IsFin) (h0 : 0 ≤ h1.toRat)
    (hhue : |h1.toRat - t / 6 * 2 * piExact| ≤ 2002 / 2 ^ 43)
    (hs : s.IsFin) (hsb : |s.toRat| ≤ 2) (hv : v.IsFin)
    (hc : |v.toRat * s.toRat - c| ≤ 1100 / 2 ^ 43)
    (hval : |v.toRat - (m + c)| ≤ 1 / 2 ^ 43)
    (hex : ExactChannels (r : ℚ) (g : ℚ) (b : ℚ) t c m) :
    hsvToRgb (h1, s, v)
      = (JSNum.ofInt (r : Int), JSNum.ofInt (g : Int), JSNum.ofInt (b : Int)) := by
  obtain ⟨hu0, hu1⟩ := ulp_small
  have hex' := hex
  obtain ⟨ht0, ht6, hc0, hm0, hmc, -, -, -⟩ := hex'
  obtain ⟨hhf, hh0, hTf, hT0, hT6h, hTt, hT6⟩ := hue_fraction h1 t hfin h0 hhue ht0 ht6
  obtain ⟨k, hk0, hk1, hZf, hZe⟩ := wave_near _ hTf hT0
  have hφ : |(1 - |(h1 / (2 * Math.PI) * 6).toRat - 2 * (k : ℚ) - 1|)| ≤ 1 := by
    have h3 : |(h1 / (2 * Math.PI) * 6).toRat - 2 * (k : ℚ) - 1| ≤ 1 := by
      rw [abs_le]
      constructor <;> linarith
    have h4 := abs_nonneg ((h1 / (2 * Math.PI) * 6).toRat - 2 * (k : ℚ) - 1)
    rw [abs_le]
    constructor <;> linarith
  obtain ⟨hC, hX, hMm⟩ := chroma_parts s v _ c m _ hs hv hZf hsb hc hval hZe hφ hc0 hm0 hmc
  have hzero : (0 : JSNum).IsFin ∧ |(0 : JSNum).toRat - c * 0| ≤ 2206 / 2 ^ 43 := by
    refine ⟨⟨0, 0, rfl⟩, ?_⟩
    have : (0 : JSNum).toRat = 0 := by
      rw [JSNum.zero_lit]
      simp [JSNum.toRat]
    rw [this]
    norm_num
  unfold hsvToRgb
  dsimp only
  generalize (1 - Math.abs (JSNum.rem (h1 / (2 * Math.PI) * 6) 2 - 1)) = Z at hZf hZe hC hX ⊢
  generalize (h1 / (2 * Math.PI) * 6) = T at hTf hT0 hT6h hTt hT6 hk0 hk1 hZe hφ hX
  generalize (h1 / (2 * Math.PI)) = hh at hhf hh0 hT6h ⊢
  generalize v * s * Z = X at hX ⊢
  generalize v - v * s = Mm at hMm ⊢
  generalize v * s = C at hC ⊢
  rw [abs_le] at hT6h
  have hη : (7 : ℚ) / 2 ^ 43 ≤ 1 / 4 := by norm_num
  have hη0 : (0 : ℚ) ≤ 7 / 2 ^ 43 := by norm_num
  refine sector_cases hh hhf
    (fun rgb => (Math.round ((rgb.1 + Mm) * 255), Math.round ((rgb.2.1 + Mm) * 255),
        Math.round ((rgb.2.2 + Mm) * 255))
      = (JSNum.ofInt (r : Int), JSNum.ofInt (g : Int), JSNum.ofInt (b : Int)))
    (C, X, 0) (X, C, 0) (0, C, X) (0, X, C) (X, 0, C) (C, 0, X) ?_ ?_ ?_ ?_ ?_ ?_
  · intro hhi
    exact sector_finish C X 0 Mm _ _ _ T.toRat t c m r g b hC hX hzero
      ((sector_bounds T.toRat (7 / 2 ^ 43) k hT0 hT6 hη0 hη hk0 hk1).1 (by linarith)
        (by linarith))
      hTt hMm hex hr hg hb
  · intro hlo hhi
    exact sector_finish X C 0 Mm _ _ _ T.toRat t c m r g b hX hC hzero
      ((sector_bounds T.toRat (7 / 2 ^ 43) k hT0 hT6 hη0 hη hk0 hk1).2.1 (by linarith)
        (by linarith))
      hTt hMm hex hr hg hb
  · intro hlo hhi
    exact sector_finish 0 C X Mm _ _ _ T.toRat t c m r g b hzero hC hX
      ((sector_bounds T.toRat (7 / 2 ^ 43) k hT0 hT6 hη0 hη hk0 hk1).2.2.1 (by linarith)
        (by linarith))
      hTt hMm hex hr hg hb
  · intro hlo hhi
    exact sector_finish 0 X C Mm _ _ _ T.toRat t c m r g b hzero hX hC
      ((sector_bounds T.toRat (7 / 2 ^ 43) k hT0 hT6 hη0 hη hk0 hk1).2.2.2.1 (by linarith)
        (by linarith))
      hTt hMm hex hr hg hb
  · intro hlo hhi
    exact sector_finish X 0 C Mm _ _ _ T.toRat t c m r g b hX hzero hC
      ((sector_bounds T.toRat (7 / 2 ^ 43) k hT0 hT6 hη0 hη hk0 hk1).2.2.2.2.1 (by linarith)
        (by linarith))
      hTt hMm hex hr hg hb
  · intro hlo
    exact sector_finish C 0 X Mm _ _ _ T.toRat t c m r g b hC hzero hX
      ((sector_bounds T.toRat (7 / 2 ^ 43) k hT0 hT6 hη0 hη hk0 hk1).2.2.2.2.2 (by linarith)
        (by linarith))
      hTt hMm hex hr hg hb

theorem hue_shift_zero : (0 : JSNum) * Math.PI / 180 = JSNum.fin 0 0 := by decide!

theorem load_of_getElem? (d : List Nat) (i c : Nat) (h : d[i]? = some c) :
    load d i = JSNum.ofInt (c : Int) := by
  unfold load
  rw [h]

/-- The hue of `adjustHue` after the shift by `0` and the reduction modulo `2 * Math.PI`: the
reduction and the test for a negative remainder leave a number as near the exact hue. -/
theorem hue_unshifted (H : JSNum) (t : ℚ) (hfin : H.IsFin) (h0 : 0 ≤ H.toRat)
    (hhue : |H.toRat - t / 6 * 2 * piExact| ≤ 2000 / 2 ^ 43) (ht0 : 0 ≤ t)
    (ht6 : t ≤ 6 - 1 / 255) :
    (JSNum.rem (H + JSNum.fin 0 0) (2 * Math.PI)).IsFin
      ∧ 0 ≤ (JSNum.rem (H + JSNum.fin 0 0) (2 * Math.PI)).toRat
      ∧ |(JSNum.rem (H + JSNum.fin 0 0) (2 * Math.PI)).toRat - t / 6 * 2 * piExact|
        ≤ 2002 / 2 ^ 43
      ∧ JSNum.lt (JSNum.rem (H + JSNum.fin 0 0) (2 * Math.PI)) 0 = false := by
  obtain ⟨hu0, hu1⟩ := ulp_small
  obtain ⟨hp3, hp4⟩ := piExact_bounds
  have hz : (JSNum.fin 0 0).toRat = 0 := by simp [JSNum.toRat]
  have hP := JSNum.mul_rounded JSNum.literals.2.1.1 JSNum.literals.2.2.2.2.1 (by
    rw [JSNum.literals.2.1.2, JSNum.literals.2.2.2.2.2, abs_of_pos (by linarith)]
    linarith)
  rw [JSNum.literals.2.1.2, JSNum.literals.2.2.2.2.2] at hP
  have heP := hP.2.1
  have hPf := hP.isFin
  generalize (2 : JSNum) * Math.PI = P2 at heP hPf ⊢
  rw [abs_le] at heP hhue
  have htp : t / 6 * 2 * piExact ≤ 2 * piExact - 1 / 1000 := by
    nlinarith
  have hA := JSNum.add_rounded hfin ⟨0, 0, rfl⟩ (by
    rw [hz, add_zero, abs_le]
    constructor <;> linarith)
  rw [hz, add_zero] at hA
  have hA0 := hA.2.2.1 h0
  have heA := hA.2.1
  have hAf := hA.isFin
  generalize H + JSNum.fin 0 0 = A at hA0 heA hAf ⊢
  rw [abs_le] at heA
  have hR := JSNum.rem_rounded hAf hPf hA0 (by linarith) (by linarith)
  have hfl : (⌊A.toRat / P2.toRat⌋ : Int) = 0 := by
    rw [Int.floor_eq_iff]
    have hPpos : (0 : ℚ) < P2.toRat := by linarith
    constructor
    · simp only [Int.cast_zero]
      exact div_nonneg hA0 hPpos.le
    · simp only [Int.cast_zero, zero_add]
      rw [div_lt_one hPpos]
      linarith
  rw [hfl] at hR
  simp only [Int.cast_zero, mul_zero, sub_zero] at hR
  have hR0 := hR.2.2.1 hA0
  have heR := hR.2.1
  have hRf := hR.isFin
  generalize JSNum.rem A P2 = R at hR0 heR hRf ⊢
  rw [abs_le] at heR
  refine ⟨hRf, hR0, ?_, ?_⟩
  · rw [abs_le]
    constructor <;> linarith
  · refine (JSNum.lt_toRat hRf ⟨0, 0, rfl⟩).2.mpr ?_
    rw [hz]
    exact hR0

/-- In binary64 `hsvToRgb(rgbToHsv([r, g, b]))` is `[r, g, b]` for 8-bit samples. -/
theorem hsv_round_trip_binary64 (r g b : Nat) (hr : r ≤ 255) (hg : g ≤ 255) (hb : b ≤ 255) :
    hsvToRgb (rgbToHsv (JSNum.ofInt (r : Int), JSNum.ofInt (g : Int), JSNum.ofInt (b : Int)))
      = (JSNum.ofInt (r : Int), JSNum.ofInt (g : Int), JSNum.ofInt (b : Int)) := by
  obtain ⟨t, c, m, hnear, hex⟩ := rgbToHsv_near r g b hr hg hb
  generalize rgbToHsv (JSNum.ofInt (r : Int), JSNum.ofInt (g : Int), JSNum.ofInt (b : Int))
    = hsv at hnear
  obtain ⟨h, s, v⟩ := hsv
  exact hsvToRgb_of_near h s v r g b t c m hr hg hb hnear.hueFin hnear.hueNonneg
    (le_trans hnear.hueNear (by norm_num)) hnear.satFin hnear.satBound hnear.valFin
    hnear.chromaNear hnear.valNear hex

/-- In binary64 `adjustHue(buffer, 0)` returns a buffer of complete pixels with 8-bit samples
unchanged. -/
theorem adjustHue_zero (img : ImageData) (hwf : img.WellFormed) : adjustHue img 0 = img := by
  have store_same : ∀ (d : List Nat) (i c : Nat) (h : d[i]? = some c) (hc : c ≤ 255),
      store d i (JSNum.ofInt (c : Int)) = d := by
    intro d i c h hc
    unfold store
    have hv := JSNum.ofInt_natCast c (lt_of_le_of_lt hc (by norm_num))
    rw [JSNum.toUint8Clamp_of_toRat hv.1 c hc hv.2]
    apply List.ext_getElem?
    intro j
    rw [List.getElem?_set']
    by_cases hij : i = j
    · subst hij
      rw [if_pos rfl, h]
      rfl
    · rw [if_neg hij]
  obtain ⟨hlen, hsamples⟩ := hwf
  have hdata : (adjustHue img 0).data = img.data := by
    unfold adjustHue
    dsimp only
    refine forLoop_induction_idx (fun s => s = img.data) 0 img.data.length 4 _ ?_ _ rfl
    intro k hk s hs
    subst hs
    have hk4 : 0 + 4 * k + 3 < img.data.length := by omega
    have hget : ∀ j, j < img.data.length → ∃ c, img.data[j]? = some c ∧ c ≤ 255 := by
      intro j hj
      exact ⟨img.data[j], List.getElem?_eq_getElem hj, hsamples _ (List.getElem_mem hj)⟩
    obtain ⟨r, hr, hr255⟩ := hget (0 + 4 * k) (by omega)
    obtain ⟨g, hg, hg255⟩ := hget (0 + 4 * k + 1) (by omega)
    obtain ⟨b, hb, hb255⟩ := hget (0 + 4 * k + 2) (by omega)
    rw [load_of_getElem? _ _ r hr, load_of_getElem? _ _ g hg, load_of_getElem? _ _ b hb,
      hue_shift_zero]
    obtain ⟨t, c, m, hnear, hex⟩ := rgbToHsv_near r g b hr255 hg255 hb255
    generalize rgbToHsv (JSNum.ofInt (r : Int), JSNum.ofInt (g : Int), JSNum.ofInt (b : Int))
      = hsv at hnear ⊢
    obtain ⟨h, s, v⟩ := hsv
    obtain ⟨hRf, hR0, hRe, hRlt⟩ := hue_unshifted h t hnear.hueFin hnear.hueNonneg
      hnear.hueNear hex.1 hex.2.1
    dsimp only
    rw [hRlt]
    simp only [Bool.false_eq_true, if_false]
    rw [hsvToRgb_of_near _ s v r g b t c m hr255 hg255 hb255 hRf hR0 hRe hnear.satFin
      hnear.satBound hnear.valFin hnear.chromaNear hnear.valNear hex]
    dsimp only
    rw [store_same _ _ r hr hr255, store_same _ _ g hg hg255, store_same _ _ b hb hb255]
  obtain ⟨w, h, d⟩ := img
  have h1 : (adjustHue ⟨w, h, d⟩ 0).width = w := rfl
  have h2 : (adjustHue ⟨w, h, d⟩ 0).height = h := rfl
  cases hres : adjustHue ⟨w, h, d⟩ 0 with
  | mk w' h' d' =>
    rw [hres] at h1 h2 hdata
    simp only at h1 h2 hdata
    rw [h1, h2, hdata]

/-- C29: for every triple of 8-bit samples `hsvToRgb(rgbToHsv([r, g, b]))` is `[r, g, b]`, in
exact arithmetic (the two functions with every operation taken over the rationals) and also as
the code computes it in binary64; and `adjustHue(buffer, 0)`, as the code computes it in
binary64, returns every buffer of complete pixels with 8-bit samples unchanged. -/
theorem hsv_round_trip_and_hue_zero (r g b : Nat) (img : ImageData) (hr : r ≤ 255)
    (hg : g ≤ 255) (hb : b ≤ 255) (hwf : img.WellFormed) :
    hsvToRgbExact (rgbToHsvExact ((r : ℚ), (g : ℚ), (b : ℚ))) = ((r : ℚ), (g : ℚ), (b : ℚ))
      ∧ hsvToRgb (rgbToHsv (JSNum.ofInt (r : Int), JSNum.ofInt (g : Int), JSNum.ofInt (b : Int)))
          = (JSNum.ofInt (r : Int), JSNum.ofInt (g : Int), JSNum.ofInt (b : Int))
      ∧ adjustHue img 0 = img :=
  ⟨hsv_round_trip r g b, hsv_round_trip_binary64 r g b hr hg hb, adjustHue_zero img hwf⟩

theorem hsv_round_trip_and_hue_zero_witness :
    200 ≤ 255 ∧ 30 ≤ 255 ∧ 120 ≤ 255 ∧ twoDots.WellFormed
      ∧ hsvToRgbExact (rgbToHsvExact (((200 : Nat) : ℚ), ((30 : Nat) : ℚ), ((120 : Nat) : ℚ)))
          = (((200 : Nat) : ℚ), ((30 : Nat) : ℚ), ((120 : Nat) : ℚ))
      ∧ hsvToRgb (rgbToHsv (JSNum.ofInt ((200 : Nat) : Int), JSNum.ofInt ((30 : Nat) : Int),
            JSNum.ofInt ((120 : Nat) : Int)))
          = (JSNum.ofInt ((200 : Nat) : Int), JSNum.ofInt ((30 : Nat) : Int),
            JSNum.ofInt ((120 : Nat) : Int))
      ∧ adjustHue twoDots 0 = twoDots :=
  ⟨by decide, by decide, by decide, ⟨by decide, by decide⟩,
    hsv_round_trip_and_hue_zero 200 30 120 twoDots (by decide) (by decide) (by decide)
      ⟨by decide, by decide⟩⟩

/-! ## Brightness and contrast at zero -/

/-- The conversion `ToUint8Clamp` of a finite number within a half of the 8-bit value `n` is
`n`. -/
theorem JSNum.toUint8Clamp_of_near {w : JSNum} (hw : w.IsFin) (n : Nat) (hn : n ≤ 255)
    (h : |w.toRat - (n : ℚ)| < 1 / 2) : JSNum.toUint8Clamp w = n := by
  obtain ⟨m, e, rfl⟩ := hw
  have hv : (JSNum.fin m e).toRat = (m : ℚ) * (2 : ℚ) ^ e := rfl
  rw [hv, abs_lt] at h
  by_cases hm : 0 ≤ m
  · have h1 := JSNum.toUint8Clamp_eq_rne m e hm
    have h2 := rne_abs ((m : ℚ) * (2 : ℚ) ^ e)
    rw [abs_le] at h2
    generalize rne ((m : ℚ) * (2 : ℚ) ^ e) = k at h1 h2
    have ha : (k : ℚ) < ((n : Int) : ℚ) + 1 := by
      push_cast
      linarith
    have hb : ((n : Int) : ℚ) - 1 < (k : ℚ) := by
      push_cast
      linarith
    have ha2 : k < (n : Int) + 1 := by exact_mod_cast ha
    have hb2 : (n : Int) - 1 < k := by exact_mod_cast hb
    omega
  · have hneg : (m : ℚ) * (2 : ℚ) ^ e < 0 :=
      mul_neg_of_neg_of_pos (by exact_mod_cast (not_le.mp hm)) (by positivity)
    have hn0 : n = 0 := by
      have : (n : ℚ) < 1 := by linarith
      have : n < 1 := by exact_mod_cast this
      omega
    subst hn0
    show (if m ≤ 0 then 0 else _) = 0
    rw [if_pos (by omega)]

/-- The stored sample `Math.max(0, Math.min(255, y))` of a finite number `y` within a half of
the 8-bit value `n` is `n`. -/
theorem store_clamped_near (y : JSNum) (hy : y.IsFin) (n : Nat) (hn : n ≤ 255)
    (h : |y.toRat - (n : ℚ)| < 1 / 2) :
    JSNum.toUint8Clamp (Math.max 0 (Math.min 255 y)) = n := by
  have h255 := JSNum.natLit_rat 255 (by norm_num)
  have h0 := JSNum.natLit_rat 0 (by norm_num)
  have hq : (n : ℚ) ≤ 255 := by exact_mod_cast hn
  have hq0 : (0 : ℚ) ≤ (n : ℚ) := by positivity
  show JSNum.toUint8Clamp (JSNum.max 0 (JSNum.min 255 y)) = n
  rw [JSNum.min_fin _ _ h255.1 hy]
  rw [abs_lt] at h
  by_cases hl : JSNum.lt y 255 = true
  · rw [if_pos hl, JSNum.max_fin _ _ h0.1 hy]
    by_cases hl0 : JSNum.lt 0 y = true
    · rw [if_pos hl0]
      exact JSNum.toUint8Clamp_of_near hy n hn (abs_lt.mpr h)
    · rw [if_neg hl0]
      have hle := (JSNum.lt_toRat h0.1 hy).2.mp (by simpa using hl0)
      rw [h0.2] at hle
      have hn0 : n = 0 := by
        have : (n : ℚ) < 1 := by push_cast at hle; linarith
        have : n < 1 := by exact_mod_cast this
        omega
      subst hn0
      rfl
  · rw [if_neg hl]
    have hle := (JSNum.lt_toRat hy h255.1).2.mp (by simpa using hl)
    rw [h255.2] at hle
    have hn255 : n = 255 := by
      have : (254 : ℚ) < (n : ℚ) := by push_cast at hle; linarith
      have : 254 < n := by exact_mod_cast this
      omega
    subst hn255
    decide

/-- C8: on a buffer of 8-bit samples `adjustBrightness(buffer, 0)` and
`adjustContrast(buffer, 0)` return the buffer with every sample unchanged, and the contrast
factor `259 * (0 + 255) / (255 * (259 - 0))` is exactly `1`. -/
theorem brightness_contrast_identity_at_zero (img : ImageData)
    (h8 : ∀ c ∈ img.data, c ≤ 255) :
    adjustBrightness img 0 = img ∧ adjustContrast img 0 = img
      ∧ (259 * ((0 : JSNum) + 255)) / (255 * (259 - 0)) = 1 := by
  have hfactor : (259 * ((0 : JSNum) + 255)) / (255 * (259 - 0)) = 1 := by decide!
  have hshift : (0 : JSNum) * 2.55 = JSNum.fin 0 0 := by decide!
  have hu : (1 : ℚ) / 2 ^ 43 ≤ 1 / 8 := by norm_num
  have hsample : ∀ c : Nat, c ≤ 255 → (JSNum.ofInt (c : Int)).IsFin
      ∧ (JSNum.ofInt (c : Int)).toRat = (c : ℚ) ∧ (0 : ℚ) ≤ (c : ℚ) ∧ (c : ℚ) ≤ 255 := by
    intro c hc
    have h := JSNum.ofInt_natCast c (lt_of_le_of_lt hc (by norm_num))
    exact ⟨h.1.finNonneg_isFin, h.2, by positivity, by exact_mod_cast hc⟩
  refine ⟨?_, ?_, hfactor⟩
  · rw [adjustBrightness_eq_rgbBody, forLoop_rgbBody_id _ img.data h8]
    intro c hc
    obtain ⟨hf, hv, hc0, hc255⟩ := hsample c hc
    rw [hshift]
    have hz : (JSNum.fin 0 0).toRat = 0 := by simp [JSNum.toRat]
    have hA := JSNum.add_rounded hf ⟨0, 0, rfl⟩ (by
      rw [hv, hz, add_zero, abs_of_nonneg hc0]
      linarith)
    rw [hv, hz, add_zero] at hA
    have he := hA.2.1
    have hAf := hA.isFin
    generalize JSNum.ofInt (c : Int) + JSNum.fin 0 0 = a at he hAf ⊢
    exact store_clamped_near a hAf c hc (lt_of_le_of_lt he (by norm_num))
  · rw [adjustContrast_eq_rgbBody, forLoop_rgbBody_id _ img.data h8]
    intro c hc
    obtain ⟨hf, hv, hc0, hc255⟩ := hsample c hc
    rw [hfactor]
    have h128 := JSNum.natLit_rat 128 (by norm_num)
    have h1 := JSNum.natLit_rat 1 (by norm_num)
    have hD := JSNum.sub_rounded hf h128.1 (by
      rw [hv, h128.2, abs_le]
      push_cast
      constructor <;> linarith)
    rw [hv, h128.2] at hD
    have heD := hD.2.1
    have hDf := hD.isFin
    generalize JSNum.ofInt (c : Int) - 128 = d at heD hDf ⊢
    rw [abs_le] at heD
    push_cast at heD
    have hP := JSNum.mul_rounded h1.1 hDf (by
      rw [h1.2, abs_le]
      push_cast
      constructor <;> linarith)
    rw [h1.2] at hP
    have heP := hP.2.1
    have hPf := hP.isFin
    generalize (1 : JSNum) * d = p at heP hPf ⊢
    rw [abs_le] at heP
    push_cast at heP
    have hS := JSNum.add_rounded hPf h128.1 (by
      rw [h128.2, abs_le]
      push_cast
      constructor <;> linarith)
    rw [h128.2] at hS
    have heS := hS.2.1
    have hSf := hS.isFin
    generalize p + 128 = s at heS hSf ⊢
    rw [abs_le] at heS
    push_cast at heS
    refine store_clamped_near s hSf c hc ?_
    rw [abs_lt]
    constructor <;> linarith

theorem brightness_contrast_identity_at_zero_witness :
    (∀ c ∈ grayPixel.data, c ≤ 255)
      ∧ adjustBrightness grayPixel 0 = grayPixel ∧ adjustContrast grayPixel 0 = grayPixel
      ∧ (259 * ((0 : JSNum) + 255)) / (255 * (259 - 0)) = 1 :=
  ⟨by decide, brightness_contrast_identity_at_zero grayPixel (by decide)⟩

end ImageEffects
